import Mathlib

/-!
# FNode: graph store, link validation and value propagation

A shallow embedding of `src/fnode.c`.

Modelling conventions.

* `float` values are exact rationals (`ℚ`); the `libm` functions the program calls
  (`cos`, `sin`, `tan`, `sqrt`, `pow`) and raylib's `PI` are the fields of `Libm`,
  passed as a parameter.
* The global pools `nodes[0..nodesCount)` and `lines[0..linesCount)` are lists of
  records; the pointer indirection is dropped.  Layout, text and drawing fields of
  a node are not part of the embedding.
* A computation returns `none` where the C program leaves defined behaviour or
  exits: an array access out of bounds (`nodes[-1]`, `inputs[4]`, `data[16]`) and
  `TraceLogFNode(true, ...)`, which calls `exit(1)`.
* Node and line ids are natural numbers.  The `int inputs[]` slots keep `-1` for
  "no input" and are integers; an unattached line end (`to = -1` stored in an
  `unsigned int`) is `UNATTACHED`.
-/

namespace FNode

/-! ## Constants and records -/

def MAX_INPUTS : Nat := 4
def MAX_VALUES : Nat := 16
def MAX_NODES : Nat := 128
def MAX_LINES : Nat := 512

/-- The value `-1` stored in an `unsigned int` line end. -/
def UNATTACHED : Nat := 4294967295

/-- The enumeration `FNodeType`, in declaration order. -/
inductive FNodeType
  | FNODE_PI | FNODE_E
  | FNODE_VERTEXPOSITION | FNODE_VERTEXNORMAL | FNODE_FRESNEL | FNODE_VIEWDIRECTION | FNODE_MVP
  | FNODE_MATRIX | FNODE_VALUE | FNODE_VECTOR2 | FNODE_VECTOR3 | FNODE_VECTOR4
  | FNODE_ADD | FNODE_SUBTRACT | FNODE_MULTIPLY | FNODE_DIVIDE
  | FNODE_APPEND
  | FNODE_ONEMINUS | FNODE_ABS | FNODE_COS | FNODE_SIN | FNODE_TAN | FNODE_DEG2RAD | FNODE_RAD2DEG
  | FNODE_NORMALIZE | FNODE_NEGATE | FNODE_RECIPROCAL | FNODE_SQRT | FNODE_TRUNC | FNODE_ROUND
  | FNODE_CEIL | FNODE_CLAMP01 | FNODE_EXP2 | FNODE_POWER | FNODE_STEP | FNODE_POSTERIZE
  | FNODE_MAX | FNODE_MIN | FNODE_LERP | FNODE_SMOOTHSTEP | FNODE_CROSSPRODUCT | FNODE_DESATURATE
  | FNODE_DISTANCE | FNODE_DOTPRODUCT | FNODE_LENGTH | FNODE_MULTIPLYMATRIX | FNODE_TRANSPOSE
  | FNODE_PROJECTION | FNODE_REJECTION | FNODE_HALFDIRECTION
  | FNODE_VERTEX | FNODE_FRAGMENT
  deriving DecidableEq, Repr

open FNodeType

/-- The integer value of an enumerator (`FNODE_PI = -2`, then counting up). -/
def FNodeType.toInt : FNodeType → Int
  | FNODE_PI => -2 | FNODE_E => -1
  | FNODE_VERTEXPOSITION => 0 | FNODE_VERTEXNORMAL => 1 | FNODE_FRESNEL => 2
  | FNODE_VIEWDIRECTION => 3 | FNODE_MVP => 4
  | FNODE_MATRIX => 5 | FNODE_VALUE => 6 | FNODE_VECTOR2 => 7 | FNODE_VECTOR3 => 8
  | FNODE_VECTOR4 => 9
  | FNODE_ADD => 10 | FNODE_SUBTRACT => 11 | FNODE_MULTIPLY => 12 | FNODE_DIVIDE => 13
  | FNODE_APPEND => 14
  | FNODE_ONEMINUS => 15 | FNODE_ABS => 16 | FNODE_COS => 17 | FNODE_SIN => 18 | FNODE_TAN => 19
  | FNODE_DEG2RAD => 20 | FNODE_RAD2DEG => 21 | FNODE_NORMALIZE => 22 | FNODE_NEGATE => 23
  | FNODE_RECIPROCAL => 24 | FNODE_SQRT => 25 | FNODE_TRUNC => 26 | FNODE_ROUND => 27
  | FNODE_CEIL => 28 | FNODE_CLAMP01 => 29 | FNODE_EXP2 => 30 | FNODE_POWER => 31
  | FNODE_STEP => 32 | FNODE_POSTERIZE => 33 | FNODE_MAX => 34 | FNODE_MIN => 35
  | FNODE_LERP => 36 | FNODE_SMOOTHSTEP => 37 | FNODE_CROSSPRODUCT => 38
  | FNODE_DESATURATE => 39 | FNODE_DISTANCE => 40 | FNODE_DOTPRODUCT => 41 | FNODE_LENGTH => 42
  | FNODE_MULTIPLYMATRIX => 43 | FNODE_TRANSPOSE => 44 | FNODE_PROJECTION => 45
  | FNODE_REJECTION => 46 | FNODE_HALFDIRECTION => 47
  | FNODE_VERTEX => 48 | FNODE_FRAGMENT => 49

/-- The record `FNodeOutput`: the `value` fields of `data[MAX_VALUES]` and `dataCount`. -/
structure FNodeOutput where
  data : List ℚ
  dataCount : Nat
  deriving DecidableEq, Repr

/-- The record `FNodeData` without its name and rectangles. -/
structure FNodeData where
  id : Nat
  type : FNodeType
  inputs : List Int
  inputsCount : Nat
  inputsLimit : Nat
  output : FNodeOutput
  deriving DecidableEq, Repr

/-- The record `FLineData`. -/
structure FLineData where
  id : Nat
  from_ : Nat
  to_ : Nat
  deriving DecidableEq, Repr

/-- The graph store: the live prefixes of the `nodes` and `lines` pools. -/
structure Graph where
  nodes : List FNodeData
  lines : List FLineData
  deriving DecidableEq, Repr

/-- The functions of `math.h` and the constant `PI` used by the program, and the four
operations `+`, `-`, `*` and `/` of the type `float` as the compound assignments `+=`,
`-=`, `*=` and `/=` of the arithmetic nodes apply them.  A rational stands for the value
that a `float` holds.  Nothing is assumed of the four operations: they may round, and a
result that is no finite number can be given a rational of its own outside the range of
the type, as `floatLibm` does. -/
structure Libm where
  cos : ℚ → ℚ
  sin : ℚ → ℚ
  tan : ℚ → ℚ
  sqrt : ℚ → ℚ
  pow : ℚ → ℚ → ℚ
  pi : ℚ
  add : ℚ → ℚ → ℚ
  sub : ℚ → ℚ → ℚ
  mul : ℚ → ℚ → ℚ
  div : ℚ → ℚ → ℚ

/-! ## Vector and matrix helpers -/

structure Vector2 where
  x : ℚ
  y : ℚ
  deriving DecidableEq, Repr

structure Vector3 where
  x : ℚ
  y : ℚ
  z : ℚ
  deriving DecidableEq, Repr

structure Vector4 where
  x : ℚ
  y : ℚ
  z : ℚ
  w : ℚ
  deriving DecidableEq, Repr

/-- The raylib record `Matrix`.  Its fields are declared in the order
`m0, m4, m8, m12, m1, m5, m9, m13, m2, m6, m10, m14, m3, m7, m11, m15`, so the
anonymous constructor is the positional initialiser `(Matrix){ a, b, c, ... }` of C. -/
structure Matrix where
  m0 : ℚ
  m4 : ℚ
  m8 : ℚ
  m12 : ℚ
  m1 : ℚ
  m5 : ℚ
  m9 : ℚ
  m13 : ℚ
  m2 : ℚ
  m6 : ℚ
  m10 : ℚ
  m14 : ℚ
  m3 : ℚ
  m7 : ℚ
  m11 : ℚ
  m15 : ℚ
  deriving DecidableEq, Repr

def FVector2Length (M : Libm) (v : Vector2) : ℚ := M.sqrt (v.x*v.x + v.y*v.y)
def FVector3Length (M : Libm) (v : Vector3) : ℚ := M.sqrt (v.x*v.x + v.y*v.y + v.z*v.z)
def FVector4Length (M : Libm) (v : Vector4) : ℚ :=
  M.sqrt (v.x*v.x + v.y*v.y + v.z*v.z + v.w*v.w)

def FVector2Normalize (M : Libm) (v : Vector2) : Vector2 :=
  let length := FVector2Length M v
  ⟨v.x/length, v.y/length⟩

def FVector3Normalize (M : Libm) (v : Vector3) : Vector3 :=
  let length := FVector3Length M v
  ⟨v.x/length, v.y/length, v.z/length⟩

def FVector4Normalize (M : Libm) (v : Vector4) : Vector4 :=
  let length := FVector4Length M v
  ⟨v.x/length, v.y/length, v.z/length, v.w/length⟩

def FVector2Dot (a b : Vector2) : ℚ := (a.x*b.x) + (a.y*b.y)
def FVector3Dot (a b : Vector3) : ℚ := (a.x*b.x) + (a.y*b.y) + (a.z*b.z)
def FVector4Dot (a b : Vector4) : ℚ := (a.x*b.x) + (a.y*b.y) + (a.z*b.z) + (a.w*b.w)

def FCrossProduct (a b : Vector3) : Vector3 :=
  ⟨a.y*b.z - a.z*b.y, a.z*b.x - a.x*b.z, a.x*b.y - a.y*b.x⟩

def FMatrixIdentity : Matrix :=
  ⟨1, 0, 0, 0,
   0, 1, 0, 0,
   0, 0, 1, 0,
   0, 0, 0, 1⟩

def FMatrixMultiply (left right : Matrix) : Matrix :=
  { m0 := right.m0*left.m0 + right.m1*left.m4 + right.m2*left.m8 + right.m3*left.m12
    m1 := right.m0*left.m1 + right.m1*left.m5 + right.m2*left.m9 + right.m3*left.m13
    m2 := right.m0*left.m2 + right.m1*left.m6 + right.m2*left.m10 + right.m3*left.m14
    m3 := right.m0*left.m3 + right.m1*left.m7 + right.m2*left.m11 + right.m3*left.m15
    m4 := right.m4*left.m0 + right.m5*left.m4 + right.m6*left.m8 + right.m7*left.m12
    m5 := right.m4*left.m1 + right.m5*left.m5 + right.m6*left.m9 + right.m7*left.m13
    m6 := right.m4*left.m2 + right.m5*left.m6 + right.m6*left.m10 + right.m7*left.m14
    m7 := right.m4*left.m3 + right.m5*left.m7 + right.m6*left.m11 + right.m7*left.m15
    m8 := right.m8*left.m0 + right.m9*left.m4 + right.m10*left.m8 + right.m11*left.m12
    m9 := right.m8*left.m1 + right.m9*left.m5 + right.m10*left.m9 + right.m11*left.m13
    m10 := right.m8*left.m2 + right.m9*left.m6 + right.m10*left.m10 + right.m11*left.m14
    m11 := right.m8*left.m3 + right.m9*left.m7 + right.m10*left.m11 + right.m11*left.m15
    m12 := right.m12*left.m0 + right.m13*left.m4 + right.m14*left.m8 + right.m15*left.m12
    m13 := right.m12*left.m1 + right.m13*left.m5 + right.m14*left.m9 + right.m15*left.m13
    m14 := right.m12*left.m2 + right.m13*left.m6 + right.m14*left.m10 + right.m15*left.m14
    m15 := right.m12*left.m3 + right.m13*left.m7 + right.m14*left.m11 + right.m15*left.m15 }

def FMatrixTranspose (mat : Matrix) : Matrix :=
  { m0 := mat.m0, m1 := mat.m4, m2 := mat.m8, m3 := mat.m12
    m4 := mat.m1, m5 := mat.m5, m6 := mat.m9, m7 := mat.m13
    m8 := mat.m2, m9 := mat.m6, m10 := mat.m10, m11 := mat.m14
    m12 := mat.m3, m13 := mat.m7, m14 := mat.m11, m15 := mat.m15 }

def FMultiplyMatrixVector (v : Vector4) (mat : Matrix) : Vector4 :=
  let x := v.x
  let y := v.y
  let z := v.z
  let w := v.w
  { x := mat.m0*x + mat.m4*y + mat.m8*z + mat.m12*w
    y := mat.m1*x + mat.m5*y + mat.m9*z + mat.m13*w
    z := mat.m2*x + mat.m6*y + mat.m10*z + mat.m14*w
    w := mat.m3*x + mat.m7*y + mat.m11*z + mat.m15*w }

def FVector2Projection (a b : Vector2) : Vector2 :=
  let dotAB := FVector2Dot a b
  let dotBB := FVector2Dot b b
  ⟨dotAB/dotBB*b.x, dotAB/dotBB*b.y⟩

def FVector3Projection (a b : Vector3) : Vector3 :=
  let dotAB := FVector3Dot a b
  let dotBB := FVector3Dot b b
  ⟨dotAB/dotBB*b.x, dotAB/dotBB*b.y, dotAB/dotBB*b.z⟩

def FVector4Projection (a b : Vector4) : Vector4 :=
  let dotAB := FVector4Dot a b
  let dotBB := FVector4Dot b b
  ⟨dotAB/dotBB*b.x, dotAB/dotBB*b.y, dotAB/dotBB*b.z, dotAB/dotBB*b.w⟩

def FVector2Rejection (a b : Vector2) : Vector2 :=
  let projection := FVector2Projection a b
  ⟨a.x - projection.x, a.y - projection.y⟩

def FVector3Rejection (a b : Vector3) : Vector3 :=
  let projection := FVector3Projection a b
  ⟨a.x - projection.x, a.y - projection.y, a.z - projection.z⟩

def FVector4Rejection (a b : Vector4) : Vector4 :=
  let projection := FVector4Projection a b
  ⟨a.x - projection.x, a.y - projection.y, a.z - projection.z, a.w - projection.w⟩

/-! ## Scalar helpers -/

/-- The C conversion `(int)x`: truncation towards zero.  For a value whose truncation is
outside the range of `int` the conversion is undefined in C; here it is the truncation
for every value. -/
def cTruncate (x : ℚ) : Int := if 0 ≤ x then ⌊x⌋ else ⌈x⌉

def FCos (M : Libm) (value : ℚ) : ℚ := M.cos value
def FSin (M : Libm) (value : ℚ) : ℚ := M.sin value
def FTan (M : Libm) (value : ℚ) : ℚ := M.tan value
def FPower (M : Libm) (value exp : ℚ) : ℚ := M.pow value exp
def FSquareRoot (M : Libm) (value : ℚ) : ℚ := M.sqrt value

def FPosterize (value samples : ℚ) : ℚ :=
  let output := value*samples
  let output := ((⌊output⌋ : Int) : ℚ)
  output / samples

def FClamp (value min max : ℚ) : ℚ :=
  if value < min then min
  else if value > max then max
  else value

def FTrunc (value : ℚ) : ℚ := ((cTruncate value : Int) : ℚ)

def FRound (value : ℚ) : ℚ :=
  let output := |value|
  let truncated := cTruncate output
  let decimals := output - (truncated : ℚ)
  let output := if decimals > 1/2 then output - decimals + 1 else output - decimals
  if value < 0 then output * (-1) else output

def FCeil (value : ℚ) : ℚ :=
  let truncated := cTruncate value
  if value ≠ (truncated : ℚ) then (if value ≥ 0 then ((truncated + 1 : Int) : ℚ) else (truncated : ℚ))
  else value

def FLerp (valueA valueB time : ℚ) : ℚ := valueA + (valueB - valueA)*time

def FSmoothStep (min max value : ℚ) : ℚ :=
  if min ≤ max then FClamp (value/(max - min) - min) 0 1
  else FClamp (value/(min - max) - max) 0 1

/-- The raylib constant `DEG2RAD`, which is `PI/180`. -/
def DEG2RAD (M : Libm) : ℚ := M.pi/180

/-- The raylib constant `RAD2DEG`, which is `180/PI`. -/
def RAD2DEG (M : Libm) : ℚ := 180/M.pi

/-! ## Access to the pools -/

/-- The loop `for (j = start; j < start + count; j++) body`, stopping at the first fault. -/
def forLoop {σ : Type} (body : Nat → σ → Option σ) : Nat → Nat → σ → Option σ
  | _, 0, s => some s
  | j, k + 1, s => (body j s).bind (forLoop body (j + 1) k)

def GetNodeIndexFrom (id : Int) : List FNodeData → Nat → Int
  | [], _ => -1
  | n :: rest, i => if (n.id : Int) = id then (i : Int) else GetNodeIndexFrom id rest (i + 1)

/-- The function `GetNodeIndex`: the index of the first node with the given id, or `-1`
(the message it logs in that case is not an error, so the program continues). -/
def GetNodeIndex (nodes : List FNodeData) (id : Int) : Int := GetNodeIndexFrom id nodes 0

/-- The expression `nodes[index]`. -/
def nodeAt (nodes : List FNodeData) (index : Int) : Option FNodeData :=
  if index < 0 then none else nodes[index.toNat]?

/-- The expression `nodes[index]->output` read while `nodes[i]` is being recomputed:
`cur` is the current output of `nodes[i]`, the other outputs are those in `nodes`. -/
def rdOutput (nodes : List FNodeData) (i : Nat) (cur : FNodeOutput) (index : Int) :
    Option FNodeOutput :=
  if index < 0 then none
  else if index.toNat = i then some cur
  else (nodes[index.toNat]?).map (fun n => n.output)

/-- The assignment `output.data[k].value = v`. -/
def wrValue (o : FNodeOutput) (k : Nat) (v : ℚ) : Option FNodeOutput :=
  if k < o.data.length then some { o with data := o.data.set k v } else none

/-- The assignment `output.dataCount = c`. -/
def wrCount (o : FNodeOutput) (c : Nat) : FNodeOutput := { o with dataCount := c }

/-- The loop `for (k = 0; k < MAX_VALUES; k++) output.data[k].value = 0.0f`. -/
def zeroData (o : FNodeOutput) : FNodeOutput := { o with data := List.replicate MAX_VALUES 0 }

/-- The loop `for (j = k; j < MAX_VALUES; j++) output.data[j].value = 0.0f`. -/
def zeroFrom (k : Nat) (o : FNodeOutput) : FNodeOutput :=
  { o with data := o.data.take k ++ List.replicate (MAX_VALUES - k) 0 }

/-- The two statements that clear an output: all values zero, `dataCount = 0`. -/
def clearOutput (o : FNodeOutput) : FNodeOutput := wrCount (zeroData o) 0

/-- The loop `for (j = 0; j < dataCount; j++) data[j] = f(data[j])` on the current node. -/
def mapValues (f : ℚ → ℚ) (cur : FNodeOutput) : Option FNodeOutput :=
  forLoop (fun j c => do
    let v ← c.data[j]?
    wrValue c j (f v)) 0 cur.dataCount cur

/-- The loop `for (j = 0; j < dataCount; j++) data[j] = f(data[j], nodes[index]->data[j])`. -/
def zipValues (nodes : List FNodeData) (i : Nat) (index : Int) (f : ℚ → ℚ → ℚ)
    (cur : FNodeOutput) : Option FNodeOutput :=
  forLoop (fun j c => do
    let s ← rdOutput nodes i c index
    let v ← s.data[j]?
    let o ← c.data[j]?
    wrValue c j (f o v)) 0 cur.dataCount cur

/-- The loop `for (j = 0; j < dataCount; j++) data[j] = f(data[j], nodes[index]->data[0])`. -/
def scalarValues (nodes : List FNodeData) (i : Nat) (index : Int) (f : ℚ → ℚ → ℚ)
    (cur : FNodeOutput) : Option FNodeOutput :=
  forLoop (fun j c => do
    let s ← rdOutput nodes i c index
    let v ← s.data[0]?
    let o ← c.data[j]?
    wrValue c j (f o v)) 0 cur.dataCount cur

/-- The writes `data[0] = vs[0]; data[1] = vs[1]; ...` on the current node. -/
def wrList (vs : List ℚ) (cur : FNodeOutput) : Option FNodeOutput :=
  forLoop (fun k c => do
    let v ← vs[k]?
    wrValue c k v) 0 vs.length cur

def vec2Of (o : FNodeOutput) : Option Vector2 := do
  let x ← o.data[0]?
  let y ← o.data[1]?
  some ⟨x, y⟩

def vec3Of (o : FNodeOutput) : Option Vector3 := do
  let x ← o.data[0]?
  let y ← o.data[1]?
  let z ← o.data[2]?
  some ⟨x, y, z⟩

def vec4Of (o : FNodeOutput) : Option Vector4 := do
  let x ← o.data[0]?
  let y ← o.data[1]?
  let z ← o.data[2]?
  let w ← o.data[3]?
  some ⟨x, y, z, w⟩

/-- The initialiser `Matrix m = { data[0], data[1], ..., data[15] }`. -/
def matrixOf (o : FNodeOutput) : Option Matrix :=
  match o.data with
  | [a0, a1, a2, a3, a4, a5, a6, a7, a8, a9, a10, a11, a12, a13, a14, a15] =>
    some ⟨a0, a1, a2, a3, a4, a5, a6, a7, a8, a9, a10, a11, a12, a13, a14, a15⟩
  | _ => none

/-- The writes `data[0] = m.m0; data[1] = m.m1; ...; data[15] = m.m15`. -/
def wrMatrix (m : Matrix) (cur : FNodeOutput) : Option FNodeOutput :=
  wrList [m.m0, m.m1, m.m2, m.m3, m.m4, m.m5, m.m6, m.m7,
          m.m8, m.m9, m.m10, m.m11, m.m12, m.m13, m.m14, m.m15] cur

/-! ## Value propagation: `CalculateValues`

`CalculateValues` assigns three fields of `nodes[i]`: `inputs` and `inputsCount`, which
it rebuilds first, and `output`.  In the functions below `self` is `nodes[i]` with the
rebuilt inputs and `cur` is its output while it is being recomputed. -/

/-- One line of the search for the inputs of a node: a line that ends in the node
appends its start to `inputs`. -/
def addInput (n : FNodeData) (l : FLineData) : Option FNodeData :=
  if l.to_ = n.id then
    if n.inputsCount < n.inputs.length then
      some { n with inputs := n.inputs.set n.inputsCount (l.from_ : Int)
                    inputsCount := n.inputsCount + 1 }
    else none
  else some n

/-- Reset of `inputs` and `inputsCount`, then the search over all lines. -/
def rebuildInputs (lines : List FLineData) (n : FNodeData) : Option FNodeData :=
  lines.foldlM addInput { n with inputs := List.replicate MAX_INPUTS (-1), inputsCount := 0 }

/-- The expression `GetNodeIndex(nodes[i]->inputs[k])`. -/
def inputIndexOf (nodes : List FNodeData) (self : FNodeData) (k : Nat) : Option Int :=
  (self.inputs[k]?).map (GetNodeIndex nodes)

/-- The output of the first input is copied: `dataCount`, then `dataCount` values. -/
def copyFirst (nodes : List FNodeData) (i : Nat) (self : FNodeData) (cur : FNodeOutput) :
    Option FNodeOutput := do
  let index ← inputIndexOf nodes self 0
  let src ← rdOutput nodes i cur index
  let cur := wrCount cur src.dataCount
  forLoop (fun k c => do
    let s ← rdOutput nodes i c index
    let v ← s.data[k]?
    wrValue c k v) 0 cur.dataCount cur

/-- The vector-by-matrix branch of `FNODE_MULTIPLY`: the vector is `(x, y, z, 1)`, the
matrix is initialised from the twelve values `data[4..15]` of the matrix operand, and the
output becomes the transformed vector, of length 4. -/
def mulTransform (vec mat : FNodeOutput) : Option FNodeOutput :=
  match vec.data, mat.data.drop 4 with
  | x :: y :: z :: _, [a0, a1, a2, a3, a4, a5, a6, a7, a8, a9, a10, a11] =>
    let vector := FMultiplyMatrixVector ⟨x, y, z, 1⟩
      ⟨a0, a1, a2, a3, a4, a5, a6, a7, a8, a9, a10, a11, 0, 0, 0, 0⟩
    some { data := [vector.x, vector.y, vector.z, vector.w] ++ List.replicate 12 0
           dataCount := 4 }
  | _, _ => none

/-- The body of the `j` loop of `FNODE_MULTIPLY` for an input that is not a scalar. -/
def mulStep (M : Libm) (nodes : List FNodeData) (i : Nat) (inputIndex : Int) (j : Nat)
    (cur : FNodeOutput) : Option FNodeOutput := do
  let s ← rdOutput nodes i cur inputIndex
  if s.dataCount = 16 ∧ cur.dataCount = 3 then mulTransform cur s
  else if s.dataCount = 3 ∧ cur.dataCount = 16 then mulTransform s cur
  else do
    let v ← s.data[j]?
    let o ← cur.data[j]?
    wrValue cur j (M.mul o v)

/-- The `j` loop of `FNODE_MULTIPLY`; its bound `dataCount` is read again before every
iteration because the body may change it.  An iteration with `j ≥ MAX_VALUES` faults, so
`MAX_VALUES + 1` units of fuel are never used up. -/
def mulLoop (M : Libm) (nodes : List FNodeData) (i : Nat) (inputIndex : Int) :
    Nat → Nat → FNodeOutput → Option FNodeOutput
  | 0, _, _ => none
  | fuel + 1, j, cur =>
    if j < cur.dataCount then
      (mulStep M nodes i inputIndex j cur).bind (mulLoop M nodes i inputIndex fuel (j + 1))
    else some cur

/-- The `switch` applied to one further input of an Add, Subtract, Multiply or Divide:
the compound assignments `+=`, `-=`, `*=` and `/=` on values of type `float`. -/
def arithInput (M : Libm) (nodes : List FNodeData) (i : Nat) (type : FNodeType)
    (inputIndex : Int) (cur : FNodeOutput) : Option FNodeOutput :=
  match type with
  | FNODE_ADD => zipValues nodes i inputIndex M.add cur
  | FNODE_SUBTRACT => zipValues nodes i inputIndex M.sub cur
  | FNODE_MULTIPLY => do
    let s ← rdOutput nodes i cur inputIndex
    if s.dataCount = 1 then scalarValues nodes i inputIndex M.mul cur
    else mulLoop M nodes i inputIndex (MAX_VALUES + 1) 0 cur
  | FNODE_DIVIDE => do
    let s ← rdOutput nodes i cur inputIndex
    if s.dataCount = 1 then scalarValues nodes i inputIndex M.div cur
    else zipValues nodes i inputIndex M.div cur
  | _ => some cur

/-- The branch for `FNODE_ADD .. FNODE_DIVIDE`. -/
def calcArith (M : Libm) (nodes : List FNodeData) (i : Nat) (self : FNodeData)
    (cur : FNodeOutput) : Option FNodeOutput :=
  if self.inputsCount > 0 then do
    let cur ← copyFirst nodes i self cur
    forLoop (fun k c => do
      let inputIndex ← inputIndexOf nodes self k
      arithInput M nodes i self.type inputIndex c) 1 (self.inputsCount - 1) cur
  else some (clearOutput cur)

/-- One input of `FNODE_APPEND`: its values are written from slot `valuesCount` on. -/
def appendInput (nodes : List FNodeData) (i : Nat) (self : FNodeData) (k : Nat)
    (st : FNodeOutput × Nat) : Option (FNodeOutput × Nat) := do
  let inputIndex ← inputIndexOf nodes self k
  let s ← rdOutput nodes i st.1 inputIndex
  forLoop (fun j (st : FNodeOutput × Nat) => do
    let s ← rdOutput nodes i st.1 inputIndex
    let v ← s.data[j]?
    let c ← wrValue st.1 st.2 v
    some (c, st.2 + 1)) 0 s.dataCount st

/-- The branch for `FNODE_APPEND`. -/
def calcAppend (nodes : List FNodeData) (i : Nat) (self : FNodeData) (cur : FNodeOutput) :
    Option FNodeOutput :=
  if self.inputsCount > 0 then do
    let st ← forLoop (appendInput nodes i self) 0 self.inputsCount (cur, 0)
    some (wrCount st.1 st.2)
  else some (clearOutput cur)

/-- The cases `FNODE_POWER` and `FNODE_POSTERIZE`: with two inputs and a scalar second
input every value is combined with that scalar; with two inputs and another second input
the output stays as copied from the first input; otherwise the output is cleared. -/
def calcScalarSecond (nodes : List FNodeData) (i : Nat) (f : ℚ → ℚ → ℚ)
    (self : FNodeData) (cur : FNodeOutput) : Option FNodeOutput :=
  if self.inputsCount = 2 then do
    let expIndex ← inputIndexOf nodes self 1
    let e ← rdOutput nodes i cur expIndex
    if e.dataCount = 1 then scalarValues nodes i expIndex f cur
    else some cur
  else some (clearOutput cur)

/-- The case `FNODE_STEP`. -/
def calcStep (nodes : List FNodeData) (i : Nat) (self : FNodeData) (cur : FNodeOutput) :
    Option FNodeOutput :=
  if self.inputsCount = 2 then do
    let indexB ← inputIndexOf nodes self 1
    let b ← rdOutput nodes i cur indexB
    if b.dataCount = 1 then do
      let o ← cur.data[0]?
      let v ← b.data[0]?
      wrValue cur 0 (if o ≤ v then 1 else 0)
    else some cur
  else some (clearOutput cur)

/-- The cases `FNODE_MAX` and `FNODE_MIN`. -/
def calcMaxMin (nodes : List FNodeData) (i : Nat) (self : FNodeData) (cur : FNodeOutput) :
    Option FNodeOutput :=
  forLoop (fun j c => do
    let inputIndex ← inputIndexOf nodes self j
    zipValues nodes i inputIndex (fun o v =>
      if v > o ∧ self.type = FNODE_MAX then v
      else if v < o ∧ self.type = FNODE_MIN then v
      else o) c) 1 (self.inputsCount - 1) cur

/-- The cases `FNODE_LERP` and `FNODE_SMOOTHSTEP`. -/
def calcTernary (nodes : List FNodeData) (i : Nat) (f : ℚ → ℚ → ℚ → ℚ)
    (self : FNodeData) (cur : FNodeOutput) : Option FNodeOutput :=
  if self.inputsCount = 3 then do
    let indexA ← inputIndexOf nodes self 0
    let indexB ← inputIndexOf nodes self 1
    let indexC ← inputIndexOf nodes self 2
    forLoop (fun j c => do
      let a ← (← rdOutput nodes i c indexA).data[j]?
      let b ← (← rdOutput nodes i c indexB).data[j]?
      let t ← (← rdOutput nodes i c indexC).data[j]?
      wrValue c j (f a b t)) 0 cur.dataCount cur
  else some (clearOutput cur)

/-- The case `FNODE_CROSSPRODUCT`. -/
def calcCross (nodes : List FNodeData) (i : Nat) (self : FNodeData) (cur : FNodeOutput) :
    Option FNodeOutput :=
  if self.inputsCount = 2 then do
    let indexA ← inputIndexOf nodes self 0
    let indexB ← inputIndexOf nodes self 1
    let cur := zeroData cur
    let vectorA ← vec3Of (← rdOutput nodes i cur indexA)
    let vectorB ← vec3Of (← rdOutput nodes i cur indexB)
    let cross := FCrossProduct vectorA vectorB
    wrList [cross.x, cross.y, cross.z] (wrCount cur 3)
  else some (clearOutput cur)

/-- The case `FNODE_DESATURATE`. -/
def calcDesaturate (nodes : List FNodeData) (i : Nat) (self : FNodeData)
    (cur : FNodeOutput) : Option FNodeOutput :=
  if self.inputsCount = 2 then do
    let index ← inputIndexOf nodes self 0
    let index1 ← inputIndexOf nodes self 1
    let cur ← forLoop (fun j c => do
      let v ← (← rdOutput nodes i c index).data[j]?
      wrValue c j v) 0 MAX_VALUES cur
    let cur := wrCount cur (← rdOutput nodes i cur index).dataCount
    let amount := FClamp (← (← rdOutput nodes i cur index1).data[0]?) 0 1
    let d0 ← cur.data[0]?
    let d1 ← cur.data[1]?
    let d2 ← cur.data[2]?
    let luminance := 3/10*d0 + 6/10*d1 + 1/10*d2
    wrList [d0 + amount*(luminance - d0), d1 + amount*(luminance - d1),
            d2 + amount*(luminance - d2)] cur
  else some (clearOutput cur)

/-- The case `FNODE_DISTANCE`. -/
def calcDistance (M : Libm) (nodes : List FNodeData) (i : Nat) (self : FNodeData)
    (cur : FNodeOutput) : Option FNodeOutput :=
  if self.inputsCount = 2 then do
    let indexA ← inputIndexOf nodes self 0
    let indexB ← inputIndexOf nodes self 1
    let cur ← match cur.dataCount with
      | 1 => do
        let b0 ← (← rdOutput nodes i cur indexB).data[0]?
        let a0 ← (← rdOutput nodes i cur indexA).data[0]?
        wrValue cur 0 (b0 - a0)
      | 2 => do
        let vb ← vec2Of (← rdOutput nodes i cur indexB)
        let va ← vec2Of (← rdOutput nodes i cur indexA)
        wrValue cur 0 (FVector2Length M ⟨vb.x - va.x, vb.y - va.y⟩)
      | 3 => do
        let vb ← vec3Of (← rdOutput nodes i cur indexB)
        let va ← vec3Of (← rdOutput nodes i cur indexA)
        wrValue cur 0 (FVector3Length M ⟨vb.x - va.x, vb.y - va.y, vb.z - va.z⟩)
      | 4 => do
        let vb ← vec4Of (← rdOutput nodes i cur indexB)
        let va ← vec4Of (← rdOutput nodes i cur indexA)
        wrValue cur 0 (FVector4Length M ⟨vb.x - va.x, vb.y - va.y, vb.z - va.z, vb.w - va.w⟩)
      | _ => some cur
    some (wrCount (zeroFrom 1 cur) 1)
  else some (clearOutput cur)

/-- The case `FNODE_DOTPRODUCT`. -/
def calcDot (nodes : List FNodeData) (i : Nat) (self : FNodeData) (cur : FNodeOutput) :
    Option FNodeOutput :=
  if self.inputsCount = 2 then do
    let indexA ← inputIndexOf nodes self 0
    let indexB ← inputIndexOf nodes self 1
    let cur ← match cur.dataCount with
      | 2 => do
        let vectorA ← vec2Of (← rdOutput nodes i cur indexA)
        let vectorB ← vec2Of (← rdOutput nodes i cur indexB)
        wrValue cur 0 (FVector2Dot vectorA vectorB)
      | 3 => do
        let vectorA ← vec3Of (← rdOutput nodes i cur indexA)
        let vectorB ← vec3Of (← rdOutput nodes i cur indexB)
        wrValue cur 0 (FVector3Dot vectorA vectorB)
      | 4 => do
        let vectorA ← vec4Of (← rdOutput nodes i cur indexA)
        let vectorB ← vec4Of (← rdOutput nodes i cur indexB)
        wrValue cur 0 (FVector4Dot vectorA vectorB)
      | _ => some cur
    some (wrCount (zeroFrom 1 cur) 1)
  else some (clearOutput cur)

/-- The case `FNODE_LENGTH`. -/
def calcLength (M : Libm) (cur : FNodeOutput) : Option FNodeOutput := do
  let cur ← match cur.dataCount with
    | 2 => do wrValue cur 0 (FVector2Length M (← vec2Of cur))
    | 3 => do wrValue cur 0 (FVector3Length M (← vec3Of cur))
    | 4 => do wrValue cur 0 (FVector4Length M (← vec4Of cur))
    | _ => some cur
  some (wrCount (zeroFrom 1 cur) 1)

/-- The case `FNODE_NORMALIZE`. -/
def calcNormalize (M : Libm) (cur : FNodeOutput) : Option FNodeOutput :=
  match cur.dataCount with
  | 2 => do
    let temp := FVector2Normalize M (← vec2Of cur)
    wrList [temp.x, temp.y] cur
  | 3 => do
    let temp := FVector3Normalize M (← vec3Of cur)
    wrList [temp.x, temp.y, temp.z] cur
  | 4 => do
    let temp := FVector4Normalize M (← vec4Of cur)
    wrList [temp.x, temp.y, temp.z, temp.w] cur
  | _ => some cur

/-- The case `FNODE_MULTIPLYMATRIX`. -/
def calcMultiplyMatrix (nodes : List FNodeData) (i : Nat) (self : FNodeData)
    (cur : FNodeOutput) : Option FNodeOutput :=
  if self.inputsCount = 2 then do
    let index ← inputIndexOf nodes self 1
    let matrixA ← matrixOf cur
    let matrixB ← matrixOf (← rdOutput nodes i cur index)
    wrMatrix (FMatrixMultiply matrixA matrixB) cur
  else some cur

/-- The case `FNODE_TRANSPOSE`. -/
def calcTranspose (cur : FNodeOutput) : Option FNodeOutput := do
  let matrix ← matrixOf cur
  wrMatrix (FMatrixTranspose matrix) cur

/-- The `switch` on `dataCount` shared by projection, rejection and half direction: the
two vectors are read from `nodes[indexA]` and `nodes[indexB]`, the new vector is written,
the remaining values are zeroed and `dataCount` is set again. -/
def calcBinaryVector (f2 : Vector2 → Vector2 → Vector2) (f3 : Vector3 → Vector3 → Vector3)
    (f4 : Vector4 → Vector4 → Vector4) (nodes : List FNodeData) (i : Nat)
    (indexA indexB : Int) (cur : FNodeOutput) : Option FNodeOutput :=
  match cur.dataCount with
  | 2 => do
    let vectorA ← vec2Of (← rdOutput nodes i cur indexA)
    let vectorB ← vec2Of (← rdOutput nodes i cur indexB)
    let newVector := f2 vectorA vectorB
    let cur ← wrList [newVector.x, newVector.y] cur
    some (wrCount (zeroFrom 2 cur) 2)
  | 3 => do
    let vectorA ← vec3Of (← rdOutput nodes i cur indexA)
    let vectorB ← vec3Of (← rdOutput nodes i cur indexB)
    let newVector := f3 vectorA vectorB
    let cur ← wrList [newVector.x, newVector.y, newVector.z] cur
    some (wrCount (zeroFrom 3 cur) 3)
  | 4 => do
    let vectorA ← vec4Of (← rdOutput nodes i cur indexA)
    let vectorB ← vec4Of (← rdOutput nodes i cur indexB)
    let newVector := f4 vectorA vectorB
    let cur ← wrList [newVector.x, newVector.y, newVector.z, newVector.w] cur
    some (wrCount (zeroFrom 4 cur) 4)
  | _ => some cur

/-- The cases `FNODE_PROJECTION` and `FNODE_REJECTION`. -/
def calcProjection (nodes : List FNodeData) (i : Nat) (self : FNodeData)
    (cur : FNodeOutput) : Option FNodeOutput :=
  if self.inputsCount = 2 then do
    let indexA ← inputIndexOf nodes self 0
    let indexB ← inputIndexOf nodes self 1
    if self.type = FNODE_PROJECTION then
      calcBinaryVector FVector2Projection FVector3Projection FVector4Projection
        nodes i indexA indexB cur
    else
      calcBinaryVector FVector2Rejection FVector3Rejection FVector4Rejection
        nodes i indexA indexB cur
  else some (clearOutput cur)

/-- The case `FNODE_HALFDIRECTION`. -/
def calcHalfDirection (M : Libm) (nodes : List FNodeData) (i : Nat) (self : FNodeData)
    (cur : FNodeOutput) : Option FNodeOutput :=
  if self.inputsCount = 2 then do
    let indexA ← inputIndexOf nodes self 0
    let indexB ← inputIndexOf nodes self 1
    let nodeA ← nodeAt nodes indexA
    let check := decide (nodeA.type.toInt ≤ FNODE_E.toInt ∨ nodeA.type.toInt ≥ FNODE_MATRIX.toInt)
    let check ← if check then
        (nodeAt nodes indexB).map (fun nodeB =>
          decide (nodeB.type.toInt ≤ FNODE_E.toInt ∨ nodeB.type.toInt ≥ FNODE_MATRIX.toInt))
      else some check
    if check then
      calcBinaryVector
        (fun a b =>
          let vectorA := FVector2Normalize M a
          let vectorB := FVector2Normalize M b
          ⟨vectorA.x + vectorB.x, vectorA.y + vectorB.y⟩)
        (fun a b =>
          let vectorA := FVector3Normalize M a
          let vectorB := FVector3Normalize M b
          ⟨vectorA.x + vectorB.x, vectorA.y + vectorB.y, vectorA.z + vectorB.z⟩)
        (fun a b =>
          let vectorA := FVector4Normalize M a
          let vectorB := FVector4Normalize M b
          ⟨vectorA.x + vectorB.x, vectorA.y + vectorB.y, vectorA.z + vectorB.z,
           vectorA.w + vectorB.w⟩) nodes i indexA indexB cur
    else some (zeroData cur)
  else some (clearOutput cur)

/-- The `switch` of the branch for the kinds after `FNODE_APPEND`, entered after the
output of the first input was copied.  The two sinks have no case of their own. -/
def calcOperator (M : Libm) (nodes : List FNodeData) (i : Nat) (self : FNodeData)
    (cur : FNodeOutput) : Option FNodeOutput :=
  match self.type with
  | FNODE_ONEMINUS => mapValues (fun v => 1 - v) cur
  | FNODE_ABS => mapValues (fun v => if v < 0 then v * (-1) else v) cur
  | FNODE_COS => mapValues (FCos M) cur
  | FNODE_SIN => mapValues (FSin M) cur
  | FNODE_TAN => mapValues (FTan M) cur
  | FNODE_DEG2RAD => mapValues (fun v => v * DEG2RAD M) cur
  | FNODE_RAD2DEG => mapValues (fun v => v * RAD2DEG M) cur
  | FNODE_NORMALIZE => calcNormalize M cur
  | FNODE_NEGATE => mapValues (fun v => v * (-1)) cur
  | FNODE_RECIPROCAL => mapValues (fun v => 1/v) cur
  | FNODE_SQRT => mapValues (FSquareRoot M) cur
  | FNODE_TRUNC => mapValues FTrunc cur
  | FNODE_ROUND => mapValues FRound cur
  | FNODE_CEIL => mapValues FCeil cur
  | FNODE_CLAMP01 => mapValues (fun v => FClamp v 0 1) cur
  | FNODE_EXP2 => mapValues (fun v => FPower M 2 v) cur
  | FNODE_POWER => calcScalarSecond nodes i (FPower M) self cur
  | FNODE_STEP => calcStep nodes i self cur
  | FNODE_POSTERIZE => calcScalarSecond nodes i FPosterize self cur
  | FNODE_MAX => calcMaxMin nodes i self cur
  | FNODE_MIN => calcMaxMin nodes i self cur
  | FNODE_LERP => calcTernary nodes i FLerp self cur
  | FNODE_SMOOTHSTEP => calcTernary nodes i FSmoothStep self cur
  | FNODE_CROSSPRODUCT => calcCross nodes i self cur
  | FNODE_DESATURATE => calcDesaturate nodes i self cur
  | FNODE_DISTANCE => calcDistance M nodes i self cur
  | FNODE_DOTPRODUCT => calcDot nodes i self cur
  | FNODE_LENGTH => calcLength M cur
  | FNODE_MULTIPLYMATRIX => calcMultiplyMatrix nodes i self cur
  | FNODE_TRANSPOSE => calcTranspose cur
  | FNODE_PROJECTION => calcProjection nodes i self cur
  | FNODE_REJECTION => calcProjection nodes i self cur
  | FNODE_HALFDIRECTION => calcHalfDirection M nodes i self cur
  | _ => some cur

/-- The recomputation of the output of `self`, by kind. -/
def calcOutput (M : Libm) (nodes : List FNodeData) (i : Nat) (self : FNodeData) :
    Option FNodeOutput :=
  if FNODE_VECTOR4.toInt < self.type.toInt ∧ self.type.toInt < FNODE_APPEND.toInt then
    calcArith M nodes i self self.output
  else if self.type = FNODE_APPEND then calcAppend nodes i self self.output
  else if FNODE_APPEND.toInt < self.type.toInt then
    if self.inputsCount > 0 then do
      let cur ← copyFirst nodes i self self.output
      calcOperator M nodes i self cur
    else some (clearOutput self.output)
  else some self.output

/-- The body of the loop of `CalculateValues` for `nodes[i]`, whose content is `n`: the
inputs are rebuilt from the lines, then the output is recomputed.  The texts `valueText`
of the values and the shapes, which the loop updates after that for drawing, are not
part of the store. -/
def calcNode (M : Libm) (lines : List FLineData) (nodes : List FNodeData) (i : Nat)
    (n : FNodeData) : Option FNodeData := do
  let self ← rebuildInputs lines n
  let out ← calcOutput M nodes i self
  some { self with output := out }

/-- One iteration of `CalculateValues`: `nodes[i]` is replaced by its recomputed content. -/
def calcAt (M : Libm) (lines : List FLineData) (i : Nat) (nodes : List FNodeData) :
    Option (List FNodeData) := do
  let n ← nodes[i]?
  let n ← calcNode M lines nodes i n
  some (nodes.set i n)

/-- The first `k` iterations of `CalculateValues`. -/
def calcUpTo (M : Libm) (lines : List FLineData) (k : Nat) (nodes : List FNodeData) :
    Option (List FNodeData) :=
  forLoop (calcAt M lines) 0 k nodes

/-- The function `CalculateValues`: every node is recomputed, in storage order. -/
def CalculateValues (M : Libm) (g : Graph) : Option Graph :=
  (calcUpTo M g.lines g.nodes.length g.nodes).map (fun ns => { g with nodes := ns })

/-! ## The graph store: creation -/

/-- The inner loop of the id search: some live node has id `currentId`. -/
def nodeIdUsed (nodes : List FNodeData) (currentId : Nat) : Bool :=
  nodes.any (fun n => n.id == currentId)

/-- The outer loop of an id search, `for (i = start; i < start + count; i++)`: the first
`i` that is not in use; `none` is the result `-1`. -/
def firstFreeId (used : Nat → Bool) : Nat → Nat → Option Nat
  | _, 0 => none
  | start, count + 1 =>
    if used start then firstFreeId used (start + 1) count else some start

/-- The id search of `InitializeNode`: the first `i` in `0 .. MAX_NODES - 1` that no live
node has as its id. -/
def freeNodeId (nodes : List FNodeData) : Option Nat :=
  firstFreeId (nodeIdUsed nodes) 0 MAX_NODES

/-- The function `InitializeNode`: the record it stores at `nodes[nodesCount]`.  The
field `type`, which the function leaves unset and every caller assigns at once, is a
parameter.  Without a free id the program exits. -/
def InitializeNode (nodes : List FNodeData) (type : FNodeType) : Option FNodeData :=
  match freeNodeId nodes with
  | none => none
  | some id =>
    if nodes.length < MAX_NODES then
      some { id := id, type := type
             inputs := List.replicate MAX_INPUTS (-1), inputsCount := 0
             inputsLimit := MAX_INPUTS
             output := { data := List.replicate MAX_VALUES 0, dataCount := 0 } }
    else none

/-- The new node, initialised by `InitializeNode` and completed by `f`, at the end of
the pool. -/
def createNode (g : Graph) (type : FNodeType) (f : FNodeData → FNodeData) : Option Graph :=
  (InitializeNode g.nodes type).map (fun n => { g with nodes := g.nodes ++ [f n] })

/-- The values `vs` in the first slots of the output, `dataCount` their number, and
`inputsLimit = 0`: the common part of the literal constructors. -/
def literalOutput (vs : List ℚ) (n : FNodeData) : FNodeData :=
  { n with inputsLimit := 0
           output := { data := vs ++ n.output.data.drop vs.length, dataCount := vs.length } }

def CreateNodePI (M : Libm) (g : Graph) : Option Graph :=
  createNode g FNODE_PI (literalOutput [M.pi])

def CreateNodeE (g : Graph) : Option Graph :=
  createNode g FNODE_E (literalOutput [271828182845904523536/100000000000000000000])

def CreateNodeMatrix (g : Graph) (mat : Matrix) : Option Graph :=
  createNode g FNODE_MATRIX (literalOutput
    [mat.m0, mat.m1, mat.m2, mat.m3, mat.m4, mat.m5, mat.m6, mat.m7,
     mat.m8, mat.m9, mat.m10, mat.m11, mat.m12, mat.m13, mat.m14, mat.m15])

def CreateNodeValue (g : Graph) (value : ℚ) : Option Graph :=
  createNode g FNODE_VALUE (literalOutput [value])

def CreateNodeVector2 (g : Graph) (vector : Vector2) : Option Graph :=
  createNode g FNODE_VECTOR2 (literalOutput [vector.x, vector.y])

def CreateNodeVector3 (g : Graph) (vector : Vector3) : Option Graph :=
  createNode g FNODE_VECTOR3 (literalOutput [vector.x, vector.y, vector.z])

def CreateNodeVector4 (g : Graph) (vector : Vector4) : Option Graph :=
  createNode g FNODE_VECTOR4 (literalOutput [vector.x, vector.y, vector.z, vector.w])

def CreateNodeOperator (g : Graph) (type : FNodeType) (inputs : Nat) : Option Graph :=
  createNode g type (fun n => { n with inputsLimit := inputs })

def CreateNodeUniform (g : Graph) (type : FNodeType) (dataCount : Nat) : Option Graph :=
  createNode g type (fun n => { n with output := wrCount n.output dataCount })

def CreateNodeMaterial (g : Graph) (type : FNodeType) (dataCount : Nat) : Option Graph :=
  createNode g type (fun n => { n with output := wrCount n.output dataCount })

/-- The inner loop of the id search of `CreateNodeLine`. -/
def lineIdUsed (lines : List FLineData) (currentId : Nat) : Bool :=
  lines.any (fun l => l.id == currentId)

def freeLineId (lines : List FLineData) : Option Nat :=
  firstFreeId (lineIdUsed lines) 0 MAX_LINES

/-- The function `CreateNodeLine`: a line from `from_` with the end unattached. -/
def CreateNodeLine (g : Graph) (from_ : Nat) : Option (Graph × FLineData) :=
  match freeLineId g.lines with
  | none => none
  | some id =>
    if g.lines.length < MAX_LINES then
      let newLine : FLineData := { id := id, from_ := from_, to_ := UNATTACHED }
      some ({ g with lines := g.lines ++ [newLine] }, newLine)
    else none

/-- The fresh start of `InitFNode`, taken when no stored graph is loaded: empty pools,
then the two sinks. -/
def InitFNode : Option Graph :=
  (CreateNodeMaterial { nodes := [], lines := [] } FNODE_VERTEX 0).bind
    (fun g => CreateNodeMaterial g FNODE_FRAGMENT 0)

/-- The buttons of the node menu in `DrawInterface`, one per node that can be created. -/
inductive MenuButton
  | value (v : ℚ) | vector2 (v : Vector2) | vector3 (v : Vector3) | vector4 (v : Vector4)
  | matrix
  | operator (type : FNodeType) (inputs : Nat)
  | uniform (type : FNodeType) (dataCount : Nat)
  | pi | e

/-- The operator buttons of the menu with the input limit each passes. -/
def operatorButtons : List (FNodeType × Nat) :=
  [(FNODE_ADD, MAX_INPUTS), (FNODE_SUBTRACT, MAX_INPUTS), (FNODE_MULTIPLY, MAX_INPUTS),
   (FNODE_MULTIPLYMATRIX, 2), (FNODE_DIVIDE, MAX_INPUTS), (FNODE_ONEMINUS, 1), (FNODE_ABS, 1),
   (FNODE_CLAMP01, 1), (FNODE_MAX, 2), (FNODE_MIN, 2), (FNODE_NEGATE, 1),
   (FNODE_RECIPROCAL, 1), (FNODE_SQRT, 1), (FNODE_POWER, 2), (FNODE_EXP2, 1),
   (FNODE_POSTERIZE, 2), (FNODE_CEIL, 1), (FNODE_ROUND, 1), (FNODE_TRUNC, 1),
   (FNODE_LERP, 3), (FNODE_STEP, 2), (FNODE_SMOOTHSTEP, 3),
   (FNODE_APPEND, 4), (FNODE_NORMALIZE, 1), (FNODE_CROSSPRODUCT, 2), (FNODE_DESATURATE, 2),
   (FNODE_DISTANCE, 2), (FNODE_DOTPRODUCT, 2), (FNODE_LENGTH, 1), (FNODE_TRANSPOSE, 1),
   (FNODE_PROJECTION, 2), (FNODE_REJECTION, 2), (FNODE_HALFDIRECTION, 2),
   (FNODE_COS, 1), (FNODE_SIN, 1), (FNODE_TAN, 1), (FNODE_DEG2RAD, 1), (FNODE_RAD2DEG, 1)]

/-- The uniform buttons of the menu with the data count each passes. -/
def uniformButtons : List (FNodeType × Nat) :=
  [(FNODE_VERTEXPOSITION, 3), (FNODE_VERTEXNORMAL, 3), (FNODE_VIEWDIRECTION, 3),
   (FNODE_FRESNEL, 1), (FNODE_MVP, 16)]

/-- A button that exists in the menu. -/
def MenuButton.valid : MenuButton → Bool
  | .operator type inputs => operatorButtons.contains (type, inputs)
  | .uniform type dataCount => uniformButtons.contains (type, dataCount)
  | _ => true

/-- The creation call made by `DrawInterface` when a menu button is clicked. -/
def clickMenu (M : Libm) (g : Graph) : MenuButton → Option Graph
  | .value v => CreateNodeValue g v
  | .vector2 v => CreateNodeVector2 g v
  | .vector3 v => CreateNodeVector3 g v
  | .vector4 v => CreateNodeVector4 g v
  | .matrix => CreateNodeMatrix g FMatrixIdentity
  | .operator type inputs => CreateNodeOperator g type inputs
  | .uniform type dataCount => CreateNodeUniform g type dataCount
  | .pi => CreateNodePI M g
  | .e => CreateNodeE g

/-! ## The graph store: destruction -/

/-- The function `DestroyNodeLine`: the first line with the id of `line` is removed from
the pool, then all values are recomputed.  Without such a line the program exits. -/
def DestroyNodeLine (M : Libm) (g : Graph) (line : FLineData) : Option Graph :=
  match g.lines.findIdx? (fun l => l.id == line.id) with
  | none => none
  | some index => CalculateValues M { g with lines := g.lines.eraseIdx index }

/-- The loop `for (i = k - 1; i >= 0; i--)` of `DestroyNode` over the lines: a line that
starts or ends in the node is destroyed. -/
def destroyLinesOf (M : Libm) (id : Nat) : Nat → Graph → Option Graph
  | 0, g => some g
  | k + 1, g => do
    let line ← g.lines[k]?
    let g ← if line.from_ = id ∨ line.to_ = id then DestroyNodeLine M g line else some g
    destroyLinesOf M id k g

/-- The function `DestroyNode`: the lines of the node are destroyed, the node at the
index that `GetNodeIndex` finds for its id is removed from the pool, and all values are
recomputed. -/
def DestroyNode (M : Libm) (g : Graph) (node : FNodeData) : Option Graph := do
  let index := GetNodeIndex g.nodes node.id
  let g ← destroyLinesOf M node.id g.lines.length g
  if index < 0 then none
  else CalculateValues M { g with nodes := g.nodes.eraseIdx index.toNat }

/-- The right click on a node in `UpdateNodesDrag`: the node the search stops at, here
the one at index `i`, is destroyed and the values are recomputed.  The search passes
over the sinks, so there is no such click for a sink. -/
def deleteClick (M : Libm) (g : Graph) (i : Nat) : Option Graph := do
  let node ← g.nodes[i]?
  if node.type.toInt < FNODE_VERTEX.toInt then
    (DestroyNode M g node).bind (CalculateValues M)
  else none

/-- The loop `for (i = k - 1; i >= 0; i--)` of `ClearGraph`. -/
def clearGraphLoop (M : Libm) : Nat → Graph → Option Graph
  | 0, g => some g
  | k + 1, g => do
    let node ← g.nodes[k]?
    let g ← if node.type.toInt < FNODE_VERTEX.toInt then DestroyNode M g node else some g
    clearGraphLoop M k g

/-- The function `ClearGraph`. -/
def ClearGraph (M : Libm) (g : Graph) : Option Graph := clearGraphLoop M g.nodes.length g

/-- The flag `used` of `ClearUnusedNodes`: the node is a sink or some line touches it. -/
def nodeUsed (g : Graph) (node : FNodeData) : Bool :=
  decide (node.type.toInt ≥ FNODE_VERTEX.toInt) ||
    g.lines.any (fun l => node.id == l.from_ || node.id == l.to_)

/-- The loop `for (i = k - 1; i >= 0; i--)` of `ClearUnusedNodes`. -/
def clearUnusedLoop (M : Libm) : Nat → Graph → Option Graph
  | 0, g => some g
  | k + 1, g => do
    let node ← g.nodes[k]?
    let g ← if nodeUsed g node then some g else DestroyNode M g node
    clearUnusedLoop M k g

/-- The function `ClearUnusedNodes`. -/
def ClearUnusedNodes (M : Libm) (g : Graph) : Option Graph :=
  clearUnusedLoop M g.nodes.length g

/-! ## The link validator of `UpdateNodesLink` -/

/-- The comparison with the first input made for the dot product, length, projection,
rejection, half direction and distance kinds once `valuesCheck` holds and the node has
an input: the new source must be as wide as `nodes[GetNodeIndex(inputs[0])]`.  When that
index is `-1` the program exits. -/
def sameAsFirstInput (nodes : List FNodeData) (dst : FNodeData) (w : Nat) (check : Bool) :
    Option Bool :=
  if check ∧ dst.inputsCount > 0 then do
    let index := GetNodeIndex nodes (← dst.inputs[0]?)
    if index ≠ -1 then do
      let first ← nodeAt nodes index
      some (decide (w = first.output.dataCount))
    else none
  else some check

/-- The flag `valuesCheck` computed for the destination `dst` and the source
`nodes[indexFrom]`. -/
def valuesCheck (nodes : List FNodeData) (dst : FNodeData) (indexFrom : Int) : Option Bool :=
  let srcCount : Option Nat := (nodeAt nodes indexFrom).map (fun n => n.output.dataCount)
  if dst.type = FNODE_APPEND then
    srcCount.map (fun w => decide (dst.output.dataCount + w ≤ 4 ∧ w = 1))
  else if dst.type = FNODE_POWER ∧ dst.inputsCount = 1 then
    srcCount.map (fun w => decide (w = 1))
  else if dst.type = FNODE_STEP then srcCount.map (fun w => decide (w = 1))
  else if dst.type = FNODE_NORMALIZE then srcCount.map (fun w => decide (w > 1 ∧ w ≤ 4))
  else if dst.type = FNODE_CROSSPRODUCT then srcCount.map (fun w => decide (w = 3))
  else if dst.type = FNODE_DESATURATE then
    if dst.inputsCount = 0 then srcCount.map (fun w => decide (w < 4))
    else if dst.inputsCount = 1 then srcCount.map (fun w => decide (w = 1))
    else some true
  else if dst.type = FNODE_DOTPRODUCT ∨ dst.type = FNODE_LENGTH ∨
      (dst.type.toInt ≥ FNODE_PROJECTION.toInt ∧ dst.type.toInt ≤ FNODE_HALFDIRECTION.toInt) then
    srcCount.bind (fun w => sameAsFirstInput nodes dst w (decide (w > 1 ∧ w ≤ 4)))
  else if dst.type = FNODE_DISTANCE then
    srcCount.bind (fun w => sameAsFirstInput nodes dst w (decide (w ≤ 4)))
  else if dst.type = FNODE_MULTIPLYMATRIX ∨ dst.type = FNODE_TRANSPOSE then
    srcCount.map (fun w => decide (w = 16))
  else if dst.type.toInt ≥ FNODE_VERTEX.toInt then
    srcCount.map (fun w => decide (w ≤ dst.output.dataCount))
  else if dst.type.toInt > FNODE_DIVIDE.toInt then
    srcCount.map (fun w => decide (dst.output.dataCount = w))
  else some true

/-- The first disjunct of the final test: the node has no input yet and its kind is not
one of the ten whose first input is checked as well. -/
def firstInputUnchecked (dst : FNodeData) : Bool :=
  decide (dst.inputsCount = 0 ∧ dst.type ≠ FNODE_NORMALIZE ∧ dst.type ≠ FNODE_DOTPRODUCT ∧
    dst.type ≠ FNODE_LENGTH ∧ dst.type ≠ FNODE_MULTIPLYMATRIX ∧ dst.type ≠ FNODE_TRANSPOSE ∧
    dst.type ≠ FNODE_PROJECTION ∧ dst.type ≠ FNODE_DISTANCE ∧ dst.type ≠ FNODE_REJECTION ∧
    dst.type ≠ FNODE_HALFDIRECTION ∧ dst.type ≠ FNODE_STEP)

/-- The decision of `UpdateNodesLink`, in line state 1, for a click on the input of
`nodes[i]` while the pending line starts at the node with id `from_`: `some true` when
the line is created, `some false` when it is not. -/
def linkAccepted (nodes : List FNodeData) (i : Nat) (from_ : Nat) : Option Bool := do
  let dst ← nodes[i]?
  if dst.id ≠ from_ ∧ dst.inputsCount < dst.inputsLimit then do
    let indexFrom := GetNodeIndex nodes from_
    let check ← valuesCheck nodes dst indexFrom
    some (firstInputUnchecked dst || check)
  else some false

/-! ## Vocabulary of the statements -/

/-- The ids at the start of the lines that end in the node `id`, in storage order. -/
def inboundIds (lines : List FLineData) (id : Nat) : List Nat :=
  (lines.filter (fun l => l.to_ == id)).map (fun l => l.from_)

/-- The node that `GetNodeIndex` finds for the id `id`. -/
def inputNode (nodes : List FNodeData) (id : Nat) : Option FNodeData :=
  nodeAt nodes (GetNodeIndex nodes id)

/-- The value `nodes[GetNodeIndex(id)]->output.data[j].value`, zero without such a slot. -/
def inputValue (nodes : List FNodeData) (id : Nat) (j : Nat) : ℚ :=
  match inputNode nodes id with
  | some m => m.output.data.getD j 0
  | none => 0

/-- The literal kinds: value, the three vectors and the matrix. -/
def isLiteral (t : FNodeType) : Bool :=
  t == FNODE_MATRIX || t == FNODE_VALUE || t == FNODE_VECTOR2 || t == FNODE_VECTOR3 ||
    t == FNODE_VECTOR4

/-- The sizes of the arrays of a node record: `data[MAX_VALUES]`, with `dataCount` inside
it, and `inputs[MAX_INPUTS]`. -/
def WellSized (n : FNodeData) : Prop :=
  n.output.data.length = MAX_VALUES ∧ n.output.dataCount ≤ MAX_VALUES ∧
    n.inputs.length = MAX_INPUTS

/-- Component `j` of the inputs `ids` combined from left to right by `op`. -/
def foldInputs (op : ℚ → ℚ → ℚ) (nodes : List FNodeData) (ids : List Nat) (j : Nat) : ℚ :=
  match ids with
  | [] => 0
  | f :: fs => fs.foldl (fun acc f' => op acc (inputValue nodes f' j)) (inputValue nodes f j)

/-- The fields of a node that `CalculateValues` does not assign are equal, and so are
the outputs when the kind is a constant, a geometry input or a literal. -/
def SameFrame (m m' : FNodeData) : Prop :=
  m'.id = m.id ∧ m'.type = m.type ∧ m'.inputsLimit = m.inputsLimit ∧
    (m.type.toInt ≤ FNODE_VECTOR4.toInt → m'.output = m.output)

/-- Two node pools of the same length whose nodes agree slot by slot on `SameFrame`. -/
def SameStructure (ns ns' : List FNodeData) : Prop :=
  ns'.length = ns.length ∧
    ∀ (p : Nat) (m : FNodeData), ns[p]? = some m → ∃ m', ns'[p]? = some m' ∧ SameFrame m m'

/-! ## Example graphs -/

/-- A `Libm` used to run the examples; none of them calls one of its functions.  The four
operations are the exact ones, which is what the operations of `float` are at the values
of the examples: small integers and halves, with results of the same kind. -/
def exampleLibm : Libm :=
  { cos := fun _ => 0, sin := fun _ => 0, tan := fun _ => 0, sqrt := fun x => x
    pow := fun x _ => x, pi := 355/113
    add := fun x y => x + y, sub := fun x y => x - y
    mul := fun x y => x * y, div := fun x y => x / y }

/-- A node as `InitializeNode` leaves it, with the given id, kind and input limit. -/
def blankNode (id : Nat) (type : FNodeType) (inputsLimit : Nat) : FNodeData :=
  { id := id, type := type, inputs := List.replicate MAX_INPUTS (-1), inputsCount := 0
    inputsLimit := inputsLimit
    output := { data := List.replicate MAX_VALUES 0, dataCount := 0 } }

/-- A literal node holding the values `vs`. -/
def literalNode (id : Nat) (type : FNodeType) (vs : List ℚ) : FNodeData :=
  literalOutput vs (blankNode id type MAX_INPUTS)

/-- Value(2.0) with id 0 and Value(3.0) with id 1, both linked into the Add node 2. -/
def exampleAddGraph : Graph :=
  { nodes := [literalNode 0 FNODE_VALUE [2], literalNode 1 FNODE_VALUE [3],
              blankNode 2 FNODE_ADD MAX_INPUTS]
    lines := [{ id := 0, from_ := 0, to_ := 2 }, { id := 1, from_ := 1, to_ := 2 }] }

/-- The values of the node that the menu button "Matrix 4x4" creates: the identity. -/
def identityValues : List ℚ := [1, 0, 0, 0, 0, 1, 0, 0, 0, 0, 1, 0, 0, 0, 0, 1]

/-- Vector3(5, 6, 7) with id 0 and the identity matrix with id 1, linked into the
Multiply node 2 as (vector, matrix) and into the Multiply node 3 as (matrix, vector). -/
def exampleMultiplyGraph : Graph :=
  { nodes := [literalNode 0 FNODE_VECTOR3 [5, 6, 7], literalNode 1 FNODE_MATRIX identityValues,
              blankNode 2 FNODE_MULTIPLY MAX_INPUTS, blankNode 3 FNODE_MULTIPLY MAX_INPUTS]
    lines := [{ id := 0, from_ := 0, to_ := 2 }, { id := 1, from_ := 1, to_ := 2 },
              { id := 2, from_ := 1, to_ := 3 }, { id := 3, from_ := 0, to_ := 3 }] }

/-- Vector3(5, 6, 7) with id 0 linked into the Add node 1 and into each of the two inputs
of the Multiply node 2; the Add node is linked into the Negate node 3. -/
def exampleDestroyGraph : Graph :=
  { nodes := [literalNode 0 FNODE_VECTOR3 [5, 6, 7], blankNode 1 FNODE_ADD MAX_INPUTS,
              blankNode 2 FNODE_MULTIPLY MAX_INPUTS, blankNode 3 FNODE_NEGATE 1]
    lines := [{ id := 0, from_ := 0, to_ := 1 }, { id := 1, from_ := 1, to_ := 3 },
              { id := 2, from_ := 0, to_ := 2 }] }

/-- Two Value nodes with the ids 1 and 2 and no line: the id 0 is not in use. -/
def exampleGapGraph : Graph :=
  { nodes := [literalNode 1 FNODE_VALUE [2], literalNode 2 FNODE_VALUE [3]], lines := [] }

/-- The stores that the program reaches from the fresh start of `InitFNode` by clicks on
the node menu, right clicks that delete a node, "Clear Graph" and "Clear Unused Nodes". -/
inductive FreshReachable (M : Libm) : Graph → Prop
  | init (g : Graph) : InitFNode = some g → FreshReachable M g
  | menu (g g' : Graph) (b : MenuButton) :
      FreshReachable M g → b.valid = true → clickMenu M g b = some g' → FreshReachable M g'
  | delete (g g' : Graph) (i : Nat) :
      FreshReachable M g → deleteClick M g i = some g' → FreshReachable M g'
  | clearGraph (g g' : Graph) :
      FreshReachable M g → ClearGraph M g = some g' → FreshReachable M g'
  | clearUnused (g g' : Graph) :
      FreshReachable M g → ClearUnusedNodes M g = some g' → FreshReachable M g'

/-- The number of nodes of kind `type` in the store. -/
def countKind (g : Graph) (type : FNodeType) : Nat :=
  g.nodes.countP (fun n => n.type == type)

/-- The ids of the nodes are distinct, and there is one sink of each stage. -/
def SinkInvariant (g : Graph) : Prop :=
  (g.nodes.map (fun n => n.id)).Nodup ∧ countKind g FNODE_VERTEX = 1 ∧
    countKind g FNODE_FRAGMENT = 1

/-- The store after the fresh start: the vertex sink with id 0, the fragment sink with
id 1, no line. -/
def exampleFreshGraph : Graph :=
  { nodes := [blankNode 0 FNODE_VERTEX MAX_INPUTS, blankNode 1 FNODE_FRAGMENT MAX_INPUTS]
    lines := [] }

/-- The fresh store after a click on the menu button "Add". -/
def exampleMenuGraph : Graph :=
  { nodes := [blankNode 0 FNODE_VERTEX MAX_INPUTS, blankNode 1 FNODE_FRAGMENT MAX_INPUTS,
              blankNode 2 FNODE_ADD MAX_INPUTS]
    lines := [] }

/-- The ten kinds that the specification lists as having their first input checked. -/
def firstInputChecked (t : FNodeType) : Bool :=
  t == FNODE_NORMALIZE || t == FNODE_DOTPRODUCT || t == FNODE_LENGTH ||
    t == FNODE_MULTIPLYMATRIX || t == FNODE_TRANSPOSE || t == FNODE_PROJECTION ||
    t == FNODE_DISTANCE || t == FNODE_REJECTION || t == FNODE_HALFDIRECTION || t == FNODE_STEP

/-- The width rules of the specification for a first input of width `w`, for the ten
kinds of `firstInputChecked`: Step `w = 1`; Normalize, DotProduct, Length, Projection,
Rejection and HalfDirection `w` in `[2, 4]`; Distance `w ≤ 4`; MultiplyMatrix and
Transpose `w = 16`. -/
def specFirstInputRule (t : FNodeType) (w : Nat) : Bool :=
  match t with
  | FNODE_STEP => decide (w = 1)
  | FNODE_NORMALIZE => decide (2 ≤ w ∧ w ≤ 4)
  | FNODE_DOTPRODUCT => decide (2 ≤ w ∧ w ≤ 4)
  | FNODE_LENGTH => decide (2 ≤ w ∧ w ≤ 4)
  | FNODE_PROJECTION => decide (2 ≤ w ∧ w ≤ 4)
  | FNODE_REJECTION => decide (2 ≤ w ∧ w ≤ 4)
  | FNODE_HALFDIRECTION => decide (2 ≤ w ∧ w ≤ 4)
  | FNODE_DISTANCE => decide (w ≤ 4)
  | FNODE_MULTIPLYMATRIX => decide (w = 16)
  | FNODE_TRANSPOSE => decide (w = 16)
  | _ => true

/-- A node with one input already rebuilt and an output of the given width. -/
def linkedNode (id : Nat) (type : FNodeType) (inputsLimit : Nat) (input : Int)
    (vs : List ℚ) : FNodeData :=
  { id := id, type := type, inputs := [input, -1, -1, -1], inputsCount := 1
    inputsLimit := inputsLimit
    output := { data := vs ++ List.replicate (MAX_VALUES - vs.length) 0
                dataCount := vs.length } }

/-- Vector3(1, 0, 0) with id 0, Vector2(1, 0) with id 1, Vector3(0, 1, 0) with id 2 and a
CrossProduct node 3 whose first input is node 0, after `CalculateValues`. -/
def exampleCrossGraph : Graph :=
  { nodes := [literalNode 0 FNODE_VECTOR3 [1, 0, 0], literalNode 1 FNODE_VECTOR2 [1, 0],
              literalNode 2 FNODE_VECTOR3 [0, 1, 0],
              linkedNode 3 FNODE_CROSSPRODUCT 2 0 []]
    lines := [{ id := 0, from_ := 0, to_ := 3 }] }

/-- Value(2) with id 0 and an Append node 1 whose first input is node 0, after
`CalculateValues`. -/
def exampleAppendGraph : Graph :=
  { nodes := [literalNode 0 FNODE_VALUE [2], linkedNode 1 FNODE_APPEND 4 0 [2]]
    lines := [{ id := 0, from_ := 0, to_ := 1 }] }

/-- Vector3(5, 6, 7) with id 0, Value(2) with id 1 and an Add node 2 whose first input
is node 0, after `CalculateValues`. -/
def exampleWidthGraph : Graph :=
  { nodes := [literalNode 0 FNODE_VECTOR3 [5, 6, 7], literalNode 1 FNODE_VALUE [2],
              linkedNode 2 FNODE_ADD MAX_INPUTS 0 [5, 6, 7]]
    lines := [{ id := 0, from_ := 0, to_ := 2 }] }

/-- Vector3(5, 6, 7) with id 0, Value(2) with id 1 and a Normalize and a Sine node
without inputs. -/
def exampleFirstInputGraph : Graph :=
  { nodes := [literalNode 0 FNODE_VECTOR3 [5, 6, 7], literalNode 1 FNODE_VALUE [2],
              blankNode 2 FNODE_NORMALIZE 1, blankNode 3 FNODE_SIN 1]
    lines := [] }

/-! ## The link operations of `UpdateNodesLink` -/

/-- Line state 0, left click on the output of `nodes[i]`: `CreateNodeLine(nodes[i]->id)`
stores the pending line `tempLine`. -/
def beginLink (g : Graph) (i : Nat) : Option (Graph × FLineData) := do
  let node ← g.nodes[i]?
  CreateNodeLine g node.id

/-- The search for a line that already joins the two nodes: the first line with
`to == nodes[i]->id` and `from == tempLine->from` is destroyed. -/
def destroyDuplicate (M : Libm) (g : Graph) (to_ from_ : Nat) : Option Graph :=
  match g.lines.find? (fun l => l.to_ == to_ && l.from_ == from_) with
  | some line => DestroyNodeLine M g line
  | none => some g

/-- Line state 1, left click on the input of `nodes[i]` with the pending line `tempLine`.
When `linkAccepted` holds, a line with the same ends is destroyed, the pending line is
destroyed, the final line is created and attached (`temp->to = to`), and the values are
recomputed twice.  Otherwise the store stays as it is. -/
def completeLink (M : Libm) (g : Graph) (tempLine : FLineData) (i : Nat) : Option Graph := do
  let accepted ← linkAccepted g.nodes i tempLine.from_
  if accepted then do
    let dst ← g.nodes[i]?
    let g ← destroyDuplicate M g dst.id tempLine.from_
    let from_ := tempLine.from_
    let to_ := (← g.nodes[i]?).id
    let g ← DestroyNodeLine M g tempLine
    let (g, temp) ← CreateNodeLine g from_
    let g := { g with lines := g.lines.dropLast ++ [{ temp with to_ := to_ }] }
    let g ← CalculateValues M g
    CalculateValues M g
  else some g

/-- A whole link gesture: a left click on the output of `nodes[i]`, then a left click on
the input of `nodes[j]`. -/
def linkClick (M : Libm) (g : Graph) (i j : Nat) : Option Graph := do
  let (g, tempLine) ← beginLink g i
  completeLink M g tempLine j

/-- The loop `for (k = linesCount - 1; k >= 0; k--)` of a right click on the output of
`nodes[i]`: every line that starts at the node is destroyed. -/
def destroyLinesFrom (M : Libm) (i : Nat) : Nat → Graph → Option Graph
  | 0, g => some g
  | k + 1, g => do
    let node ← g.nodes[i]?
    let line ← g.lines[k]?
    let g ← if node.id = line.from_ then DestroyNodeLine M g line else some g
    destroyLinesFrom M i k g

/-- The loop `for (k = linesCount - 1; k >= 0; k--)` of a right click on the input of
`nodes[i]`: every line that ends in the node is destroyed. -/
def destroyLinesTo (M : Libm) (i : Nat) : Nat → Graph → Option Graph
  | 0, g => some g
  | k + 1, g => do
    let node ← g.nodes[i]?
    let line ← g.lines[k]?
    let g ← if node.id = line.to_ then DestroyNodeLine M g line else some g
    destroyLinesTo M i k g

/-- Line state 0, right click on the output of `nodes[i]`. -/
def unlinkOutput (M : Libm) (g : Graph) (i : Nat) : Option Graph := do
  let g ← destroyLinesFrom M i g.lines.length g
  let g ← CalculateValues M g
  CalculateValues M g

/-- Line state 0, right click on the input of `nodes[i]`. -/
def unlinkInput (M : Libm) (g : Graph) (i : Nat) : Option Graph := do
  let g ← destroyLinesTo M i g.lines.length g
  let g ← CalculateValues M g
  CalculateValues M g

/-- The fresh store after the menu clicks "Value" (2, id 2), "Value" (3, id 3), "Posterize"
(id 4), "Vector 3" ((5, 6, 7), id 5), "Vector 3" ((1, 2, 3), id 6), "Lerp" (id 7) and
"Smooth Step" (id 8), and the link gestures 2 → 4, 5 → 7 and 5 → 8, which give each of the
three operators its first input. -/
def exampleTaxonomySteps : Option Graph := do
  let g ← InitFNode
  let g ← clickMenu exampleLibm g (.value 2)
  let g ← clickMenu exampleLibm g (.value 3)
  let g ← clickMenu exampleLibm g (.operator FNODE_POSTERIZE 2)
  let g ← clickMenu exampleLibm g (.vector3 ⟨5, 6, 7⟩)
  let g ← clickMenu exampleLibm g (.vector3 ⟨1, 2, 3⟩)
  let g ← clickMenu exampleLibm g (.operator FNODE_LERP 3)
  let g ← clickMenu exampleLibm g (.operator FNODE_SMOOTHSTEP 3)
  let g ← linkClick exampleLibm g 2 4
  let g ← linkClick exampleLibm g 5 7
  linkClick exampleLibm g 5 8

/-- The fresh store after the menu clicks "Vector 3" ((5, 6, 7), id 2) and "Value" (2,
id 3) and the link gesture from the vector to the fragment sink (id 1). -/
def exampleSinkSteps : Option Graph := do
  let g ← InitFNode
  let g ← clickMenu exampleLibm g (.vector3 ⟨5, 6, 7⟩)
  let g ← clickMenu exampleLibm g (.value 2)
  linkClick exampleLibm g 2 1

/-- The fresh store after the menu clicks "Vertex Position" (id 2) and "Value" (2, id 3). -/
def exampleUniformSteps : Option Graph := do
  let g ← InitFNode
  let g ← clickMenu exampleLibm g (.uniform FNODE_VERTEXPOSITION 3)
  clickMenu exampleLibm g (.value 2)

/-- The store that `exampleSinkSteps` reaches: the fragment sink, with input limit
`MAX_INPUTS`, holds the Vector3 node 2 as its input and a copy of its output. -/
def exampleSinkGraph : Graph :=
  { nodes := [blankNode 0 FNODE_VERTEX MAX_INPUTS, linkedNode 1 FNODE_FRAGMENT MAX_INPUTS 2 [5, 6, 7],
              literalNode 2 FNODE_VECTOR3 [5, 6, 7], literalNode 3 FNODE_VALUE [2]]
    lines := [{ id := 0, from_ := 2, to_ := 1 }] }

/-- The output width of the node that `GetNodeIndex` finds for the id `id`. -/
def inputWidth (nodes : List FNodeData) (id : Nat) : Nat :=
  match inputNode nodes id with
  | some m => m.output.dataCount
  | none => 0

/-- The output values of the node that `GetNodeIndex` finds for the id `id`: the first
`dataCount` entries of its `data`. -/
def inputValues (nodes : List FNodeData) (id : Nat) : List ℚ :=
  match inputNode nodes id with
  | some m => m.output.data.take m.output.dataCount
  | none => []

/-- Vector2(1, 2) with id 0 and Value(3) with id 1, both linked into the Append node 2. -/
def exampleConcatGraph : Graph :=
  { nodes := [literalNode 0 FNODE_VECTOR2 [1, 2], literalNode 1 FNODE_VALUE [3],
              blankNode 2 FNODE_APPEND 4]
    lines := [{ id := 0, from_ := 0, to_ := 2 }, { id := 1, from_ := 1, to_ := 2 }] }

/-- The sizes of an output record: `data[MAX_VALUES]` with `dataCount` inside it. -/
def Sized (o : FNodeOutput) : Prop :=
  o.data.length = MAX_VALUES ∧ o.dataCount ≤ MAX_VALUES

/-! ## Edits of the graph -/

/-- An edit of the graph by the user: a click on a menu button, a link gesture from the
output of `nodes[i]` to the input of `nodes[j]`, a right click on the output or on the
input of `nodes[i]`, which removes its lines, a right click on `nodes[i]`, which deletes
it, and a recomputation of the values. -/
inductive Edit
  | menu (b : MenuButton)
  | link (i j : Nat)
  | unlinkOutput (i : Nat)
  | unlinkInput (i : Nat)
  | delete (i : Nat)
  | evaluate

/-- The store after an edit.  The result is `none` when the program faults, and also when
the edit is not one of those considered: a menu button that does not exist, or a link
gesture that `linkAccepted` refuses. -/
def applyEdit (M : Libm) (g : Graph) : Edit → Option Graph
  | .menu b => if b.valid then clickMenu M g b else none
  | .link i j => do
    let src ← g.nodes[i]?
    let accepted ← linkAccepted g.nodes j src.id
    if accepted then linkClick M g i j else none
  | .unlinkOutput i => unlinkOutput M g i
  | .unlinkInput i => unlinkInput M g i
  | .delete i => deleteClick M g i
  | .evaluate => CalculateValues M g

/-- The store after a sequence of edits. -/
def applyEdits (M : Libm) : List Edit → Graph → Option Graph
  | [], g => some g
  | e :: es, g => (applyEdit M g e).bind (applyEdits M es)

/-- The stores that the program reaches from the fresh start of `InitFNode` by a sequence
of edits. -/
def EditReachable (M : Libm) (g : Graph) : Prop :=
  ∃ edits, InitFNode.bind (applyEdits M edits) = some g

/-- The menu clicks "Matrix 4x4" (id 2), "Append" (id 3), "Vector 3" ((5, 6, 7), id 4),
"Value" (2, id 5), "Multiply" (id 6) and "Append" (id 7), then the accepted link gestures
2 → 3 (the matrix as first input of the first Append node), 4 → 6 (the vector as first
input of the Multiply node), 6 → 7 and 5 → 7 (the Multiply node, of width 3, and the value
as inputs of the second Append node) and 2 → 6 (the matrix as second input of the Multiply
node, whose width becomes 4). -/
def exampleAppendEdits : List Edit :=
  [.menu .matrix, .menu (.operator FNODE_APPEND 4), .menu (.vector3 ⟨5, 6, 7⟩),
   .menu (.value 2), .menu (.operator FNODE_MULTIPLY MAX_INPUTS), .menu (.operator FNODE_APPEND 4),
   .link 2 3, .link 4 6, .link 6 7, .link 5 7, .link 2 6]

/-- Value(2) with id 0, Value(3) with id 1 and an Append node 2 whose first input is node
0, after `CalculateValues`. -/
def exampleLinkGraph : Graph :=
  { nodes := [literalNode 0 FNODE_VALUE [2], literalNode 1 FNODE_VALUE [3],
              linkedNode 2 FNODE_APPEND 4 0 [2]]
    lines := [{ id := 0, from_ := 0, to_ := 2 }] }

/-- The store `exampleLinkGraph` after the link gesture from node 1 to the Append node. -/
def exampleLinkedGraph : Graph :=
  { nodes := [literalNode 0 FNODE_VALUE [2], literalNode 1 FNODE_VALUE [3],
              { linkedNode 2 FNODE_APPEND 4 0 [2, 3] with inputs := [0, 1, -1, -1], inputsCount := 2 }]
    lines := [{ id := 0, from_ := 0, to_ := 2 }, { id := 1, from_ := 1, to_ := 2 }] }

/-- The cases of missing inputs in which the output is cleared: an operator without an
input; a Power, Step, Posterize, CrossProduct, Desaturate, Distance, DotProduct,
Projection, Rejection or HalfDirection node with one input; a Lerp or SmoothStep node
with one or two inputs. -/
def clearedBelowArity (t : FNodeType) (k : Nat) : Bool :=
  (k == 0 && decide (FNODE_VECTOR4.toInt < t.toInt ∧ t.toInt < FNODE_VERTEX.toInt)) ||
  (k == 1 && (t == FNODE_POWER || t == FNODE_STEP || t == FNODE_POSTERIZE ||
    t == FNODE_CROSSPRODUCT || t == FNODE_DESATURATE || t == FNODE_DISTANCE ||
    t == FNODE_DOTPRODUCT || t == FNODE_PROJECTION || t == FNODE_REJECTION ||
    t == FNODE_HALFDIRECTION)) ||
  ((k == 1 || k == 2) && (t == FNODE_LERP || t == FNODE_SMOOTHSTEP))

/-- The edits that create a Matrix (id 2), a Value (2, id 3), a MultiplyMatrix (id 4), a
Max (id 5), a Min (id 6) and a Power node (id 7) and link the matrix into the
MultiplyMatrix node and the value into the Max, the Min and the Power node. -/
def exampleArityEdits : List Edit :=
  [.menu .matrix, .menu (.value 2), .menu (.operator FNODE_MULTIPLYMATRIX 2),
   .menu (.operator FNODE_MAX 2), .menu (.operator FNODE_MIN 2), .menu (.operator FNODE_POWER 2),
   .link 2 4, .link 3 5, .link 3 6, .link 3 7]

/-- Value(2) with id 0 linked into the Power node 1 and into the Lerp node 2, and an Add
node 3 without an input. -/
def exampleArityGraph : Graph :=
  { nodes := [literalNode 0 FNODE_VALUE [2], blankNode 1 FNODE_POWER 2, blankNode 2 FNODE_LERP 3,
              linkedNode 3 FNODE_ADD MAX_INPUTS 0 [2]]
    lines := [{ id := 0, from_ := 0, to_ := 1 }, { id := 1, from_ := 0, to_ := 2 }] }

/-! ## Two recomputations of the same node -/

/-- The values of two outputs `a` and `b` during two recomputations of the same node, of
which the first started from the values `a0` and the second from the values `b0`: every
value of `a` equals the value of `b` in the same slot, or both are still the values the
recomputations started from. -/
def Loose (a0 b0 : List ℚ) (a b : FNodeOutput) : Prop :=
  a.data.length = b.data.length ∧
    ∀ j : Nat, a.data[j]? = b.data[j]? ∨ (a.data[j]? = a0[j]? ∧ b.data[j]? = b0[j]?)

/-- Two outputs related by `Loose` with the same `dataCount` and the same values below
it. -/
def Twin (a0 b0 : List ℚ) (a b : FNodeOutput) : Prop :=
  a.dataCount = b.dataCount ∧ (∀ j : Nat, j < a.dataCount → a.data[j]? = b.data[j]?) ∧
    Loose a0 b0 a b

/-- Two outputs related by `Loose` with the same `dataCount`. -/
def TwinEnd (a0 b0 : List ℚ) (a b : FNodeOutput) : Prop :=
  a.dataCount = b.dataCount ∧ Loose a0 b0 a b

/-- The reads of the pool made for the node `self` at slot `k` give the same in the pools
`ns` and `ns'`: the inputs of the node are found at the same indices, where both pools
hold the same node. -/
def SameReads (ns ns' : List FNodeData) (k : Nat) (self : FNodeData) : Prop :=
  ∀ j idx, inputIndexOf ns self j = some idx →
    inputIndexOf ns' self j = some idx ∧
      (∀ c c', rdOutput ns k c idx = rdOutput ns' k c' idx) ∧ nodeAt ns idx = nodeAt ns' idx

/-- The menu clicks "One Minus" four times (ids 2, 3, 4 and 5) and "Value" (3, id 6), then
the accepted link gestures 3 → 2, 4 → 3, 5 → 4 and 6 → 5: the value is the input of node 5,
and each of the nodes 4, 3 and 2 reads the One Minus node that is stored after it. -/
def exampleChainEdits : List Edit :=
  [.menu (.operator FNODE_ONEMINUS 1), .menu (.operator FNODE_ONEMINUS 1),
   .menu (.operator FNODE_ONEMINUS 1), .menu (.operator FNODE_ONEMINUS 1), .menu (.value 3),
   .link 3 2, .link 4 3, .link 5 4, .link 6 5]

/-- The ids, output widths and first values of the nodes after the two sinks. -/
def outputSummary (g : Graph) : List (Nat × Nat × Option ℚ) :=
  (g.nodes.drop 2).map (fun n => (n.id, n.output.dataCount, n.output.data[0]?))

/-- Value(3) with id 0 and Value(5) with id 1, both linked into the Step node 2, which is
linked into the One Minus node 3: every node is stored after its inputs. -/
def exampleOrderedGraph : Graph :=
  { nodes := [literalNode 0 FNODE_VALUE [3], literalNode 1 FNODE_VALUE [5],
              blankNode 2 FNODE_STEP 2, blankNode 3 FNODE_ONEMINUS 1]
    lines := [{ id := 0, from_ := 0, to_ := 2 }, { id := 1, from_ := 1, to_ := 2 },
              { id := 2, from_ := 2, to_ := 3 }] }

/-- The store `exampleOrderedGraph` after `CalculateValues`: the Step node holds 1, as
3 ≤ 5, and the One Minus node holds 0. -/
def exampleOrderedResult : Graph :=
  { nodes := [literalNode 0 FNODE_VALUE [3], literalNode 1 FNODE_VALUE [5],
              { linkedNode 2 FNODE_STEP 2 0 [1] with inputs := [0, 1, -1, -1], inputsCount := 2 },
              linkedNode 3 FNODE_ONEMINUS 1 2 [0]]
    lines := [{ id := 0, from_ := 0, to_ := 2 }, { id := 1, from_ := 1, to_ := 2 },
              { id := 2, from_ := 2, to_ := 3 }] }

/-- An Add node 0 without an input and Value(1/2) with id 1, both linked into the Step
node 2: the first input of the Step node has the width 0. -/
def exampleStepGraph : Graph :=
  { nodes := [blankNode 0 FNODE_ADD MAX_INPUTS, literalNode 1 FNODE_VALUE [1/2],
              blankNode 2 FNODE_STEP 2]
    lines := [{ id := 0, from_ := 0, to_ := 2 }, { id := 1, from_ := 1, to_ := 2 }] }

/-- The node with id `f` as the iteration of `CalculateValues` for `nodes[i]` finds it
during the pass from `g` to `g'`: a node stored before `nodes[i]` is already recomputed
(its content is the one of `g'`), any other node is still as in `g`. -/
def seenBy (g g' : Graph) (i : Nat) (f : Nat) : Option FNodeData :=
  let p := GetNodeIndex g.nodes f
  if p < 0 then none
  else if p.toNat < i then g'.nodes[p.toNat]? else g.nodes[p.toNat]?

/-- A `Libm` whose `pow` squares its first argument: `pow` for the exponent 2. -/
def squareLibm : Libm := { exampleLibm with pow := fun x _ => x * x }

/-- The menu clicks "Value" (3, id 2), "Value" (2, id 3), "Append" (id 4) and "Power"
(id 5), then the accepted link gestures 3 → 4 (the Append node gets the width 1), 2 → 5
(the base) and 4 → 5 (the exponent, of width 1). -/
def examplePowerEdits : List Edit :=
  [.menu (.value 3), .menu (.value 2), .menu (.operator FNODE_APPEND 4),
   .menu (.operator FNODE_POWER 2), .link 3 4, .link 2 5, .link 4 5]

/-- A further menu click "Value" (1, id 6) and the accepted link gesture 6 → 4: the Append
node, the exponent of the Power node, gets the width 2. -/
def exampleWidenEdits : List Edit := [.menu (.value 1), .link 6 4]

/-- Value(3) with id 0 and Vector2(2, 2) with id 1, linked as base and exponent into the
Power node 2, whose output holds the value 9. -/
def examplePowerGraph : Graph :=
  { nodes := [literalNode 0 FNODE_VALUE [3], literalNode 1 FNODE_VECTOR2 [2, 2],
              { linkedNode 2 FNODE_POWER 2 0 [9] with inputs := [0, 1, -1, -1], inputsCount := 2 }]
    lines := [{ id := 0, from_ := 0, to_ := 2 }, { id := 1, from_ := 1, to_ := 2 }] }

/-- An Add node with id 0 and a line that starts at the id 7, which no node has. -/
def exampleDanglingGraph : Graph :=
  { nodes := [blankNode 0 FNODE_ADD MAX_INPUTS]
    lines := [{ id := 0, from_ := 7, to_ := 0 }] }

/-! ## The files of the output folder

`CompileShader` writes three files: the stored graph `output/shader.data`, the vertex
shader `output/vertex.vs` and the fragment shader `output/fragment.fs`.  The two shaders
are texts.  A line of the stored graph is modelled by the values it holds: the kind, the
inputs and the three counts are small integers, which `"%f"` and `"%i"` print and read back
exactly; the output values are the numbers the model computes with.  The rectangles of a
node, which the model of `FNodeData` leaves out, are left out of its line as well.  A file
can always be created and written. -/

/-- The part of the C library that the files depend on and that the program does not fix:
the size of the buffer of a stream (the text written to a stream reaches its file in
blocks of that size, the rest on `fclose`), what `fgets` does with a null stream (the C
standard leaves the call undefined: `fgetsNull` is `true` when the call returns `NULL`, as with
a library that checks its parameters, and `false` when it faults), the conversion `"%.3f"`,
and the value that `fscanf` reads with `"%f"` from the digits that `fprintf` has written
with `"%f"`. -/
structure CLib where
  bufferSize : Nat
  fgetsNull : Bool
  fixed3 : ℚ → String
  readBack : ℚ → ℚ

/-- A line of `output/shader.data`: the line of a node, or the line `?from?to` of a
line, with the two ends as `FLineData` holds them (`"%i"` writes the end of an unattached
line as `-1`, and the assignment to `to` turns it back). -/
inductive DataLine
  | node (type : Int) (inputs : List Int) (inputsCount inputsLimit dataCount : Int)
      (data : List ℚ)
  | edge (from_ to_ : Nat)
  deriving DecidableEq, Repr

/-- The three files while `CompileShader` runs; `none` is a file that does not exist.  A
shader is the text written to its stream so far. -/
structure Files where
  data : Option (List DataLine)
  vertex : Option String
  fragment : Option String
  deriving DecidableEq, Repr

/-- The two streams `vertexFile` and `fragmentFile` that `CompileNode` is called with. -/
inductive FileStream
  | vertexFile
  | fragmentFile
  deriving DecidableEq, Repr

/-- The part of the text written to a stream that has reached the file: whole blocks of
`bufferSize` characters. -/
def onDisk (L : CLib) (text : String) : String :=
  String.mk (text.toList.take (text.length / L.bufferSize * L.bufferSize))

/-- The content of `FRAGMENT_PATH` that `fopen(FRAGMENT_PATH, "r")` finds while
`CompileShader` runs: no file after `remove(FRAGMENT_PATH)`, and the blocks already
written while the stream `fragmentFile` is open. -/
def fragmentOnDisk (L : CLib) (files : Files) : Option String :=
  files.fragment.map (onDisk L)

/-- The call `fprintf(file, text)` with a text that has no conversion. -/
def fprintf (files : Files) (file : FileStream) (text : String) : Option Files :=
  match file with
  | .vertexFile => files.vertex.map (fun t => { files with vertex := some (t ++ text) })
  | .fragmentFile => files.fragment.map (fun t => { files with fragment := some (t ++ text) })

/-- The call `sprintf(buffer, ...)` into an array of `size` characters: the text and its
final zero have to fit. -/
def sprintf (size : Nat) (text : String) : Option String :=
  if text.length < size then some text else none

/-- The call `strcat(dst, src)` on an array of `size` characters. -/
def strcat (size : Nat) (dst src : String) : Option String :=
  if (dst ++ src).length < size then some (dst ++ src) else none

/-- The conversion `"%02i"`. -/
def fmtI2 (i : Int) : String :=
  if 0 ≤ i ∧ i < 10 then "0" ++ toString i else toString i

/-- The call `fgets(temp, n + 1, file)`: at most `n` characters, up to and including the
first newline; the characters read and the rest of the file. -/
def fgets : Nat → List Char → List Char × List Char
  | 0, rest => ([], rest)
  | _, [] => ([], [])
  | n + 1, c :: rest =>
    if c = Char.ofNat 10 then ([c], rest)
    else ((c :: (fgets n rest).1), (fgets n rest).2)

/-- The call `strstr(temp, string) != NULL`. -/
def strstr (temp string : List Char) : Bool :=
  temp.tails.any (fun t => string.isPrefixOf t)

/-- The loop `while (fgets(temp, 512, file) != NULL)` of `FSearch`, which ends at the
first line that contains `string`; every call of `fgets` reads a character, so
`fuel = length of the file` calls reach its end. -/
def searchLines (string : List Char) : Nat → List Char → Bool
  | 0, _ => false
  | _, [] => false
  | fuel + 1, c :: rest =>
    strstr (fgets 511 (c :: rest)).1 string || searchLines string fuel (fgets 511 (c :: rest)).2

/-- The function `FSearch` on a file with the given content.  When the file does not
exist, `fopen` returns `NULL`, a message is logged and `fgets` is called with the null
stream. -/
def FSearch (L : CLib) (content : Option String) (string : String) : Option Bool :=
  match content with
  | none => if L.fgetsNull then some false else none
  | some text => some (searchLines string.toList text.length text.toList)

/-! ## The stored graph: `output/shader.data` -/

/-- The line that `fprintf` writes for a node. -/
def nodeLine (n : FNodeData) : Option DataLine :=
  if n.inputs.length = MAX_INPUTS ∧ n.output.data.length = MAX_VALUES then
    some (.node n.type.toInt n.inputs n.inputsCount n.inputsLimit n.output.dataCount
      n.output.data)
  else none

/-- The loop `for (i = 0; i < MAX_NODES; i++)` over the ids, from `i` on with `fuel`
iterations left: the first node with the id `i` is written, and the loop ends when
`count == nodesCount`. -/
def nodeLinesLoop (nodes : List FNodeData) : Nat → Nat → Nat → List DataLine →
    Option (List DataLine)
  | 0, _, _, out => some out
  | fuel + 1, i, count, out =>
    match nodes.find? (fun n => n.id == i) with
    | some n =>
      (nodeLine n).bind (fun l =>
        if count + 1 = nodes.length then some (out ++ [l])
        else nodeLinesLoop nodes fuel (i + 1) (count + 1) (out ++ [l]))
    | none =>
      if count = nodes.length then some out else nodeLinesLoop nodes fuel (i + 1) count out

/-- The inner loop `for (k = 0; k < nodesCount; k++) if (lines[k]->id == i)` of the second
part, from `k` on with `fuel` iterations left: the line found, if any.  The bound is
`nodesCount`, and `lines[k]` is read whether or not `k < linesCount`; beyond the live
lines the pool holds no pointer to a line, and the read of its `id` is a fault. -/
def findLineById (lines : List FLineData) (i : Nat) : Nat → Nat → Option (Option FLineData)
  | 0, _ => some none
  | fuel + 1, k =>
    (lines[k]?).bind (fun l =>
      if l.id = i then some (some l) else findLineById lines i fuel (k + 1))

/-- The loop `for (i = 0; i < MAX_NODES; i++)` of the second part, from `i` on with
`fuel` iterations left; it ends when `count == linesCount`. -/
def edgeLinesLoop (g : Graph) : Nat → Nat → Nat → List DataLine → Option (List DataLine)
  | 0, _, _, out => some out
  | fuel + 1, i, count, out =>
    (findLineById g.lines i g.nodes.length 0).bind (fun found =>
      match found with
      | some l =>
        if count + 1 = g.lines.length then
          some (out ++ [.edge l.from_ l.to_])
        else edgeLinesLoop g fuel (i + 1) (count + 1)
          (out ++ [.edge l.from_ l.to_])
      | none =>
        if count = g.lines.length then some out else edgeLinesLoop g fuel (i + 1) count out)

/-- The first part of `CompileShader`: the lines written to `output/shader.data`. -/
def dataLines (g : Graph) : Option (List DataLine) :=
  (nodeLinesLoop g.nodes MAX_NODES 0 0 []).bind (edgeLinesLoop g MAX_NODES 0 0)

/-! ## The shader texts -/

/-- The text `vHeader`. -/
def vHeader : String :=
  "#version 330                     \n\n"

/-- The text `vIn`. -/
def vIn : String :=
  "in vec3 vertexPosition;            \n" ++
  "in vec3 vertexNormal;              \n" ++
  "in vec2 vertexTexCoord;            \n" ++
  "in vec4 vertexColor;             \n\n"

/-- The text `vOut`. -/
def vOut : String :=
  "out vec3 fragPosition;             \n" ++
  "out vec3 fragNormal;               \n" ++
  "out vec2 fragTexCoord;             \n" ++
  "out vec4 fragColor;              \n\n"

/-- The text `vUniforms`. -/
def vUniforms : String :=
  "uniform mat4 mvpMatrix;          \n\n"

/-- The text `vMain`. -/
def vMain : String :=
  "void main()                        \n" ++
  "\x7b                                  \n" ++
  "    fragPosition = vertexPosition; \n" ++
  "    fragNormal = vertexNormal;     \n" ++
  "    fragTexCoord = vertexTexCoord; \n" ++
  "    fragColor = vertexColor;     \n\n"

/-- The text `fHeader`. -/
def fHeader : String :=
  "#version 330                     \n\n"

/-- The text `fIn`. -/
def fIn : String :=
  "in vec3 fragPosition;             \n" ++
  "in vec3 fragNormal;               \n" ++
  "in vec2 fragTexCoord;             \n" ++
  "in vec4 fragColor;              \n\n"

/-- The text `fUniforms`. -/
def fUniforms : String :=
  "uniform sampler2D texture0;       \n" ++
  "uniform vec4 colDiffuse;          \n" ++
  "uniform vec3 viewDirection;       \n" ++
  "uniform mat4 modelMatrix;       \n\n"

/-- The text `fOut`. -/
def fOut : String :=
  "out vec4 finalColor;            \n\n"

/-- The text `fMain`. -/
def fMain : String :=
  "\n" ++
  "void main()                        \n" ++
  "\x7b                                  \n"

/-- The kinds `FNODE_VERTEXPOSITION .. FNODE_MVP`: the test
`(type < FNODE_MATRIX) && (type > FNODE_E)`. -/
def isGeometry (t : FNodeType) : Bool :=
  decide (t.toInt < FNODE_MATRIX.toInt ∧ t.toInt > FNODE_E.toInt)

/-- The first `switch` of `CompileNode`: the text left in `check[16]`, the declared name of
the node.  The array starts empty and stays so when no case writes it. -/
def checkText (fragment : Bool) (node : FNodeData) : Option String :=
  match node.output.dataCount with
  | 1 => sprintf 16 ("float node_" ++ fmtI2 node.id)
  | 2 => sprintf 16 ("vec2 node_" ++ fmtI2 node.id)
  | 3 =>
    if fragment then sprintf 16 ("vec3 node_" ++ fmtI2 node.id)
    else if node.type = FNODE_VERTEXPOSITION then sprintf 16 ("vec4 node_" ++ fmtI2 node.id)
    else some ""
  | 4 => sprintf 16 ("vec4 node_" ++ fmtI2 node.id)
  | 16 => sprintf 16 ("mat4 node_" ++ fmtI2 node.id)
  | _ => some ""

/-- The second `switch` of `CompileNode`: the text left in `definition[32]`, the start of
the declaration. -/
def definitionText (fragment : Bool) (node : FNodeData) : Option String :=
  match node.output.dataCount with
  | 1 => sprintf 32 ("    float node_" ++ fmtI2 node.id ++ " = ")
  | 2 => sprintf 32 ("    vec2 node_" ++ fmtI2 node.id ++ " = ")
  | 3 =>
    if fragment then sprintf 32 ("    vec3 node_" ++ fmtI2 node.id ++ " = ")
    else if node.type = FNODE_VERTEXPOSITION then
      sprintf 32 ("    vec4 node_" ++ fmtI2 node.id ++ " = ")
    else some ""
  | 4 => sprintf 32 ("    vec4 node_" ++ fmtI2 node.id ++ " = ")
  | 16 => sprintf 32 ("    mat4 node_" ++ fmtI2 node.id ++ " = ")
  | _ => some ""

/-- The `switch` for the kinds `FNODE_VERTEXPOSITION .. FNODE_MVP`: the text appended to
`body`. -/
def geometryText (fragment : Bool) (t : FNodeType) : String :=
  match t with
  | FNODE_VERTEXPOSITION => if fragment then "fragPosition;\n" else "vec4(vertexPosition, 1.0);\n"
  | FNODE_VERTEXNORMAL => "fragNormal;\n"
  | FNODE_FRESNEL => "1 - dot(fragNormal, viewDirection);\n"
  | FNODE_VIEWDIRECTION => "viewDirection;\n"
  | FNODE_MVP => "mvpMatrix;\n"
  | _ => ""

/-- The text that the inner `switch` appends to the name of an input that is not the last
one. -/
def operatorSign (t : FNodeType) : String :=
  match t with
  | FNODE_ADD => " + "
  | FNODE_SUBTRACT => " - "
  | FNODE_MULTIPLYMATRIX => "*"
  | FNODE_MULTIPLY => "*"
  | FNODE_DIVIDE => "/"
  | _ => ""

/-- The loop over the inputs of an Add, Subtract, Multiply, Divide or MultiplyMatrix node:
the text of each input is built in `temp[32]` and appended to `body[1024]`. -/
def arithmeticText (node : FNodeData) (body : String) : Option String :=
  forLoop (fun i body =>
    (node.inputs[i]?).bind (fun input =>
      (if i + 1 = node.inputsCount then sprintf 32 ("node_" ++ fmtI2 input ++ ";\n")
        else (sprintf 32 ("node_" ++ fmtI2 input)).bind
          (fun temp => strcat 32 temp (operatorSign node.type))).bind
        (fun temp => strcat 1024 body temp))) 0 node.inputsCount body

/-- The inner `switch` of the case `FNODE_APPEND`. -/
def appendText (i0 i1 i2 i3 : Int) (dataCount : Nat) : Option String :=
  match dataCount with
  | 1 =>
    sprintf 32 ("node_" ++ fmtI2 i0 ++ ";\n")
  | 2 =>
    sprintf 32 ("vec2(node_" ++ fmtI2 i0 ++ ", node_" ++ fmtI2 i1 ++ ");\n")
  | 3 =>
    sprintf 32 ("vec3(node_" ++ fmtI2 i0 ++ ", node_" ++ fmtI2 i1 ++ ", node_" ++ fmtI2 i2 ++ ");\n")
  | 4 =>
    sprintf 32 ("vec4(node_" ++ fmtI2 i0 ++ ", node_" ++ fmtI2 i1 ++ ", node_" ++ fmtI2 i2 ++
      ", node_" ++ fmtI2 i3 ++ ");\n")
  | _ => some ""

/-- The inner `switch` of the case `FNODE_DESATURATE`. -/
def desaturateText (i0 i1 : Int) (dataCount : Nat) : Option String :=
  match dataCount with
  | 1 =>
    sprintf 32 ("mix(node_" ++ fmtI2 i0 ++ ", 0.3, node_" ++ fmtI2 i1 ++ ");\n")
  | 2 =>
    sprintf 32 ("vec2(mix(node_" ++ fmtI2 i0 ++ ".x, vec2(0.3, 0.59), node_" ++ fmtI2 i1 ++ "));\n")
  | 3 =>
    sprintf 32 ("vec3(mix(node_" ++ fmtI2 i0 ++ ".xyz, vec3(0.3, 0.59, 0.11), node_" ++ fmtI2 i1 ++
      "));\n")
  | 4 =>
    sprintf 32 ("vec4(mix(node_" ++ fmtI2 i0 ++ ".xyz, vec3(0.3, 0.59, 0.11), node_" ++ fmtI2 i1 ++
      "), 1.0);\n")
  | _ => some ""

/-- The inner `switch` of the case `FNODE_PROJECTION`. -/
def projectionText (i0 i1 : Int) (dataCount : Nat) : Option String :=
  match dataCount with
  | 2 =>
    sprintf 32 ("vec2(dot(node_" ++ fmtI2 i0 ++ ", node_" ++ fmtI2 i1 ++ ")/dot(node_" ++ fmtI2 i1 ++
      ", node_" ++ fmtI2 i1 ++ ")*node_" ++ fmtI2 i1 ++ ".x, dot(node_" ++ fmtI2 i0 ++
      ", node_" ++ fmtI2 i1 ++ ")/dot(node_" ++ fmtI2 i1 ++ ", node_" ++ fmtI2 i1 ++
      ")*node_" ++ fmtI2 i1 ++ ".y);\n")
  | 3 =>
    sprintf 32 ("vec3(dot(node_" ++ fmtI2 i0 ++ ", node_" ++ fmtI2 i1 ++ ")/dot(node_" ++ fmtI2 i1 ++
      ", node_" ++ fmtI2 i1 ++ ")*node_" ++ fmtI2 i1 ++ ".x, dot(node_" ++ fmtI2 i0 ++
      ", node_" ++ fmtI2 i1 ++ ")/dot(node_" ++ fmtI2 i1 ++ ", node_" ++ fmtI2 i1 ++
      ")*node_" ++ fmtI2 i1 ++ ".y, dot(node_" ++ fmtI2 i0 ++ ", node_" ++ fmtI2 i1 ++
      ")/dot(node_" ++ fmtI2 i1 ++ ", node_" ++ fmtI2 i1 ++ ")*node_" ++ fmtI2 i1 ++
      ".z);\n")
  | 4 =>
    sprintf 32 ("vec4(dot(node_" ++ fmtI2 i0 ++ ", node_" ++ fmtI2 i1 ++ ")/dot(node_" ++ fmtI2 i1 ++
      ", node_" ++ fmtI2 i1 ++ ")*node_" ++ fmtI2 i1 ++ ".x, dot(node_" ++ fmtI2 i0 ++
      ", node_" ++ fmtI2 i1 ++ ")/dot(node_" ++ fmtI2 i1 ++ ", node_" ++ fmtI2 i1 ++
      ")*node_" ++ fmtI2 i1 ++ ".y, dot(node_" ++ fmtI2 i0 ++ ", node_" ++ fmtI2 i1 ++
      ")/dot(node_" ++ fmtI2 i1 ++ ", node_" ++ fmtI2 i1 ++ ")*node_" ++ fmtI2 i1 ++
      ".z, dot(node_" ++ fmtI2 i0 ++ ", node_" ++ fmtI2 i1 ++ ")/dot(node_" ++ fmtI2 i1 ++
      ", node_" ++ fmtI2 i1 ++ ")*node_" ++ fmtI2 i1 ++ ".w);\n")
  | _ => some ""

/-- The inner `switch` of the case `FNODE_REJECTION`. -/
def rejectionText (i0 i1 : Int) (dataCount : Nat) : Option String :=
  match dataCount with
  | 2 =>
    sprintf 32 ("vec2(node_" ++ fmtI2 i0 ++ ".x - dot(node_" ++ fmtI2 i0 ++ ", node_" ++ fmtI2 i1 ++
      ")/dot(node_" ++ fmtI2 i1 ++ ", node_" ++ fmtI2 i1 ++ ")*node_" ++ fmtI2 i1 ++
      ".x, node_" ++ fmtI2 i0 ++ ".y - dot(node_" ++ fmtI2 i0 ++ ", node_" ++ fmtI2 i1 ++
      ")/dot(node_" ++ fmtI2 i1 ++ ", node_" ++ fmtI2 i1 ++ ")*node_" ++ fmtI2 i1 ++
      ".y);\n")
  | 3 =>
    sprintf 32 ("vec3(node_" ++ fmtI2 i0 ++ ".x - dot(node_" ++ fmtI2 i0 ++ ", node_" ++ fmtI2 i1 ++
      ")/dot(node_" ++ fmtI2 i1 ++ ", node_" ++ fmtI2 i1 ++ ")*node_" ++ fmtI2 i1 ++
      ".x, node_" ++ fmtI2 i0 ++ ".y - dot(node_" ++ fmtI2 i0 ++ ", node_" ++ fmtI2 i1 ++
      ")/dot(node_" ++ fmtI2 i1 ++ ", node_" ++ fmtI2 i1 ++ ")*node_" ++ fmtI2 i1 ++
      ".y, node_" ++ fmtI2 i0 ++ ".z - dot(node_" ++ fmtI2 i0 ++ ", node_" ++ fmtI2 i1 ++
      ")/dot(node_" ++ fmtI2 i1 ++ ", node_" ++ fmtI2 i1 ++ ")*node_" ++ fmtI2 i1 ++
      ".z);\n")
  | 4 =>
    sprintf 32 ("vec4(node_" ++ fmtI2 i0 ++ ".x - dot(node_" ++ fmtI2 i0 ++ ", node_" ++ fmtI2 i1 ++
      ")/dot(node_" ++ fmtI2 i1 ++ ", node_" ++ fmtI2 i1 ++ ")*node_" ++ fmtI2 i1 ++
      ".x, node_" ++ fmtI2 i0 ++ ".y - dot(node_" ++ fmtI2 i0 ++ ", node_" ++ fmtI2 i1 ++
      ")/dot(node_" ++ fmtI2 i1 ++ ", node_" ++ fmtI2 i1 ++ ")*node_" ++ fmtI2 i1 ++
      ".y, node_" ++ fmtI2 i0 ++ ".z - dot(node_" ++ fmtI2 i0 ++ ", node_" ++ fmtI2 i1 ++
      ")/dot(node_" ++ fmtI2 i1 ++ ", node_" ++ fmtI2 i1 ++ ")*node_" ++ fmtI2 i1 ++
      ".z, node_" ++ fmtI2 i0 ++ ".w - dot(node_" ++ fmtI2 i0 ++ ", node_" ++ fmtI2 i1 ++
      ")/dot(node_" ++ fmtI2 i1 ++ ", node_" ++ fmtI2 i1 ++ ")*node_" ++ fmtI2 i1 ++
      ".w);\n")
  | _ => some ""

/-- The `switch` of `CompileNode` for the kinds from `FNODE_APPEND` on: the text that
`sprintf` leaves in `temp[32]`.  The case `FNODE_PROJECTION` has no `break`, so the case
`FNODE_REJECTION` runs after it.  The sinks have no case. -/
def operatorText (node : FNodeData) : Option String :=
  (node.inputs[0]?).bind (fun i0 => (node.inputs[1]?).bind (fun i1 =>
  (node.inputs[2]?).bind (fun i2 => (node.inputs[3]?).bind (fun i3 =>
  match node.type with
  | FNODE_APPEND => appendText i0 i1 i2 i3 node.output.dataCount
  | FNODE_ONEMINUS =>
    sprintf 32 ("(1 - node_" ++ fmtI2 i0 ++ ");\n")
  | FNODE_ABS =>
    sprintf 32 ("abs(node_" ++ fmtI2 i0 ++ ");\n")
  | FNODE_COS =>
    sprintf 32 ("cos(node_" ++ fmtI2 i0 ++ ");\n")
  | FNODE_SIN =>
    sprintf 32 ("sin(node_" ++ fmtI2 i0 ++ ");\n")
  | FNODE_TAN =>
    sprintf 32 ("tan(node_" ++ fmtI2 i0 ++ ");\n")
  | FNODE_DEG2RAD =>
    sprintf 32 ("node_" ++ fmtI2 i0 ++ "*(3.14159265358979323846/180.0);\n")
  | FNODE_RAD2DEG =>
    sprintf 32 ("node_" ++ fmtI2 i0 ++ "*(180.0/3.14159265358979323846);\n")
  | FNODE_NORMALIZE =>
    sprintf 32 ("normalize(node_" ++ fmtI2 i0 ++ ");\n")
  | FNODE_NEGATE =>
    sprintf 32 ("node_" ++ fmtI2 i0 ++ "*-1;\n")
  | FNODE_RECIPROCAL =>
    sprintf 32 ("1/node_" ++ fmtI2 i0 ++ ";\n")
  | FNODE_SQRT =>
    sprintf 32 ("sqrt(node_" ++ fmtI2 i0 ++ ");\n")
  | FNODE_TRUNC =>
    sprintf 32 ("trunc(node_" ++ fmtI2 i0 ++ ");\n")
  | FNODE_ROUND =>
    sprintf 32 ("round(node_" ++ fmtI2 i0 ++ ");\n")
  | FNODE_CEIL =>
    sprintf 32 ("ceil(node_" ++ fmtI2 i0 ++ ");\n")
  | FNODE_CLAMP01 =>
    sprintf 32 ("clamp(node_" ++ fmtI2 i0 ++ ", 0.0, 1.0);\n")
  | FNODE_EXP2 =>
    sprintf 32 ("exp2(node_" ++ fmtI2 i0 ++ ");\n")
  | FNODE_POWER =>
    sprintf 32 ("pow(node_" ++ fmtI2 i0 ++ ", node_" ++ fmtI2 i1 ++ ");\n")
  | FNODE_STEP =>
    sprintf 32 ("((node_" ++ fmtI2 i0 ++ " <= node_" ++ fmtI2 i1 ++ ") ? 1.0 : 0.0);\n")
  | FNODE_POSTERIZE =>
    sprintf 32 ("floor(node_" ++ fmtI2 i0 ++ "*node_" ++ fmtI2 i1 ++ ")/node_" ++ fmtI2 i1 ++ ";\n")
  | FNODE_MAX =>
    sprintf 32 ("max(node_" ++ fmtI2 i0 ++ ", node_" ++ fmtI2 i1 ++ ");\n")
  | FNODE_MIN =>
    sprintf 32 ("min(node_" ++ fmtI2 i0 ++ ", node_" ++ fmtI2 i1 ++ ");\n")
  | FNODE_LERP =>
    sprintf 32 ("lerp(node_" ++ fmtI2 i0 ++ ", node_" ++ fmtI2 i1 ++ ", node_" ++ fmtI2 i2 ++ ");\n")
  | FNODE_SMOOTHSTEP =>
    sprintf 32 ("smoothstep(node_" ++ fmtI2 i0 ++ ", node_" ++ fmtI2 i1 ++ ", node_" ++ fmtI2 i2 ++
      ");\n")
  | FNODE_CROSSPRODUCT =>
    sprintf 32 ("cross(node_" ++ fmtI2 i0 ++ ", node_" ++ fmtI2 i1 ++ ");\n")
  | FNODE_DESATURATE => desaturateText i0 i1 node.output.dataCount
  | FNODE_DISTANCE =>
    sprintf 32 ("distance(node_" ++ fmtI2 i0 ++ ", node_" ++ fmtI2 i1 ++ ");\n")
  | FNODE_DOTPRODUCT =>
    sprintf 32 ("dot(node_" ++ fmtI2 i0 ++ ", node_" ++ fmtI2 i1 ++ ");\n")
  | FNODE_LENGTH =>
    sprintf 32 ("length(node_" ++ fmtI2 i0 ++ ");\n")
  | FNODE_TRANSPOSE =>
    sprintf 32 ("transpose(node_" ++ fmtI2 i0 ++ ");\n")
  | FNODE_PROJECTION =>
    (projectionText i0 i1 node.output.dataCount).bind
      (fun _ => rejectionText i0 i1 node.output.dataCount)
  | FNODE_REJECTION => rejectionText i0 i1 node.output.dataCount
  | FNODE_HALFDIRECTION =>
    sprintf 32 ("normalize(node_" ++ fmtI2 i0 ++ " + node_" ++ fmtI2 i1 ++ ");\n")
  | _ => some ""))))

/-- The statement that `CompileNode` builds in `body[1024]` for a node that is not found
declared. -/
def bodyText (fragment : Bool) (node : FNodeData) : Option String :=
  (definitionText fragment node).bind (fun definition =>
  (strcat 1024 "" definition).bind (fun body =>
    if isGeometry node.type then strcat 1024 body (geometryText fragment node.type)
    else if (node.type.toInt ≥ FNODE_ADD.toInt ∧ node.type.toInt ≤ FNODE_DIVIDE.toInt) ∨
        node.type = FNODE_MULTIPLYMATRIX then arithmeticText node body
    else if node.type.toInt ≥ FNODE_APPEND.toInt then
      (operatorText node).bind (fun temp => strcat 1024 body temp)
    else some body))

/-- The test that `CompileNode` makes on an input before it compiles it:
`type > FNODE_VECTOR4`, or one of the kinds `FNODE_VERTEXPOSITION .. FNODE_MVP`. -/
def isCompiled (t : FNodeType) : Bool :=
  decide (t.toInt > FNODE_VECTOR4.toInt) || isGeometry t

/-- The function `CompileNode`, with `fuel` nested calls left: a call that finds none left
does not return, which is what a cycle of lines leads to. -/
def CompileNode (L : CLib) (nodes : List FNodeData) :
    Nat → FNodeData → FileStream → Bool → Files → Option Files
  | 0, _, _, _, _ => none
  | fuel + 1, node, file, fragment, files =>
    if node.inputsCount > 0 ∨ isGeometry node.type then
      (forLoop (fun i files =>
        (node.inputs[i]?).bind (fun input =>
          (nodeAt nodes (GetNodeIndex nodes input)).bind (fun src =>
            if isCompiled src.type then CompileNode L nodes fuel src file fragment files
            else some files))) 0 node.inputsCount files).bind (fun files =>
      (checkText fragment node).bind (fun check =>
      (FSearch L (fragmentOnDisk L files) check).bind (fun found =>
        if found then some files
        else (bodyText fragment node).bind (fun body => fprintf files file body))))
    else some files

/-- The line that the fragment stage writes for `nodes[i]` under `// Constant values`.
The formats of the cases `FNODE_PI` and `FNODE_E` have the conversion `"%02i"` and no
argument for it. -/
def constantText (L : CLib) (n : FNodeData) : Option String :=
  match n.type with
  | FNODE_PI => none
  | FNODE_E => none
  | FNODE_VALUE =>
    (n.output.data[0]?).bind (fun d0 =>
      some ("const float node_" ++ fmtI2 n.id ++ " = " ++ L.fixed3 d0 ++ ";\n"))
  | FNODE_VECTOR2 =>
    (n.output.data[0]?).bind (fun d0 => (n.output.data[1]?).bind (fun d1 =>
      some ("const vec2 node_" ++ fmtI2 n.id ++ " = vec2(" ++ L.fixed3 d0 ++ ", " ++
        L.fixed3 d1 ++ ");\n")))
  | FNODE_VECTOR3 =>
    (n.output.data[0]?).bind (fun d0 => (n.output.data[1]?).bind (fun d1 =>
    (n.output.data[2]?).bind (fun d2 =>
      some ("const vec3 node_" ++ fmtI2 n.id ++ " = vec3(" ++ L.fixed3 d0 ++ ", " ++
        L.fixed3 d1 ++ ", " ++ L.fixed3 d2 ++ ");\n"))))
  | FNODE_VECTOR4 =>
    (n.output.data[0]?).bind (fun d0 => (n.output.data[1]?).bind (fun d1 =>
    (n.output.data[2]?).bind (fun d2 => (n.output.data[3]?).bind (fun d3 =>
      some ("const vec4 node_" ++ fmtI2 n.id ++ " = vec4(" ++ L.fixed3 d0 ++ ", " ++
        L.fixed3 d1 ++ ", " ++ L.fixed3 d2 ++ ", " ++ L.fixed3 d3 ++ ");\n")))))
  | _ => some ""

/-- The loop `for (i = 0; i < nodesCount; i++)` under `// Constant values`. -/
def constantLines (L : CLib) (nodes : List FNodeData) (files : Files) : Option Files :=
  forLoop (fun i files =>
    (nodes[i]?).bind (fun n =>
      (constantText L n).bind (fun line => fprintf files .fragmentFile line)))
    0 nodes.length files

/-- The `switch` at the end of the vertex stage: the final assignment for the width of the
node at the sink, written with the id `nodes[0]->inputs[0]`. -/
def vertexAssignment (dataCount : Nat) (input : Int) : String :=
  match dataCount with
  | 1 => "\n    gl_Position = vec4(node_" ++ fmtI2 input ++ ", node_" ++ fmtI2 input ++
      ", node_" ++ fmtI2 input ++ ", 1.0);\n\x7d"
  | 2 => "\n    gl_Position = vec4(node_" ++ fmtI2 input ++ ".xy, 0.0, 1.0);\n\x7d"
  | 3 => "\n    gl_Position = vec4(node_" ++ fmtI2 input ++ ".xyz, 1.0);\n\x7d"
  | 4 => "\n    gl_Position = node_" ++ fmtI2 input ++ ";\n\x7d"
  | 16 => "\n    gl_Position = node_" ++ fmtI2 input ++ ";\n\x7d"
  | _ => ""

/-- The `switch` at the end of the fragment stage, written with the id
`nodes[1]->inputs[0]`. -/
def fragmentAssignment (dataCount : Nat) (input : Int) : String :=
  match dataCount with
  | 1 => "\n    finalColor = vec4(node_" ++ fmtI2 input ++ ", node_" ++ fmtI2 input ++
      ", node_" ++ fmtI2 input ++ ", 1.0);\n\x7d"
  | 2 => "\n    finalColor = vec4(node_" ++ fmtI2 input ++ ".xy, 0.0, 1.0);\n\x7d"
  | 3 => "\n    finalColor = vec4(node_" ++ fmtI2 input ++ ".xyz, 1.0);\n\x7d"
  | 4 => "\n    finalColor = node_" ++ fmtI2 input ++ ";\n\x7d"
  | _ => ""

/-- The text of the vertex shader up to the call of `CompileNode`. -/
def vertexTop : String := vHeader ++ vIn ++ vOut ++ vUniforms ++ vMain

/-- The text of the fragment shader up to the constants. -/
def fragmentTop : String :=
  fHeader ++ "// Input attributes\n" ++ fIn ++ "// Uniform attributes\n" ++ fUniforms ++
    "// Output attributes\n" ++ fOut ++ "// Constant values\n"

/-- The end of a stage: the node at the input `inputs[0]` of the sink `nodes[sink]` is
compiled, then the final assignment is written. -/
def compileSink (L : CLib) (nodes : List FNodeData) (sink : Nat) (file : FileStream)
    (fragment : Bool) (files : Files) : Option Files :=
  (nodes[sink]?).bind (fun s => (s.inputs[0]?).bind (fun input =>
  (nodeAt nodes (GetNodeIndex nodes input)).bind (fun node =>
  (CompileNode L nodes (nodes.length + 1) node file fragment files).bind (fun files =>
    fprintf files file
      (if fragment then fragmentAssignment node.output.dataCount input
        else vertexAssignment node.output.dataCount input)))))

/-- The vertex stage of `CompileShader`: the file is created, written and closed. -/
def compileVertex (L : CLib) (nodes : List FNodeData) (files : Files) : Option Files :=
  (fprintf { files with vertex := some "" } .vertexFile vertexTop).bind
    (compileSink L nodes 0 .vertexFile false)

/-- The fragment stage of `CompileShader`. -/
def compileFragment (L : CLib) (nodes : List FNodeData) (files : Files) : Option Files :=
  (fprintf { files with fragment := some "" } .fragmentFile fragmentTop).bind (fun files =>
  (constantLines L nodes files).bind (fun files =>
  (fprintf files .fragmentFile fMain).bind
    (compileSink L nodes 1 .fragmentFile true)))

/-- The function `CompileShader` up to the call of `LoadShader`: the three files it
leaves in the output folder, whatever was there before. -/
def CompileShader (L : CLib) (g : Graph) : Option Files :=
  (dataLines g).bind (fun data =>
  (compileVertex L g.nodes { data := some data, vertex := none, fragment := none }).bind
    (compileFragment L g.nodes))

/-! ## Loading the stored graph -/

/-- The enumerator with the given integer value. -/
def FNodeType.ofInt (i : Int) : Option FNodeType :=
  [FNODE_PI, FNODE_E, FNODE_VERTEXPOSITION, FNODE_VERTEXNORMAL, FNODE_FRESNEL,
    FNODE_VIEWDIRECTION, FNODE_MVP, FNODE_MATRIX, FNODE_VALUE, FNODE_VECTOR2, FNODE_VECTOR3,
    FNODE_VECTOR4, FNODE_ADD, FNODE_SUBTRACT, FNODE_MULTIPLY, FNODE_DIVIDE, FNODE_APPEND,
    FNODE_ONEMINUS, FNODE_ABS, FNODE_COS, FNODE_SIN, FNODE_TAN, FNODE_DEG2RAD, FNODE_RAD2DEG,
    FNODE_NORMALIZE, FNODE_NEGATE, FNODE_RECIPROCAL, FNODE_SQRT, FNODE_TRUNC, FNODE_ROUND,
    FNODE_CEIL, FNODE_CLAMP01, FNODE_EXP2, FNODE_POWER, FNODE_STEP, FNODE_POSTERIZE,
    FNODE_MAX, FNODE_MIN, FNODE_LERP, FNODE_SMOOTHSTEP, FNODE_CROSSPRODUCT, FNODE_DESATURATE,
    FNODE_DISTANCE, FNODE_DOTPRODUCT, FNODE_LENGTH, FNODE_MULTIPLYMATRIX, FNODE_TRANSPOSE,
    FNODE_PROJECTION, FNODE_REJECTION, FNODE_HALFDIRECTION, FNODE_VERTEX,
    FNODE_FRAGMENT].find? (fun t => t.toInt == i)

/-- The body of the first loop of the branch of `InitFNode` that reads
`output/shader.data`: `InitializeNode` gives the new node its id, the other fields are
those of the line. -/
def loadNode (L : CLib) (g : Graph) (type : Int) (inputs : List Int)
    (inputsCount inputsLimit dataCount : Int) (data : List ℚ) : Option Graph :=
  (FNodeType.ofInt type).bind (fun t =>
  (InitializeNode g.nodes t).bind (fun newNode =>
    if inputs.length = MAX_INPUTS ∧ data.length = MAX_VALUES then
      some { g with nodes := g.nodes ++ [{ newNode with
        inputs := inputs
        inputsCount := inputsCount.toNat
        inputsLimit := inputsLimit.toNat
        output := { data := data.map L.readBack, dataCount := dataCount.toNat } }] }
    else none))

/-- The first loop: it goes on as long as `fscanf` reads the line of a node; the store
and the lines left. -/
def loadNodes (L : CLib) : List DataLine → Graph → Option (Graph × List DataLine)
  | .node type inputs inputsCount inputsLimit dataCount data :: rest, g =>
    (loadNode L g type inputs inputsCount inputsLimit dataCount data).bind (loadNodes L rest)
  | rest, g => some (g, rest)

/-- The second loop: it goes on as long as `fscanf` reads the line of a line, which
`CreateNodeLine(from)` creates and `tempLine->to = to` completes. -/
def loadLines : List DataLine → Graph → Option Graph
  | .edge from_ to_ :: rest, g =>
    (CreateNodeLine g from_).bind (fun r =>
      loadLines rest { r.1 with lines := g.lines ++ [{ r.2 with to_ := to_ }] })
  | _, g => some g

/-- The branch of `InitFNode` taken when the shaders of the output folder load and
`output/shader.data` opens: the nodes, the lines, then one `CalculateValues`. -/
def InitFNodeStored (L : CLib) (M : Libm) (files : Files) : Option Graph :=
  (files.data).bind (fun data =>
  (loadNodes L data { nodes := [], lines := [] }).bind (fun r =>
  (loadLines r.2 r.1).bind (CalculateValues M)))

/-! ## A C library for the examples -/

/-- The integer nearest to `q ≥ 0`, the even one of two. -/
def roundHalfEven (q : ℚ) : Nat :=
  let f := (Rat.floor q).toNat
  if q - f < 1 / 2 then f
  else if q - f > 1 / 2 then f + 1
  else if f % 2 = 0 then f else f + 1

/-- The digits of `n`, at least three of them. -/
def threeDigits (n : Nat) : String :=
  (if n < 10 then "00" else if n < 100 then "0" else "") ++ toString n

/-- The conversion `"%.3f"` of an exact value. -/
def fixedText (q : ℚ) : String :=
  (if q < 0 then "-" else "") ++ toString (roundHalfEven (|q| * 1000) / 1000) ++ "." ++
    threeDigits (roundHalfEven (|q| * 1000) % 1000)

/-- The value of the six decimals that `"%f"` writes. -/
def sixDecimals (q : ℚ) : ℚ :=
  (if q < 0 then -1 else 1) * (roundHalfEven (|q| * 1000000) : ℚ) / 1000000

/-- A C library with streams of 4096 characters, in which `fgets` faults on a null
stream. -/
def exampleCLib : CLib :=
  { bufferSize := 4096, fgetsNull := false, fixed3 := fixedText, readBack := sixDecimals }

/-- The same library with a `fgets` that returns `NULL` for a null stream. -/
def lenientCLib : CLib := { exampleCLib with fgetsNull := true }

/-- The same library with streams that are not buffered. -/
def unbufferedCLib : CLib := { exampleCLib with bufferSize := 1 }

/-! ## Examples for the generated files -/

/-- The files that `CompileShader` leaves for the store that the edits lead to from the
fresh start. -/
def compileAfter (L : CLib) (edits : List Edit) : Option Files :=
  (InitFNode.bind (applyEdits exampleLibm edits)).bind (CompileShader L)

/-- The store that the loading branch of `InitFNode` builds from those files. -/
def reloadAfter (L : CLib) (edits : List Edit) : Option Graph :=
  (compileAfter L edits).bind (InitFNodeStored L exampleLibm)

/-- The number of places of `text` at which `word` stands. -/
def occurrences (word text : String) : Nat :=
  (text.toList.tails.filter (fun t => word.toList.isPrefixOf t)).length

/-- The ids, kinds and live inputs of the nodes, and the two ends of the lines. -/
def wiringSummary (g : Graph) : List (Nat × FNodeType × List Int) × List (Nat × Nat) :=
  (g.nodes.map (fun n => (n.id, n.type, n.inputs.take n.inputsCount)),
    g.lines.map (fun l => (l.from_, l.to_)))

/-- Value(2) (id 2), One Minus (id 3), Abs (id 4) and Add (id 5); the One Minus node is
an input of the Abs node and of the Add node, which is at the fragment sink; the Value
node is at the vertex sink. -/
def exampleFanEdits : List Edit :=
  [.menu (.value 2), .menu (.operator FNODE_ONEMINUS 1), .menu (.operator FNODE_ABS 1),
   .menu (.operator FNODE_ADD 4), .link 2 3, .link 3 4, .link 3 5, .link 4 5, .link 5 1,
   .link 2 0]

/-- The same nodes with the Add node at both sinks. -/
def exampleFanBothEdits : List Edit :=
  [.menu (.value 2), .menu (.operator FNODE_ONEMINUS 1), .menu (.operator FNODE_ABS 1),
   .menu (.operator FNODE_ADD 4), .link 2 3, .link 3 4, .link 3 5, .link 4 5, .link 5 1,
   .link 5 0]

/-- Value(2) (id 2) feeding the Abs node with id 100 and the One Minus node with id 10,
which feed the Add node 3 at the fragment sink; the Value node is at the vertex sink.
Such ids are left when nodes created in between have been deleted. -/
def exampleWideIdGraph : Graph :=
  { nodes := [linkedNode 0 FNODE_VERTEX MAX_INPUTS 2 [2],
              linkedNode 1 FNODE_FRAGMENT MAX_INPUTS 3 [1],
              literalNode 2 FNODE_VALUE [2],
              { linkedNode 3 FNODE_ADD MAX_INPUTS 100 [1] with
                inputs := [100, 10, -1, -1], inputsCount := 2 },
              linkedNode 10 FNODE_ONEMINUS 1 2 [-1],
              linkedNode 100 FNODE_ABS 1 2 [2]]
    lines := [{ id := 0, from_ := 2, to_ := 100 }, { id := 1, from_ := 2, to_ := 10 },
              { id := 2, from_ := 100, to_ := 3 }, { id := 3, from_ := 10, to_ := 3 },
              { id := 4, from_ := 3, to_ := 1 }, { id := 5, from_ := 2, to_ := 0 }] }

/-- Value(2) (id 2), an Add node without inputs (id 3) and an Append node (id 4) with
the inputs 3 and 2, at the fragment sink; the Value node is at the vertex sink. -/
def exampleOrphanEdits : List Edit :=
  [.menu (.value 2), .menu (.operator FNODE_ADD 4), .menu (.operator FNODE_APPEND 4),
   .link 3 4, .link 2 4, .link 4 1, .link 2 0]

/-- The node of the button "Matrix 4x4" (id 2) at both sinks. -/
def exampleMatrixSinkEdits : List Edit := [.menu .matrix, .link 2 0, .link 2 1]

/-- The node "Vertex Position" (id 2) feeding a Normalize node (id 3), which is at both
sinks. -/
def exampleNormalEdits : List Edit :=
  [.menu (.uniform FNODE_VERTEXPOSITION 3), .menu (.operator FNODE_NORMALIZE 1), .link 2 3,
   .link 3 0, .link 3 1]

/-- Value(2) (id 2) at the vertex sink; an Add node without inputs (id 3) feeding a
One Minus node (id 4), which is at the fragment sink. -/
def exampleBareEdits : List Edit :=
  [.menu (.value 2), .menu (.operator FNODE_ADD 4), .menu (.operator FNODE_ONEMINUS 1),
   .link 3 4, .link 4 1, .link 2 0]

/-- Value(2) (id 2) at both sinks. -/
def exampleValueSinkEdits : List Edit := [.menu (.value 2), .link 2 0, .link 2 1]

/-- The node "Pi" (id 2) at both sinks. -/
def examplePiSinkEdits : List Edit := [.menu .pi, .link 2 0, .link 2 1]

/-- Value(2) (id 2) at the vertex sink, nothing at the fragment sink. -/
def exampleOpenSinkEdits : List Edit := [.menu (.value 2), .link 2 0]

/-- Value(5) (id 2), Value(2) (id 3), One Minus (id 4) and Value(7) (id 5); node 3 feeds
the One Minus node and the vertex sink, the One Minus node feeds the fragment sink. -/
def exampleStoredEdits : List Edit :=
  [.menu (.value 5), .menu (.value 2), .menu (.operator FNODE_ONEMINUS 1), .menu (.value 7),
   .link 3 4, .link 4 1, .link 3 0]

/-- The same edits, then the deletion of the node with id 2: the ids left are
0, 1, 3, 4 and 5. -/
def exampleGapEdits : List Edit := exampleStoredEdits ++ [.delete 2]

/-- Value(5) (id 2), Value(2) (id 3) and two Add nodes (ids 4 and 5): six nodes and the
seven lines 2→4, 3→4, 2→5, 3→5, 4→5, 5→1 and 2→0. -/
def exampleDenseEdits : List Edit :=
  [.menu (.value 5), .menu (.value 2), .menu (.operator FNODE_ADD 4),
   .menu (.operator FNODE_ADD 4), .link 2 4, .link 3 4, .link 2 5, .link 3 5, .link 4 5,
   .link 5 1, .link 2 0]

/-- The lines `?from?to` of a file. -/
def edgeRecords (files : Files) : Option (List (Nat × Nat)) :=
  files.data.map (fun d => d.filterMap (fun l =>
    match l with
    | .edge from_ to_ => some (from_, to_)
    | .node _ _ _ _ _ _ => none))

/-! ## Examples for the operators -/

/-- The smoothstep formula as the specification states it: `t*t*(3 - 2*t)` with
`t = clamp((value - min)/(max - min), 0, 1)`. -/
def specSmoothStep (min max value : ℚ) : ℚ :=
  let t := FClamp ((value - min)/(max - min)) 0 1
  t*t*(3 - 2*t)

/-- Value(1) (id 0), Value(3) (id 1) and Value(2) (id 2), linked in this order into the
Smooth Step node 3. -/
def exampleSmoothGraph : Graph :=
  { nodes := [literalNode 0 FNODE_VALUE [1], literalNode 1 FNODE_VALUE [3],
              literalNode 2 FNODE_VALUE [2], blankNode 3 FNODE_SMOOTHSTEP 3]
    lines := [{ id := 0, from_ := 0, to_ := 3 }, { id := 1, from_ := 1, to_ := 3 },
              { id := 2, from_ := 2, to_ := 3 }] }

/-- Value(3) (id 2), Value(1) (id 3) and two Distance nodes: node 4 with the inputs 2 and
3, node 5 with the inputs 3 and 2. -/
def exampleDistanceEdits : List Edit :=
  [.menu (.value 3), .menu (.value 1), .menu (.operator FNODE_DISTANCE 2),
   .menu (.operator FNODE_DISTANCE 2), .link 2 4, .link 3 4, .link 3 5, .link 2 5]

/-- Value(1) (id 2), Add (id 3), Value(1/2) (id 4), Step (id 5), Value(3) (id 6) and Min
(id 7), with the lines 2→3, 3→5, 4→5, 6→7 and 5→7, then the removal of the line into the
Add node: every line starts at a node stored before the node it ends in. -/
def exampleStaleEdits : List Edit :=
  [.menu (.value 1), .menu (.operator FNODE_ADD 4), .menu (.value (1/2)),
   .menu (.operator FNODE_STEP 2), .menu (.value 3), .menu (.operator FNODE_MIN 2),
   .link 2 3, .link 3 5, .link 4 5, .link 6 7, .link 5 7, .unlinkInput 3]

/-- The places at which `CompileShader` reads the sinks: `nodes[0]` is the vertex sink,
with id 0, and `nodes[1]` the fragment sink, with id 1. -/
def SinkSlots (ns : List FNodeData) : Prop :=
  (∃ v, ns[0]? = some v ∧ v.type = FNODE_VERTEX ∧ v.id = 0) ∧
    ∃ f, ns[1]? = some f ∧ f.type = FNODE_FRAGMENT ∧ f.id = 1

/-! ## The bound on the inputs of a node -/

/-- The bounds that the link operations keep: the node ids are distinct and below
`MAX_NODES`, no input limit is above `MAX_INPUTS`, no more lines end in a node than its
limit allows, and every attached line ends in a live node. -/
def LinkBounded (g : Graph) : Prop :=
  (g.nodes.map (fun n => n.id)).Nodup ∧
    (∀ n ∈ g.nodes, n.id < MAX_NODES ∧ n.inputsLimit ≤ MAX_INPUTS ∧
      (inboundIds g.lines n.id).length ≤ n.inputsLimit) ∧
    ∀ l ∈ g.lines, l.to_ = UNATTACHED ∨ ∃ n ∈ g.nodes, n.id = l.to_

/-- The field `inputsCount` of every node is the number of lines that end in the node. -/
def CountsFresh (g : Graph) : Prop :=
  ∀ n ∈ g.nodes, n.inputsCount = (inboundIds g.lines n.id).length

/-- The stores that the program reaches from the fresh start of `InitFNode` by clicks on
the node menu, by the steps of a link gesture (the click on the output of `nodes[i]`,
which creates the pending line; the click on the input of `nodes[i]` with a pending line
`t`, which completes the gesture when the validator accepts it and leaves the store as
it is otherwise; the right click that destroys the pending line), by right clicks on an
output or an input, by deleting right clicks and by recomputations of the values. -/
inductive LinkReachable (M : Libm) : Graph → Prop
  | init (g : Graph) : InitFNode = some g → LinkReachable M g
  | menu (g g' : Graph) (b : MenuButton) :
      LinkReachable M g → b.valid = true → clickMenu M g b = some g' → LinkReachable M g'
  | begin (g g' : Graph) (i : Nat) (t : FLineData) :
      LinkReachable M g → beginLink g i = some (g', t) → LinkReachable M g'
  | complete (g g' : Graph) (t : FLineData) (i : Nat) :
      LinkReachable M g → completeLink M g t i = some g' → LinkReachable M g'
  | cancel (g g' : Graph) (t : FLineData) :
      LinkReachable M g → DestroyNodeLine M g t = some g' → LinkReachable M g'
  | unlinkOutput (g g' : Graph) (i : Nat) :
      LinkReachable M g → unlinkOutput M g i = some g' → LinkReachable M g'
  | unlinkInput (g g' : Graph) (i : Nat) :
      LinkReachable M g → unlinkInput M g i = some g' → LinkReachable M g'
  | delete (g g' : Graph) (i : Nat) :
      LinkReachable M g → deleteClick M g i = some g' → LinkReachable M g'
  | evaluate (g g' : Graph) :
      LinkReachable M g → CalculateValues M g = some g' → LinkReachable M g'

/-! ## The nested calls of `CompileNode` -/

/-- Why a run of `CompileNode` leaves no files: a step without defined behaviour, or no
nested call left. -/
inductive Stop
  | fault
  | endless
  deriving DecidableEq, Repr

/-- A step that faults when its value is missing. -/
def orFault {α : Type} : Option α → Except Stop α
  | some a => .ok a
  | none => .error .fault

/-- The loop of `forLoop` for steps that tell why they stop. -/
def forLoopRun {σ : Type} (body : Nat → σ → Except Stop σ) : Nat → Nat → σ → Except Stop σ
  | _, 0, s => .ok s
  | j, k + 1, s => (body j s).bind (forLoopRun body (j + 1) k)

/-- The function `CompileNode` as in the definition `CompileNode` above, with the reason
kept when no files are left: `Stop.endless` for a call that finds no nested call left,
`Stop.fault` for every other step without a value. -/
def CompileNodeRun (L : CLib) (nodes : List FNodeData) :
    Nat → FNodeData → FileStream → Bool → Files → Except Stop Files
  | 0, _, _, _, _ => .error .endless
  | fuel + 1, node, file, fragment, files =>
    if node.inputsCount > 0 ∨ isGeometry node.type then
      (forLoopRun (fun i files =>
        (orFault (node.inputs[i]?)).bind (fun input =>
          (orFault (nodeAt nodes (GetNodeIndex nodes input))).bind (fun src =>
            if isCompiled src.type then CompileNodeRun L nodes fuel src file fragment files
            else .ok files))) 0 node.inputsCount files).bind (fun files =>
      orFault ((checkText fragment node).bind (fun check =>
      (FSearch L (fragmentOnDisk L files) check).bind (fun found =>
        if found then some files
        else (bodyText fragment node).bind (fun body => fprintf files file body)))))
    else .ok files

/-- The call of `CompileNode` at `nodes[i]` calls `CompileNode` at `nodes[j]`: an input
`inputs[k]` of `nodes[i]` with `k < inputsCount` has the index `j`, and the kind of
`nodes[j]` passes the test before the nested call. -/
def CompileCall (nodes : List FNodeData) (i j : Nat) : Prop :=
  ∃ node k input src, nodes[i]? = some node ∧ k < node.inputsCount ∧
    node.inputs[k]? = some input ∧ GetNodeIndex nodes input = (j : Int) ∧
    nodes[j]? = some src ∧ isCompiled src.type = true

/-- Every input in use of every node from `nodes[first]` on is stored before the node,
and not before `nodes[first]`. -/
def inputsStoredBefore (nodes : List FNodeData) (first : Nat) : Bool :=
  (List.range nodes.length).all (fun i => decide (i < first) ||
    match nodes[i]? with
    | none => true
    | some node =>
      (List.range node.inputsCount).all (fun k =>
        match node.inputs[k]? with
        | none => true
        | some input =>
          decide ((first : Int) ≤ GetNodeIndex nodes input ∧
            GetNodeIndex nodes input < (i : Int))))

/-- Value(2) (id 2), One Minus (id 3) and Negate (id 4), with the lines 2→3, 3→4 and from
the Negate node to the fragment sink. -/
def exampleNegateEdits : List Edit :=
  [.menu (.value 2), .menu (.operator FNODE_ONEMINUS 1), .menu (.operator FNODE_NEGATE 1),
   .link 2 3, .link 3 4, .link 4 1]

/-! ## The operations of `float` for the examples

The type `float` of the build is the binary32 format: 24 binary digits, exponents from
-126 to 127, round to nearest with ties to the even digit, and the values infinity and
not-a-number.  Here a finite value is the rational it denotes, infinity is `floatInf`
(or its negation) and not-a-number is `floatNaN`, two rationals that no finite `float`
denotes.  Zero has no sign. -/

/-- The number of binary digits of `n`, by halving at most `fuel` times. -/
def bitLength : Nat → Nat → Nat
  | 0, _ => 0
  | fuel + 1, n => if n = 0 then 0 else bitLength fuel (n / 2) + 1

/-- The power of two with the integer exponent `e`. -/
def twoPow (e : Int) : ℚ :=
  if 0 ≤ e then ((2 ^ e.toNat : Nat) : ℚ) else 1 / ((2 ^ (-e).toNat : Nat) : ℚ)

/-- The exponent `e` with `2^e ≤ |q| < 2^(e+1)`, for `q` other than zero. -/
def binaryExponent (q : ℚ) : Int :=
  let e : Int := (bitLength q.num.natAbs q.num.natAbs : Int) - (bitLength q.den q.den : Int)
  if twoPow e ≤ |q| then e else e - 1

/-- The rational that stands for infinity: `2^128`, above every finite `float`. -/
def floatInf : ℚ := twoPow 128

/-- The rational that stands for not-a-number. -/
def floatNaN : ℚ := twoPow 129

/-- The value of type `float` that an exact result `q` is rounded to: the nearest
multiple of the unit in the last of 24 binary digits, the even one of two, and infinity
with the sign of `q` when that is `2^128` or more in magnitude. -/
def roundFloat (q : ℚ) : ℚ :=
  if q = 0 then 0
  else
    let unit := twoPow (max (binaryExponent q) (-126) - 23)
    let r := (roundHalfEven (|q| / unit) : ℚ) * unit
    if floatInf ≤ r then (if q < 0 then -floatInf else floatInf)
    else if q < 0 then -r else r

/-- The sum of two values of type `float`. -/
def floatAdd (x y : ℚ) : ℚ :=
  if x = floatNaN ∨ y = floatNaN then floatNaN
  else if |x| = floatInf then (if y = -x then floatNaN else x)
  else if |y| = floatInf then y
  else roundFloat (x + y)

/-- The difference of two values of type `float`. -/
def floatSub (x y : ℚ) : ℚ :=
  if y = floatNaN then floatNaN else floatAdd x (-y)

/-- Infinity with the sign of the product of `x` and `y`. -/
def signedInf (x y : ℚ) : ℚ :=
  if decide (x < 0) = decide (y < 0) then floatInf else -floatInf

/-- The product of two values of type `float`. -/
def floatMul (x y : ℚ) : ℚ :=
  if x = floatNaN ∨ y = floatNaN then floatNaN
  else if |x| = floatInf ∨ |y| = floatInf then
    (if x = 0 ∨ y = 0 then floatNaN else signedInf x y)
  else roundFloat (x * y)

/-- The quotient of two values of type `float`. -/
def floatDiv (x y : ℚ) : ℚ :=
  if x = floatNaN ∨ y = floatNaN then floatNaN
  else if |x| = floatInf then (if |y| = floatInf then floatNaN else signedInf x y)
  else if |y| = floatInf then 0
  else if y = 0 then (if x = 0 then floatNaN else signedInf x 1)
  else roundFloat (x / y)

/-- The `Libm` of the examples with the four operations of the type `float`. -/
def floatLibm : Libm :=
  { exampleLibm with add := floatAdd, sub := floatSub, mul := floatMul, div := floatDiv }

/-- Value(16777216) with id 0 and Value(1) with id 1, both linked into the Add node 2. -/
def exampleRoundedAddGraph : Graph :=
  { nodes := [literalNode 0 FNODE_VALUE [16777216], literalNode 1 FNODE_VALUE [1],
              blankNode 2 FNODE_ADD MAX_INPUTS]
    lines := [{ id := 0, from_ := 0, to_ := 2 }, { id := 1, from_ := 1, to_ := 2 }] }

/-- Value(2^127) with id 0 and Value(2^127) with id 1, both linked into the Add node 2. -/
def exampleOverflowAddGraph : Graph :=
  { nodes := [literalNode 0 FNODE_VALUE [170141183460469231731687303715884105728],
              literalNode 1 FNODE_VALUE [170141183460469231731687303715884105728],
              blankNode 2 FNODE_ADD MAX_INPUTS]
    lines := [{ id := 0, from_ := 0, to_ := 2 }, { id := 1, from_ := 1, to_ := 2 }] }

/-- Vector2(4097, 3) with id 0 and Value(4097) with id 1, linked in this order into the
Multiply node 2. -/
def exampleRoundedMultiplyGraph : Graph :=
  { nodes := [literalNode 0 FNODE_VECTOR2 [4097, 3], literalNode 1 FNODE_VALUE [4097],
              blankNode 2 FNODE_MULTIPLY MAX_INPUTS]
    lines := [{ id := 0, from_ := 0, to_ := 2 }, { id := 1, from_ := 1, to_ := 2 }] }

/-- Vector2(1, 6) with id 0 and Value(3) with id 1, linked in this order into the Divide
node 2. -/
def exampleThirdGraph : Graph :=
  { nodes := [literalNode 0 FNODE_VECTOR2 [1, 6], literalNode 1 FNODE_VALUE [3],
              blankNode 2 FNODE_DIVIDE MAX_INPUTS]
    lines := [{ id := 0, from_ := 0, to_ := 2 }, { id := 1, from_ := 1, to_ := 2 }] }

/-- Vector2(1, 0) with id 0 and Value(0) with id 1, linked in this order into the Divide
node 2. -/
def exampleZeroDivisorGraph : Graph :=
  { nodes := [literalNode 0 FNODE_VECTOR2 [1, 0], literalNode 1 FNODE_VALUE [0],
              blankNode 2 FNODE_DIVIDE MAX_INPUTS]
    lines := [{ id := 0, from_ := 0, to_ := 2 }, { id := 1, from_ := 1, to_ := 2 }] }

/-- The entry in row `r` and column `c` of a matrix.  The rows are the lines of the
declaration of `Matrix` in raylib, `m0 m4 m8 m12`, `m1 m5 m9 m13`, `m2 m6 m10 m14` and
`m3 m7 m11 m15`, which is also how `FMultiplyMatrixVector` applies a matrix to a vector. -/
def matrixEntry (m : Matrix) (r c : Fin 4) : ℚ :=
  match r, c with
  | 0, 0 => m.m0 | 0, 1 => m.m4 | 0, 2 => m.m8 | 0, 3 => m.m12
  | 1, 0 => m.m1 | 1, 1 => m.m5 | 1, 2 => m.m9 | 1, 3 => m.m13
  | 2, 0 => m.m2 | 2, 1 => m.m6 | 2, 2 => m.m10 | 2, 3 => m.m14
  | 3, 0 => m.m3 | 3, 1 => m.m7 | 3, 2 => m.m11 | 3, 3 => m.m15

/-- The matrix with the rows `(1, 2, 0, 0)`, `(0, 1, 0, 0)`, `(0, 0, 1, 5)` and
`(0, 0, 0, 1)`. -/
def exampleMatrixA : Matrix :=
  ⟨1, 2, 0, 0,
   0, 1, 0, 0,
   0, 0, 1, 5,
   0, 0, 0, 1⟩

/-- The matrix with the rows `(1, 0, 0, 0)`, `(3, 1, 0, 0)`, `(0, 0, 2, 0)` and
`(0, 0, 7, 1)`. -/
def exampleMatrixB : Matrix :=
  ⟨1, 0, 0, 0,
   3, 1, 0, 0,
   0, 0, 2, 0,
   0, 0, 7, 1⟩

/-- The menu clicks "Matrix 4x4" (id 2), "Append" (id 3), "Value" (2, id 4) and "Append"
(id 5), then the accepted link gestures 3 → 5 (the first Append node, still of width 0,
as first input of the second) and 4 → 5 (the value as its second input). -/
def exampleWideEdits : List Edit :=
  [.menu .matrix, .menu (.operator FNODE_APPEND 4), .menu (.value 2),
   .menu (.operator FNODE_APPEND 4), .link 3 5, .link 4 5]

/-- The store after `exampleWideEdits` with the line 2 → 3 stored, as the link gesture
from the matrix to the first Append node leaves it before it recomputes the values. -/
def exampleWideStore : Option Graph :=
  (InitFNode.bind (applyEdits exampleLibm exampleWideEdits)).map (fun g =>
    { g with lines := g.lines ++ [{ id := 2, from_ := 2, to_ := 3 }] })

/-! # Theorems -/

/-! ## Loops -/

theorem forLoop_zero {σ : Type} (body : Nat → σ → Option σ) (j : Nat) (s : σ) :
    forLoop body j 0 s = some s := rfl

theorem forLoop_succ {σ : Type} (body : Nat → σ → Option σ) (j k : Nat) (s : σ) :
    forLoop body j (k + 1) s = (body j s).bind (forLoop body (j + 1) k) := rfl

theorem forLoop_add {σ : Type} (body : Nat → σ → Option σ) (a b : Nat) :
    ∀ (j : Nat) (s : σ),
      forLoop body j (a + b) s = (forLoop body j a s).bind (forLoop body (j + a) b) := by
  induction a with
  | zero => intro j s; simp [forLoop_zero]
  | succ a ih =>
    intro j s
    have h : a + 1 + b = (a + b) + 1 := by omega
    rw [h, forLoop_succ, forLoop_succ]
    cases hb : body j s with
    | none => simp
    | some s1 =>
      simp only [Option.some_bind, Option.bind_eq_bind]
      rw [ih (j + 1) s1]
      have h2 : j + 1 + a = j + (a + 1) := by omega
      rw [h2]

/-- A property kept by every iteration is kept by the loop. -/
theorem forLoop_invariant {σ : Type} (body : Nat → σ → Option σ) (P : σ → Prop)
    (hb : ∀ j s s', P s → body j s = some s' → P s') :
    ∀ (k j : Nat) (s s' : σ), P s → forLoop body j k s = some s' → P s' := by
  intro k
  induction k with
  | zero => intro j s s' hs h; simp [forLoop_zero] at h; subst h; exact hs
  | succ k ih =>
    intro j s s' hs h
    rw [forLoop_succ] at h
    cases hb1 : body j s with
    | none => simp [hb1] at h
    | some s1 =>
      simp only [hb1, Option.some_bind] at h
      exact ih (j + 1) s1 s' (hb j s s1 hs hb1) h

/-! ## Node lookup -/

theorem GetNodeIndexFrom_spec (id : Int) :
    ∀ (ns : List FNodeData) (k : Nat),
      GetNodeIndexFrom id ns k = -1 ∨
        ∃ (p : Nat) (m : FNodeData), GetNodeIndexFrom id ns k = ((k + p : Nat) : Int) ∧ ns[p]? = some m ∧
          (m.id : Int) = id := by
  intro ns
  induction ns with
  | nil => intro k; left; rfl
  | cons n rest ih =>
    intro k
    unfold GetNodeIndexFrom
    by_cases h : (n.id : Int) = id
    · right
      exact ⟨0, n, by simp [h], by simp, h⟩
    · rcases ih (k + 1) with h1 | ⟨p, m, h1, h2, h3⟩
      · left; simp [h, h1]
      · right
        refine ⟨p + 1, m, ?_, by simpa using h2, h3⟩
        simp only [h, if_false, h1]
        congr 1
        omega

theorem GetNodeIndex_spec (ns : List FNodeData) (id : Int) :
    GetNodeIndex ns id = -1 ∨
      ∃ (p : Nat) (m : FNodeData), GetNodeIndex ns id = (p : Int) ∧ ns[p]? = some m ∧ (m.id : Int) = id := by
  rcases GetNodeIndexFrom_spec id ns 0 with h | ⟨p, m, h1, h2, h3⟩
  · left; exact h
  · right; exact ⟨p, m, by simpa [GetNodeIndex] using h1, h2, h3⟩

theorem GetNodeIndexFrom_ids (id : Int) :
    ∀ (ns ns' : List FNodeData) (k : Nat), ns.map (fun n => n.id) = ns'.map (fun n => n.id) →
      GetNodeIndexFrom id ns k = GetNodeIndexFrom id ns' k := by
  intro ns
  induction ns with
  | nil =>
    intro ns' k h
    cases ns' with
    | nil => rfl
    | cons a l => simp at h
  | cons n rest ih =>
    intro ns' k h
    cases ns' with
    | nil => simp at h
    | cons a l =>
      simp only [List.map_cons, List.cons.injEq] at h
      unfold GetNodeIndexFrom
      rw [h.1, ih l (k + 1) h.2]

/-- The lookup depends on the ids of the nodes only. -/
theorem GetNodeIndex_ids (ns ns' : List FNodeData) (id : Int)
    (h : ns.map (fun n => n.id) = ns'.map (fun n => n.id)) :
    GetNodeIndex ns id = GetNodeIndex ns' id :=
  GetNodeIndexFrom_ids id ns ns' 0 h

theorem nodeAt_eq_some {ns : List FNodeData} {index : Int} {m : FNodeData}
    (h : nodeAt ns index = some m) : 0 ≤ index ∧ ns[index.toNat]? = some m := by
  unfold nodeAt at h
  split at h
  · cases h
  · exact ⟨by omega, h⟩

/-! ## The rebuilt inputs -/

theorem addInput_fold (id : Nat) :
    ∀ (lines : List FLineData) (acc : FNodeData) (pre : List Nat),
      acc.id = id →
      acc.inputs = pre.map (fun (f : Nat) => (f : Int)) ++ List.replicate (MAX_INPUTS - pre.length) (-1) →
      acc.inputsCount = pre.length → pre.length ≤ MAX_INPUTS →
      lines.foldlM addInput acc =
        if (pre ++ inboundIds lines id).length ≤ MAX_INPUTS then
          some { acc with
            inputs := (pre ++ inboundIds lines id).map (fun (f : Nat) => (f : Int)) ++
              List.replicate (MAX_INPUTS - (pre ++ inboundIds lines id).length) (-1)
            inputsCount := (pre ++ inboundIds lines id).length }
        else none := by
  intro lines
  induction lines with
  | nil =>
    intro acc pre hid hin hc hle
    simp only [inboundIds, List.filter_nil, List.map_nil, List.append_nil, List.foldlM_nil, pure]
    rw [if_pos hle, ← hin, ← hc]
  | cons l rest ih =>
    intro acc pre hid hin hc hle
    simp only [List.foldlM_cons]
    by_cases hto : l.to_ = id
    · have hacc : l.to_ = acc.id := by rw [hid]; exact hto
      have hib : inboundIds (l :: rest) id = l.from_ :: inboundIds rest id := by
        simp [inboundIds, hto]
      by_cases hfull : pre.length < MAX_INPUTS
      · have hlen : acc.inputs.length = MAX_INPUTS := by
          rw [hin]; simp; omega
        have hstep : addInput acc l = some { acc with
            inputs := acc.inputs.set acc.inputsCount (l.from_ : Int)
            inputsCount := acc.inputsCount + 1 } := by
          unfold addInput
          simp [hacc, hlen, hc, hfull]
        rw [hstep]
        simp only [Option.some_bind, Option.bind_eq_bind, bind]
        have hset : acc.inputs.set acc.inputsCount (l.from_ : Int) =
            (pre ++ [l.from_]).map (fun (f : Nat) => (f : Int)) ++
              List.replicate (MAX_INPUTS - (pre ++ [l.from_]).length) (-1) := by
          rw [hin, hc]
          have h1 : MAX_INPUTS - pre.length = (MAX_INPUTS - (pre.length + 1)) + 1 := by omega
          rw [h1, List.replicate_succ]
          simp [List.set_append]
        have := ih { acc with
            inputs := acc.inputs.set acc.inputsCount (l.from_ : Int)
            inputsCount := acc.inputsCount + 1 } (pre ++ [l.from_]) hid hset
            (by simp [hc]) (by simp; omega)
        simp only [Option.bind] at this ⊢
        rw [this, hib]
        simp
      · have hstep : addInput acc l = none := by
          unfold addInput
          have hlen : acc.inputs.length = MAX_INPUTS := by
            rw [hin]; simp; omega
          simp [hacc, hlen, hc, hfull]
        rw [hstep, hib]
        have : ¬ (pre ++ l.from_ :: inboundIds rest id).length ≤ MAX_INPUTS := by
          simp only [List.length_append, List.length_cons]; omega
        rw [if_neg this]
        rfl
    · have hacc : ¬ l.to_ = acc.id := by rw [hid]; exact hto
      have hib : inboundIds (l :: rest) id = inboundIds rest id := by
        simp [inboundIds, hto]
      have hstep : addInput acc l = some acc := by
        unfold addInput; simp [hacc]
      rw [hstep, hib]
      simpa using ih acc pre hid hin hc hle

/-- The rebuilt inputs of a node are the starts of its inbound lines in storage order,
followed by `-1`; with more than `MAX_INPUTS` inbound lines the write leaves the array. -/
theorem rebuildInputs_eq (lines : List FLineData) (n : FNodeData) :
    rebuildInputs lines n =
      if (inboundIds lines n.id).length ≤ MAX_INPUTS then
        some { n with
          inputs := (inboundIds lines n.id).map (fun (f : Nat) => (f : Int)) ++
            List.replicate (MAX_INPUTS - (inboundIds lines n.id).length) (-1)
          inputsCount := (inboundIds lines n.id).length }
      else none := by
  unfold rebuildInputs
  have := addInput_fold n.id lines
    { n with inputs := List.replicate MAX_INPUTS (-1), inputsCount := 0 } [] rfl
    (by simp) rfl (by simp)
  simpa using this

/-! ## What a pass of `CalculateValues` leaves unchanged -/

theorem sameFrame_refl (m : FNodeData) : SameFrame m m := ⟨rfl, rfl, rfl, fun _ => rfl⟩

theorem sameFrame_trans {a b c : FNodeData} (h1 : SameFrame a b) (h2 : SameFrame b c) :
    SameFrame a c := by
  obtain ⟨i1, t1, l1, o1⟩ := h1
  obtain ⟨i2, t2, l2, o2⟩ := h2
  refine ⟨i2.trans i1, t2.trans t1, l2.trans l1, fun h => ?_⟩
  rw [o2 (by rw [t1]; exact h), o1 h]

theorem sameStructure_refl (ns : List FNodeData) : SameStructure ns ns :=
  ⟨rfl, fun _ m h => ⟨m, h, sameFrame_refl m⟩⟩

theorem sameStructure_trans {a b c : List FNodeData} (h1 : SameStructure a b)
    (h2 : SameStructure b c) : SameStructure a c := by
  refine ⟨h2.1.trans h1.1, fun p m hm => ?_⟩
  obtain ⟨m1, hm1, f1⟩ := h1.2 p m hm
  obtain ⟨m2, hm2, f2⟩ := h2.2 p m1 hm1
  exact ⟨m2, hm2, sameFrame_trans f1 f2⟩

theorem sameStructure_ids {ns ns' : List FNodeData} (h : SameStructure ns ns') :
    ns.map (fun n => n.id) = ns'.map (fun n => n.id) := by
  apply List.ext_getElem?
  intro p
  simp only [List.getElem?_map]
  cases hm : ns[p]? with
  | none =>
    have : ns'[p]? = none := by
      rw [List.getElem?_eq_none_iff] at hm ⊢
      rw [h.1]; exact hm
    simp [this]
  | some m =>
    obtain ⟨m', hm', f⟩ := h.2 p m hm
    simp [hm', f.1]

theorem sameStructure_types {ns ns' : List FNodeData} (h : SameStructure ns ns') :
    ns.map (fun n => n.type) = ns'.map (fun n => n.type) := by
  apply List.ext_getElem?
  intro p
  simp only [List.getElem?_map]
  cases hm : ns[p]? with
  | none =>
    have : ns'[p]? = none := by
      rw [List.getElem?_eq_none_iff] at hm ⊢
      rw [h.1]; exact hm
    simp [this]
  | some m =>
    obtain ⟨m', hm', f⟩ := h.2 p m hm
    simp [hm', f.2.1]

theorem calcOutput_literal (M : Libm) (ns : List FNodeData) (i : Nat) (self : FNodeData)
    (h : self.type.toInt ≤ FNODE_VECTOR4.toInt) :
    calcOutput M ns i self = some self.output := by
  unfold calcOutput
  have h1 : ¬ (FNODE_VECTOR4.toInt < self.type.toInt ∧ self.type.toInt < FNODE_APPEND.toInt) := by
    omega
  have h2 : ¬ self.type = FNODE_APPEND := by
    intro h2; rw [h2] at h; simp [FNodeType.toInt] at h
  have h3 : ¬ FNODE_APPEND.toInt < self.type.toInt := by
    simp only [FNodeType.toInt] at h ⊢; omega
  simp [h1, h2, h3]

theorem calcNode_eq_some {M : Libm} {lines : List FLineData} {ns : List FNodeData} {i : Nat}
    {n n' : FNodeData} (h : calcNode M lines ns i n = some n') :
    ∃ self out, rebuildInputs lines n = some self ∧ calcOutput M ns i self = some out ∧
      n' = { self with output := out } := by
  unfold calcNode at h
  cases hr : rebuildInputs lines n with
  | none => rw [hr] at h; cases h
  | some self =>
    rw [hr] at h
    cases ho : calcOutput M ns i self with
    | none =>
      have : (none : Option FNodeData) = some n' := by
        simp [ho, bind, Option.bind] at h
      cases this
    | some out =>
      have : some { self with output := out } = some n' := by
        simpa [ho, bind, Option.bind] using h
      exact ⟨self, out, rfl, ho, (Option.some.inj this).symm⟩

/-- The recomputation of a node keeps its id, kind and input limit, and for the kinds up
to `FNODE_VECTOR4` its output. -/
theorem calcNode_frame {M : Libm} {lines : List FLineData} {ns : List FNodeData} {i : Nat}
    {n n' : FNodeData} (h : calcNode M lines ns i n = some n') : SameFrame n n' := by
  obtain ⟨self, out, hr, ho, rfl⟩ := calcNode_eq_some h
  rw [rebuildInputs_eq] at hr
  split at hr
  · cases hr
    refine ⟨rfl, rfl, rfl, fun hlit => ?_⟩
    rw [calcOutput_literal] at ho
    · exact (Option.some.inj ho).symm
    · exact hlit
  · cases hr

theorem calcAt_eq_some {M : Libm} {lines : List FLineData} {i : Nat} {ns ns' : List FNodeData}
    (h : calcAt M lines i ns = some ns') :
    ∃ n n', ns[i]? = some n ∧ calcNode M lines ns i n = some n' ∧ ns' = ns.set i n' := by
  unfold calcAt at h
  cases hn : ns[i]? with
  | none => rw [hn] at h; cases h
  | some n =>
    rw [hn] at h
    cases hc : calcNode M lines ns i n with
    | none =>
      have : (none : Option (List FNodeData)) = some ns' := by
        simp [hc, bind, Option.bind] at h
      cases this
    | some n' =>
      have : some (ns.set i n') = some ns' := by
        simpa [hc, bind, Option.bind] using h
      exact ⟨n, n', rfl, hc, (Option.some.inj this).symm⟩

theorem calcAt_same {M : Libm} {lines : List FLineData} {i : Nat} {ns ns' : List FNodeData}
    (h : calcAt M lines i ns = some ns') : SameStructure ns ns' := by
  obtain ⟨n, n', hn, hc, rfl⟩ := calcAt_eq_some h
  refine ⟨by simp, fun p m hm => ?_⟩
  by_cases hp : i = p
  · subst hp
    have hlt : i < ns.length := by
      rcases List.getElem?_eq_some_iff.mp hn with ⟨hl, _⟩; exact hl
    rw [hn] at hm; cases hm
    exact ⟨n', by simp [List.getElem?_set, hlt], calcNode_frame hc⟩
  · exact ⟨m, by simp [List.getElem?_set, hp, hm], sameFrame_refl m⟩

theorem calcLoop_same (M : Libm) (lines : List FLineData) (k j : Nat) (ns ns' : List FNodeData)
    (h : forLoop (calcAt M lines) j k ns = some ns') : SameStructure ns ns' :=
  forLoop_invariant (calcAt M lines) (fun s => SameStructure ns s)
    (fun _ _ _ hs hb => sameStructure_trans hs (calcAt_same hb)) k j ns ns' (sameStructure_refl ns) h

/-- The iterations `j .. j + k - 1` leave every other slot of the pool as it was. -/
theorem calcLoop_untouched (M : Libm) (lines : List FLineData) :
    ∀ (k j : Nat) (ns ns' : List FNodeData), forLoop (calcAt M lines) j k ns = some ns' →
      ∀ p, (p < j ∨ j + k ≤ p) → ns'[p]? = ns[p]? := by
  intro k
  induction k with
  | zero => intro j ns ns' h p _; simp [forLoop_zero] at h; rw [h]
  | succ k ih =>
    intro j ns ns' h p hp
    rw [forLoop_succ] at h
    cases hb : calcAt M lines j ns with
    | none => simp [hb] at h
    | some ns1 =>
      simp only [hb, Option.some_bind] at h
      rw [ih (j + 1) ns1 ns' h p (by omega)]
      obtain ⟨n, n', _, _, rfl⟩ := calcAt_eq_some hb
      have : j ≠ p := by omega
      simp [List.getElem?_set, this]

/-- A pass of `CalculateValues` keeps the lines and the structure of the node pool. -/
theorem CalculateValues_same {M : Libm} {g g' : Graph} (h : CalculateValues M g = some g') :
    g'.lines = g.lines ∧ SameStructure g.nodes g'.nodes := by
  unfold CalculateValues calcUpTo at h
  cases hl : forLoop (calcAt M g.lines) 0 g.nodes.length g.nodes with
  | none => simp [hl] at h
  | some ns =>
    simp only [hl, Option.map_some', Option.some.injEq] at h
    subst h
    exact ⟨rfl, calcLoop_same M g.lines _ 0 g.nodes ns hl⟩

/-- The content of `nodes[i]` after a pass is the result of its own iteration, which runs
on the pool as the iterations `0 .. i - 1` left it. -/
theorem CalculateValues_node {M : Libm} {g g' : Graph} {i : Nat} {n : FNodeData}
    (h : CalculateValues M g = some g') (hn : g.nodes[i]? = some n) :
    ∃ mid n', calcUpTo M g.lines i g.nodes = some mid ∧ mid[i]? = some n ∧
      calcNode M g.lines mid i n = some n' ∧ g'.nodes[i]? = some n' := by
  have hlt : i < g.nodes.length := by
    rcases List.getElem?_eq_some_iff.mp hn with ⟨hl, _⟩; exact hl
  unfold CalculateValues calcUpTo at h
  cases hl : forLoop (calcAt M g.lines) 0 g.nodes.length g.nodes with
  | none => simp [hl] at h
  | some ns =>
    simp only [hl, Option.map_some', Option.some.injEq] at h
    subst h
    have hsplit : g.nodes.length = i + (1 + (g.nodes.length - i - 1)) := by omega
    rw [hsplit, forLoop_add] at hl
    cases hmid : forLoop (calcAt M g.lines) 0 i g.nodes with
    | none => simp [hmid] at hl
    | some mid =>
      simp only [hmid, Option.some_bind, Nat.zero_add] at hl
      rw [forLoop_add] at hl
      cases hstep : forLoop (calcAt M g.lines) i 1 mid with
      | none => simp [hstep] at hl
      | some ns1 =>
        simp only [hstep, Option.some_bind] at hl
        have hmidn : mid[i]? = some n := by
          rw [calcLoop_untouched M g.lines i 0 g.nodes mid hmid i (by omega)]; exact hn
        have hat : calcAt M g.lines i mid = some ns1 := by
          rw [forLoop_succ] at hstep
          cases hc : calcAt M g.lines i mid with
          | none => simp [hc] at hstep
          | some x => simpa [hc, forLoop_zero] using hstep
        obtain ⟨n0, n', hn0, hc, rfl⟩ := calcAt_eq_some hat
        rw [hmidn] at hn0; cases hn0
        refine ⟨mid, n', hmid, hmidn, hc, ?_⟩
        have hlen : mid.length = g.nodes.length :=
          (calcLoop_same M g.lines i 0 g.nodes mid hmid).1
        show ns[i]? = some n'
        rw [calcLoop_untouched M g.lines _ (i + 1) _ ns hl i (by omega)]
        simp [List.getElem?_set, hlen, hlt]

/-! ## Loops over the values of an output -/

theorem wrValue_eq (o : FNodeOutput) (k : Nat) (v : ℚ) (h : k < o.data.length) :
    wrValue o k v = some { o with data := o.data.set k v } := by
  unfold wrValue; simp [h]

theorem getElem?_eq_some_getD (l : List ℚ) (j : Nat) (h : j < l.length) :
    l[j]? = some (l.getD j 0) := by
  simp [List.getD, List.getElem?_eq_getElem h]

/-- A loop whose iteration `j` writes `F j (data[j])` into slot `j`. -/
theorem forLoop_pointwise (body : Nat → FNodeOutput → Option FNodeOutput) (F : Nat → ℚ → ℚ)
    (N : Nat)
    (hbody : ∀ j c, j < N → j < c.data.length →
      body j c = wrValue c j (F j (c.data.getD j 0))) :
    ∀ (k s : Nat) (cur : FNodeOutput), s + k ≤ N → s + k ≤ cur.data.length →
      ∃ r, forLoop body s k cur = some r ∧ r.dataCount = cur.dataCount ∧
        r.data.length = cur.data.length ∧
        (∀ j, s ≤ j → j < s + k → r.data[j]? = some (F j (cur.data.getD j 0))) ∧
        (∀ j, j < s ∨ s + k ≤ j → r.data[j]? = cur.data[j]?) := by
  intro k
  induction k with
  | zero =>
    intro s cur _ _
    exact ⟨cur, rfl, rfl, rfl, fun j h1 h2 => by omega, fun _ _ => rfl⟩
  | succ k ih =>
    intro s cur hN hlen
    have hs : s < cur.data.length := by omega
    rw [forLoop_succ, hbody s cur (by omega) hs, wrValue_eq _ _ _ hs]
    simp only [Option.some_bind]
    obtain ⟨r, hr, hc, hl, hin, hout⟩ :=
      ih (s + 1) { cur with data := cur.data.set s (F s (cur.data.getD s 0)) }
        (by omega) (by simp; omega)
    refine ⟨r, hr, hc, by simpa using hl, fun j h1 h2 => ?_, fun j hj => ?_⟩
    · by_cases hjs : j = s
      · subst hjs
        rw [hout j (by omega)]
        simp [List.getElem?_set, hs]
      · rw [hin j (by omega) (by omega)]
        have : s ≠ j := fun h => hjs h.symm
        simp [List.getD, List.getElem?_set, this]
    · rw [hout j (by omega)]
      have : s ≠ j := by omega
      simp [List.getElem?_set, this]

/-- A read of another slot of the pool does not depend on the output being recomputed. -/
theorem rdOutput_other {ns : List FNodeData} {i : Nat} {index : Int} {m : FNodeData}
    (cur : FNodeOutput) (h0 : 0 ≤ index) (hne : index.toNat ≠ i)
    (hm : ns[index.toNat]? = some m) : rdOutput ns i cur index = some m.output := by
  unfold rdOutput
  have : ¬ index < 0 := by omega
  simp [this, hne, hm]

theorem zipValues_other {ns : List FNodeData} {i : Nat} {index : Int} {m : FNodeData}
    (f : ℚ → ℚ → ℚ) (cur : FNodeOutput) (h0 : 0 ≤ index) (hne : index.toNat ≠ i)
    (hm : ns[index.toNat]? = some m) (h1 : cur.dataCount ≤ cur.data.length)
    (h2 : cur.dataCount ≤ m.output.data.length) :
    ∃ r, zipValues ns i index f cur = some r ∧ r.dataCount = cur.dataCount ∧
      r.data.length = cur.data.length ∧
      (∀ j, j < cur.dataCount →
        r.data[j]? = some (f (cur.data.getD j 0) (m.output.data.getD j 0))) ∧
      (∀ j, cur.dataCount ≤ j → r.data[j]? = cur.data[j]?) := by
  unfold zipValues
  obtain ⟨r, hr, hc, hl, hin, hout⟩ := forLoop_pointwise
    (fun j c => do
      let s ← rdOutput ns i c index
      let v ← s.data[j]?
      let o ← c.data[j]?
      wrValue c j (f o v))
    (fun j o => f o (m.output.data.getD j 0)) cur.dataCount
    (fun j c hj hjc => by
      simp only [rdOutput_other c h0 hne hm, bind, Option.bind,
        getElem?_eq_some_getD m.output.data j (by omega), getElem?_eq_some_getD c.data j hjc])
    cur.dataCount 0 cur (by omega) (by omega)
  exact ⟨r, hr, hc, hl, fun j hj => hin j (by omega) (by omega),
    fun j hj => hout j (Or.inr (by omega))⟩

theorem copyFirst_other (ns : List FNodeData) (i : Nat) (self : FNodeData) (id0 : Int)
    (m : FNodeData) (cur : FNodeOutput) (hin : self.inputs[0]? = some id0)
    (h0 : 0 ≤ GetNodeIndex ns id0) (hne : (GetNodeIndex ns id0).toNat ≠ i)
    (hm : ns[(GetNodeIndex ns id0).toNat]? = some m)
    (h1 : m.output.dataCount ≤ cur.data.length)
    (h2 : m.output.dataCount ≤ m.output.data.length) :
    ∃ r, copyFirst ns i self cur = some r ∧ r.dataCount = m.output.dataCount ∧
      r.data.length = cur.data.length ∧
      (∀ j, j < m.output.dataCount → r.data[j]? = some (m.output.data.getD j 0)) ∧
      (∀ j, m.output.dataCount ≤ j → r.data[j]? = cur.data[j]?) := by
  unfold copyFirst inputIndexOf
  simp only [hin, Option.map_some', bind, Option.bind, rdOutput_other cur h0 hne hm]
  obtain ⟨r, hr, hc, hl, hin', hout⟩ := forLoop_pointwise
    (fun k c => (rdOutput ns i c (GetNodeIndex ns id0)).bind
      (fun s => (s.data[k]?).bind (fun v => wrValue c k v)))
    (fun j _ => m.output.data.getD j 0) m.output.dataCount
    (fun j c hj hjc => by
      simp only [rdOutput_other c h0 hne hm, Option.bind,
        getElem?_eq_some_getD m.output.data j (by omega)])
    m.output.dataCount 0 (wrCount cur m.output.dataCount) (by omega)
    (by simp [wrCount]; omega)
  refine ⟨r, ?_, by simpa [wrCount] using hc, by simpa [wrCount] using hl,
    fun j hj => hin' j (by omega) (by omega),
    fun j hj => by simpa [wrCount] using hout j (Or.inr (by omega))⟩
  simpa [wrCount, Option.bind] using hr

/-! ## Add and Subtract -/

theorem isLiteral_le {t : FNodeType} (h : isLiteral t = true) :
    t.toInt ≤ FNODE_VECTOR4.toInt := by
  cases t <;> simp [isLiteral, FNodeType.toInt] at h ⊢

theorem inputs_getElem? (ids pre rest : List Nat) (f : Nat) (h : ids = pre ++ f :: rest) :
    (ids.map (fun (f : Nat) => (f : Int)) ++
      List.replicate (MAX_INPUTS - ids.length) (-1))[pre.length]? = some (f : Int) := by
  subst h
  rw [List.map_append, List.append_assoc, List.getElem?_append_right (by simp)]
  simp

/-- The loop over the further inputs of an Add or Subtract node whose inputs are other
slots of the pool, all of width `w`: the components are combined from left to right. -/
theorem arithLoop_fold (M : Libm) (op : ℚ → ℚ → ℚ) (ns : List FNodeData) (i : Nat)
    (self : FNodeData) (ids : List Nat) (w : Nat)
    (hty : (self.type = FNODE_ADD ∧ op = M.add) ∨
      (self.type = FNODE_SUBTRACT ∧ op = M.sub))
    (hinputs : self.inputs = ids.map (fun (f : Nat) => (f : Int)) ++
      List.replicate (MAX_INPUTS - ids.length) (-1))
    (hsrc : ∀ f ∈ ids, ∃ m, 0 ≤ GetNodeIndex ns f ∧ (GetNodeIndex ns f).toNat ≠ i ∧
      ns[(GetNodeIndex ns f).toNat]? = some m ∧ m.output.dataCount = w ∧
      w ≤ m.output.data.length) :
    ∀ (rest pre : List Nat) (c : FNodeOutput) (acc : Nat → ℚ), ids = pre ++ rest →
      c.dataCount = w → w ≤ c.data.length → (∀ j, j < w → c.data[j]? = some (acc j)) →
      ∃ r, forLoop (fun k c => do
          let inputIndex ← inputIndexOf ns self k
          arithInput M ns i self.type inputIndex c) pre.length rest.length c = some r ∧
        r.dataCount = w ∧ r.data.length = c.data.length ∧
        ∀ j, j < w →
          r.data[j]? = some (rest.foldl (fun a f' => op a (inputValue ns f' j)) (acc j)) := by
  intro rest
  induction rest with
  | nil =>
    intro pre c acc _ hc hl hv
    exact ⟨c, rfl, hc, rfl, fun j hj => by simpa using hv j hj⟩
  | cons f rest ih =>
    intro pre c acc hids hc hl hv
    obtain ⟨m, h0, hne, hm, hmw, hml⟩ := hsrc f (by rw [hids]; simp)
    have hidx : inputIndexOf ns self pre.length = some (GetNodeIndex ns f) := by
      unfold inputIndexOf
      rw [hinputs, inputs_getElem? ids pre rest f hids]
      rfl
    have hval : ∀ j, inputValue ns f j = m.output.data.getD j 0 := by
      intro j
      unfold inputValue inputNode nodeAt
      have : ¬ GetNodeIndex ns (f : Int) < 0 := by omega
      simp [this, hm]
    obtain ⟨r1, hr1, hc1, hl1, hin1, _⟩ := zipValues_other op c h0 hne hm
      (by rw [hc]; exact hl) (by rw [hc]; exact hml)
    have hstep : arithInput M ns i self.type (GetNodeIndex ns f) c = some r1 := by
      rcases hty with ⟨ht, ho⟩ | ⟨ht, ho⟩
      · rw [ht]; subst ho; exact hr1
      · rw [ht]; subst ho; exact hr1
    obtain ⟨r, hr, hrc, hrl, hrv⟩ := ih (pre ++ [f]) r1
      (fun j => op (acc j) (inputValue ns f j)) (by rw [hids]; simp)
      (by rw [hc1, hc]) (by rw [hl1]; exact hl)
      (fun j hj => by
        have h1 := hv j hj
        rw [getElem?_eq_some_getD c.data j (by omega)] at h1
        rw [hin1 j (by rw [hc]; exact hj), Option.some.inj h1]
        simp only [hval])
    refine ⟨r, ?_, hrc, by rw [hrl, hl1], fun j hj => by simpa using hrv j hj⟩
    rw [List.length_cons, forLoop_succ]
    simp only [hidx, bind, Option.bind, hstep]
    simpa [Option.bind] using hr

/-- A literal input found in the pool `ns` is found at the same slot, with the same
output, in every pool of the same structure, and that slot is not the one of a node of
another kind. -/
theorem literal_input_transfer {ns mid : List FNodeData} {i : Nat} {n m : FNodeData}
    {f : Nat} (hsame : SameStructure ns mid) (hmid : mid[i]? = some n)
    (hn : isLiteral n.type = false) (hm : inputNode ns f = some m)
    (hlit : isLiteral m.type = true) :
    ∃ m', 0 ≤ GetNodeIndex mid f ∧ (GetNodeIndex mid f).toNat ≠ i ∧
      mid[(GetNodeIndex mid f).toNat]? = some m' ∧ m'.output = m.output ∧
      ∀ j, inputValue mid f j = inputValue ns f j := by
  have hidx : GetNodeIndex mid f = GetNodeIndex ns f := (GetNodeIndex_ids ns mid f (sameStructure_ids hsame)).symm
  obtain ⟨h0, hget⟩ := nodeAt_eq_some hm
  obtain ⟨m', hm', hf⟩ := hsame.2 _ m hget
  have hout : m'.output = m.output := hf.2.2.2 (isLiteral_le hlit)
  refine ⟨m', by rw [hidx]; exact h0, ?_, by rw [hidx]; exact hm', hout, fun j => ?_⟩
  · intro hi
    rw [hidx] at hi
    rw [hi, hmid] at hm'
    cases hm'
    rw [hf.2.1, hlit] at hn
    cases hn
  · have h1 : inputNode mid f = some m' := by
      unfold inputNode nodeAt
      rw [hidx]
      have : ¬ GetNodeIndex ns (f : Int) < 0 := by omega
      simp [this, hm']
    unfold inputValue
    rw [h1, hm]
    simp only [hout]

theorem calcNode_of {M : Libm} {lines : List FLineData} {ns : List FNodeData} {i : Nat}
    {n self : FNodeData} {out : FNodeOutput} (hr : rebuildInputs lines n = some self)
    (ho : calcOutput M ns i self = some out) :
    calcNode M lines ns i n = some { self with output := out } := by
  unfold calcNode
  rw [hr]
  simp only [bind, Option.bind, ho]

theorem calcOutput_arith {M : Libm} {ns : List FNodeData} {i : Nat} {self : FNodeData}
    (h : FNODE_VECTOR4.toInt < self.type.toInt ∧ self.type.toInt < FNODE_APPEND.toInt) :
    calcOutput M ns i self = calcArith M ns i self self.output := by
  unfold calcOutput
  rw [if_pos h]

theorem calcArith_pos {ns : List FNodeData} {i : Nat} {self : FNodeData}
    {cur r0 : FNodeOutput} {k : Nat} (hk : self.inputsCount = k + 1)
    (h0 : copyFirst ns i self cur = some r0) :
    calcArith M ns i self cur = forLoop (fun k c => do
      let inputIndex ← inputIndexOf ns self k
      arithInput M ns i self.type inputIndex c) 1 k r0 := by
  unfold calcArith
  have : self.inputsCount > 0 := by omega
  rw [if_pos this]
  simp only [bind, Option.bind, h0, hk, Nat.add_sub_cancel]

/-- The node with the inputs that `rebuildInputs` finds for it. -/
theorem rebuildInputs_some (lines : List FLineData) (n : FNodeData)
    (hle : (inboundIds lines n.id).length ≤ MAX_INPUTS) :
    ∃ self, rebuildInputs lines n = some self ∧ self.id = n.id ∧ self.type = n.type ∧
      self.inputsLimit = n.inputsLimit ∧ self.output = n.output ∧
      self.inputsCount = (inboundIds lines n.id).length ∧
      self.inputs = (inboundIds lines n.id).map (fun (f : Nat) => (f : Int)) ++
        List.replicate (MAX_INPUTS - (inboundIds lines n.id).length) (-1) := by
  rw [rebuildInputs_eq, if_pos hle]
  exact ⟨_, rfl, rfl, rfl, rfl, rfl, rfl, rfl⟩

/-- The recomputation of an Add or Subtract node with literal inputs of width `w`. -/
theorem addSub_node (M : Libm) (lines : List FLineData) (ns mid : List FNodeData) (i : Nat)
    (n : FNodeData) (w : Nat) (op : ℚ → ℚ → ℚ)
    (hsame : SameStructure ns mid) (hmid : mid[i]? = some n)
    (hty : (n.type = FNODE_ADD ∧ op = M.add) ∨
      (n.type = FNODE_SUBTRACT ∧ op = M.sub))
    (hk : inboundIds lines n.id ≠ [])
    (hle : (inboundIds lines n.id).length ≤ MAX_INPUTS)
    (hsrc : ∀ f ∈ inboundIds lines n.id, ∃ m, inputNode ns f = some m ∧
      isLiteral m.type = true ∧ m.output.dataCount = w ∧ WellSized m)
    (hsize : WellSized n) :
    ∃ n', calcNode M lines mid i n = some n' ∧ n'.output.dataCount = w ∧
      ∀ j, j < w →
        n'.output.data[j]? = some (foldInputs op ns (inboundIds lines n.id) j) := by
  have hnlit : isLiteral n.type = false := by
    rcases hty with ⟨ht, _⟩ | ⟨ht, _⟩ <;> rw [ht] <;> rfl
  have harith : FNODE_VECTOR4.toInt < n.type.toInt ∧ n.type.toInt < FNODE_APPEND.toInt := by
    rcases hty with ⟨ht, _⟩ | ⟨ht, _⟩ <;> rw [ht] <;> simp [FNodeType.toInt]
  -- the sources as they are found in `mid`
  have hsrc' : ∀ f ∈ inboundIds lines n.id, ∃ m, 0 ≤ GetNodeIndex mid f ∧
      (GetNodeIndex mid f).toNat ≠ i ∧ mid[(GetNodeIndex mid f).toNat]? = some m ∧
      m.output.dataCount = w ∧ w ≤ m.output.data.length := by
    intro f hf
    obtain ⟨m, hm, hlit, hw, hs⟩ := hsrc f hf
    obtain ⟨m', h0, hne, hm', hout, _⟩ := literal_input_transfer hsame hmid hnlit hm hlit
    refine ⟨m', h0, hne, hm', by rw [hout]; exact hw, ?_⟩
    rw [hout, ← hw, hs.1]; exact hs.2.1
  have hvals : ∀ f ∈ inboundIds lines n.id, ∀ j, inputValue mid f j = inputValue ns f j := by
    intro f hf
    obtain ⟨m, hm, hlit, _, _⟩ := hsrc f hf
    obtain ⟨_, _, _, _, _, hv⟩ := literal_input_transfer hsame hmid hnlit hm hlit
    exact hv
  obtain ⟨self, hself, _, hst, _, hso, hsc, hsi⟩ := rebuildInputs_some lines n hle
  cases hids : inboundIds lines n.id with
  | nil => exact absurd hids hk
  | cons f0 fs =>
    rw [hids] at hle hsrc' hvals hsc hsi
    obtain ⟨m0, h0, hne0, hm0, hw0, hl0⟩ := hsrc' f0 (by simp)
    have hw16 : w ≤ n.output.data.length := by
      obtain ⟨m, _, _, hw, hs⟩ := hsrc f0 (by rw [hids]; simp)
      rw [hsize.1, ← hw]; exact hs.2.1
    obtain ⟨r0, hr0, hc0, hlen0, hin0, _⟩ := copyFirst_other mid i self (f0 : Int) m0
      n.output (by rw [hsi]; simp) h0 hne0 hm0 (by rw [hw0]; exact hw16)
      (by rw [hw0]; exact hl0)
    have hv0 : ∀ j, inputValue mid f0 j = m0.output.data.getD j 0 := by
      intro j
      unfold inputValue inputNode nodeAt
      have : ¬ GetNodeIndex mid (f0 : Int) < 0 := by omega
      simp [this, hm0]
    obtain ⟨r, hr, hrc, _, hrv⟩ := arithLoop_fold M op mid i self
      (f0 :: fs) w (by rw [hst]; exact hty) hsi hsrc' fs [f0] r0
      (fun j => inputValue mid f0 j) rfl
      (by rw [hc0, hw0]) (by rw [hlen0]; exact hw16)
      (fun j hj => by rw [hin0 j (by rw [hw0]; exact hj)]; simp only [hv0 j])
    have hout : calcOutput M mid i self = some r := by
      rw [calcOutput_arith (by rw [hst]; exact harith), hso,
        calcArith_pos (k := fs.length) (by rw [hsc]; simp) hr0]
      exact hr
    refine ⟨{ self with output := r }, calcNode_of hself hout, hrc, fun j hj => ?_⟩
    show r.data[j]? = _
    rw [hrv j hj]
    unfold foldInputs
    simp only
    rw [hvals f0 (by simp) j]
    congr 1
    apply List.foldl_ext
    intro a f' hf'
    rw [hvals f' (by simp [hf']) j]

/-- C1: for an Add (Subtract) node whose inbound lines, between one and `MAX_INPUTS` of
them, all start at literal nodes of the same width `w`, the recomputation of the node
succeeds whenever the pass reaches it, and after a pass of `CalculateValues` the node has
`dataCount = w` and component `j < w` is the component `j` of the first input to which
the components `j` of the later inputs are added (for Subtract: from which they are
subtracted) one after the other in line order, each time by the operation `+=` (`-=`)
of the type `float`, whatever that operation gives, rounded or not finite. -/
theorem C1_add_subtract_fold (M : Libm) (g : Graph) (i : Nat) (n : FNodeData) (w : Nat)
    (hn : g.nodes[i]? = some n)
    (hty : n.type = FNODE_ADD ∨ n.type = FNODE_SUBTRACT)
    (hk : 1 ≤ (inboundIds g.lines n.id).length)
    (hle : (inboundIds g.lines n.id).length ≤ MAX_INPUTS)
    (hsrc : ∀ f ∈ inboundIds g.lines n.id, ∃ m, inputNode g.nodes f = some m ∧
      isLiteral m.type = true ∧ m.output.dataCount = w ∧ WellSized m)
    (hsize : WellSized n) :
    (∀ mid, calcUpTo M g.lines i g.nodes = some mid →
      ∃ n', calcNode M g.lines mid i n = some n') ∧
    ∀ g', CalculateValues M g = some g' →
      ∃ n', g'.nodes[i]? = some n' ∧ n'.output.dataCount = w ∧
        ∀ j, j < w → n'.output.data[j]? = some
          (foldInputs (if n.type = FNODE_ADD then M.add else M.sub)
            g.nodes (inboundIds g.lines n.id) j) := by
  have hop : (n.type = FNODE_ADD ∧
        (if n.type = FNODE_ADD then M.add else M.sub) = M.add) ∨
      (n.type = FNODE_SUBTRACT ∧
        (if n.type = FNODE_ADD then M.add else M.sub) = M.sub) := by
    rcases hty with h | h
    · left; exact ⟨h, by rw [if_pos h]⟩
    · right; exact ⟨h, by rw [if_neg (by rw [h]; decide)]⟩
  have hk' : inboundIds g.lines n.id ≠ [] := by
    intro h; rw [h] at hk; simp at hk
  have key : ∀ mid, calcUpTo M g.lines i g.nodes = some mid →
      ∃ n', calcNode M g.lines mid i n = some n' ∧ n'.output.dataCount = w ∧
        ∀ j, j < w → n'.output.data[j]? = some
          (foldInputs (if n.type = FNODE_ADD then M.add else M.sub)
            g.nodes (inboundIds g.lines n.id) j) := by
    intro mid hmid
    have hsame : SameStructure g.nodes mid := calcLoop_same M g.lines i 0 g.nodes mid hmid
    have hmidn : mid[i]? = some n := by
      rw [calcLoop_untouched M g.lines i 0 g.nodes mid hmid i (by omega)]; exact hn
    exact addSub_node M g.lines g.nodes mid i n w _ hsame hmidn hop hk' hle hsrc hsize
  refine ⟨fun mid hmid => ?_, fun g' hrun => ?_⟩
  · obtain ⟨n', h, _⟩ := key mid hmid
    exact ⟨n', h⟩
  · obtain ⟨mid, n1, hmid, _, hc, hg'⟩ := CalculateValues_node hrun hn
    obtain ⟨n', h, hw, hv⟩ := key mid hmid
    rw [hc] at h
    cases h
    exact ⟨n1, hg', hw, hv⟩

/-- C1 with the operations of `float`: Value(2.0) and Value(3.0) linked into an Add node
give the output `[5.0]`; Value(16777216) and Value(1) give `[16777216]`, the sum rounded
to 24 binary digits; and Value(2^127) and Value(2^127) give infinity. -/
theorem C1_add_subtract_fold_witness :
    (∃ n', (CalculateValues floatLibm exampleAddGraph).bind (fun g => g.nodes[2]?) = some n' ∧
      n'.output.dataCount = 1 ∧ n'.output.data[0]? = some 5) ∧
    (∃ n', (CalculateValues floatLibm exampleRoundedAddGraph).bind (fun g => g.nodes[2]?) =
        some n' ∧
      n'.output.dataCount = 1 ∧ n'.output.data[0]? = some 16777216) ∧
    ∃ n', (CalculateValues floatLibm exampleOverflowAddGraph).bind (fun g => g.nodes[2]?) =
        some n' ∧
      n'.output.dataCount = 1 ∧ n'.output.data[0]? = some floatInf := by
  have hsrc : ∀ (a b : ℚ), ∀ f ∈ inboundIds [{ id := 0, from_ := 0, to_ := 2 },
      ({ id := 1, from_ := 1, to_ := 2 } : FLineData)] 2,
      ∃ m, inputNode [literalNode 0 FNODE_VALUE [a], literalNode 1 FNODE_VALUE [b],
          blankNode 2 FNODE_ADD MAX_INPUTS] f = some m ∧ isLiteral m.type = true ∧
        m.output.dataCount = 1 ∧ WellSized m := by
    intro a b f hf
    have hf' : f = 0 ∨ f = 1 := by
      simpa [inboundIds] using hf
    rcases hf' with rfl | rfl
    · exact ⟨literalNode 0 FNODE_VALUE [a], rfl, rfl, rfl, rfl, by show 1 ≤ 16; decide, rfl⟩
    · exact ⟨literalNode 1 FNODE_VALUE [b], rfl, rfl, rfl, rfl, by show 1 ≤ 16; decide, rfl⟩
  refine ⟨?_, ?_, ?_⟩
  · obtain ⟨n', h1, h2, h3⟩ :=
      (C1_add_subtract_fold floatLibm exampleAddGraph 2 (blankNode 2 FNODE_ADD MAX_INPUTS) 1
        rfl (Or.inl rfl) (by decide) (by decide) (hsrc 2 3) ⟨rfl, by decide, rfl⟩).2 _ rfl
    refine ⟨n', h1, h2, ?_⟩
    rw [h3 0 (by decide)]
    decide!
  · obtain ⟨n', h1, h2, h3⟩ :=
      (C1_add_subtract_fold floatLibm exampleRoundedAddGraph 2
        (blankNode 2 FNODE_ADD MAX_INPUTS) 1
        rfl (Or.inl rfl) (by decide) (by decide) (hsrc 16777216 1) ⟨rfl, by decide, rfl⟩).2 _ rfl
    refine ⟨n', h1, h2, ?_⟩
    rw [h3 0 (by decide)]
    decide!
  · obtain ⟨n', h1, h2, h3⟩ :=
      (C1_add_subtract_fold floatLibm exampleOverflowAddGraph 2
        (blankNode 2 FNODE_ADD MAX_INPUTS) 1
        rfl (Or.inl rfl) (by decide) (by decide)
        (hsrc 170141183460469231731687303715884105728
          170141183460469231731687303715884105728) ⟨rfl, by decide, rfl⟩).2 _ rfl
    refine ⟨n', h1, h2, ?_⟩
    rw [h3 0 (by decide)]
    decide!

/-! ## Multiply: the vector-by-matrix branch -/

theorem inputNode_id {ns : List FNodeData} {f : Nat} {m : FNodeData}
    (h : inputNode ns f = some m) : m.id = f := by
  obtain ⟨h0, hget⟩ := nodeAt_eq_some h
  rcases GetNodeIndex_spec ns (f : Int) with h1 | ⟨p, m1, h1, h2, h3⟩
  · rw [h1] at h0; omega
  · rw [h1] at hget
    simp only [Int.toNat_ofNat] at hget
    rw [h2] at hget
    cases hget
    exact_mod_cast h3

/-- An input found by `GetNodeIndex` whose id is not the id of `nodes[i]` is another slot. -/
theorem inputNode_other {ns : List FNodeData} {i f : Nat} {n m : FNodeData}
    (hn : ns[i]? = some n) (hne : f ≠ n.id) (h : inputNode ns f = some m) :
    0 ≤ GetNodeIndex ns f ∧ (GetNodeIndex ns f).toNat ≠ i ∧
      ns[(GetNodeIndex ns f).toNat]? = some m := by
  obtain ⟨h0, hget⟩ := nodeAt_eq_some h
  refine ⟨h0, fun hi => ?_, hget⟩
  rw [hi, hn] at hget
  cases hget
  exact hne (inputNode_id h).symm

theorem list_length_16 (l : List ℚ) (h : l.length = 16) :
    ∃ a0 a1 a2 a3 a4 a5 a6 a7 a8 a9 a10 a11 a12 a13 a14 a15,
      l = [a0, a1, a2, a3, a4, a5, a6, a7, a8, a9, a10, a11, a12, a13, a14, a15] := by
  rcases l with _ | ⟨a0, l⟩
  · simp at h
  rcases l with _ | ⟨a1, l⟩
  · simp at h
  rcases l with _ | ⟨a2, l⟩
  · simp at h
  rcases l with _ | ⟨a3, l⟩
  · simp at h
  rcases l with _ | ⟨a4, l⟩
  · simp at h
  rcases l with _ | ⟨a5, l⟩
  · simp at h
  rcases l with _ | ⟨a6, l⟩
  · simp at h
  rcases l with _ | ⟨a7, l⟩
  · simp at h
  rcases l with _ | ⟨a8, l⟩
  · simp at h
  rcases l with _ | ⟨a9, l⟩
  · simp at h
  rcases l with _ | ⟨a10, l⟩
  · simp at h
  rcases l with _ | ⟨a11, l⟩
  · simp at h
  rcases l with _ | ⟨a12, l⟩
  · simp at h
  rcases l with _ | ⟨a13, l⟩
  · simp at h
  rcases l with _ | ⟨a14, l⟩
  · simp at h
  rcases l with _ | ⟨a15, l⟩
  · simp at h
  rcases l with _ | ⟨a16, l⟩
  · exact ⟨a0, a1, a2, a3, a4, a5, a6, a7, a8, a9, a10, a11, a12, a13, a14, a15, rfl⟩
  · simp at h

/-- On two full value arrays the transform is computed and gives an output of length 4. -/
theorem mulTransform_some (vec mat : FNodeOutput) (hv : vec.data.length = MAX_VALUES)
    (hm : mat.data.length = MAX_VALUES) :
    ∃ r, mulTransform vec mat = some r ∧ r.dataCount = 4 ∧ r.data.length = MAX_VALUES := by
  obtain ⟨v0, v1, v2, v3, v4, v5, v6, v7, v8, v9, v10, v11, v12, v13, v14, v15, hv'⟩ :=
    list_length_16 vec.data hv
  obtain ⟨a0, a1, a2, a3, a4, a5, a6, a7, a8, a9, a10, a11, a12, a13, a14, a15, hm'⟩ :=
    list_length_16 mat.data hm
  unfold mulTransform
  rw [hv', hm']
  exact ⟨_, rfl, rfl, rfl⟩

/-- Once the output has length 4 the remaining iterations of the loop multiply slot by
slot and keep that length. -/
theorem mulLoop_width4 {ns : List FNodeData} {i : Nat} {index : Int} {m : FNodeData}
    (h0 : 0 ≤ index) (hne : index.toNat ≠ i) (hm : ns[index.toNat]? = some m)
    (hml : m.output.data.length = MAX_VALUES) :
    ∀ (fuel j : Nat) (cur : FNodeOutput), 4 < fuel + j → 0 < fuel → cur.dataCount = 4 →
      cur.data.length = MAX_VALUES →
      ∃ r, mulLoop M ns i index fuel j cur = some r ∧ r.dataCount = 4 ∧
        r.data.length = MAX_VALUES := by
  intro fuel
  induction fuel with
  | zero => intro j cur _ hf; omega
  | succ fuel ih =>
    intro j cur hf _ hc hl
    unfold mulLoop
    by_cases hj : j < cur.dataCount
    · rw [if_pos hj]
      have hj16 : j < MAX_VALUES := by rw [hc] at hj; unfold MAX_VALUES; omega
      have hstep : ∃ c1, mulStep M ns i index j cur = some c1 ∧ c1.dataCount = 4 ∧
          c1.data.length = MAX_VALUES := by
        unfold mulStep
        rw [rdOutput_other cur h0 hne hm]
        have h1 : ¬ (m.output.dataCount = 16 ∧ cur.dataCount = 3) := by omega
        have h2 : ¬ (m.output.dataCount = 3 ∧ cur.dataCount = 16) := by omega
        simp only [bind, Option.bind, if_neg h1, if_neg h2,
          getElem?_eq_some_getD _ j (show j < m.output.data.length by rw [hml]; exact hj16),
          getElem?_eq_some_getD _ j (show j < cur.data.length by rw [hl]; exact hj16)]
        rw [wrValue_eq _ _ _ (by rw [hl]; exact hj16)]
        exact ⟨_, rfl, hc, by simp [hl]⟩
      obtain ⟨c1, hc1, hcc, hcl⟩ := hstep
      rw [hc1]
      simp only [Option.some_bind]
      exact ih (j + 1) c1 (by omega) (by omega) hcc hcl
    · rw [if_neg hj]
      exact ⟨cur, rfl, hc, hl⟩

/-- The recomputation of a Multiply node with two inputs in other slots of the pool, one
of width 3 and one of width 16: the output has length 4. -/
theorem multiply_node_width (M : Libm) (lines : List FLineData) (mid : List FNodeData)
    (i : Nat) (n a b : FNodeData) (fa fb : Nat)
    (hmid : mid[i]? = some n) (hty : n.type = FNODE_MULTIPLY)
    (hin : inboundIds lines n.id = [fa, fb]) (hsize : WellSized n)
    (ha : inputNode mid fa = some a) (hb : inputNode mid fb = some b)
    (hfa : fa ≠ n.id) (hfb : fb ≠ n.id)
    (hal : a.output.data.length = MAX_VALUES) (hbl : b.output.data.length = MAX_VALUES)
    (hw : (a.output.dataCount = 3 ∧ b.output.dataCount = 16) ∨
      (a.output.dataCount = 16 ∧ b.output.dataCount = 3)) :
    ∃ n', calcNode M lines mid i n = some n' ∧ n'.output.dataCount = 4 := by
  obtain ⟨self, hself, _, hst, _, hso, hsc, hsi⟩ :=
    rebuildInputs_some lines n (by rw [hin]; simp [MAX_INPUTS])
  rw [hin] at hsc hsi
  obtain ⟨ha0, hane, hget_a⟩ := inputNode_other hmid hfa ha
  obtain ⟨hb0, hbne, hget_b⟩ := inputNode_other hmid hfb hb
  have ha16 : a.output.dataCount ≤ MAX_VALUES := by
    unfold MAX_VALUES; rcases hw with ⟨h, _⟩ | ⟨h, _⟩ <;> omega
  obtain ⟨r0, hr0, hc0, hlen0, _, _⟩ := copyFirst_other mid i self (fa : Int) a
    n.output (by rw [hsi]; simp) ha0 hane hget_a (by rw [hsize.1]; exact ha16)
    (by rw [hal]; exact ha16)
  have hr0l : r0.data.length = MAX_VALUES := by rw [hlen0, hsize.1]
  have hidx : inputIndexOf mid self 1 = some (GetNodeIndex mid fb) := by
    unfold inputIndexOf; rw [hsi]; simp
  have hb1 : ¬ b.output.dataCount = 1 := by rcases hw with ⟨_, h⟩ | ⟨_, h⟩ <;> omega
  -- the first iteration of the loop is the transform
  have hfirst : ∃ c1, mulStep M mid i (GetNodeIndex mid fb) 0 r0 = some c1 ∧ c1.dataCount = 4 ∧
      c1.data.length = MAX_VALUES := by
    unfold mulStep
    rw [rdOutput_other r0 hb0 hbne hget_b]
    simp only [bind, Option.bind]
    rcases hw with ⟨h3, h16⟩ | ⟨h16, h3⟩
    · rw [if_pos ⟨h16, by rw [hc0]; exact h3⟩]
      exact mulTransform_some r0 b.output hr0l hbl
    · have : ¬ (b.output.dataCount = 16 ∧ r0.dataCount = 3) := by omega
      rw [if_neg this, if_pos ⟨h3, by rw [hc0]; exact h16⟩]
      exact mulTransform_some b.output r0 hbl hr0l
  obtain ⟨c1, hc1, hcc, hcl⟩ := hfirst
  obtain ⟨r, hr, hrc, _⟩ := mulLoop_width4 hb0 hbne hget_b hbl MAX_VALUES 1 c1
    (by unfold MAX_VALUES; omega) (by unfold MAX_VALUES; omega) hcc hcl
  have hloop : mulLoop M mid i (GetNodeIndex mid fb) (MAX_VALUES + 1) 0 r0 = some r := by
    unfold mulLoop
    have : 0 < r0.dataCount := by rw [hc0]; rcases hw with ⟨h, _⟩ | ⟨h, _⟩ <;> omega
    rw [if_pos this, hc1]
    exact hr
  have hout : calcOutput M mid i self = some r := by
    rw [calcOutput_arith (by rw [hst, hty]; simp [FNodeType.toInt]), hso,
      calcArith_pos (k := 1) (by rw [hsc]; rfl) hr0, forLoop_succ]
    simp only [hidx, bind, Option.bind, hst, hty, arithInput,
      rdOutput_other r0 hb0 hbne hget_b, if_neg hb1, hloop, forLoop_zero]
  exact ⟨{ self with output := r }, calcNode_of hself hout, hrc⟩

/-- C2: a Multiply node with exactly two inbound lines, from two other nodes, of which
one has width 3 and the other width 16 when the pass reaches the Multiply node (in
either order), is recomputed without a fault to an output of width 4, and has that
width after the pass of `CalculateValues`. -/
theorem C2_multiply_promotion_width (M : Libm) (g : Graph) (i : Nat) (n a b : FNodeData)
    (fa fb : Nat) (mid : List FNodeData)
    (hn : g.nodes[i]? = some n) (hty : n.type = FNODE_MULTIPLY)
    (hin : inboundIds g.lines n.id = [fa, fb]) (hsize : WellSized n)
    (hmid : calcUpTo M g.lines i g.nodes = some mid)
    (ha : inputNode mid fa = some a) (hb : inputNode mid fb = some b)
    (hfa : fa ≠ n.id) (hfb : fb ≠ n.id)
    (hal : a.output.data.length = MAX_VALUES) (hbl : b.output.data.length = MAX_VALUES)
    (hw : (a.output.dataCount = 3 ∧ b.output.dataCount = 16) ∨
      (a.output.dataCount = 16 ∧ b.output.dataCount = 3)) :
    (∃ n', calcNode M g.lines mid i n = some n' ∧ n'.output.dataCount = 4) ∧
    ∀ g', CalculateValues M g = some g' →
      ∃ n', g'.nodes[i]? = some n' ∧ n'.output.dataCount = 4 := by
  have hmidn : mid[i]? = some n := by
    rw [calcLoop_untouched M g.lines i 0 g.nodes mid hmid i (by omega)]; exact hn
  obtain ⟨n', hc, hw4⟩ := multiply_node_width M g.lines mid i n a b fa fb hmidn hty hin hsize
    ha hb hfa hfb hal hbl hw
  refine ⟨⟨n', hc, hw4⟩, fun g' hrun => ?_⟩
  obtain ⟨mid1, n1, hmid1, _, hc1, hg'⟩ := CalculateValues_node hrun hn
  rw [hmid] at hmid1
  cases hmid1
  rw [hc] at hc1
  cases hc1
  exact ⟨n', hg', hw4⟩

/-- C2 at Vector3(5, 6, 7) and the identity matrix, in both input orders. -/
theorem C2_multiply_promotion_width_witness :
    (∃ n', (CalculateValues exampleLibm exampleMultiplyGraph).bind (fun g => g.nodes[2]?) =
        some n' ∧ n'.output.dataCount = 4) ∧
    (∃ n', (CalculateValues exampleLibm exampleMultiplyGraph).bind (fun g => g.nodes[3]?) =
        some n' ∧ n'.output.dataCount = 4) :=
  ⟨(C2_multiply_promotion_width exampleLibm exampleMultiplyGraph 2
      (blankNode 2 FNODE_MULTIPLY MAX_INPUTS) (literalNode 0 FNODE_VECTOR3 [5, 6, 7])
      (literalNode 1 FNODE_MATRIX identityValues) 0 1 _ rfl rfl rfl ⟨rfl, by decide, rfl⟩ rfl
      rfl rfl (by decide) (by decide) rfl rfl (Or.inl ⟨rfl, rfl⟩)).2 _ rfl,
   (C2_multiply_promotion_width exampleLibm exampleMultiplyGraph 3
      (blankNode 3 FNODE_MULTIPLY MAX_INPUTS) (literalNode 1 FNODE_MATRIX identityValues)
      (literalNode 0 FNODE_VECTOR3 [5, 6, 7]) 1 0 _ rfl rfl rfl ⟨rfl, by decide, rfl⟩ rfl
      rfl rfl (by decide) (by decide) rfl rfl (Or.inr ⟨rfl, rfl⟩)).2 _ rfl⟩

/-- C3, the values the code computes: with the identity matrix (for which the full
transform of `(5, 6, 7, 1)` is `(5, 6, 7, 1)`) the Multiply node of Vector3(5, 6, 7) holds
`(6, 0, 0, 0)` as (vector, matrix) and `(6, 42, 7, 0)` as (matrix, vector). -/
theorem C3_identity_transform_value :
    (matrixOf { data := identityValues, dataCount := 16 }).map
        (FMultiplyMatrixVector ⟨5, 6, 7, 1⟩) = some ⟨5, 6, 7, 1⟩ ∧
    (CalculateValues exampleLibm exampleMultiplyGraph).map
        (fun g => g.nodes.map (fun n => (n.output.dataCount, n.output.data.take 4))) =
      some [(3, [5, 6, 7, 0]), (16, [1, 0, 0, 0]), (4, [6, 0, 0, 0]), (4, [6, 42, 7, 0])] := by
  decide!

/-! ## Destruction of lines and nodes -/

theorem sameStructure_mem {a b : List FNodeData} (h : SameStructure a b) {m' : FNodeData}
    (hm : m' ∈ b) : ∃ m ∈ a, SameFrame m m' := by
  obtain ⟨q, hq⟩ := List.getElem?_of_mem hm
  have hlt : q < a.length := by
    rw [← h.1]
    rcases List.getElem?_eq_some_iff.mp hq with ⟨hl, _⟩; exact hl
  obtain ⟨m1, hm1, hf⟩ := h.2 q a[q] (List.getElem?_eq_getElem hlt)
  rw [hq] at hm1
  cases hm1
  exact ⟨a[q], List.getElem_mem hlt, hf⟩

/-- What `DestroyNodeLine` does to the store: the first line with the id of `line` is
erased, the nodes keep their structure. -/
theorem DestroyNodeLine_eq_some {M : Libm} {g g' : Graph} {line : FLineData}
    (h : DestroyNodeLine M g line = some g') :
    ∃ index, g.lines.findIdx? (fun l => l.id == line.id) = some index ∧
      g'.lines = g.lines.eraseIdx index ∧ SameStructure g.nodes g'.nodes := by
  unfold DestroyNodeLine at h
  cases hi : g.lines.findIdx? (fun l => l.id == line.id) with
  | none => rw [hi] at h; cases h
  | some index =>
    rw [hi] at h
    obtain ⟨hl, hs⟩ := CalculateValues_same h
    exact ⟨index, rfl, hl, hs⟩

/-- The loop of `DestroyNode` over the lines leaves no line that starts or ends in the
node, and only erases lines. -/
theorem destroyLinesOf_spec (M : Libm) (id : Nat) :
    ∀ (k : Nat) (g g' : Graph), k ≤ g.lines.length →
      (∀ p l, k ≤ p → g.lines[p]? = some l → l.from_ ≠ id ∧ l.to_ ≠ id) →
      destroyLinesOf M id k g = some g' →
      (∀ l ∈ g'.lines, l.from_ ≠ id ∧ l.to_ ≠ id) ∧ SameStructure g.nodes g'.nodes ∧
        g'.lines.Sublist g.lines := by
  intro k
  induction k with
  | zero =>
    intro g g' _ hclean h
    simp only [destroyLinesOf, Option.some.injEq] at h
    subst h
    refine ⟨fun l hl => ?_, sameStructure_refl _, List.Sublist.refl _⟩
    obtain ⟨p, hp⟩ := List.getElem?_of_mem hl
    exact hclean p l (Nat.zero_le p) hp
  | succ k ih =>
    intro g g' hk hclean h
    unfold destroyLinesOf at h
    have hlt : k < g.lines.length := by omega
    rw [List.getElem?_eq_getElem hlt] at h
    simp only [bind, Option.bind] at h
    by_cases ht : g.lines[k].from_ = id ∨ g.lines[k].to_ = id
    · rw [if_pos ht] at h
      cases hd : DestroyNodeLine M g g.lines[k] with
      | none => rw [hd] at h; cases h
      | some g1 =>
        rw [hd] at h
        obtain ⟨index, hidx, hlines, hsame⟩ := DestroyNodeLine_eq_some hd
        obtain ⟨hil, _, hfirst⟩ := List.findIdx?_eq_some_iff_getElem.mp hidx
        have hik : index ≤ k := by
          by_contra hc
          have := hfirst k (by omega)
          simp at this
        obtain ⟨h1, h2, h3⟩ := ih g1 g'
          (by rw [hlines, List.length_eraseIdx_of_lt hil]; omega)
          (fun p l hp hpl => by
            rw [hlines, List.getElem?_eraseIdx_of_ge _ _ _ (by omega)] at hpl
            exact hclean (p + 1) l (by omega) hpl) h
        exact ⟨h1, sameStructure_trans hsame h2, by
          rw [hlines] at h3; exact h3.trans (List.eraseIdx_sublist _ _)⟩
    · rw [if_neg ht] at h
      refine ih g g' (by omega) (fun p l hp hpl => ?_) h
      by_cases hpk : p = k
      · subst hpk
        rw [List.getElem?_eq_getElem hlt] at hpl
        cases hpl
        exact ⟨fun h1 => ht (Or.inl h1), fun h2 => ht (Or.inr h2)⟩
      · exact hclean p l (by omega) hpl

/-- What `DestroyNode` does to the store. -/
theorem DestroyNode_eq_some {M : Libm} {g g' : Graph} {node : FNodeData}
    (h : DestroyNode M g node = some g') :
    ∃ (index : Nat) (ns : List FNodeData), GetNodeIndex g.nodes node.id = (index : Int) ∧
      SameStructure g.nodes ns ∧ SameStructure (ns.eraseIdx index) g'.nodes ∧
      g'.lines.Sublist g.lines ∧ ∀ l ∈ g'.lines, l.from_ ≠ node.id ∧ l.to_ ≠ node.id := by
  unfold DestroyNode at h
  simp only [bind, Option.bind] at h
  cases hd : destroyLinesOf M node.id g.lines.length g with
  | none => rw [hd] at h; cases h
  | some g1 =>
    rw [hd] at h
    simp only at h
    obtain ⟨hclean, hsame, hsub⟩ := destroyLinesOf_spec M node.id g.lines.length g g1
      (Nat.le_refl _) (fun p l hp hpl => by
        have := List.getElem?_eq_some_iff.mp hpl
        obtain ⟨hl, _⟩ := this
        omega) hd
    by_cases hneg : GetNodeIndex g.nodes node.id < 0
    · rw [if_pos hneg] at h; cases h
    · rw [if_neg hneg] at h
      obtain ⟨hl, hs⟩ := CalculateValues_same h
      refine ⟨(GetNodeIndex g.nodes node.id).toNat, g1.nodes, by omega, hsame, hs, ?_, ?_⟩
      · rw [hl]; exact hsub
      · rw [hl]; exact hclean

theorem nodup_ids_index {ns : List FNodeData} (h : (ns.map (fun n => n.id)).Nodup)
    {p q : Nat} {a b : FNodeData} (hp : ns[p]? = some a) (hq : ns[q]? = some b)
    (hid : a.id = b.id) : p = q := by
  have hlt : p < (ns.map (fun n => n.id)).length := by
    rw [List.length_map]
    rcases List.getElem?_eq_some_iff.mp hp with ⟨hl, _⟩; exact hl
  apply List.getElem?_inj hlt h
  simp [List.getElem?_map, hp, hq, hid]

/-- After `DestroyNode` no node of the pool has the id of the destroyed node, when the
ids of the pool were distinct. -/
theorem DestroyNode_nodes {M : Libm} {g g' : Graph} {node : FNodeData}
    (hids : (g.nodes.map (fun n => n.id)).Nodup)
    (h : DestroyNode M g node = some g') :
    (∀ m ∈ g'.nodes, m.id ≠ node.id ∧ ∃ m0 ∈ g.nodes, SameFrame m0 m) ∧
      (node ∈ g.nodes → g'.nodes.length + 1 = g.nodes.length) := by
  obtain ⟨index, ns, hidx, hs1, hs2, _, _⟩ := DestroyNode_eq_some h
  rcases GetNodeIndex_spec g.nodes (node.id : Int) with hneg | ⟨p, mp, hp, hget, hpid⟩
  · rw [hneg] at hidx; omega
  · have hpi : p = index := by rw [hp] at hidx; exact_mod_cast hidx
    subst hpi
    have hpid' : mp.id = node.id := by exact_mod_cast hpid
    have hlt : p < g.nodes.length := by
      rcases List.getElem?_eq_some_iff.mp hget with ⟨hl, _⟩; exact hl
    refine ⟨fun m hm => ?_, fun _ => ?_⟩
    · obtain ⟨m1, hm1, hf1⟩ := sameStructure_mem hs2 hm
      obtain ⟨q, hqne, hq⟩ := List.mem_eraseIdx_iff_getElem?.mp hm1
      have hqlt : q < g.nodes.length := by
        rw [← hs1.1]
        rcases List.getElem?_eq_some_iff.mp hq with ⟨hl, _⟩; exact hl
      obtain ⟨m2, hm2, hf2⟩ := hs1.2 q g.nodes[q] (List.getElem?_eq_getElem hqlt)
      rw [hq] at hm2
      cases hm2
      refine ⟨fun hid => hqne ?_, g.nodes[q], List.getElem_mem hqlt, sameFrame_trans hf2 hf1⟩
      have : g.nodes[q].id = mp.id := by
        rw [hpid', ← hid, hf1.1, hf2.1]
      exact nodup_ids_index hids (List.getElem?_eq_getElem hqlt) hget this
    · rw [hs2.1, List.length_eraseIdx_of_lt (by rw [hs1.1]; exact hlt), hs1.1]
      omega

/-- C5: after `DestroyNode` of a live node of a store with distinct node ids, no node of
the store has the id of that node, the store has one node less, and no line of the store
starts or ends at that id. -/
theorem C5_destroy_node_cascade (M : Libm) (g g' : Graph) (node : FNodeData)
    (hmem : node ∈ g.nodes) (hids : (g.nodes.map (fun n => n.id)).Nodup)
    (hrun : DestroyNode M g node = some g') :
    (∀ m ∈ g'.nodes, m.id ≠ node.id) ∧ g'.nodes.length + 1 = g.nodes.length ∧
      ∀ l ∈ g'.lines, l.from_ ≠ node.id ∧ l.to_ ≠ node.id := by
  obtain ⟨h1, h2⟩ := DestroyNode_nodes hids hrun
  obtain ⟨_, _, _, _, _, _, hl⟩ := DestroyNode_eq_some hrun
  exact ⟨fun m hm => (h1 m hm).1, h2 hmem, hl⟩

/-- C5 at a graph in which the Vector3 node 0 feeds an Add and a Multiply node:
`DestroyNode` of node 0 returns a store with the nodes 1, 2, 3 and the one line that
did not touch node 0. -/
theorem C5_destroy_node_cascade_witness :
    ∃ g', DestroyNode exampleLibm exampleDestroyGraph (literalNode 0 FNODE_VECTOR3 [5, 6, 7]) =
        some g' ∧
      g'.nodes.map (fun n => n.id) = [1, 2, 3] ∧
      g'.lines = [{ id := 1, from_ := 1, to_ := 3 }] ∧
      (∀ m ∈ g'.nodes, m.id ≠ 0) ∧ g'.nodes.length + 1 = 4 ∧
      ∀ l ∈ g'.lines, l.from_ ≠ 0 ∧ l.to_ ≠ 0 := by
  have hv : (DestroyNode exampleLibm exampleDestroyGraph
      (literalNode 0 FNODE_VECTOR3 [5, 6, 7])).map
        (fun g => (g.nodes.map (fun n => n.id), g.lines)) =
      some ([1, 2, 3], [{ id := 1, from_ := 1, to_ := 3 }]) := by decide!
  cases hg : DestroyNode exampleLibm exampleDestroyGraph
      (literalNode 0 FNODE_VECTOR3 [5, 6, 7]) with
  | none => rw [hg] at hv; cases hv
  | some g' =>
    rw [hg] at hv
    simp only [Option.map_some', Option.some.injEq, Prod.mk.injEq] at hv
    exact ⟨g', rfl, hv.1, hv.2,
      C5_destroy_node_cascade exampleLibm exampleDestroyGraph g'
        (literalNode 0 FNODE_VECTOR3 [5, 6, 7]) (by decide!) (by decide) hg⟩

/-! ## The id search -/

theorem firstFreeId_some {used : Nat → Bool} :
    ∀ (count start c : Nat), firstFreeId used start count = some c →
      start ≤ c ∧ c < start + count ∧ used c = false ∧
        ∀ j, start ≤ j → j < c → used j = true := by
  intro count
  induction count with
  | zero => intro start c h; simp [firstFreeId] at h
  | succ count ih =>
    intro start c h
    unfold firstFreeId at h
    by_cases hu : used start = true
    · rw [if_pos hu] at h
      obtain ⟨h1, h2, h3, h4⟩ := ih (start + 1) c h
      refine ⟨by omega, by omega, h3, fun j hj hjc => ?_⟩
      by_cases hjs : j = start
      · rw [hjs]; exact hu
      · exact h4 j (by omega) hjc
    · rw [if_neg hu] at h
      cases h
      exact ⟨Nat.le_refl _, by omega, by simpa using hu, fun j hj hjc => by omega⟩

theorem firstFreeId_none {used : Nat → Bool} :
    ∀ (count start : Nat), firstFreeId used start count = none →
      ∀ j, start ≤ j → j < start + count → used j = true := by
  intro count
  induction count with
  | zero => intro start _ j h1 h2; omega
  | succ count ih =>
    intro start h j h1 h2
    unfold firstFreeId at h
    by_cases hu : used start = true
    · rw [if_pos hu] at h
      by_cases hjs : j = start
      · rw [hjs]; exact hu
      · exact ih (start + 1) h j (by omega) (by omega)
    · rw [if_neg hu] at h; cases h

theorem nodeIdUsed_iff (nodes : List FNodeData) (c : Nat) :
    nodeIdUsed nodes c = true ↔ ∃ m ∈ nodes, m.id = c := by
  unfold nodeIdUsed
  simp [List.any_eq_true]

/-- With all of `0 .. k - 1` in use as ids the pool has at least `k` nodes. -/
theorem used_ids_le_length (nodes : List FNodeData) (k : Nat)
    (h : ∀ j, j < k → nodeIdUsed nodes j = true) : k ≤ nodes.length := by
  have hsub : List.range k ⊆ nodes.map (fun n => n.id) := by
    intro j hj
    obtain ⟨m, hm, hid⟩ := (nodeIdUsed_iff nodes j).mp (h j (List.mem_range.mp hj))
    exact List.mem_map.mpr ⟨m, hm, hid⟩
  have := (List.subperm_of_subset (List.nodup_range k) hsub).length_le
  simpa using this

/-- The id that `InitializeNode` gives to the new node of a pool with fewer than
`MAX_NODES` nodes is the smallest natural number that is not the id of a live node. -/
theorem InitializeNode_least (nodes : List FNodeData) (type : FNodeType)
    (hlen : nodes.length < MAX_NODES) :
    ∃ n', InitializeNode nodes type = some n' ∧ n'.type = type ∧
      (∀ m ∈ nodes, m.id ≠ n'.id) ∧ ∀ c, c < n'.id → ∃ m ∈ nodes, m.id = c := by
  unfold InitializeNode
  cases hf : freeNodeId nodes with
  | none =>
    exfalso
    have := used_ids_le_length nodes MAX_NODES
      (fun j hj => firstFreeId_none MAX_NODES 0 hf j (Nat.zero_le j) (by omega))
    omega
  | some id =>
    obtain ⟨_, _, hfree, hused⟩ := firstFreeId_some MAX_NODES 0 id hf
    simp only [if_pos hlen]
    refine ⟨_, rfl, rfl, fun m hm hid => ?_, fun c hc => ?_⟩
    · have : nodeIdUsed nodes id = true := (nodeIdUsed_iff nodes id).mpr ⟨m, hm, hid⟩
      rw [hfree] at this; cases this
    · exact (nodeIdUsed_iff nodes c).mp (hused c (Nat.zero_le c) hc)

/-- The smallest unused id is determined by the two properties. -/
theorem least_free_unique (nodes : List FNodeData) (a b : Nat)
    (ha : ∀ m ∈ nodes, m.id ≠ a) (ha' : ∀ c, c < a → ∃ m ∈ nodes, m.id = c)
    (hb : ∀ m ∈ nodes, m.id ≠ b) (hb' : ∀ c, c < b → ∃ m ∈ nodes, m.id = c) : a = b := by
  by_contra hne
  rcases Nat.lt_or_gt_of_ne hne with h | h
  · obtain ⟨m, hm, hid⟩ := hb' a h
    exact ha m hm hid
  · obtain ⟨m, hm, hid⟩ := ha' b h
    exact hb m hm hid

/-- Every node that `DestroyNode` does not remove is still in the pool. -/
theorem DestroyNode_keeps {M : Libm} {g g' : Graph} {node : FNodeData}
    (h : DestroyNode M g node = some g') {m0 : FNodeData} (hm0 : m0 ∈ g.nodes)
    (hne : m0.id ≠ node.id) : ∃ m ∈ g'.nodes, SameFrame m0 m := by
  obtain ⟨index, ns, hidx, hs1, hs2, _, _⟩ := DestroyNode_eq_some h
  rcases GetNodeIndex_spec g.nodes (node.id : Int) with hneg | ⟨p, mp, hp, hget, hpid⟩
  · rw [hneg] at hidx; omega
  · have hpi : p = index := by rw [hp] at hidx; exact_mod_cast hidx
    subst hpi
    have hpid' : mp.id = node.id := by exact_mod_cast hpid
    obtain ⟨q, hq⟩ := List.getElem?_of_mem hm0
    have hqp : q ≠ p := by
      intro hqp
      rw [hqp, hget] at hq
      cases hq
      exact hne hpid'
    obtain ⟨m1, hm1, hf1⟩ := hs1.2 q m0 hq
    have hmem : m1 ∈ ns.eraseIdx p := List.mem_eraseIdx_iff_getElem?.mpr ⟨q, hqp, hm1⟩
    obtain ⟨r, hr⟩ := List.getElem?_of_mem hmem
    obtain ⟨m2, hm2, hf2⟩ := hs2.2 r m1 hr
    exact ⟨m2, List.getElem?_mem hm2, sameFrame_trans hf1 hf2⟩

/-- C4, as amended: `InitializeNode` on a store with fewer than `MAX_NODES` nodes gives
the new node the smallest natural number that is not the id of a live node, so an id that
no live node has; and when a node is destroyed whose id has every smaller number in use
as an id (the ids of the store being distinct), the node created next receives the id
of the destroyed node. -/
theorem C4_initialize_node_id (M : Libm) (g : Graph) (type : FNodeType)
    (hlen : g.nodes.length < MAX_NODES) :
    (∃ n', InitializeNode g.nodes type = some n' ∧ (∀ m ∈ g.nodes, m.id ≠ n'.id) ∧
      ∀ c, c < n'.id → ∃ m ∈ g.nodes, m.id = c) ∧
    ∀ node g1, node ∈ g.nodes → (g.nodes.map (fun n => n.id)).Nodup →
      (∀ c, c < node.id → ∃ m ∈ g.nodes, m.id = c) → DestroyNode M g node = some g1 →
      ∃ n', InitializeNode g1.nodes type = some n' ∧ n'.id = node.id := by
  refine ⟨?_, fun node g1 hmem hids hbelow hrun => ?_⟩
  · obtain ⟨n', h1, _, h3, h4⟩ := InitializeNode_least g.nodes type hlen
    exact ⟨n', h1, h3, h4⟩
  · obtain ⟨hgone, hcount⟩ := DestroyNode_nodes hids hrun
    obtain ⟨n', h1, _, h3, h4⟩ := InitializeNode_least g1.nodes type
      (by have := hcount hmem; omega)
    refine ⟨n', h1, least_free_unique g1.nodes n'.id node.id h3 h4
      (fun m hm => (hgone m hm).1) (fun c hc => ?_)⟩
    obtain ⟨m0, hm0, hid0⟩ := hbelow c hc
    obtain ⟨m, hm, hf⟩ := DestroyNode_keeps hrun hm0 (by omega)
    exact ⟨m, hm, by rw [hf.1, hid0]⟩

/-- C4 as stated fails: in a store with the live ids 1 and 2 the node with the lowest id,
1, is destroyed, and the node created next receives the id 0, not the freed id 1. -/
theorem C4_lowest_id_not_reused :
    exampleGapGraph.nodes.length < MAX_NODES ∧
    (∀ m ∈ exampleGapGraph.nodes, (literalNode 1 FNODE_VALUE [2]).id ≤ m.id) ∧
    ((DestroyNode exampleLibm exampleGapGraph (literalNode 1 FNODE_VALUE [2])).bind
        (fun g => InitializeNode g.nodes FNODE_VALUE)).map (fun n => n.id) = some 0 := by
  decide!

/-- C4 at the store with the ids 0, 1, 2, 3: the next id is 4, and after the node with
id 0 is destroyed the next id is 0. -/
theorem C4_initialize_node_id_witness :
    (∃ n', InitializeNode exampleDestroyGraph.nodes FNODE_VALUE = some n' ∧ n'.id = 4) ∧
    ∃ g1 n', DestroyNode exampleLibm exampleDestroyGraph (literalNode 0 FNODE_VECTOR3 [5, 6, 7]) =
        some g1 ∧ InitializeNode g1.nodes FNODE_VALUE = some n' ∧ n'.id = 0 := by
  have h := C4_initialize_node_id exampleLibm exampleDestroyGraph FNODE_VALUE (by decide)
  constructor
  · obtain ⟨n', h1, _, _⟩ := h.1
    refine ⟨n', h1, ?_⟩
    have : (InitializeNode exampleDestroyGraph.nodes FNODE_VALUE).map (fun n => n.id) =
        some 4 := by decide!
    rw [h1] at this
    exact Option.some.inj this
  · cases hg : DestroyNode exampleLibm exampleDestroyGraph
        (literalNode 0 FNODE_VECTOR3 [5, 6, 7]) with
    | none =>
      have : (DestroyNode exampleLibm exampleDestroyGraph
        (literalNode 0 FNODE_VECTOR3 [5, 6, 7])).isSome = true := by decide!
      rw [hg] at this; cases this
    | some g1 =>
      obtain ⟨n', h1, h2⟩ := h.2 (literalNode 0 FNODE_VECTOR3 [5, 6, 7]) g1 (by decide!)
        (by decide) (fun c hc => absurd hc (Nat.not_lt_zero c)) hg
      exact ⟨g1, n', rfl, h1, h2⟩

/-! ## The two sinks -/

theorem countP_eraseIdx_of_not (p : FNodeData → Bool) :
    ∀ (l : List FNodeData) (i : Nat) (a : FNodeData), l[i]? = some a → p a = false →
      (l.eraseIdx i).countP p = l.countP p := by
  intro l
  induction l with
  | nil => intro i a h; simp at h
  | cons x rest ih =>
    intro i a h hp
    cases i with
    | zero =>
      simp only [List.getElem?_cons_zero, Option.some.injEq] at h
      subst h
      simp [List.countP_cons, hp]
    | succ i =>
      simp only [List.getElem?_cons_succ] at h
      simp only [List.eraseIdx_cons_succ, List.countP_cons, ih i a h hp]

theorem sameStructure_countP {a b : List FNodeData} (h : SameStructure a b)
    (type : FNodeType) :
    b.countP (fun n => n.type == type) = a.countP (fun n => n.type == type) := by
  have h1 : ∀ l : List FNodeData, l.countP (fun n => n.type == type) =
      (l.map (fun n => n.type)).countP (fun t => t == type) := by
    intro l; rw [List.countP_map]; rfl
  rw [h1 a, h1 b, sameStructure_types h]

theorem CalculateValues_invariant {M : Libm} {g g' : Graph}
    (h : CalculateValues M g = some g') (hinv : SinkInvariant g) : SinkInvariant g' := by
  obtain ⟨_, hs⟩ := CalculateValues_same h
  unfold SinkInvariant countKind at *
  rw [← sameStructure_ids hs, sameStructure_countP hs, sameStructure_countP hs]
  exact hinv

/-- `DestroyNode` of a live node that is not a sink keeps the invariant. -/
theorem DestroyNode_invariant {M : Libm} {g g' : Graph} {node : FNodeData}
    (h : DestroyNode M g node = some g') (hmem : node ∈ g.nodes)
    (hty : node.type.toInt < FNODE_VERTEX.toInt) (hinv : SinkInvariant g) :
    SinkInvariant g' := by
  obtain ⟨index, ns, hidx, hs1, hs2, _, _⟩ := DestroyNode_eq_some h
  rcases GetNodeIndex_spec g.nodes (node.id : Int) with hneg | ⟨p, mp, hp, hget, hpid⟩
  · rw [hneg] at hidx; omega
  · have hpi : p = index := by rw [hp] at hidx; exact_mod_cast hidx
    subst hpi
    have hpid' : mp.id = node.id := by exact_mod_cast hpid
    obtain ⟨q, hq⟩ := List.getElem?_of_mem hmem
    have hqp : p = q := nodup_ids_index hinv.1 hget hq hpid'
    subst hqp
    rw [hget] at hq
    cases hq
    obtain ⟨m2, hm2, hf2⟩ := hs1.2 p node hget
    have hkind : ∀ type : FNodeType, type.toInt ≥ FNODE_VERTEX.toInt →
        g'.nodes.countP (fun n => n.type == type) =
          g.nodes.countP (fun n => n.type == type) := by
      intro type ht
      rw [sameStructure_countP hs2,
        countP_eraseIdx_of_not _ ns p m2 hm2 (by
          rw [hf2.2.1]
          simp only [beq_eq_false_iff_ne, ne_eq]
          intro he; rw [he] at hty; omega),
        sameStructure_countP hs1]
    refine ⟨?_, (hkind FNODE_VERTEX (by decide)).trans hinv.2.1,
      (hkind FNODE_FRAGMENT (by decide)).trans hinv.2.2⟩
    rw [← sameStructure_ids hs2]
    have hsub : ((ns.eraseIdx p).map (fun n => n.id)).Sublist (ns.map (fun n => n.id)) :=
      (List.eraseIdx_sublist ns p).map _
    rw [← sameStructure_ids hs1] at hsub
    exact hinv.1.sublist hsub

theorem InitializeNode_eq_some {nodes : List FNodeData} {type : FNodeType} {n : FNodeData}
    (h : InitializeNode nodes type = some n) :
    n.type = type ∧ ∀ m ∈ nodes, m.id ≠ n.id := by
  unfold InitializeNode at h
  cases hf : freeNodeId nodes with
  | none => rw [hf] at h; cases h
  | some id =>
    rw [hf] at h
    simp only at h
    split at h
    · cases h
      obtain ⟨_, _, hfree, _⟩ := firstFreeId_some MAX_NODES 0 id hf
      refine ⟨rfl, fun m hm hid => ?_⟩
      have : nodeIdUsed nodes id = true := (nodeIdUsed_iff nodes id).mpr ⟨m, hm, hid⟩
      rw [hfree] at this; cases this
    · cases h

/-- A new node that is not a sink keeps the invariant. -/
theorem createNode_invariant {g g' : Graph} {type : FNodeType} {f : FNodeData → FNodeData}
    (h : createNode g type f = some g') (hf : ∀ n, (f n).id = n.id ∧ (f n).type = n.type)
    (hty : type.toInt < FNODE_VERTEX.toInt) (hinv : SinkInvariant g) : SinkInvariant g' := by
  unfold createNode at h
  cases hi : InitializeNode g.nodes type with
  | none => rw [hi] at h; cases h
  | some n =>
    rw [hi] at h
    simp only [Option.map_some', Option.some.injEq] at h
    subst h
    obtain ⟨hnt, hfresh⟩ := InitializeNode_eq_some hi
    have hkind : ∀ t : FNodeType, t.toInt ≥ FNODE_VERTEX.toInt →
        ((f n).type == t) = false := by
      intro t ht
      rw [(hf n).2, hnt]
      simp only [beq_eq_false_iff_ne, ne_eq]
      intro he; rw [he] at hty; omega
    refine ⟨?_, ?_, ?_⟩
    · simp only [List.map_append, List.map_cons, List.map_nil]
      rw [List.nodup_append]
      refine ⟨hinv.1, by simp, ?_⟩
      intro a ha hb
      simp only [List.mem_singleton] at hb
      obtain ⟨m, hm, hid⟩ := List.mem_map.mp ha
      rw [hb, (hf n).1] at hid
      exact hfresh m hm hid
    · show (g.nodes ++ [f n]).countP _ = 1
      rw [List.countP_append, List.countP_cons, List.countP_nil,
        hkind FNODE_VERTEX (by decide)]
      exact hinv.2.1
    · show (g.nodes ++ [f n]).countP _ = 1
      rw [List.countP_append, List.countP_cons, List.countP_nil,
        hkind FNODE_FRAGMENT (by decide)]
      exact hinv.2.2

theorem operatorButtons_kind :
    ∀ x ∈ operatorButtons, x.1.toInt < FNODE_VERTEX.toInt := by decide

theorem uniformButtons_kind :
    ∀ x ∈ uniformButtons, x.1.toInt < FNODE_VERTEX.toInt := by decide

/-- A click on a button of the menu creates a node that is not a sink. -/
theorem clickMenu_invariant {M : Libm} {g g' : Graph} {b : MenuButton}
    (hb : b.valid = true) (h : clickMenu M g b = some g') (hinv : SinkInvariant g) :
    SinkInvariant g' := by
  cases b with
  | value v => exact createNode_invariant h (fun n => ⟨rfl, rfl⟩) (by decide) hinv
  | vector2 v => exact createNode_invariant h (fun n => ⟨rfl, rfl⟩) (by decide) hinv
  | vector3 v => exact createNode_invariant h (fun n => ⟨rfl, rfl⟩) (by decide) hinv
  | vector4 v => exact createNode_invariant h (fun n => ⟨rfl, rfl⟩) (by decide) hinv
  | matrix => exact createNode_invariant h (fun n => ⟨rfl, rfl⟩) (by decide) hinv
  | operator type inputs =>
    have hmem : (type, inputs) ∈ operatorButtons := by
      simpa [MenuButton.valid] using hb
    exact createNode_invariant h (fun n => ⟨rfl, rfl⟩) (operatorButtons_kind _ hmem) hinv
  | uniform type dataCount =>
    have hmem : (type, dataCount) ∈ uniformButtons := by
      simpa [MenuButton.valid] using hb
    exact createNode_invariant h (fun n => ⟨rfl, rfl⟩) (uniformButtons_kind _ hmem) hinv
  | pi => exact createNode_invariant h (fun n => ⟨rfl, rfl⟩) (by decide) hinv
  | e => exact createNode_invariant h (fun n => ⟨rfl, rfl⟩) (by decide) hinv

theorem deleteClick_invariant {M : Libm} {g g' : Graph} {i : Nat}
    (h : deleteClick M g i = some g') (hinv : SinkInvariant g) : SinkInvariant g' := by
  unfold deleteClick at h
  cases hn : g.nodes[i]? with
  | none => rw [hn] at h; cases h
  | some node =>
    rw [hn] at h
    simp only [bind, Option.bind] at h
    split at h
    · rename_i hty
      cases hd : DestroyNode M g node with
      | none => rw [hd] at h; cases h
      | some g1 =>
        rw [hd] at h
        exact CalculateValues_invariant h
          (DestroyNode_invariant hd (List.getElem?_mem hn) hty hinv)
    · cases h

theorem clearGraphLoop_invariant (M : Libm) :
    ∀ (k : Nat) (g g' : Graph), clearGraphLoop M k g = some g' → SinkInvariant g →
      SinkInvariant g' := by
  intro k
  induction k with
  | zero => intro g g' h hinv; simp only [clearGraphLoop, Option.some.injEq] at h; rw [← h]; exact hinv
  | succ k ih =>
    intro g g' h hinv
    unfold clearGraphLoop at h
    cases hn : g.nodes[k]? with
    | none => rw [hn] at h; cases h
    | some node =>
      rw [hn] at h
      simp only [bind, Option.bind] at h
      by_cases hty : node.type.toInt < FNODE_VERTEX.toInt
      · rw [if_pos hty] at h
        cases hd : DestroyNode M g node with
        | none => rw [hd] at h; cases h
        | some g1 =>
          rw [hd] at h
          exact ih g1 g' h (DestroyNode_invariant hd (List.getElem?_mem hn) hty hinv)
      · rw [if_neg hty] at h
        exact ih g g' h hinv

theorem clearUnusedLoop_invariant (M : Libm) :
    ∀ (k : Nat) (g g' : Graph), clearUnusedLoop M k g = some g' → SinkInvariant g →
      SinkInvariant g' := by
  intro k
  induction k with
  | zero => intro g g' h hinv; simp only [clearUnusedLoop, Option.some.injEq] at h; rw [← h]; exact hinv
  | succ k ih =>
    intro g g' h hinv
    unfold clearUnusedLoop at h
    cases hn : g.nodes[k]? with
    | none => rw [hn] at h; cases h
    | some node =>
      rw [hn] at h
      simp only [bind, Option.bind] at h
      by_cases hu : nodeUsed g node = true
      · rw [if_pos hu] at h
        exact ih g g' h hinv
      · rw [if_neg hu] at h
        have hty : node.type.toInt < FNODE_VERTEX.toInt := by
          unfold nodeUsed at hu
          simp only [Bool.or_eq_true, decide_eq_true_eq, not_or] at hu
          omega
        cases hd : DestroyNode M g node with
        | none => rw [hd] at h; cases h
        | some g1 =>
          rw [hd] at h
          exact ih g1 g' h (DestroyNode_invariant hd (List.getElem?_mem hn) hty hinv)

theorem InitFNode_eq : InitFNode = some exampleFreshGraph := by decide!

/-- Every store reached from the fresh start has distinct node ids and one sink of each
stage. -/
theorem freshReachable_invariant (M : Libm) (g : Graph) (h : FreshReachable M g) :
    SinkInvariant g := by
  induction h with
  | init g h =>
    rw [InitFNode_eq] at h
    cases h
    exact ⟨by decide, by decide, by decide⟩
  | menu g g' b _ hb h ih => exact clickMenu_invariant hb h ih
  | delete g g' i _ h ih => exact deleteClick_invariant h ih
  | clearGraph g g' _ h ih => exact clearGraphLoop_invariant M _ g g' h ih
  | clearUnused g g' _ h ih => exact clearUnusedLoop_invariant M _ g g' h ih

/-- C6: in every store reached from the fresh start of `InitFNode` by clicks on the node
menu, deleting right clicks, `ClearGraph` and `ClearUnusedNodes` there is exactly one
node of kind `FNODE_VERTEX` and exactly one of kind `FNODE_FRAGMENT`. -/
theorem C6_two_sinks (M : Libm) (g : Graph) (h : FreshReachable M g) :
    countKind g FNODE_VERTEX = 1 ∧ countKind g FNODE_FRAGMENT = 1 :=
  (freshReachable_invariant M g h).2

/-- C6 at the store reached by a click on "Add", a deleting right click on the new node
and "Clear Graph". -/
theorem C6_two_sinks_witness :
    FreshReachable exampleLibm exampleFreshGraph ∧
    countKind exampleFreshGraph FNODE_VERTEX = 1 ∧
    countKind exampleFreshGraph FNODE_FRAGMENT = 1 := by
  have h0 : FreshReachable exampleLibm exampleFreshGraph :=
    FreshReachable.init _ InitFNode_eq
  have h1 : FreshReachable exampleLibm exampleMenuGraph :=
    FreshReachable.menu _ _ (MenuButton.operator FNODE_ADD MAX_INPUTS) h0 (by decide)
      (by decide!)
  have h2 : FreshReachable exampleLibm exampleFreshGraph :=
    FreshReachable.delete _ _ 2 h1 (by decide!)
  have h3 : FreshReachable exampleLibm exampleFreshGraph :=
    FreshReachable.clearGraph _ _ h2 (by decide!)
  exact ⟨h3, C6_two_sinks exampleLibm exampleFreshGraph h3⟩

/-! ## The link validator -/

/-- The decision for a destination that may take one more input and a source that is
another live node: the first disjunct or `valuesCheck`. -/
theorem linkAccepted_eq {nodes : List FNodeData} {i : Nat} {dst : FNodeData} {from_ : Nat}
    (hdst : nodes[i]? = some dst) (hne : dst.id ≠ from_)
    (hcap : dst.inputsCount < dst.inputsLimit) :
    linkAccepted nodes i from_ =
      (valuesCheck nodes dst (GetNodeIndex nodes from_)).map
        (fun check => firstInputUnchecked dst || check) := by
  unfold linkAccepted
  rw [hdst]
  simp only [bind, Option.bind, if_pos (And.intro hne hcap)]
  cases valuesCheck nodes dst (GetNodeIndex nodes from_) <;> rfl

/-- C7: for a CrossProduct node that holds at least one input and may take one more, and a
source that is another live node, the link is accepted exactly when the width of the
source is 3. -/
theorem C7_crossproduct_second_input (nodes : List FNodeData) (i : Nat)
    (dst src : FNodeData) (from_ : Nat)
    (hdst : nodes[i]? = some dst) (hty : dst.type = FNODE_CROSSPRODUCT)
    (hcount : 0 < dst.inputsCount) (hcap : dst.inputsCount < dst.inputsLimit)
    (hne : dst.id ≠ from_) (hsrc : inputNode nodes from_ = some src) :
    linkAccepted nodes i from_ = some (decide (src.output.dataCount = 3)) := by
  rw [linkAccepted_eq hdst hne hcap]
  unfold inputNode at hsrc
  have hfirst : firstInputUnchecked dst = false := by
    unfold firstInputUnchecked
    simp only [decide_eq_false_iff_not, not_and]
    intro h; omega
  simp [valuesCheck, hty, hsrc, hfirst]

/-- C7 at the CrossProduct node of `exampleCrossGraph`: the Vector3 node 2 is accepted as
second input, the Vector2 node 1 is rejected. -/
theorem C7_crossproduct_second_input_witness :
    linkAccepted exampleCrossGraph.nodes 3 2 = some true ∧
    linkAccepted exampleCrossGraph.nodes 3 1 = some false :=
  ⟨C7_crossproduct_second_input exampleCrossGraph.nodes 3
      (linkedNode 3 FNODE_CROSSPRODUCT 2 0 []) (literalNode 2 FNODE_VECTOR3 [0, 1, 0]) 2
      rfl rfl (by decide) (by decide) (by decide) (by decide!),
   C7_crossproduct_second_input exampleCrossGraph.nodes 3
      (linkedNode 3 FNODE_CROSSPRODUCT 2 0 []) (literalNode 1 FNODE_VECTOR2 [1, 0]) 1
      rfl rfl (by decide) (by decide) (by decide) (by decide!)⟩

/-- C8: for a destination without an input that may take one, and a source that is
another live node: when the kind is not one of the ten of `firstInputChecked` the link is
accepted whatever the width of the source; when it is one of the ten, the link is
accepted exactly when the width rule of that kind holds for the source. -/
theorem C8_first_input (nodes : List FNodeData) (i : Nat) (dst src : FNodeData)
    (from_ : Nat) (hdst : nodes[i]? = some dst) (hcount : dst.inputsCount = 0)
    (hlimit : 0 < dst.inputsLimit) (hne : dst.id ≠ from_)
    (hsrc : inputNode nodes from_ = some src) :
    (firstInputChecked dst.type = false → linkAccepted nodes i from_ = some true) ∧
    (firstInputChecked dst.type = true →
      linkAccepted nodes i from_ = some (specFirstInputRule dst.type src.output.dataCount)) := by
  rw [linkAccepted_eq hdst hne (by omega)]
  unfold inputNode at hsrc
  constructor
  · intro hk
    have hfirst : firstInputUnchecked dst = true := by
      unfold firstInputUnchecked
      revert hk
      cases dst.type <;> simp [firstInputChecked, hcount]
    have hsome : ∃ check, valuesCheck nodes dst (GetNodeIndex nodes from_) = some check := by
      unfold valuesCheck
      revert hk
      cases dst.type <;> simp [firstInputChecked, hsrc, hcount, FNodeType.toInt]
    obtain ⟨check, hcheck⟩ := hsome
    rw [hcheck, hfirst]
    rfl
  · intro hk
    have hfirst : firstInputUnchecked dst = false := by
      unfold firstInputUnchecked
      revert hk
      cases dst.type <;> simp [firstInputChecked]
    rw [hfirst]
    unfold valuesCheck sameAsFirstInput
    revert hk
    cases dst.type <;>
      simp [firstInputChecked, specFirstInputRule, hsrc, hcount, FNodeType.toInt] <;> rfl

/-- C8 at `exampleFirstInputGraph`: the Sine node takes the Value node as first input,
the Normalize node takes the Vector3 node and rejects the Value node. -/
theorem C8_first_input_witness :
    linkAccepted exampleFirstInputGraph.nodes 3 1 = some true ∧
    linkAccepted exampleFirstInputGraph.nodes 2 0 = some true ∧
    linkAccepted exampleFirstInputGraph.nodes 2 1 = some false :=
  ⟨(C8_first_input exampleFirstInputGraph.nodes 3 (blankNode 3 FNODE_SIN 1)
      (literalNode 1 FNODE_VALUE [2]) 1 rfl rfl (by decide) (by decide) (by decide!)).1 rfl,
   (C8_first_input exampleFirstInputGraph.nodes 2 (blankNode 2 FNODE_NORMALIZE 1)
      (literalNode 0 FNODE_VECTOR3 [5, 6, 7]) 0 rfl rfl (by decide) (by decide)
      (by decide!)).2 rfl,
   (C8_first_input exampleFirstInputGraph.nodes 2 (blankNode 2 FNODE_NORMALIZE 1)
      (literalNode 1 FNODE_VALUE [2]) 1 rfl rfl (by decide) (by decide) (by decide!)).2 rfl⟩

/-- C9, as amended: for an Append node that holds at least one input and may take one
more, and a source that is another live node, the link is accepted exactly when the
width of the source is 1 and the current output width of the Append node plus the width
of the source is at most 4. -/
theorem C9_append_input (nodes : List FNodeData) (i : Nat) (dst src : FNodeData)
    (from_ : Nat) (hdst : nodes[i]? = some dst) (hty : dst.type = FNODE_APPEND)
    (hcount : 0 < dst.inputsCount) (hcap : dst.inputsCount < dst.inputsLimit)
    (hne : dst.id ≠ from_) (hsrc : inputNode nodes from_ = some src) :
    linkAccepted nodes i from_ =
      some (decide (src.output.dataCount = 1 ∧
        dst.output.dataCount + src.output.dataCount ≤ 4)) := by
  rw [linkAccepted_eq hdst hne hcap]
  unfold inputNode at hsrc
  have hfirst : firstInputUnchecked dst = false := by
    unfold firstInputUnchecked
    simp only [decide_eq_false_iff_not, not_and]
    intro h; omega
  simp [valuesCheck, hty, hsrc, hfirst, and_comm]

/-- C9 as stated fails when the proposed source is the Append node itself: the node of
`exampleAppendGraph` has width 1 after `CalculateValues`, so the source has width 1 and
the sum of the widths is 2, and the link is not created. -/
theorem C9_append_self_rejected :
    CalculateValues exampleLibm
      { nodes := [literalNode 0 FNODE_VALUE [2], blankNode 1 FNODE_APPEND 4]
        lines := exampleAppendGraph.lines } = some exampleAppendGraph ∧
    (inputNode exampleAppendGraph.nodes 1).map (fun src =>
      decide (src.output.dataCount = 1 ∧
        (linkedNode 1 FNODE_APPEND 4 0 [2]).output.dataCount + src.output.dataCount ≤ 4)) =
      some true ∧
    linkAccepted exampleAppendGraph.nodes 1 1 = some false := by
  decide!

/-- C9 at the Append node of `exampleAppendGraph`: the Value node 0 is accepted once
more. -/
theorem C9_append_input_witness :
    linkAccepted exampleAppendGraph.nodes 1 0 = some true :=
  C9_append_input exampleAppendGraph.nodes 1 (linkedNode 1 FNODE_APPEND 4 0 [2])
    (literalNode 0 FNODE_VALUE [2]) 0 rfl rfl (by decide) (by decide) (by decide)
    (by decide!)

/-- C10, as amended: for an Add, Subtract, Multiply or Divide node that may take one more
input, the link from every source other than the node itself is accepted, whatever the
width of the source. -/
theorem C10_arithmetic_input (nodes : List FNodeData) (i : Nat) (dst : FNodeData)
    (from_ : Nat) (hdst : nodes[i]? = some dst)
    (hty : dst.type = FNODE_ADD ∨ dst.type = FNODE_SUBTRACT ∨ dst.type = FNODE_MULTIPLY ∨
      dst.type = FNODE_DIVIDE)
    (hcap : dst.inputsCount < dst.inputsLimit) (hne : dst.id ≠ from_) :
    linkAccepted nodes i from_ = some true := by
  rw [linkAccepted_eq hdst hne hcap]
  rcases hty with h | h | h | h <;> simp [valuesCheck, h, FNodeType.toInt]

/-- C10 as stated fails: the Add node of `exampleWidthGraph` has the current output
width 3, and the link from the Value node 1, of width 1, is accepted as its second
input. -/
theorem C10_width_one_accepted :
    CalculateValues exampleLibm
      { nodes := [literalNode 0 FNODE_VECTOR3 [5, 6, 7], literalNode 1 FNODE_VALUE [2],
                  blankNode 2 FNODE_ADD MAX_INPUTS]
        lines := exampleWidthGraph.lines } = some exampleWidthGraph ∧
    (exampleWidthGraph.nodes[2]?).map (fun n => n.output.dataCount) = some 3 ∧
    (inputNode exampleWidthGraph.nodes 1).map (fun n => n.output.dataCount) = some 1 ∧
    linkAccepted exampleWidthGraph.nodes 2 1 = some true := by
  decide!

/-- C10 at the Add node of `exampleWidthGraph` and the Value node 1. -/
theorem C10_arithmetic_input_witness :
    linkAccepted exampleWidthGraph.nodes 2 1 = some true :=
  C10_arithmetic_input exampleWidthGraph.nodes 2 (linkedNode 2 FNODE_ADD MAX_INPUTS 0 [5, 6, 7])
    1 rfl (Or.inl rfl) (by decide) (by decide)

/-! ## Further inputs of Posterize, Lerp and SmoothStep -/

/-- C11, what the code does: after the first input of a Posterize, a Lerp and a
SmoothStep node is linked and the values are recomputed, each of the three nodes has
`inputsCount = 1` and a cleared output of width 0, and `linkAccepted` refuses the Value
node 3 (width 1) as second input of the Posterize node and the Vector3 node 6 (width 3,
the width of the first input) as second input of the Lerp and of the SmoothStep node. -/
theorem C11_further_inputs_refused :
    exampleTaxonomySteps.map (fun g =>
      g.nodes.map (fun n => (n.id, n.type, n.inputsCount, n.output.dataCount))) =
      some [(0, FNODE_VERTEX, 0, 0), (1, FNODE_FRAGMENT, 0, 0), (2, FNODE_VALUE, 0, 1),
        (3, FNODE_VALUE, 0, 1), (4, FNODE_POSTERIZE, 1, 0), (5, FNODE_VECTOR3, 0, 3),
        (6, FNODE_VECTOR3, 0, 3), (7, FNODE_LERP, 1, 0), (8, FNODE_SMOOTHSTEP, 1, 0)] ∧
    exampleTaxonomySteps.bind (fun g => linkAccepted g.nodes 4 3) = some false ∧
    exampleTaxonomySteps.bind (fun g => linkAccepted g.nodes 7 6) = some false ∧
    exampleTaxonomySteps.bind (fun g => linkAccepted g.nodes 8 6) = some false := by
  decide!

/-! ## Further inputs of a sink -/

/-- C12, what the code does: `CreateNodeMaterial` assigns no input limit, so the fragment
sink that `InitFNode` creates keeps the limit `MAX_INPUTS` of `InitializeNode`; once the
Vector3 node 2 is linked into it, the link from the Value node 3, a different source, is
accepted, and the link gesture stores the second line into the sink, which then has two
inputs. -/
theorem C12_sink_second_link_created :
    exampleSinkSteps = some exampleSinkGraph ∧
    (exampleSinkGraph.nodes[1]?).map (fun n => (n.type, n.inputsCount, n.inputsLimit)) =
      some (FNODE_FRAGMENT, 1, 4) ∧
    linkAccepted exampleSinkGraph.nodes 1 3 = some true ∧
    (linkClick exampleLibm exampleSinkGraph 3 1).map (fun g => g.lines) =
      some [{ id := 0, from_ := 2, to_ := 1 }, { id := 1, from_ := 3, to_ := 1 }] ∧
    (linkClick exampleLibm exampleSinkGraph 3 1).bind (fun g =>
      (g.nodes[1]?).map (fun n => (n.inputs, n.inputsCount))) = some ([2, 3, -1, -1], 2) := by
  decide!

/-! ## The input limit of the created nodes -/

/-- C13, what the code does for a geometry input: the node that the menu button "Vertex
Position" creates keeps the input limit `MAX_INPUTS` of `InitializeNode`, `linkAccepted`
accepts the Value node 3 as its input, and the link gesture stores a line into it; the
Value node, a literal, has the input limit 0. -/
theorem C13_uniform_input_limit :
    exampleUniformSteps.map (fun g => g.nodes.map (fun n => (n.id, n.type, n.inputsLimit))) =
      some [(0, FNODE_VERTEX, 4), (1, FNODE_FRAGMENT, 4), (2, FNODE_VERTEXPOSITION, 4),
        (3, FNODE_VALUE, 0)] ∧
    exampleUniformSteps.bind (fun g => linkAccepted g.nodes 2 3) = some true ∧
    exampleUniformSteps.bind (fun g => (linkClick exampleLibm g 3 2).map (fun g => g.lines)) =
      some [{ id := 0, from_ := 3, to_ := 2 }] := by
  decide!

/-! ## The inputs after a pass -/

/-- C14: for a node with at most `MAX_INPUTS` inbound lines, the rebuilding of its inputs
succeeds, and after a pass of `CalculateValues` its `inputsCount` is the number of lines
whose `to` is its id, the slots `inputs[0 .. inputsCount)` hold the `from` ids of those
lines in storage order, and every remaining slot of `inputs[MAX_INPUTS]` holds `-1`. -/
theorem C14_rebuilt_inputs (M : Libm) (g : Graph) (i : Nat) (n : FNodeData)
    (hn : g.nodes[i]? = some n)
    (hle : (g.lines.filter (fun l => l.to_ == n.id)).length ≤ MAX_INPUTS) :
    (∃ self, rebuildInputs g.lines n = some self) ∧
    ∀ g', CalculateValues M g = some g' →
      ∃ n', g'.nodes[i]? = some n' ∧
        n'.inputsCount = (g.lines.filter (fun l => l.to_ == n.id)).length ∧
        n'.inputs.length = MAX_INPUTS ∧
        n'.inputs.take n'.inputsCount =
          (g.lines.filter (fun l => l.to_ == n.id)).map (fun l => (l.from_ : Int)) ∧
        ∀ k, n'.inputsCount ≤ k → k < MAX_INPUTS → n'.inputs[k]? = some (-1) := by
  have hle' : (inboundIds g.lines n.id).length ≤ MAX_INPUTS := by
    simpa [inboundIds] using hle
  refine ⟨?_, fun g' hrun => ?_⟩
  · rw [rebuildInputs_eq, if_pos hle']
    exact ⟨_, rfl⟩
  · obtain ⟨mid, n', _, _, hc, hg'⟩ := CalculateValues_node hrun hn
    obtain ⟨self, out, hr, _, rfl⟩ := calcNode_eq_some hc
    rw [rebuildInputs_eq, if_pos hle'] at hr
    cases hr
    have hlen : (inboundIds g.lines n.id).length =
        (g.lines.filter (fun l => l.to_ == n.id)).length := by
      simp [inboundIds]
    have hmap : (inboundIds g.lines n.id).map (fun (f : Nat) => (f : Int)) =
        (g.lines.filter (fun l => l.to_ == n.id)).map (fun l => (l.from_ : Int)) := by
      simp [inboundIds, List.map_map]
    refine ⟨_, hg', hlen, ?_, ?_, fun k hk hk4 => ?_⟩
    · simp only [List.length_append, List.length_map, List.length_replicate]
      omega
    · show List.take (inboundIds g.lines n.id).length _ = _
      rw [← hmap, List.take_append_of_le_length (by simp)]
      rw [List.take_of_length_le (by simp)]
    · show (_ ++ _)[k]? = _
      have hk' : (inboundIds g.lines n.id).length ≤ k := hk
      rw [List.getElem?_append_right (by simpa using hk')]
      rw [List.getElem?_replicate]
      simp only [List.length_map]
      rw [if_pos (by omega)]

/-- C14 at `exampleAddGraph`: after the pass the Add node 2 has the inputs
`[0, 1, -1, -1]` and `inputsCount = 2`. -/
theorem C14_rebuilt_inputs_witness :
    ∃ n', (CalculateValues exampleLibm exampleAddGraph).bind (fun g => g.nodes[2]?) = some n' ∧
      n'.inputsCount = 2 ∧ n'.inputs = [0, 1, -1, -1] := by
  obtain ⟨n', h1, h2, h3, h4, h5⟩ :=
    (C14_rebuilt_inputs exampleLibm exampleAddGraph 2 (blankNode 2 FNODE_ADD MAX_INPUTS)
      rfl (by decide)).2 _ rfl
  refine ⟨n', h1, h2, ?_⟩
  have e2 : n'.inputsCount = 2 := h2
  rw [e2] at h4 h5
  have a2 := h5 2 (by decide) (by decide)
  have a3 := h5 3 (by decide) (by decide)
  have ht : n'.inputs.take 2 = [0, 1] := h4
  rcases hin : n'.inputs with _ | ⟨a, _ | ⟨b, _ | ⟨c, _ | ⟨d, _ | ⟨e, rest⟩⟩⟩⟩⟩ <;>
    rw [hin] at h3 ht a2 a3 <;> simp [MAX_INPUTS] at h3 ht a2 a3
  obtain ⟨rfl, rfl⟩ := ht
  subst a2 a3
  rfl

/-! ## Append -/

/-- The inner loop of `FNODE_APPEND` for an input that is another slot of the pool: `k`
values of the input, from its slot `j` on, are written from slot `p` on. -/
theorem appendCopy_other {ns : List FNodeData} {i : Nat} {index : Int} {m : FNodeData}
    (h0 : 0 ≤ index) (hne : index.toNat ≠ i) (hm : ns[index.toNat]? = some m) :
    ∀ (k j p : Nat) (c : FNodeOutput), j + k ≤ m.output.data.length →
      p + k ≤ c.data.length →
      ∃ r, forLoop (fun j (st : FNodeOutput × Nat) => do
          let s ← rdOutput ns i st.1 index
          let v ← s.data[j]?
          let c ← wrValue st.1 st.2 v
          some (c, st.2 + 1)) j k (c, p) = some (r, p + k) ∧
        r.data.length = c.data.length ∧ r.dataCount = c.dataCount ∧
        r.data.take (p + k) = c.data.take p ++ (m.output.data.drop j).take k ∧
        r.data.drop (p + k) = c.data.drop (p + k) := by
  intro k
  induction k with
  | zero =>
    intro j p c _ _
    exact ⟨c, rfl, rfl, rfl, by simp, rfl⟩
  | succ k ih =>
    intro j p c hj hp
    have hjl : j < m.output.data.length := by omega
    have hpl : p < c.data.length := by omega
    rw [forLoop_succ]
    simp only [rdOutput_other c h0 hne hm, bind, Option.bind,
      List.getElem?_eq_getElem hjl, wrValue_eq _ _ _ hpl]
    obtain ⟨r, hr, hl, hc, ht, hd⟩ :=
      ih (j + 1) (p + 1) { c with data := c.data.set p (m.output.data[j]) } (by omega)
        (by simp; omega)
    have e : p + 1 + k = p + (k + 1) := by omega
    rw [e] at hr ht hd
    refine ⟨r, hr, by simpa using hl, hc, ?_, ?_⟩
    · rw [ht]
      have h1 : (c.data.set p (m.output.data[j])).take (p + 1) =
          c.data.take p ++ [m.output.data[j]] := by
        rw [List.set_eq_take_append_cons_drop, if_pos hpl, List.take_append_eq_append_take]
        have hlen : (List.take p c.data).length = p := by
          rw [List.length_take]; omega
        rw [hlen, List.take_of_length_le (by omega)]
        simp
      have h2 : (m.output.data.drop j).take (k + 1) =
          m.output.data[j] :: (m.output.data.drop (j + 1)).take k := by
        rw [List.drop_eq_getElem_cons hjl]
        rfl
      change List.take (p + 1) (c.data.set p (m.output.data[j])) ++ _ = _
      rw [h1, h2]
      simp
    · rw [hd]
      change List.drop (p + (k + 1)) (c.data.set p (m.output.data[j])) = _
      rw [List.drop_set_of_lt _ _ (by omega)]

theorem inputNode_of_index {ns : List FNodeData} {f : Nat} {m : FNodeData}
    (h0 : 0 ≤ GetNodeIndex ns f) (hm : ns[(GetNodeIndex ns f).toNat]? = some m) :
    inputNode ns f = some m := by
  unfold inputNode nodeAt
  have : ¬ GetNodeIndex ns (f : Int) < 0 := by omega
  simp [this, hm]

/-- The loop over the inputs of an Append node whose inputs are other slots of the pool:
the values of the inputs are written one after the other from slot `p` on. -/
theorem appendLoop_concat (ns : List FNodeData) (i : Nat) (self : FNodeData) (ids : List Nat)
    (hinputs : self.inputs = ids.map (fun (f : Nat) => (f : Int)) ++
      List.replicate (MAX_INPUTS - ids.length) (-1))
    (hsrc : ∀ f ∈ ids, ∃ m, 0 ≤ GetNodeIndex ns f ∧ (GetNodeIndex ns f).toNat ≠ i ∧
      ns[(GetNodeIndex ns f).toNat]? = some m ∧
      m.output.dataCount ≤ m.output.data.length) :
    ∀ (rest pre : List Nat) (c : FNodeOutput) (p : Nat), ids = pre ++ rest →
      p + (rest.map (inputWidth ns)).sum ≤ c.data.length →
      ∃ r, forLoop (appendInput ns i self) pre.length rest.length (c, p) =
          some (r, p + (rest.map (inputWidth ns)).sum) ∧
        r.data.length = c.data.length ∧ r.dataCount = c.dataCount ∧
        r.data.take (p + (rest.map (inputWidth ns)).sum) =
          c.data.take p ++ (rest.map (inputValues ns)).flatten ∧
        r.data.drop (p + (rest.map (inputWidth ns)).sum) =
          c.data.drop (p + (rest.map (inputWidth ns)).sum) := by
  intro rest
  induction rest with
  | nil =>
    intro pre c p _ _
    exact ⟨c, rfl, rfl, rfl, by simp, rfl⟩
  | cons f rest ih =>
    intro pre c p hids hp
    obtain ⟨m, h0, hne, hm, hml⟩ := hsrc f (by rw [hids]; simp)
    have hnode : inputNode ns f = some m := inputNode_of_index h0 hm
    have hw : inputWidth ns f = m.output.dataCount := by
      unfold inputWidth; rw [hnode]
    have hv : inputValues ns f = m.output.data.take m.output.dataCount := by
      unfold inputValues; rw [hnode]
    have hidx : inputIndexOf ns self pre.length = some (GetNodeIndex ns f) := by
      unfold inputIndexOf
      rw [hinputs, inputs_getElem? ids pre rest f hids]
      rfl
    simp only [List.map_cons, List.sum_cons, hw] at hp ⊢
    obtain ⟨r1, hr1, hl1, hc1, ht1, hd1⟩ := appendCopy_other h0 hne hm m.output.dataCount 0 p c
      (by omega) (by omega)
    have hstep : appendInput ns i self pre.length (c, p) =
        some (r1, p + m.output.dataCount) := by
      unfold appendInput
      simp only [hidx, bind, Option.bind, rdOutput_other c h0 hne hm]
      simpa [bind, Option.bind] using hr1
    obtain ⟨r, hr, hl, hc, ht, hd⟩ := ih (pre ++ [f]) r1 (p + m.output.dataCount)
      (by rw [hids]; simp) (by rw [hl1]; omega)
    have e : p + m.output.dataCount + (rest.map (inputWidth ns)).sum =
        p + (m.output.dataCount + (rest.map (inputWidth ns)).sum) := by omega
    rw [e] at hr ht hd
    refine ⟨r, ?_, by rw [hl, hl1], by rw [hc, hc1], ?_, ?_⟩
    · rw [List.length_cons, forLoop_succ, hstep]
      simpa using hr
    · rw [ht, ht1, hv]
      simp
    · rw [hd]
      have := congrArg (List.drop (rest.map (inputWidth ns)).sum) hd1
      simpa [List.drop_drop, Nat.add_comm, Nat.add_left_comm, Nat.add_assoc] using this

theorem calcOutput_append {M : Libm} {ns : List FNodeData} {i : Nat} {self : FNodeData}
    (h : self.type = FNODE_APPEND) :
    calcOutput M ns i self = calcAppend ns i self self.output := by
  unfold calcOutput
  have h1 : ¬ (FNODE_VECTOR4.toInt < self.type.toInt ∧ self.type.toInt < FNODE_APPEND.toInt) := by
    rw [h]; simp [FNodeType.toInt]
  rw [if_neg h1, if_pos h]

/-- The recomputation of an Append node with literal inputs of total width at most
`MAX_VALUES`. -/
theorem append_node (M : Libm) (lines : List FLineData) (ns mid : List FNodeData) (i : Nat)
    (n : FNodeData) (hsame : SameStructure ns mid) (hmid : mid[i]? = some n)
    (hty : n.type = FNODE_APPEND) (hk : inboundIds lines n.id ≠ [])
    (hle : (inboundIds lines n.id).length ≤ MAX_INPUTS)
    (hsrc : ∀ f ∈ inboundIds lines n.id, ∃ m, inputNode ns f = some m ∧
      isLiteral m.type = true ∧ WellSized m)
    (htotal : ((inboundIds lines n.id).map (inputWidth ns)).sum ≤ MAX_VALUES)
    (hsize : WellSized n) :
    ∃ n', calcNode M lines mid i n = some n' ∧
      n'.output.dataCount = ((inboundIds lines n.id).map (inputWidth ns)).sum ∧
      n'.output.data.take n'.output.dataCount =
        ((inboundIds lines n.id).map (inputValues ns)).flatten ∧
      n'.output.data.drop n'.output.dataCount = n.output.data.drop n'.output.dataCount ∧
      n'.output.data.length = MAX_VALUES := by
  have hnlit : isLiteral n.type = false := by rw [hty]; rfl
  -- the sources as they are found in `mid`
  have hsrc' : ∀ f ∈ inboundIds lines n.id, ∃ m, 0 ≤ GetNodeIndex mid f ∧
      (GetNodeIndex mid f).toNat ≠ i ∧ mid[(GetNodeIndex mid f).toNat]? = some m ∧
      m.output.dataCount ≤ m.output.data.length := by
    intro f hf
    obtain ⟨m, hm, hlit, hs⟩ := hsrc f hf
    obtain ⟨m', h0, hne, hm', hout, _⟩ := literal_input_transfer hsame hmid hnlit hm hlit
    refine ⟨m', h0, hne, hm', ?_⟩
    rw [hout, hs.1]; exact hs.2.1
  have hwv : ∀ f ∈ inboundIds lines n.id,
      inputWidth mid f = inputWidth ns f ∧ inputValues mid f = inputValues ns f := by
    intro f hf
    obtain ⟨m, hm, hlit, _⟩ := hsrc f hf
    obtain ⟨m', h0, _, hm', hout, _⟩ := literal_input_transfer hsame hmid hnlit hm hlit
    have hnode : inputNode mid f = some m' := inputNode_of_index h0 hm'
    unfold inputWidth inputValues
    rw [hnode, hm]
    simp only [hout, and_self]
  have hws : (inboundIds lines n.id).map (inputWidth mid) =
      (inboundIds lines n.id).map (inputWidth ns) :=
    List.map_congr_left (fun f hf => (hwv f hf).1)
  have hvs : (inboundIds lines n.id).map (inputValues mid) =
      (inboundIds lines n.id).map (inputValues ns) :=
    List.map_congr_left (fun f hf => (hwv f hf).2)
  obtain ⟨self, hself, _, hst, _, hso, hsc, hsi⟩ := rebuildInputs_some lines n hle
  obtain ⟨r, hr, hl, _, ht, hd⟩ := appendLoop_concat mid i self (inboundIds lines n.id) hsi hsrc'
    (inboundIds lines n.id) [] n.output 0 rfl
    (by rw [hws, hsize.1]; simpa using htotal)
  simp only [List.length_nil, Nat.zero_add, List.take_zero, List.nil_append, hws, hvs] at hr ht hd
  have hpos : self.inputsCount > 0 := by
    rw [hsc]
    exact List.length_pos.mpr hk
  have hout : calcOutput M mid i self =
      some (wrCount r ((inboundIds lines n.id).map (inputWidth ns)).sum) := by
    rw [calcOutput_append (by rw [hst]; exact hty)]
    unfold calcAppend
    rw [if_pos hpos, hsc, hso, hr]
    rfl
  refine ⟨{ self with output := wrCount r _ }, calcNode_of hself hout, rfl, ht, hd, ?_⟩
  show r.data.length = MAX_VALUES
  rw [hl, hsize.1]

/-- C15: for an Append node whose inbound lines, between one and `MAX_INPUTS` of them, all
start at literal nodes of total width at most `MAX_VALUES`, the recomputation of the node
succeeds whenever the pass reaches it, and after a pass of `CalculateValues` the node has
as `dataCount` the sum of the widths of its inputs and as its first `dataCount` values the
values of its inputs one after the other, in line order. -/
theorem C15_append_concat (M : Libm) (g : Graph) (i : Nat) (n : FNodeData)
    (hn : g.nodes[i]? = some n) (hty : n.type = FNODE_APPEND)
    (hk : 1 ≤ (inboundIds g.lines n.id).length)
    (hle : (inboundIds g.lines n.id).length ≤ MAX_INPUTS)
    (hsrc : ∀ f ∈ inboundIds g.lines n.id, ∃ m, inputNode g.nodes f = some m ∧
      isLiteral m.type = true ∧ WellSized m)
    (htotal : ((inboundIds g.lines n.id).map (inputWidth g.nodes)).sum ≤ MAX_VALUES)
    (hsize : WellSized n) :
    (∀ mid, calcUpTo M g.lines i g.nodes = some mid →
      ∃ n', calcNode M g.lines mid i n = some n') ∧
    ∀ g', CalculateValues M g = some g' →
      ∃ n', g'.nodes[i]? = some n' ∧
        n'.output.dataCount = ((inboundIds g.lines n.id).map (inputWidth g.nodes)).sum ∧
        n'.output.data.take n'.output.dataCount =
          ((inboundIds g.lines n.id).map (inputValues g.nodes)).flatten := by
  have hk' : inboundIds g.lines n.id ≠ [] := by
    intro h; rw [h] at hk; simp at hk
  have key : ∀ mid, calcUpTo M g.lines i g.nodes = some mid →
      ∃ n', calcNode M g.lines mid i n = some n' ∧
        n'.output.dataCount = ((inboundIds g.lines n.id).map (inputWidth g.nodes)).sum ∧
        n'.output.data.take n'.output.dataCount =
          ((inboundIds g.lines n.id).map (inputValues g.nodes)).flatten := by
    intro mid hmid
    have hsame : SameStructure g.nodes mid := calcLoop_same M g.lines i 0 g.nodes mid hmid
    have hmidn : mid[i]? = some n := by
      rw [calcLoop_untouched M g.lines i 0 g.nodes mid hmid i (by omega)]; exact hn
    obtain ⟨n', h1, h2, h3, _, _⟩ :=
      append_node M g.lines g.nodes mid i n hsame hmidn hty hk' hle hsrc htotal hsize
    exact ⟨n', h1, h2, h3⟩
  refine ⟨fun mid hmid => ?_, fun g' hrun => ?_⟩
  · obtain ⟨n', h, _⟩ := key mid hmid
    exact ⟨n', h⟩
  · obtain ⟨mid, n1, hmid, _, hc, hg'⟩ := CalculateValues_node hrun hn
    obtain ⟨n', h, hw, hv⟩ := key mid hmid
    rw [hc] at h
    cases h
    exact ⟨n1, hg', hw, hv⟩

/-- C15 at Vector2(1, 2) and Value(3) linked into an Append node: the output is
`[1, 2, 3]`, of width 3. -/
theorem C15_append_concat_witness :
    ∃ n', (CalculateValues exampleLibm exampleConcatGraph).bind (fun g => g.nodes[2]?) = some n' ∧
      n'.output.dataCount = 3 ∧ n'.output.data.take 3 = [1, 2, 3] := by
  have hsrc : ∀ f ∈ inboundIds exampleConcatGraph.lines (blankNode 2 FNODE_APPEND 4).id,
      ∃ m, inputNode exampleConcatGraph.nodes f = some m ∧ isLiteral m.type = true ∧
        WellSized m := by
    intro f hf
    have hf' : f = 0 ∨ f = 1 := by
      simpa [inboundIds, exampleConcatGraph, blankNode] using hf
    rcases hf' with rfl | rfl
    · exact ⟨literalNode 0 FNODE_VECTOR2 [1, 2], rfl, rfl, rfl, by decide, rfl⟩
    · exact ⟨literalNode 1 FNODE_VALUE [3], rfl, rfl, rfl, by decide, rfl⟩
  obtain ⟨n', h1, h2, h3⟩ :=
    (C15_append_concat exampleLibm exampleConcatGraph 2 (blankNode 2 FNODE_APPEND 4)
      rfl rfl (by decide) (by decide) hsrc (by decide) ⟨rfl, by decide, rfl⟩).2 _ rfl
  have hw : ((inboundIds exampleConcatGraph.lines (blankNode 2 FNODE_APPEND 4).id).map
      (inputWidth exampleConcatGraph.nodes)).sum = 3 := by decide
  have hv : ((inboundIds exampleConcatGraph.lines (blankNode 2 FNODE_APPEND 4).id).map
      (inputValues exampleConcatGraph.nodes)).flatten = [1, 2, 3] := by decide!
  rw [hw] at h2
  rw [h2, hv] at h3
  exact ⟨n', h1, h2, h3⟩

/-! ## The array bounds are kept by a pass -/

theorem wrValue_sized {o o' : FNodeOutput} {k : Nat} {v : ℚ} (h : wrValue o k v = some o')
    (hs : Sized o) : Sized o' := by
  unfold wrValue at h
  split at h
  · cases h
    exact ⟨by simpa using hs.1, hs.2⟩
  · cases h

theorem wrCount_sized {o : FNodeOutput} {c : Nat} (hs : Sized o) (hc : c ≤ MAX_VALUES) :
    Sized (wrCount o c) := ⟨hs.1, hc⟩

theorem zeroData_sized {o : FNodeOutput} (hs : Sized o) : Sized (zeroData o) :=
  ⟨by simp [zeroData], hs.2⟩

theorem clearOutput_sized (o : FNodeOutput) : Sized (clearOutput o) :=
  ⟨by simp [clearOutput, wrCount, zeroData], by simp [clearOutput, wrCount]⟩

theorem zeroFrom_sized {o : FNodeOutput} {k : Nat} (hs : Sized o) (hk : k ≤ MAX_VALUES) :
    Sized (zeroFrom k o) := by
  refine ⟨?_, hs.2⟩
  have := hs.1
  simp only [zeroFrom, List.length_append, List.length_take, List.length_replicate]
  omega

theorem rdOutput_sized {ns : List FNodeData} {i : Nat} {cur s : FNodeOutput} {index : Int}
    (h : rdOutput ns i cur index = some s) (hs : Sized cur)
    (hpool : ∀ m ∈ ns, Sized m.output) : Sized s := by
  unfold rdOutput at h
  split at h
  · cases h
  · split at h
    · cases h; exact hs
    · simp only [Option.map_eq_some'] at h
      obtain ⟨m, hm, rfl⟩ := h
      exact hpool m (List.getElem?_mem hm)

theorem mapValues_sized {f : ℚ → ℚ} {cur r : FNodeOutput} (h : mapValues f cur = some r)
    (hs : Sized cur) : Sized r := by
  unfold mapValues at h
  refine forLoop_invariant _ Sized (fun j s s' hs hb => ?_) _ _ _ _ hs h
  simp only [Option.bind_eq_bind, Option.bind_eq_some] at hb
  obtain ⟨v, _, hw⟩ := hb
  exact wrValue_sized hw hs

theorem zipValues_sized {ns : List FNodeData} {i : Nat} {index : Int} {f : ℚ → ℚ → ℚ}
    {cur r : FNodeOutput} (h : zipValues ns i index f cur = some r) (hs : Sized cur) :
    Sized r := by
  unfold zipValues at h
  refine forLoop_invariant _ Sized (fun j s s' hs hb => ?_) _ _ _ _ hs h
  simp only [Option.bind_eq_bind, Option.bind_eq_some] at hb
  obtain ⟨_, _, _, _, _, _, hw⟩ := hb
  exact wrValue_sized hw hs

theorem scalarValues_sized {ns : List FNodeData} {i : Nat} {index : Int} {f : ℚ → ℚ → ℚ}
    {cur r : FNodeOutput} (h : scalarValues ns i index f cur = some r) (hs : Sized cur) :
    Sized r := by
  unfold scalarValues at h
  refine forLoop_invariant _ Sized (fun j s s' hs hb => ?_) _ _ _ _ hs h
  simp only [Option.bind_eq_bind, Option.bind_eq_some] at hb
  obtain ⟨_, _, _, _, _, _, hw⟩ := hb
  exact wrValue_sized hw hs

theorem wrList_sized {vs : List ℚ} {cur r : FNodeOutput} (h : wrList vs cur = some r)
    (hs : Sized cur) : Sized r := by
  unfold wrList at h
  refine forLoop_invariant _ Sized (fun j s s' hs hb => ?_) _ _ _ _ hs h
  simp only [Option.bind_eq_bind, Option.bind_eq_some] at hb
  obtain ⟨_, _, hw⟩ := hb
  exact wrValue_sized hw hs

theorem wrMatrix_sized {m : Matrix} {cur r : FNodeOutput} (h : wrMatrix m cur = some r)
    (hs : Sized cur) : Sized r :=
  wrList_sized h hs

theorem copyFirst_sized {ns : List FNodeData} {i : Nat} {self : FNodeData}
    {cur r : FNodeOutput} (h : copyFirst ns i self cur = some r) (hs : Sized cur)
    (hpool : ∀ m ∈ ns, Sized m.output) : Sized r := by
  unfold copyFirst at h
  simp only [Option.bind_eq_bind, Option.bind_eq_some] at h
  obtain ⟨index, _, src, hsrc, hloop⟩ := h
  have hsz : Sized (wrCount cur src.dataCount) :=
    wrCount_sized hs (rdOutput_sized hsrc hs hpool).2
  refine forLoop_invariant _ Sized (fun j s s' hs hb => ?_) _ _ _ _ hsz hloop
  simp only [Option.bind_eq_bind, Option.bind_eq_some] at hb
  obtain ⟨_, _, _, _, hw⟩ := hb
  exact wrValue_sized hw hs

theorem mulTransform_sized {vec mat r : FNodeOutput} (h : mulTransform vec mat = some r) :
    Sized r := by
  unfold mulTransform at h
  split at h
  · cases h
    exact ⟨by simp [MAX_VALUES], by simp [MAX_VALUES]⟩
  · cases h

theorem mulStep_sized {ns : List FNodeData} {i : Nat} {index : Int} {j : Nat}
    {cur r : FNodeOutput} (h : mulStep M ns i index j cur = some r) (hs : Sized cur) :
    Sized r := by
  unfold mulStep at h
  simp only [Option.bind_eq_bind, Option.bind_eq_some] at h
  obtain ⟨s, _, h⟩ := h
  split at h
  · exact mulTransform_sized h
  · split at h
    · exact mulTransform_sized h
    · simp only [Option.bind_eq_bind, Option.bind_eq_some] at h
      obtain ⟨_, _, _, _, hw⟩ := h
      exact wrValue_sized hw hs

theorem mulLoop_sized {ns : List FNodeData} {i : Nat} {index : Int} :
    ∀ (fuel j : Nat) (cur r : FNodeOutput), mulLoop M ns i index fuel j cur = some r →
      Sized cur → Sized r := by
  intro fuel
  induction fuel with
  | zero => intro j cur r h _; simp [mulLoop] at h
  | succ fuel ih =>
    intro j cur r h hs
    unfold mulLoop at h
    split at h
    · simp only [Option.bind_eq_some] at h
      obtain ⟨c, hc, h⟩ := h
      exact ih (j + 1) c r h (mulStep_sized hc hs)
    · cases h; exact hs

theorem arithInput_sized {ns : List FNodeData} {i : Nat} {type : FNodeType} {index : Int}
    {cur r : FNodeOutput} (h : arithInput M ns i type index cur = some r) (hs : Sized cur) :
    Sized r := by
  unfold arithInput at h
  split at h
  · exact zipValues_sized h hs
  · exact zipValues_sized h hs
  · simp only [Option.bind_eq_bind, Option.bind_eq_some] at h
    obtain ⟨s, _, h⟩ := h
    split at h
    · exact scalarValues_sized h hs
    · exact mulLoop_sized _ _ _ _ h hs
  · simp only [Option.bind_eq_bind, Option.bind_eq_some] at h
    obtain ⟨s, _, h⟩ := h
    split at h
    · exact scalarValues_sized h hs
    · exact zipValues_sized h hs
  · cases h; exact hs

theorem calcArith_sized {ns : List FNodeData} {i : Nat} {self : FNodeData}
    {cur r : FNodeOutput} (h : calcArith M ns i self cur = some r) (hs : Sized cur)
    (hpool : ∀ m ∈ ns, Sized m.output) : Sized r := by
  unfold calcArith at h
  split at h
  · simp only [Option.bind_eq_bind, Option.bind_eq_some] at h
    obtain ⟨c, hc, h⟩ := h
    refine forLoop_invariant _ Sized (fun j s s' hs hb => ?_) _ _ _ _
      (copyFirst_sized hc hs hpool) h
    simp only [Option.bind_eq_bind, Option.bind_eq_some] at hb
    obtain ⟨_, _, hb⟩ := hb
    exact arithInput_sized hb hs
  · cases h; exact clearOutput_sized cur

/-- The loop over the inputs of an Append node keeps the counter inside `data`. -/
theorem appendInput_sized {ns : List FNodeData} {i : Nat} {self : FNodeData} {k : Nat}
    {st st' : FNodeOutput × Nat} (h : appendInput ns i self k st = some st')
    (hs : Sized st.1 ∧ st.2 ≤ MAX_VALUES) : Sized st'.1 ∧ st'.2 ≤ MAX_VALUES := by
  unfold appendInput at h
  simp only [Option.bind_eq_bind, Option.bind_eq_some] at h
  obtain ⟨_, _, s, _, h⟩ := h
  refine forLoop_invariant _ (fun (st : FNodeOutput × Nat) => Sized st.1 ∧ st.2 ≤ MAX_VALUES)
    (fun j s s' hs hb => ?_) _ _ _ _ hs h
  simp only [Option.bind_eq_bind, Option.bind_eq_some] at hb
  obtain ⟨_, _, _, _, c, hw, hb⟩ := hb
  cases hb
  refine ⟨wrValue_sized hw hs.1, ?_⟩
  unfold wrValue at hw
  split at hw
  · have := hs.1.1
    show s.2 + 1 ≤ MAX_VALUES
    omega
  · cases hw

theorem calcAppend_sized {ns : List FNodeData} {i : Nat} {self : FNodeData}
    {cur r : FNodeOutput} (h : calcAppend ns i self cur = some r) (hs : Sized cur) :
    Sized r := by
  unfold calcAppend at h
  split at h
  · simp only [Option.bind_eq_bind, Option.bind_eq_some] at h
    obtain ⟨st, hst, h⟩ := h
    cases h
    have := forLoop_invariant (appendInput ns i self)
      (fun (st : FNodeOutput × Nat) => Sized st.1 ∧ st.2 ≤ MAX_VALUES)
      (fun j s s' hs hb => appendInput_sized hb hs) _ _ _ _ ⟨hs, Nat.zero_le _⟩ hst
    exact wrCount_sized this.1 this.2
  · cases h; exact clearOutput_sized cur

theorem calcScalarSecond_sized {ns : List FNodeData} {i : Nat} {f : ℚ → ℚ → ℚ}
    {self : FNodeData} {cur r : FNodeOutput}
    (h : calcScalarSecond ns i f self cur = some r) (hs : Sized cur) : Sized r := by
  unfold calcScalarSecond at h
  split at h
  · simp only [Option.bind_eq_bind, Option.bind_eq_some] at h
    obtain ⟨_, _, e, _, h⟩ := h
    split at h
    · exact scalarValues_sized h hs
    · cases h; exact hs
  · cases h; exact clearOutput_sized cur

theorem calcStep_sized {ns : List FNodeData} {i : Nat} {self : FNodeData}
    {cur r : FNodeOutput} (h : calcStep ns i self cur = some r) (hs : Sized cur) :
    Sized r := by
  unfold calcStep at h
  split at h
  · simp only [Option.bind_eq_bind, Option.bind_eq_some] at h
    obtain ⟨_, _, b, _, h⟩ := h
    split at h
    · simp only [Option.bind_eq_bind, Option.bind_eq_some] at h
      casesm* _ ∧ _, ∃ _, _
      exact wrValue_sized (by assumption) hs
    · cases h; exact hs
  · cases h; exact clearOutput_sized cur

theorem calcMaxMin_sized {ns : List FNodeData} {i : Nat} {self : FNodeData}
    {cur r : FNodeOutput} (h : calcMaxMin ns i self cur = some r) (hs : Sized cur) :
    Sized r := by
  unfold calcMaxMin at h
  refine forLoop_invariant _ Sized (fun j s s' hs hb => ?_) _ _ _ _ hs h
  simp only [Option.bind_eq_bind, Option.bind_eq_some] at hb
  obtain ⟨_, _, hb⟩ := hb
  exact zipValues_sized hb hs

theorem calcTernary_sized {ns : List FNodeData} {i : Nat} {f : ℚ → ℚ → ℚ → ℚ}
    {self : FNodeData} {cur r : FNodeOutput}
    (h : calcTernary ns i f self cur = some r) (hs : Sized cur) : Sized r := by
  unfold calcTernary at h
  split at h
  · simp only [Option.bind_eq_bind, Option.bind_eq_some] at h
    obtain ⟨_, _, _, _, _, _, h⟩ := h
    refine forLoop_invariant _ Sized (fun j s s' hs hb => ?_) _ _ _ _ hs h
    simp only [Option.bind_eq_bind, Option.bind_eq_some] at hb
    casesm* _ ∧ _, ∃ _, _
    exact wrValue_sized (by assumption) hs
  · cases h; exact clearOutput_sized cur

theorem calcCross_sized {ns : List FNodeData} {i : Nat} {self : FNodeData}
    {cur r : FNodeOutput} (h : calcCross ns i self cur = some r) (hs : Sized cur) :
    Sized r := by
  unfold calcCross at h
  split at h
  · simp only [Option.bind_eq_bind, Option.bind_eq_some] at h
    casesm* _ ∧ _, ∃ _, _
    exact wrList_sized (by assumption)
      (wrCount_sized (zeroData_sized hs) (by simp [MAX_VALUES]))
  · cases h; exact clearOutput_sized cur

theorem calcDesaturate_sized {ns : List FNodeData} {i : Nat} {self : FNodeData}
    {cur r : FNodeOutput} (h : calcDesaturate ns i self cur = some r) (hs : Sized cur)
    (hpool : ∀ m ∈ ns, Sized m.output) : Sized r := by
  unfold calcDesaturate at h
  split at h
  · simp only [Option.bind_eq_bind, Option.bind_eq_some] at h
    obtain ⟨index, _, index1, _, c, hc, s, hsrc, h⟩ := h
    have hcs : Sized c := by
      refine forLoop_invariant _ Sized (fun j s s' hs hb => ?_) _ _ _ _ hs hc
      simp only [Option.bind_eq_bind, Option.bind_eq_some] at hb
      casesm* _ ∧ _, ∃ _, _
      exact wrValue_sized (by assumption) hs
    have hcs' : Sized (wrCount c s.dataCount) :=
      wrCount_sized hcs (rdOutput_sized hsrc hcs hpool).2
    casesm* _ ∧ _, ∃ _, _
    exact wrList_sized (by assumption) hcs'
  · cases h; exact clearOutput_sized cur

theorem calcDistance_sized {M : Libm} {ns : List FNodeData} {i : Nat} {self : FNodeData}
    {cur r : FNodeOutput} (h : calcDistance M ns i self cur = some r) (hs : Sized cur) :
    Sized r := by
  unfold calcDistance at h
  split at h
  · simp only [Option.bind_eq_bind, Option.bind_eq_some] at h
    obtain ⟨_, _, _, _, h⟩ := h
    split at h
    all_goals
      simp only [Option.bind_eq_bind, Option.bind_eq_some, Option.some.injEq] at h
      casesm* _ ∧ _, ∃ _, _
      subst_vars
      first
        | exact wrCount_sized (zeroFrom_sized (wrValue_sized (by assumption) hs)
            (by simp [MAX_VALUES])) (by simp [MAX_VALUES])
        | exact wrCount_sized (zeroFrom_sized hs (by simp [MAX_VALUES])) (by simp [MAX_VALUES])
  · cases h; exact clearOutput_sized cur

theorem calcDot_sized {ns : List FNodeData} {i : Nat} {self : FNodeData}
    {cur r : FNodeOutput} (h : calcDot ns i self cur = some r) (hs : Sized cur) :
    Sized r := by
  unfold calcDot at h
  split at h
  · simp only [Option.bind_eq_bind, Option.bind_eq_some] at h
    obtain ⟨_, _, _, _, h⟩ := h
    split at h
    all_goals
      simp only [Option.bind_eq_bind, Option.bind_eq_some, Option.some.injEq] at h
      casesm* _ ∧ _, ∃ _, _
      subst_vars
      first
        | exact wrCount_sized (zeroFrom_sized (wrValue_sized (by assumption) hs)
            (by simp [MAX_VALUES])) (by simp [MAX_VALUES])
        | exact wrCount_sized (zeroFrom_sized hs (by simp [MAX_VALUES])) (by simp [MAX_VALUES])
  · cases h; exact clearOutput_sized cur

theorem calcLength_sized {M : Libm} {cur r : FNodeOutput} (h : calcLength M cur = some r)
    (hs : Sized cur) : Sized r := by
  unfold calcLength at h
  split at h
  all_goals
    simp only [Option.bind_eq_bind, Option.bind_eq_some, Option.some.injEq] at h
    casesm* _ ∧ _, ∃ _, _
    subst_vars
    first
      | exact wrCount_sized (zeroFrom_sized (wrValue_sized (by assumption) hs)
          (by simp [MAX_VALUES])) (by simp [MAX_VALUES])
      | exact wrCount_sized (zeroFrom_sized hs (by simp [MAX_VALUES])) (by simp [MAX_VALUES])

theorem calcNormalize_sized {M : Libm} {cur r : FNodeOutput}
    (h : calcNormalize M cur = some r) (hs : Sized cur) : Sized r := by
  unfold calcNormalize at h
  split at h
  all_goals first
    | (cases h; exact hs)
    | (simp only [Option.bind_eq_bind, Option.bind_eq_some] at h
       casesm* _ ∧ _, ∃ _, _
       exact wrList_sized (by assumption) hs)

theorem calcMultiplyMatrix_sized {ns : List FNodeData} {i : Nat} {self : FNodeData}
    {cur r : FNodeOutput} (h : calcMultiplyMatrix ns i self cur = some r) (hs : Sized cur) :
    Sized r := by
  unfold calcMultiplyMatrix at h
  split at h
  · simp only [Option.bind_eq_bind, Option.bind_eq_some] at h
    casesm* _ ∧ _, ∃ _, _
    exact wrMatrix_sized (by assumption) hs
  · cases h; exact hs

theorem calcTranspose_sized {cur r : FNodeOutput} (h : calcTranspose cur = some r)
    (hs : Sized cur) : Sized r := by
  unfold calcTranspose at h
  simp only [Option.bind_eq_bind, Option.bind_eq_some] at h
  casesm* _ ∧ _, ∃ _, _
  exact wrMatrix_sized (by assumption) hs

theorem calcBinaryVector_sized {f2 : Vector2 → Vector2 → Vector2}
    {f3 : Vector3 → Vector3 → Vector3} {f4 : Vector4 → Vector4 → Vector4}
    {ns : List FNodeData} {i : Nat} {indexA indexB : Int} {cur r : FNodeOutput}
    (h : calcBinaryVector f2 f3 f4 ns i indexA indexB cur = some r) (hs : Sized cur) :
    Sized r := by
  unfold calcBinaryVector at h
  split at h
  all_goals first
    | (cases h; exact hs)
    | (simp only [Option.bind_eq_bind, Option.bind_eq_some] at h
       obtain ⟨_, _, _, _, _, _, _, _, c, hc, h⟩ := h
       cases h
       exact wrCount_sized (zeroFrom_sized (wrList_sized hc hs) (by simp [MAX_VALUES]))
         (by simp [MAX_VALUES]))

theorem calcProjection_sized {ns : List FNodeData} {i : Nat} {self : FNodeData}
    {cur r : FNodeOutput} (h : calcProjection ns i self cur = some r) (hs : Sized cur) :
    Sized r := by
  unfold calcProjection at h
  split at h
  · simp only [Option.bind_eq_bind, Option.bind_eq_some] at h
    obtain ⟨_, _, _, _, h⟩ := h
    split at h <;> exact calcBinaryVector_sized h hs
  · cases h; exact clearOutput_sized cur

theorem calcHalfDirection_sized {M : Libm} {ns : List FNodeData} {i : Nat}
    {self : FNodeData} {cur r : FNodeOutput}
    (h : calcHalfDirection M ns i self cur = some r) (hs : Sized cur) : Sized r := by
  unfold calcHalfDirection at h
  split at h
  · obtain ⟨indexA, _, h⟩ := Option.bind_eq_some.mp h
    obtain ⟨indexB, _, h⟩ := Option.bind_eq_some.mp h
    obtain ⟨nodeA, _, h⟩ := Option.bind_eq_some.mp h
    dsimp only at h
    split at h
    all_goals
      obtain ⟨check, _, h⟩ := Option.bind_eq_some.mp h
      split at h
      · exact calcBinaryVector_sized h hs
      · cases h; exact zeroData_sized hs
  · cases h; exact clearOutput_sized cur

theorem calcOperator_sized {M : Libm} {ns : List FNodeData} {i : Nat} {self : FNodeData}
    {cur r : FNodeOutput} (h : calcOperator M ns i self cur = some r) (hs : Sized cur)
    (hpool : ∀ m ∈ ns, Sized m.output) : Sized r := by
  unfold calcOperator at h
  split at h
  all_goals first
    | exact mapValues_sized h hs
    | exact calcNormalize_sized h hs
    | exact calcScalarSecond_sized h hs
    | exact calcStep_sized h hs
    | exact calcMaxMin_sized h hs
    | exact calcTernary_sized h hs
    | exact calcCross_sized h hs
    | exact calcDesaturate_sized h hs hpool
    | exact calcDistance_sized h hs
    | exact calcDot_sized h hs
    | exact calcLength_sized h hs
    | exact calcMultiplyMatrix_sized h hs
    | exact calcTranspose_sized h hs
    | exact calcProjection_sized h hs
    | exact calcHalfDirection_sized h hs
    | (cases h; exact hs)

/-- The recomputed output of a node stays inside `data[MAX_VALUES]`. -/
theorem calcOutput_sized {M : Libm} {ns : List FNodeData} {i : Nat} {self : FNodeData}
    {r : FNodeOutput} (h : calcOutput M ns i self = some r) (hs : Sized self.output)
    (hpool : ∀ m ∈ ns, Sized m.output) : Sized r := by
  unfold calcOutput at h
  split at h
  · exact calcArith_sized h hs hpool
  · split at h
    · exact calcAppend_sized h hs
    · split at h
      · split at h
        · obtain ⟨c, hc, h⟩ := Option.bind_eq_some.mp h
          exact calcOperator_sized h (copyFirst_sized hc hs hpool) hpool
        · cases h; exact clearOutput_sized _
      · cases h; exact hs

theorem calcNode_wellSized {M : Libm} {lines : List FLineData} {ns : List FNodeData}
    {i : Nat} {n n' : FNodeData} (h : calcNode M lines ns i n = some n')
    (hs : Sized n.output) (hpool : ∀ m ∈ ns, Sized m.output) : WellSized n' := by
  obtain ⟨self, out, hr, ho, rfl⟩ := calcNode_eq_some h
  rw [rebuildInputs_eq] at hr
  split at hr
  · cases hr
    have hout : Sized out := calcOutput_sized ho hs hpool
    refine ⟨hout.1, hout.2, ?_⟩
    simp only [List.length_append, List.length_map, List.length_replicate]
    omega
  · cases hr

/-- Every node of the pool has an output inside `data[MAX_VALUES]` and `MAX_INPUTS`
input slots. -/
theorem calcAt_wellSized {M : Libm} {lines : List FLineData} {i : Nat}
    {ns ns' : List FNodeData} (h : calcAt M lines i ns = some ns')
    (hpool : ∀ m ∈ ns, WellSized m) : ∀ m ∈ ns', WellSized m := by
  obtain ⟨n, n', hn, hc, rfl⟩ := calcAt_eq_some h
  have hn' : WellSized n' :=
    calcNode_wellSized hc (by have := hpool n (List.getElem?_mem hn); exact ⟨this.1, this.2.1⟩)
      (fun m hm => by have := hpool m hm; exact ⟨this.1, this.2.1⟩)
  intro m hm
  rcases List.mem_or_eq_of_mem_set hm with h1 | h1
  · exact hpool m h1
  · rw [h1]; exact hn'

/-- A pass of `CalculateValues` keeps every node inside the bounds of its arrays. -/
theorem CalculateValues_wellSized {M : Libm} {g g' : Graph}
    (h : CalculateValues M g = some g') (hpool : ∀ m ∈ g.nodes, WellSized m) :
    ∀ m ∈ g'.nodes, WellSized m := by
  unfold CalculateValues calcUpTo at h
  cases hl : forLoop (calcAt M g.lines) 0 g.nodes.length g.nodes with
  | none => simp [hl] at h
  | some ns =>
    simp only [hl, Option.map_some', Option.some.injEq] at h
    subst h
    exact forLoop_invariant (calcAt M g.lines) (fun s => ∀ m ∈ s, WellSized m)
      (fun _ _ _ hs hb => calcAt_wellSized hb hs) _ _ _ _ hpool hl

/-! ## The link gesture -/

theorem CreateNodeLine_eq_some {g g1 : Graph} {from_ : Nat} {t : FLineData}
    (h : CreateNodeLine g from_ = some (g1, t)) :
    g1.nodes = g.nodes ∧ g1.lines = g.lines ++ [t] ∧ t.from_ = from_ ∧ t.to_ = UNATTACHED := by
  unfold CreateNodeLine at h
  split at h
  · cases h
  · split at h
    · cases h
      exact ⟨rfl, rfl, rfl, rfl⟩
    · cases h

theorem DestroyNodeLine_wellSized {M : Libm} {g g' : Graph} {line : FLineData}
    (h : DestroyNodeLine M g line = some g') (hpool : ∀ m ∈ g.nodes, WellSized m) :
    ∀ m ∈ g'.nodes, WellSized m := by
  unfold DestroyNodeLine at h
  split at h
  · cases h
  · exact CalculateValues_wellSized h hpool

theorem DestroyNodeLine_sublist {M : Libm} {g g' : Graph} {line : FLineData}
    (h : DestroyNodeLine M g line = some g') : g'.lines.Sublist g.lines := by
  obtain ⟨index, _, hl, _⟩ := DestroyNodeLine_eq_some h
  rw [hl]
  exact List.eraseIdx_sublist _ _

theorem destroyDuplicate_eq_some {M : Libm} {g g' : Graph} {to_ from_ : Nat}
    (h : destroyDuplicate M g to_ from_ = some g') :
    g'.lines.Sublist g.lines ∧ SameStructure g.nodes g'.nodes ∧
      ((∀ m ∈ g.nodes, WellSized m) → ∀ m ∈ g'.nodes, WellSized m) := by
  unfold destroyDuplicate at h
  split at h
  · obtain ⟨_, _, _, hs⟩ := DestroyNodeLine_eq_some h
    exact ⟨DestroyNodeLine_sublist h, hs, DestroyNodeLine_wellSized h⟩
  · cases h
    exact ⟨List.Sublist.refl _, sameStructure_refl _, fun hp => hp⟩

/-- An accepted link gesture from `nodes[i]` to `nodes[j]`: the last pass of
`CalculateValues` runs on a store whose lines are lines of the store before the gesture,
or the pending line, followed by the new line, and whose nodes have the same structure. -/
theorem linkClick_eq_some {M : Libm} {g g' : Graph} {i j : Nat} {src : FNodeData}
    (hsrc : g.nodes[i]? = some src) (hacc : linkAccepted g.nodes j src.id = some true)
    (h : linkClick M g i j = some g') :
    ∃ (g4 : Graph) (L : List FLineData) (t : FLineData) (lid : Nat) (dst : FNodeData),
      g.nodes[j]? = some dst ∧ CalculateValues M g4 = some g' ∧
      g4.lines = L ++ [{ id := lid, from_ := src.id, to_ := dst.id }] ∧
      L.Sublist (g.lines ++ [t]) ∧ t.to_ = UNATTACHED ∧
      SameStructure g.nodes g4.nodes ∧
      ((∀ m ∈ g.nodes, WellSized m) → ∀ m ∈ g4.nodes, WellSized m) := by
  unfold linkClick beginLink at h
  simp only [Option.bind_eq_bind, hsrc, Option.some_bind] at h
  obtain ⟨⟨g1, t⟩, hc1, h⟩ := Option.bind_eq_some.mp h
  obtain ⟨hn1, hl1, hf1, ht1⟩ := CreateNodeLine_eq_some hc1
  dsimp only at h
  unfold completeLink at h
  rw [hn1, hf1, hacc] at h
  simp only [Option.bind_eq_bind, Option.some_bind, if_true] at h
  obtain ⟨dst, hdst, h⟩ := Option.bind_eq_some.mp h
  obtain ⟨g2, hg2, h⟩ := Option.bind_eq_some.mp h
  obtain ⟨dst2, hdst2, h⟩ := Option.bind_eq_some.mp h
  obtain ⟨g3, hg3, h⟩ := Option.bind_eq_some.mp h
  obtain ⟨⟨g3', t'⟩, hc3, h⟩ := Option.bind_eq_some.mp h
  dsimp only at h
  obtain ⟨g4, hg4, h⟩ := Option.bind_eq_some.mp h
  obtain ⟨hsub2, hs2, hw2⟩ := destroyDuplicate_eq_some hg2
  obtain ⟨_, _, _, hs3⟩ := DestroyNodeLine_eq_some hg3
  have hsub3 := DestroyNodeLine_sublist hg3
  obtain ⟨hn3, hl3, hf3, ht3⟩ := CreateNodeLine_eq_some hc3
  obtain ⟨hl4, hs4⟩ := CalculateValues_same hg4
  have hid : dst2.id = dst.id := by
    obtain ⟨m', hm', hf⟩ := hs2.2 j dst (by rw [hn1]; exact hdst)
    rw [hdst2] at hm'
    cases hm'
    exact hf.1
  refine ⟨g4, g3.lines, t, t'.id, dst, hdst, h, ?_, ?_, ht1, ?_, fun hp => ?_⟩
  · rw [hl4]
    show (g3'.lines.dropLast ++ [_]) = _
    rw [hl3, List.dropLast_concat, hid]
    cases t'
    simp only at hf3 ⊢
    rw [hf3]
  · rw [← hl1]
    exact hsub3.trans hsub2
  · have h13 : SameStructure g.nodes g3.nodes := by
      rw [← hn1]; exact sameStructure_trans hs2 hs3
    have : SameStructure g3.nodes g4.nodes := by
      have := hs4
      simpa [hn3] using this
    exact sameStructure_trans h13 this
  · have h2 := hw2 (by rw [hn1]; exact hp)
    have h3 := DestroyNodeLine_wellSized hg3 h2
    exact CalculateValues_wellSized hg4 (by simpa [hn3] using h3)

/-- A literal node found in the pool `ns` is found, with the same kind and output, in
every pool of the same structure. -/
theorem literal_input_same {ns ns' : List FNodeData} {f : Nat} {m : FNodeData}
    (hsame : SameStructure ns ns') (hm : inputNode ns f = some m)
    (hlit : isLiteral m.type = true) :
    ∃ m', inputNode ns' f = some m' ∧ m'.type = m.type ∧ m'.output = m.output := by
  have hidx : GetNodeIndex ns' f = GetNodeIndex ns f :=
    (GetNodeIndex_ids ns ns' f (sameStructure_ids hsame)).symm
  obtain ⟨h0, hget⟩ := nodeAt_eq_some hm
  obtain ⟨m', hm', hf⟩ := hsame.2 _ m hget
  refine ⟨m', ?_, hf.2.1, hf.2.2.2 (isLiteral_le hlit)⟩
  exact inputNode_of_index (by rw [hidx]; exact h0) (by rw [hidx]; exact hm')

theorem inputNode_mem {ns : List FNodeData} {f : Nat} {m : FNodeData}
    (h : inputNode ns f = some m) : m ∈ ns :=
  List.getElem?_mem (nodeAt_eq_some h).2

/-- The validator's rule for a further input of an Append node. -/
theorem append_accepted {nodes : List FNodeData} {j : Nat} {dst : FNodeData} {from_ : Nat}
    (hdst : nodes[j]? = some dst) (hty : dst.type = FNODE_APPEND)
    (hcount : 0 < dst.inputsCount) (hacc : linkAccepted nodes j from_ = some true) :
    inputWidth nodes from_ = 1 ∧ dst.output.dataCount + inputWidth nodes from_ ≤ 4 := by
  unfold linkAccepted at hacc
  rw [hdst] at hacc
  simp only [Option.bind_eq_bind, Option.some_bind] at hacc
  split at hacc
  · obtain ⟨check, hcheck, h⟩ := Option.bind_eq_some.mp hacc
    have hfirst : firstInputUnchecked dst = false := by
      unfold firstInputUnchecked
      simp only [decide_eq_false_iff_not, not_and]
      intro h; omega
    rw [hfirst] at h
    simp only [Bool.false_or, Option.some.injEq] at h
    subst h
    unfold valuesCheck at hcheck
    rw [if_pos hty] at hcheck
    simp only [Option.map_eq_some', decide_eq_true_eq] at hcheck
    obtain ⟨w, ⟨m, hm, rfl⟩, h1, h2⟩ := hcheck
    have : inputWidth nodes from_ = m.output.dataCount := by
      unfold inputWidth inputNode
      rw [hm]
    rw [this]
    exact ⟨h2, h1⟩
  · cases hacc

/-- The node at slot `i` after a pass that recomputes it as an Append node with literal
inputs. -/
theorem append_pass {M : Libm} {g g' : Graph} {i : Nat} {n : FNodeData}
    (hrun : CalculateValues M g = some g') (hn : g.nodes[i]? = some n)
    (hty : n.type = FNODE_APPEND) (hk : inboundIds g.lines n.id ≠ [])
    (hsrc : ∀ f ∈ inboundIds g.lines n.id, ∃ m, inputNode g.nodes f = some m ∧
      isLiteral m.type = true ∧ WellSized m)
    (htotal : ((inboundIds g.lines n.id).map (inputWidth g.nodes)).sum ≤ MAX_VALUES)
    (hsize : WellSized n) :
    ∃ n', g'.nodes[i]? = some n' ∧
      n'.output.dataCount = ((inboundIds g.lines n.id).map (inputWidth g.nodes)).sum := by
  obtain ⟨mid, n1, hmid, hmidn, hc, hg'⟩ := CalculateValues_node hrun hn
  have hle : (inboundIds g.lines n.id).length ≤ MAX_INPUTS := by
    obtain ⟨self, out, hr, _, _⟩ := calcNode_eq_some hc
    rw [rebuildInputs_eq] at hr
    by_contra hcon
    rw [if_neg hcon] at hr
    cases hr
  have hsame : SameStructure g.nodes mid := calcLoop_same M g.lines i 0 g.nodes mid hmid
  obtain ⟨n', h1, h2, _⟩ :=
    append_node M g.lines g.nodes mid i n hsame hmidn hty hk hle hsrc htotal hsize
  rw [hc] at h1
  cases h1
  exact ⟨n1, hg', h2⟩

theorem inboundIds_append (l1 l2 : List FLineData) (id : Nat) :
    inboundIds (l1 ++ l2) id = inboundIds l1 id ++ inboundIds l2 id := by
  simp [inboundIds]

theorem inboundIds_sublist {l1 l2 : List FLineData} (h : l1.Sublist l2) (id : Nat) :
    (inboundIds l1 id).Sublist (inboundIds l2 id) :=
  (h.filter _).map _

/-- C16, as amended: for an Append node that holds at least one input, whose inputs and
the new source are literal nodes, and whose output width is the sum of the widths of its
inputs (as a pass leaves it), an accepted link gesture from the new source leaves the node
with an output width that is the sum of the widths of its inputs and at most 4. -/
theorem C16_append_link_width (M : Libm) (g g' : Graph) (i j : Nat) (src dst : FNodeData)
    (hsrc : g.nodes[i]? = some src) (hdst : g.nodes[j]? = some dst)
    (hty : dst.type = FNODE_APPEND) (hcount : 0 < dst.inputsCount)
    (hid : dst.id < MAX_NODES) (hall : ∀ m ∈ g.nodes, WellSized m)
    (hlit : ∀ f ∈ src.id :: inboundIds g.lines dst.id,
      ∃ m, inputNode g.nodes f = some m ∧ isLiteral m.type = true)
    (hcur : dst.output.dataCount = ((inboundIds g.lines dst.id).map (inputWidth g.nodes)).sum)
    (hacc : linkAccepted g.nodes j src.id = some true)
    (hlink : linkClick M g i j = some g') :
    ∃ n', g'.nodes[j]? = some n' ∧
      n'.output.dataCount = ((inboundIds g'.lines dst.id).map (inputWidth g'.nodes)).sum ∧
      n'.output.dataCount ≤ 4 := by
  obtain ⟨g4, L, t, lid, dst', hdst', hrun, hl4, hsub, ht, hs4, hw4⟩ :=
    linkClick_eq_some hsrc hacc hlink
  rw [hdst] at hdst'
  cases hdst'
  obtain ⟨hw1, hw2⟩ := append_accepted hdst hty hcount hacc
  -- the Append node before the last pass
  obtain ⟨n4, hn4, hf4⟩ := hs4.2 j dst hdst
  have hsize4 : WellSized n4 := hw4 hall n4 (List.getElem?_mem hn4)
  -- its inbound lines before the last pass
  have hin4 : inboundIds g4.lines dst.id = inboundIds L dst.id ++ [src.id] := by
    rw [hl4, inboundIds_append]
    simp [inboundIds]
  have hsubids : (inboundIds L dst.id).Sublist (inboundIds g.lines dst.id) := by
    have h1 := inboundIds_sublist hsub dst.id
    have h2 : inboundIds (g.lines ++ [t]) dst.id = inboundIds g.lines dst.id := by
      rw [inboundIds_append]
      have : ¬ t.to_ = dst.id := by
        rw [ht]; unfold UNATTACHED; unfold MAX_NODES at hid; omega
      simp [inboundIds, this]
    rw [h2] at h1
    exact h1
  have hmem : ∀ f ∈ inboundIds g4.lines dst.id, f ∈ src.id :: inboundIds g.lines dst.id := by
    intro f hf
    rw [hin4, List.mem_append] at hf
    rcases hf with hf | hf
    · exact List.mem_cons_of_mem _ (hsubids.subset hf)
    · simp only [List.mem_singleton] at hf
      rw [hf]; exact List.mem_cons_self _ _
  -- the widths of the literal inputs are the same in every pool
  have hwidth : ∀ (ns : List FNodeData), SameStructure g.nodes ns →
      ∀ f ∈ src.id :: inboundIds g.lines dst.id, inputWidth ns f = inputWidth g.nodes f := by
    intro ns hs f hf
    obtain ⟨m, hm, hl⟩ := hlit f hf
    obtain ⟨m', hm', _, ho⟩ := literal_input_same hs hm hl
    unfold inputWidth
    rw [hm', hm]
    simp only [ho]
  have hsrc4 : ∀ f ∈ inboundIds g4.lines n4.id, ∃ m, inputNode g4.nodes f = some m ∧
      isLiteral m.type = true ∧ WellSized m := by
    intro f hf
    rw [hf4.1] at hf
    obtain ⟨m, hm, hl⟩ := hlit f (hmem f hf)
    obtain ⟨m', hm', ht', _⟩ := literal_input_same hs4 hm hl
    exact ⟨m', hm', by rw [ht']; exact hl, hw4 hall m' (inputNode_mem hm')⟩
  have hsum4 : ((inboundIds g4.lines dst.id).map (inputWidth g4.nodes)).sum =
      ((inboundIds L dst.id).map (inputWidth g.nodes)).sum + inputWidth g.nodes src.id := by
    have : (inboundIds g4.lines dst.id).map (inputWidth g4.nodes) =
        (inboundIds g4.lines dst.id).map (inputWidth g.nodes) :=
      List.map_congr_left (fun f hf => hwidth g4.nodes hs4 f (hmem f hf))
    rw [this, hin4]
    simp
  have hle : ((inboundIds L dst.id).map (inputWidth g.nodes)).sum ≤ dst.output.dataCount := by
    rw [hcur]
    exact List.Sublist.sum_le_sum (hsubids.map _) (fun a _ => Nat.zero_le a)
  obtain ⟨n', hn', hcount'⟩ := append_pass hrun hn4 (by rw [hf4.2.1]; exact hty)
    (by rw [hf4.1, hin4]; simp) hsrc4
    (by rw [hf4.1, hsum4]; unfold MAX_VALUES; omega) hsize4
  rw [hf4.1, hsum4] at hcount'
  obtain ⟨hl', hs'⟩ := CalculateValues_same hrun
  refine ⟨n', hn', ?_, by omega⟩
  rw [hcount', hl', ← hsum4]
  have : (inboundIds g4.lines dst.id).map (inputWidth g'.nodes) =
      (inboundIds g4.lines dst.id).map (inputWidth g4.nodes) :=
    List.map_congr_left (fun f hf => by
      rw [hwidth g'.nodes (sameStructure_trans hs4 hs') f (hmem f hf),
        hwidth g4.nodes hs4 f (hmem f hf)])
  rw [this]

/-- C16 as stated fails: after the edits of `exampleAppendEdits`, every link of which the
validator accepted, the Append node 3, with the matrix as only input, has the output width
16, and the Append node 7, with the Multiply node (of width 4 since the matrix was linked
into it) and the value as inputs, has the output width 5. -/
theorem C16_append_width_above_four :
    (InitFNode.bind (applyEdits exampleLibm exampleAppendEdits)).map (fun g =>
      g.nodes.map (fun n => (n.id, n.type, n.inputs, n.output.dataCount))) =
      some [(0, FNODE_VERTEX, [-1, -1, -1, -1], 0), (1, FNODE_FRAGMENT, [-1, -1, -1, -1], 0),
        (2, FNODE_MATRIX, [-1, -1, -1, -1], 16), (3, FNODE_APPEND, [2, -1, -1, -1], 16),
        (4, FNODE_VECTOR3, [-1, -1, -1, -1], 3), (5, FNODE_VALUE, [-1, -1, -1, -1], 1),
        (6, FNODE_MULTIPLY, [4, 2, -1, -1], 4), (7, FNODE_APPEND, [6, 5, -1, -1], 5)] := by
  decide!

/-- C16 at `exampleLinkGraph`: the link gesture from the Value node 1 to the Append node,
which holds the Value node 0, leaves the Append node with the output width 2. -/
theorem C16_append_link_width_witness :
    linkClick exampleLibm exampleLinkGraph 1 2 = some exampleLinkedGraph ∧
    ∃ n', exampleLinkedGraph.nodes[2]? = some n' ∧ n'.output.dataCount = 2 ∧
      n'.output.dataCount ≤ 4 := by
  have hlink : linkClick exampleLibm exampleLinkGraph 1 2 = some exampleLinkedGraph := by
    decide!
  have hall : ∀ m ∈ exampleLinkGraph.nodes, WellSized m := by
    intro m hm
    simp only [exampleLinkGraph, List.mem_cons, List.mem_singleton, List.not_mem_nil,
      or_false] at hm
    rcases hm with rfl | rfl | rfl <;> exact ⟨rfl, by decide, rfl⟩
  have hlit : ∀ f ∈ (literalNode 1 FNODE_VALUE [3]).id ::
      inboundIds exampleLinkGraph.lines (linkedNode 2 FNODE_APPEND 4 0 [2]).id,
      ∃ m, inputNode exampleLinkGraph.nodes f = some m ∧ isLiteral m.type = true := by
    intro f hf
    have hf' : f = 1 ∨ f = 0 := by
      simpa [inboundIds, exampleLinkGraph, linkedNode, literalNode, literalOutput, blankNode]
        using hf
    rcases hf' with rfl | rfl
    · exact ⟨literalNode 1 FNODE_VALUE [3], rfl, rfl⟩
    · exact ⟨literalNode 0 FNODE_VALUE [2], rfl, rfl⟩
  obtain ⟨n', h1, h2, h3⟩ := C16_append_link_width exampleLibm exampleLinkGraph
    exampleLinkedGraph 1 2 (literalNode 1 FNODE_VALUE [3]) (linkedNode 2 FNODE_APPEND 4 0 [2])
    rfl rfl rfl (by decide) (by decide) hall hlit (by decide) (by decide!) hlink
  refine ⟨hlink, n', h1, ?_, h3⟩
  rw [h2]
  decide

/-! ## The array bounds are kept by every edit -/

theorem createNode_wellSized {g g' : Graph} {type : FNodeType} {f : FNodeData → FNodeData}
    (h : createNode g type f = some g')
    (hf : ∀ n : FNodeData, n.inputs.length = MAX_INPUTS → n.output.data.length = MAX_VALUES →
      n.output.dataCount = 0 → WellSized (f n))
    (hpool : ∀ m ∈ g.nodes, WellSized m) : ∀ m ∈ g'.nodes, WellSized m := by
  unfold createNode InitializeNode at h
  split at h
  · cases h
  · split at h
    · simp only [Option.map_some', Option.some.injEq] at h
      subst h
      intro m hm
      simp only [List.mem_append, List.mem_singleton] at hm
      rcases hm with hm | rfl
      · exact hpool m hm
      · exact hf _ (by simp) (by simp) rfl
    · cases h

theorem literalOutput_wellSized (vs : List ℚ) (hvs : vs.length ≤ MAX_VALUES) (n : FNodeData)
    (h1 : n.inputs.length = MAX_INPUTS) (h2 : n.output.data.length = MAX_VALUES) :
    WellSized (literalOutput vs n) := by
  refine ⟨?_, hvs, h1⟩
  simp only [literalOutput, List.length_append, List.length_drop, h2]
  omega

theorem clickMenu_wellSized {M : Libm} {g g' : Graph} {b : MenuButton}
    (hb : b.valid = true) (h : clickMenu M g b = some g')
    (hpool : ∀ m ∈ g.nodes, WellSized m) : ∀ m ∈ g'.nodes, WellSized m := by
  cases b with
  | value v =>
    exact createNode_wellSized h
      (fun n h1 h2 _ => literalOutput_wellSized _ (by simp [MAX_VALUES]) n h1 h2) hpool
  | vector2 v =>
    exact createNode_wellSized h
      (fun n h1 h2 _ => literalOutput_wellSized _ (by simp [MAX_VALUES]) n h1 h2) hpool
  | vector3 v =>
    exact createNode_wellSized h
      (fun n h1 h2 _ => literalOutput_wellSized _ (by simp [MAX_VALUES]) n h1 h2) hpool
  | vector4 v =>
    exact createNode_wellSized h
      (fun n h1 h2 _ => literalOutput_wellSized _ (by simp [MAX_VALUES]) n h1 h2) hpool
  | matrix =>
    exact createNode_wellSized h
      (fun n h1 h2 _ => literalOutput_wellSized _ (by simp [MAX_VALUES]) n h1 h2) hpool
  | operator type inputs =>
    exact createNode_wellSized h (fun n h1 h2 h3 => ⟨h2, by rw [h3]; exact Nat.zero_le _, h1⟩)
      hpool
  | uniform type dataCount =>
    have hmem : (type, dataCount) ∈ uniformButtons := by
      simpa [MenuButton.valid] using hb
    have hle : dataCount ≤ MAX_VALUES := by
      simp only [uniformButtons, List.mem_cons, Prod.mk.injEq, List.mem_singleton,
        List.not_mem_nil, or_false] at hmem
      unfold MAX_VALUES
      omega
    exact createNode_wellSized h (fun n h1 h2 _ => ⟨h2, hle, h1⟩) hpool
  | pi =>
    exact createNode_wellSized h
      (fun n h1 h2 _ => literalOutput_wellSized _ (by simp [MAX_VALUES]) n h1 h2) hpool
  | e =>
    exact createNode_wellSized h
      (fun n h1 h2 _ => literalOutput_wellSized _ (by simp [MAX_VALUES]) n h1 h2) hpool

theorem destroyLinesOf_wellSized (M : Libm) (id : Nat) :
    ∀ (k : Nat) (g g' : Graph), destroyLinesOf M id k g = some g' →
      (∀ m ∈ g.nodes, WellSized m) → ∀ m ∈ g'.nodes, WellSized m := by
  intro k
  induction k with
  | zero => intro g g' h hp; simp only [destroyLinesOf, Option.some.injEq] at h; subst h; exact hp
  | succ k ih =>
    intro g g' h hp
    unfold destroyLinesOf at h
    obtain ⟨line, _, h⟩ := Option.bind_eq_some.mp h
    dsimp only at h
    split at h
    · obtain ⟨g1, hg1, h⟩ := Option.bind_eq_some.mp h
      exact ih g1 g' h (DestroyNodeLine_wellSized hg1 hp)
    · obtain ⟨g1, hg1, h⟩ := Option.bind_eq_some.mp h
      cases hg1
      exact ih g g' h hp

theorem destroyLinesFrom_wellSized (M : Libm) (i : Nat) :
    ∀ (k : Nat) (g g' : Graph), destroyLinesFrom M i k g = some g' →
      (∀ m ∈ g.nodes, WellSized m) → ∀ m ∈ g'.nodes, WellSized m := by
  intro k
  induction k with
  | zero =>
    intro g g' h hp; simp only [destroyLinesFrom, Option.some.injEq] at h; subst h; exact hp
  | succ k ih =>
    intro g g' h hp
    unfold destroyLinesFrom at h
    obtain ⟨node, _, h⟩ := Option.bind_eq_some.mp h
    obtain ⟨line, _, h⟩ := Option.bind_eq_some.mp h
    dsimp only at h
    split at h
    · obtain ⟨g1, hg1, h⟩ := Option.bind_eq_some.mp h
      exact ih g1 g' h (DestroyNodeLine_wellSized hg1 hp)
    · obtain ⟨g1, hg1, h⟩ := Option.bind_eq_some.mp h
      cases hg1
      exact ih g g' h hp

theorem destroyLinesTo_wellSized (M : Libm) (i : Nat) :
    ∀ (k : Nat) (g g' : Graph), destroyLinesTo M i k g = some g' →
      (∀ m ∈ g.nodes, WellSized m) → ∀ m ∈ g'.nodes, WellSized m := by
  intro k
  induction k with
  | zero =>
    intro g g' h hp; simp only [destroyLinesTo, Option.some.injEq] at h; subst h; exact hp
  | succ k ih =>
    intro g g' h hp
    unfold destroyLinesTo at h
    obtain ⟨node, _, h⟩ := Option.bind_eq_some.mp h
    obtain ⟨line, _, h⟩ := Option.bind_eq_some.mp h
    dsimp only at h
    split at h
    · obtain ⟨g1, hg1, h⟩ := Option.bind_eq_some.mp h
      exact ih g1 g' h (DestroyNodeLine_wellSized hg1 hp)
    · obtain ⟨g1, hg1, h⟩ := Option.bind_eq_some.mp h
      cases hg1
      exact ih g g' h hp

theorem DestroyNode_wellSized {M : Libm} {g g' : Graph} {node : FNodeData}
    (h : DestroyNode M g node = some g') (hp : ∀ m ∈ g.nodes, WellSized m) :
    ∀ m ∈ g'.nodes, WellSized m := by
  unfold DestroyNode at h
  obtain ⟨g1, hg1, h⟩ := Option.bind_eq_some.mp h
  split at h
  · cases h
  · refine CalculateValues_wellSized h (fun m hm => ?_)
    exact destroyLinesOf_wellSized M node.id _ g g1 hg1 hp m
      ((List.eraseIdx_sublist _ _).subset hm)

/-- Every edit keeps every node inside the bounds of its arrays. -/
theorem applyEdit_wellSized {M : Libm} {g g' : Graph} {e : Edit}
    (h : applyEdit M g e = some g') (hp : ∀ m ∈ g.nodes, WellSized m) :
    ∀ m ∈ g'.nodes, WellSized m := by
  cases e with
  | menu b =>
    simp only [applyEdit] at h
    split at h
    · exact clickMenu_wellSized (by assumption) h hp
    · cases h
  | link i j =>
    simp only [applyEdit] at h
    obtain ⟨src, hsrc, h⟩ := Option.bind_eq_some.mp h
    obtain ⟨accepted, hacc, h⟩ := Option.bind_eq_some.mp h
    split at h
    · rename_i ha
      rw [ha] at hacc
      obtain ⟨g4, _, _, _, _, _, hrun, _, _, _, _, hw⟩ := linkClick_eq_some hsrc hacc h
      exact CalculateValues_wellSized hrun (hw hp)
    · cases h
  | unlinkOutput i =>
    simp only [applyEdit, unlinkOutput] at h
    obtain ⟨g1, hg1, h⟩ := Option.bind_eq_some.mp h
    obtain ⟨g2, hg2, h⟩ := Option.bind_eq_some.mp h
    exact CalculateValues_wellSized h
      (CalculateValues_wellSized hg2 (destroyLinesFrom_wellSized M i _ g g1 hg1 hp))
  | unlinkInput i =>
    simp only [applyEdit, unlinkInput] at h
    obtain ⟨g1, hg1, h⟩ := Option.bind_eq_some.mp h
    obtain ⟨g2, hg2, h⟩ := Option.bind_eq_some.mp h
    exact CalculateValues_wellSized h
      (CalculateValues_wellSized hg2 (destroyLinesTo_wellSized M i _ g g1 hg1 hp))
  | delete i =>
    simp only [applyEdit, deleteClick] at h
    obtain ⟨node, _, h⟩ := Option.bind_eq_some.mp h
    split at h
    · obtain ⟨g1, hg1, h⟩ := Option.bind_eq_some.mp h
      exact CalculateValues_wellSized h (DestroyNode_wellSized hg1 hp)
    · cases h
  | evaluate => exact CalculateValues_wellSized h hp

theorem applyEdits_wellSized (M : Libm) :
    ∀ (edits : List Edit) (g g' : Graph), applyEdits M edits g = some g' →
      (∀ m ∈ g.nodes, WellSized m) → ∀ m ∈ g'.nodes, WellSized m := by
  intro edits
  induction edits with
  | nil => intro g g' h hp; simp only [applyEdits, Option.some.injEq] at h; subst h; exact hp
  | cons e es ih =>
    intro g g' h hp
    unfold applyEdits at h
    obtain ⟨g1, hg1, h⟩ := Option.bind_eq_some.mp h
    exact ih g1 g' h (applyEdit_wellSized hg1 hp)

/-- C17, as amended: in every store reached from the fresh start by menu clicks, accepted
link gestures, right clicks that unlink or delete a node, and recomputations of the
values, as long as every one of these steps stays inside the arrays of the program (the
store is the value of `applyEdits`, which has none once a step writes or reads outside
an array), the output width `dataCount` of every node is at most `MAX_VALUES`, which is
16, and its `data` has `MAX_VALUES` slots. -/
theorem C17_output_width_bound (M : Libm) (g : Graph) (h : EditReachable M g) :
    ∀ n ∈ g.nodes, n.output.dataCount ≤ MAX_VALUES ∧ n.output.data.length = MAX_VALUES := by
  obtain ⟨edits, he⟩ := h
  rw [InitFNode_eq] at he
  simp only [Option.some_bind] at he
  have hfresh : ∀ m ∈ exampleFreshGraph.nodes, WellSized m := by
    intro m hm
    simp only [exampleFreshGraph, List.mem_cons, List.mem_singleton, List.not_mem_nil,
      or_false] at hm
    rcases hm with rfl | rfl <;> exact ⟨rfl, by decide, rfl⟩
  intro n hn
  have := applyEdits_wellSized M edits _ g he hfresh n hn
  exact ⟨this.2.1, this.1⟩

/-- C17 as stated fails: the store after the edits of `exampleAppendEdits` is reached from
the fresh start by menu clicks and accepted link gestures, and its Append node 7 has the
output width 5.  Nor is the width kept within the 16 slots of `data` by the program:
after the edits of `exampleWideEdits` the link from the matrix to the first Append node
is accepted; in the pass that follows, that node gets the width 16, and the second
Append node, whose inputs then have the widths 16 and 1, writes a seventeenth value, so
that the recomputation of `nodes[5]`, and with it the gesture, has no defined result. -/
theorem C17_width_five_reached :
    (∃ g, EditReachable exampleLibm g ∧
      g.nodes.map (fun n => (n.id, n.type, n.output.dataCount)) =
        [(0, FNODE_VERTEX, 0), (1, FNODE_FRAGMENT, 0), (2, FNODE_MATRIX, 16),
          (3, FNODE_APPEND, 16), (4, FNODE_VECTOR3, 3), (5, FNODE_VALUE, 1),
          (6, FNODE_MULTIPLY, 4), (7, FNODE_APPEND, 5)]) ∧
    (InitFNode.bind (applyEdits exampleLibm exampleWideEdits)).bind (fun g =>
      linkAccepted g.nodes 3 2) = some true ∧
    exampleWideStore.bind (fun g => (calcUpTo exampleLibm g.lines 5 g.nodes).map (fun ns =>
      ns.map (fun n => (n.id, n.inputsCount, n.output.dataCount)))) =
      some [(0, 0, 0), (1, 0, 0), (2, 0, 16), (3, 1, 16), (4, 0, 1), (5, 2, 1)] ∧
    exampleWideStore.bind (fun g => (calcUpTo exampleLibm g.lines 5 g.nodes).map (fun ns =>
      calcAt exampleLibm g.lines 5 ns)) = some none ∧
    InitFNode.bind (applyEdits exampleLibm (exampleWideEdits ++ [.link 2 3])) = none := by
  have h : ∃ g, InitFNode.bind (applyEdits exampleLibm exampleAppendEdits) = some g ∧
      g.nodes.map (fun n => (n.id, n.type, n.output.dataCount)) =
        [(0, FNODE_VERTEX, 0), (1, FNODE_FRAGMENT, 0), (2, FNODE_MATRIX, 16),
          (3, FNODE_APPEND, 16), (4, FNODE_VECTOR3, 3), (5, FNODE_VALUE, 1),
          (6, FNODE_MULTIPLY, 4), (7, FNODE_APPEND, 5)] := by
    cases hg : InitFNode.bind (applyEdits exampleLibm exampleAppendEdits) with
    | none => exact absurd hg (by decide!)
    | some g =>
      refine ⟨g, rfl, ?_⟩
      have h2 : (InitFNode.bind (applyEdits exampleLibm exampleAppendEdits)).map (fun g =>
          g.nodes.map (fun n => (n.id, n.type, n.output.dataCount))) =
          some [(0, FNODE_VERTEX, 0), (1, FNODE_FRAGMENT, 0), (2, FNODE_MATRIX, 16),
            (3, FNODE_APPEND, 16), (4, FNODE_VECTOR3, 3), (5, FNODE_VALUE, 1),
            (6, FNODE_MULTIPLY, 4), (7, FNODE_APPEND, 5)] := by decide!
      rw [hg] at h2
      simpa using h2
  obtain ⟨g, hg, hw⟩ := h
  refine ⟨⟨g, ⟨exampleAppendEdits, hg⟩, hw⟩, ?_, ?_, ?_, ?_⟩ <;> decide!

/-- C17 at the store after the edits of `exampleAppendEdits`: every output width is at
most 16. -/
theorem C17_output_width_bound_witness :
    ∃ g, InitFNode.bind (applyEdits exampleLibm exampleAppendEdits) = some g ∧
      ∀ n ∈ g.nodes, n.output.dataCount ≤ MAX_VALUES ∧ n.output.data.length = MAX_VALUES := by
  cases hg : InitFNode.bind (applyEdits exampleLibm exampleAppendEdits) with
  | none => exact absurd hg (by decide!)
  | some g => exact ⟨g, rfl, C17_output_width_bound exampleLibm g ⟨exampleAppendEdits, hg⟩⟩

/-! ## Missing inputs -/

theorem calcOutput_operator {M : Libm} {ns : List FNodeData} {i : Nat} {self : FNodeData}
    (h : FNODE_APPEND.toInt < self.type.toInt) (hpos : 0 < self.inputsCount) :
    calcOutput M ns i self =
      (copyFirst ns i self self.output).bind (calcOperator M ns i self) := by
  unfold calcOutput
  have h1 : ¬ (FNODE_VECTOR4.toInt < self.type.toInt ∧ self.type.toInt < FNODE_APPEND.toInt) := by
    omega
  have h2 : ¬ self.type = FNODE_APPEND := by
    intro h2; rw [h2] at h; simp at h
  rw [if_neg h1, if_neg h2, if_pos h, if_pos hpos]
  rfl

/-- Without an input the output of an operator or a sink is cleared. -/
theorem calcOutput_no_input {M : Libm} {ns : List FNodeData} {i : Nat} {self : FNodeData}
    (h : FNODE_VECTOR4.toInt < self.type.toInt) (h0 : self.inputsCount = 0) :
    calcOutput M ns i self = some (clearOutput self.output) := by
  unfold calcOutput calcArith calcAppend
  simp only [h0, gt_iff_lt, Nat.lt_irrefl, if_false]
  split
  · rfl
  · split
    · rfl
    · split
      · rfl
      · rename_i h1 h2 h3
        exfalso
        revert h h1 h2 h3
        cases self.type <;> simp [FNodeType.toInt]

/-- The `switch` of the kinds after `FNODE_APPEND` for a node with fewer inputs than the
case of its kind asks for. -/
theorem calcOperator_cleared {M : Libm} {ns : List FNodeData} {i : Nat} {self : FNodeData}
    (cur : FNodeOutput)
    (h : (self.inputsCount ≠ 2 ∧ (self.type = FNODE_POWER ∨ self.type = FNODE_STEP ∨
        self.type = FNODE_POSTERIZE ∨ self.type = FNODE_CROSSPRODUCT ∨
        self.type = FNODE_DESATURATE ∨ self.type = FNODE_DISTANCE ∨
        self.type = FNODE_DOTPRODUCT ∨ self.type = FNODE_PROJECTION ∨
        self.type = FNODE_REJECTION ∨ self.type = FNODE_HALFDIRECTION)) ∨
      (self.inputsCount ≠ 3 ∧ (self.type = FNODE_LERP ∨ self.type = FNODE_SMOOTHSTEP))) :
    calcOperator M ns i self cur = some (clearOutput cur) := by
  unfold calcOperator
  rcases h with ⟨hc, ht⟩ | ⟨hc, ht⟩
  · rcases ht with ht | ht | ht | ht | ht | ht | ht | ht | ht | ht <;> rw [ht] <;>
      simp only [calcScalarSecond, calcStep, calcCross, calcDesaturate, calcDistance, calcDot,
        calcProjection, calcHalfDirection, if_neg hc]
  · rcases ht with ht | ht <;> rw [ht] <;> simp only [calcTernary, if_neg hc]

/-- The recomputed output of a node in one of the cases of `clearedBelowArity`. -/
theorem calcOutput_cleared {M : Libm} {ns : List FNodeData} {i : Nat} {self : FNodeData}
    {out : FNodeOutput} (hk : clearedBelowArity self.type self.inputsCount = true)
    (h : calcOutput M ns i self = some out) :
    out = { data := List.replicate MAX_VALUES 0, dataCount := 0 } := by
  by_cases h0 : self.inputsCount = 0
  · have hop : FNODE_VECTOR4.toInt < self.type.toInt := by
      revert hk
      cases self.type <;> simp [clearedBelowArity, h0, FNodeType.toInt]
    rw [calcOutput_no_input hop h0] at h
    cases h
    rfl
  · have hcase : (self.inputsCount ≠ 2 ∧ (self.type = FNODE_POWER ∨ self.type = FNODE_STEP ∨
          self.type = FNODE_POSTERIZE ∨ self.type = FNODE_CROSSPRODUCT ∨
          self.type = FNODE_DESATURATE ∨ self.type = FNODE_DISTANCE ∨
          self.type = FNODE_DOTPRODUCT ∨ self.type = FNODE_PROJECTION ∨
          self.type = FNODE_REJECTION ∨ self.type = FNODE_HALFDIRECTION)) ∨
        (self.inputsCount ≠ 3 ∧ (self.type = FNODE_LERP ∨ self.type = FNODE_SMOOTHSTEP)) := by
      revert hk
      simp only [clearedBelowArity, beq_iff_eq, Bool.or_eq_true, Bool.and_eq_true,
        decide_eq_true_eq]
      rintro ((⟨hz, _⟩ | ⟨h1, ht⟩) | ⟨hc, ht⟩)
      · exact absurd hz h0
      · left
        refine ⟨by omega, ?_⟩
        tauto
      · right
        exact ⟨by omega, ht⟩
    have hop : FNODE_APPEND.toInt < self.type.toInt := by
      rcases hcase with ⟨_, ht⟩ | ⟨_, ht⟩
      · rcases ht with ht | ht | ht | ht | ht | ht | ht | ht | ht | ht <;> rw [ht] <;>
          simp [FNodeType.toInt]
      · rcases ht with ht | ht <;> rw [ht] <;> simp [FNodeType.toInt]
    rw [calcOutput_operator hop (Nat.pos_of_ne_zero h0)] at h
    obtain ⟨c, _, h⟩ := Option.bind_eq_some.mp h
    rw [calcOperator_cleared c hcase] at h
    cases h
    rfl

/-- C18, as amended: for an operator without an inbound line, for a Power, Step,
Posterize, CrossProduct, Desaturate, Distance, DotProduct, Projection, Rejection or
HalfDirection node with one inbound line, and for a Lerp or SmoothStep node with one or two
inbound lines, a pass of `CalculateValues` leaves the node with `dataCount = 0` and all
`MAX_VALUES` values zero; without an inbound line the recomputation of the node itself
always succeeds. -/
theorem C18_missing_inputs_cleared (M : Libm) (g : Graph) (i : Nat) (n : FNodeData)
    (hn : g.nodes[i]? = some n)
    (hk : clearedBelowArity n.type (inboundIds g.lines n.id).length = true) :
    (inboundIds g.lines n.id = [] →
      ∀ mid, ∃ n', calcNode M g.lines mid i n = some n') ∧
    ∀ g', CalculateValues M g = some g' →
      ∃ n', g'.nodes[i]? = some n' ∧ n'.output.dataCount = 0 ∧
        n'.output.data = List.replicate MAX_VALUES 0 := by
  have hle : (inboundIds g.lines n.id).length ≤ MAX_INPUTS := by
    revert hk
    simp only [clearedBelowArity, beq_iff_eq, Bool.or_eq_true, Bool.and_eq_true,
      decide_eq_true_eq]
    unfold MAX_INPUTS
    rintro ((⟨hz, _⟩ | ⟨h1, _⟩) | ⟨hc, _⟩) <;> omega
  obtain ⟨self, hself, _, hst, _, hso, hsc, _⟩ := rebuildInputs_some g.lines n hle
  have hk' : clearedBelowArity self.type self.inputsCount = true := by
    rw [hst, hsc]; exact hk
  refine ⟨fun hnil mid => ?_, fun g' hrun => ?_⟩
  · have h0 : self.inputsCount = 0 := by rw [hsc, hnil]; rfl
    have hop : FNODE_VECTOR4.toInt < self.type.toInt := by
      revert hk'
      cases self.type <;> simp [clearedBelowArity, h0, FNodeType.toInt]
    exact ⟨_, calcNode_of hself (calcOutput_no_input hop h0)⟩
  · obtain ⟨mid, n1, _, _, hc, hg'⟩ := CalculateValues_node hrun hn
    obtain ⟨self', out, hr, ho, rfl⟩ := calcNode_eq_some hc
    rw [hself] at hr
    cases hr
    have := calcOutput_cleared hk' ho
    subst this
    exact ⟨_, hg', rfl, rfl⟩

/-- C18 as stated fails for MultiplyMatrix, Max and Min: after the edits of
`exampleArityEdits` each of the three nodes has one input, and the MultiplyMatrix node has
the width 16 and the values of the matrix, the Max and the Min node the width 1 and the
value 2; the Power node, with one input as well, is cleared. -/
theorem C18_single_input_kept :
    (InitFNode.bind (applyEdits exampleLibm exampleArityEdits)).map (fun g =>
      (g.nodes.drop 4).map (fun n =>
        (n.type, n.inputsCount, n.output.dataCount, n.output.data))) =
      some [(FNODE_MULTIPLYMATRIX, 1, 16, identityValues),
        (FNODE_MAX, 1, 1, [2, 0, 0, 0, 0, 0, 0, 0, 0, 0, 0, 0, 0, 0, 0, 0]),
        (FNODE_MIN, 1, 1, [2, 0, 0, 0, 0, 0, 0, 0, 0, 0, 0, 0, 0, 0, 0, 0]),
        (FNODE_POWER, 1, 0, List.replicate MAX_VALUES 0)] := by
  decide!

/-- C18 at `exampleArityGraph`: after the pass the Power node 1 and the Lerp node 2, with
one input each, and the Add node 3, without an inbound line, are cleared. -/
theorem C18_missing_inputs_cleared_witness :
    ∃ g', CalculateValues exampleLibm exampleArityGraph = some g' ∧
      (g'.nodes.drop 1).map (fun n => (n.output.dataCount, n.output.data)) =
        [(0, List.replicate MAX_VALUES 0), (0, List.replicate MAX_VALUES 0),
          (0, List.replicate MAX_VALUES 0)] := by
  cases hg : CalculateValues exampleLibm exampleArityGraph with
  | none => exact absurd hg (by decide!)
  | some g' =>
    obtain ⟨n1, h1, c1, d1⟩ :=
      (C18_missing_inputs_cleared exampleLibm exampleArityGraph 1 (blankNode 1 FNODE_POWER 2)
        rfl (by decide)).2 g' hg
    obtain ⟨n2, h2, c2, d2⟩ :=
      (C18_missing_inputs_cleared exampleLibm exampleArityGraph 2 (blankNode 2 FNODE_LERP 3)
        rfl (by decide)).2 g' hg
    obtain ⟨n3, h3, c3, d3⟩ :=
      (C18_missing_inputs_cleared exampleLibm exampleArityGraph 3
        (linkedNode 3 FNODE_ADD MAX_INPUTS 0 [2]) rfl (by decide)).2 g' hg
    refine ⟨g', rfl, ?_⟩
    have hlen : g'.nodes.length = 4 := (CalculateValues_same hg).2.1
    rcases hns : g'.nodes with _ | ⟨a, _ | ⟨b, _ | ⟨c, _ | ⟨d, _ | ⟨e, rest⟩⟩⟩⟩⟩ <;>
      rw [hns] at hlen h1 h2 h3 <;> simp at hlen h1 h2 h3
    subst h1 h2 h3
    simp [c1, d1, c2, d2, c3, d3]

/-! ## Constants, literals and geometry inputs -/

/-- C19: a pass of `CalculateValues` leaves the output of every constant (Pi, E), geometry
input (VertexPosition, VertexNormal, Fresnel, ViewDirection, MVP) and literal (Matrix,
Value, Vector2, Vector3, Vector4) node as it was, `dataCount` and all values; with at
most `MAX_INPUTS` inbound lines the recomputation of such a node itself always
succeeds. -/
theorem C19_source_output_kept (M : Libm) (g : Graph) (i : Nat) (n : FNodeData)
    (hn : g.nodes[i]? = some n)
    (hty : n.type ∈ [FNODE_PI, FNODE_E, FNODE_VERTEXPOSITION, FNODE_VERTEXNORMAL,
      FNODE_FRESNEL, FNODE_VIEWDIRECTION, FNODE_MVP, FNODE_MATRIX, FNODE_VALUE,
      FNODE_VECTOR2, FNODE_VECTOR3, FNODE_VECTOR4]) :
    ((inboundIds g.lines n.id).length ≤ MAX_INPUTS →
      ∀ mid, ∃ n', calcNode M g.lines mid i n = some n' ∧ n'.output = n.output) ∧
    ∀ g', CalculateValues M g = some g' →
      ∃ n', g'.nodes[i]? = some n' ∧ n'.output.dataCount = n.output.dataCount ∧
        n'.output.data = n.output.data := by
  have hle : n.type.toInt ≤ FNODE_VECTOR4.toInt := by
    revert hty
    cases n.type <;> simp [FNodeType.toInt]
  refine ⟨fun hin mid => ?_, fun g' hrun => ?_⟩
  · obtain ⟨self, hself, _, hst, _, hso, _, _⟩ := rebuildInputs_some g.lines n hin
    refine ⟨_, calcNode_of hself (calcOutput_literal M mid i self (by rw [hst]; exact hle)), ?_⟩
    exact hso
  · obtain ⟨n', hn', hf⟩ := (CalculateValues_same hrun).2.2 i n hn
    have := hf.2.2.2 hle
    exact ⟨n', hn', by rw [this], by rw [this]⟩

/-- C19 at `exampleAddGraph`: after the pass the Value node 1 still has the width 1 and the
value 3. -/
theorem C19_source_output_kept_witness :
    ∃ n', (CalculateValues exampleLibm exampleAddGraph).bind (fun g => g.nodes[1]?) = some n' ∧
      n'.output.dataCount = 1 ∧
      n'.output.data = [3, 0, 0, 0, 0, 0, 0, 0, 0, 0, 0, 0, 0, 0, 0, 0] := by
  obtain ⟨n', h1, h2, h3⟩ :=
    (C19_source_output_kept exampleLibm exampleAddGraph 1 (literalNode 1 FNODE_VALUE [3])
      rfl (by decide)).2 _ rfl
  exact ⟨n', h1, h2, h3⟩

/-! ## A second pass -/

/-- A loop whose iterations keep a relation between the states of two runs; the relation
may depend on the number of the iteration. -/
theorem forLoop_rel {σ τ : Type} (R : Nat → σ → τ → Prop) (body : Nat → σ → Option σ)
    (body' : Nat → τ → Option τ) (N : Nat)
    (hb : ∀ j s t s', j < N → R j s t → body j s = some s' →
      ∃ t', body' j t = some t' ∧ R (j + 1) s' t') :
    ∀ (k j : Nat) (s : σ) (t : τ) (s' : σ), j + k ≤ N → R j s t →
      forLoop body j k s = some s' → ∃ t', forLoop body' j k t = some t' ∧ R (j + k) s' t' := by
  intro k
  induction k with
  | zero =>
    intro j s t s' _ hR h
    simp only [forLoop_zero, Option.some.injEq] at h
    subst h
    exact ⟨t, rfl, hR⟩
  | succ k ih =>
    intro j s t s' hN hR h
    rw [forLoop_succ] at h
    obtain ⟨s1, hs1, h⟩ := Option.bind_eq_some.mp h
    obtain ⟨t1, ht1, hR1⟩ := hb j s t s1 (by omega) hR hs1
    obtain ⟨t', ht', hR'⟩ := ih (j + 1) s1 t1 s' (by omega) hR1 h
    refine ⟨t', by rw [forLoop_succ, ht1]; exact ht', ?_⟩
    have e : j + (k + 1) = j + 1 + k := by omega
    rw [e]; exact hR'

theorem Twin.loose {a0 b0 : List ℚ} {a b : FNodeOutput} (h : Twin a0 b0 a b) :
    Loose a0 b0 a b := h.2.2

theorem Twin.toEnd {a0 b0 : List ℚ} {a b : FNodeOutput} (h : Twin a0 b0 a b) :
    TwinEnd a0 b0 a b := ⟨h.1, h.2.2⟩

/-- Two outputs with the same values are related. -/
theorem twin_of_eq {a0 b0 : List ℚ} {a b : FNodeOutput} (hc : a.dataCount = b.dataCount)
    (hd : a.data = b.data) : Twin a0 b0 a b :=
  ⟨hc, fun j _ => by rw [hd], by rw [hd], fun j => Or.inl (by rw [hd])⟩

/-- A write of the same value into the same slot of two related outputs. -/
theorem wrValue_loose {a0 b0 : List ℚ} {a b a' : FNodeOutput} {j : Nat} {v : ℚ}
    (hl : Loose a0 b0 a b) (h : wrValue a j v = some a') :
    ∃ b', wrValue b j v = some b' ∧ Loose a0 b0 a' b' ∧ a'.dataCount = a.dataCount ∧
      b'.dataCount = b.dataCount ∧
      ((∀ q : Nat, q < j → a.data[q]? = b.data[q]?) →
        ∀ q : Nat, q < j + 1 → a'.data[q]? = b'.data[q]?) ∧
      (∀ p : Nat, (∀ q : Nat, q < p → a.data[q]? = b.data[q]?) →
        ∀ q : Nat, q < p → a'.data[q]? = b'.data[q]?) := by
  unfold wrValue at h
  split at h
  · rename_i hj
    cases h
    have hjb : j < b.data.length := by rw [← hl.1]; exact hj
    refine ⟨{ b with data := b.data.set j v }, by simp [wrValue, hjb], ⟨by simp [hl.1], ?_⟩,
      rfl, rfl, ?_, ?_⟩
    · intro q
      by_cases hq : j = q
      · left; subst hq; simp [List.getElem?_set, hj, hjb]
      · simpa [List.getElem?_set, hq] using hl.2 q
    · intro hp q hq
      by_cases hqj : j = q
      · subst hqj; simp [List.getElem?_set, hj, hjb]
      · simpa [List.getElem?_set, hqj] using hp q (by omega)
    · intro p hp q hq
      by_cases hqj : j = q
      · subst hqj; simp [List.getElem?_set, hj, hjb]
      · simpa [List.getElem?_set, hqj] using hp q hq
  · cases h

theorem wrValue_twin {a0 b0 : List ℚ} {a b a' : FNodeOutput} {j : Nat} {v : ℚ}
    (ht : Twin a0 b0 a b) (h : wrValue a j v = some a') :
    ∃ b', wrValue b j v = some b' ∧ Twin a0 b0 a' b' ∧ a'.dataCount = a.dataCount := by
  obtain ⟨b', hb', hl', hca, hcb, _, hkeep⟩ := wrValue_loose ht.2.2 h
  refine ⟨b', hb', ⟨by rw [hca, hcb]; exact ht.1, ?_, hl'⟩, hca⟩
  rw [hca]
  exact hkeep a.dataCount ht.2.1

/-- A value read below `dataCount` is the same in two related outputs. -/
theorem Twin.read {a0 b0 : List ℚ} {a b : FNodeOutput} {j : Nat} {v : ℚ}
    (ht : Twin a0 b0 a b) (hj : j < a.dataCount) (h : a.data[j]? = some v) :
    b.data[j]? = some v := by
  rw [← ht.2.1 j hj]; exact h

theorem mapValues_twin {a0 b0 : List ℚ} {a b a' : FNodeOutput} (f : ℚ → ℚ)
    (ht : Twin a0 b0 a b) (h : mapValues f a = some a') :
    ∃ b', mapValues f b = some b' ∧ Twin a0 b0 a' b' := by
  unfold mapValues at h ⊢
  rw [← ht.1]
  obtain ⟨b', hb', hR, _⟩ := forLoop_rel
    (fun _ s t => Twin a0 b0 s t ∧ s.dataCount = a.dataCount) _
    (fun j c => do
      let v ← c.data[j]?
      wrValue c j (f v)) a.dataCount
    (fun j s t s' hj hR hb => by
      obtain ⟨v, hv, hw⟩ := Option.bind_eq_some.mp hb
      obtain ⟨t', hw', hT, hc⟩ := wrValue_twin hR.1 hw
      refine ⟨t', ?_, hT, by rw [hc]; exact hR.2⟩
      simp only [Option.bind_eq_bind, hR.1.read (by rw [hR.2]; exact hj) hv, Option.some_bind]
      exact hw')
    a.dataCount 0 a b a' (by omega) ⟨ht, rfl⟩ h
  exact ⟨b', hb', hR⟩

theorem zipValues_twin {a0 b0 : List ℚ} {a b a' : FNodeOutput} {ns ns' : List FNodeData}
    {k : Nat} {index : Int} (f : ℚ → ℚ → ℚ)
    (hrd : ∀ c c', rdOutput ns k c index = rdOutput ns' k c' index)
    (ht : Twin a0 b0 a b) (h : zipValues ns k index f a = some a') :
    ∃ b', zipValues ns' k index f b = some b' ∧ Twin a0 b0 a' b' ∧
      a'.dataCount = a.dataCount := by
  unfold zipValues at h ⊢
  rw [← ht.1]
  obtain ⟨b', hb', hR, hc⟩ := forLoop_rel
    (fun _ s t => Twin a0 b0 s t ∧ s.dataCount = a.dataCount) _
    (fun j c => do
      let s ← rdOutput ns' k c index
      let v ← s.data[j]?
      let o ← c.data[j]?
      wrValue c j (f o v)) a.dataCount
    (fun j s t s' hj hR hb => by
      obtain ⟨src, hsrc, hb⟩ := Option.bind_eq_some.mp hb
      obtain ⟨v, hv, hb⟩ := Option.bind_eq_some.mp hb
      obtain ⟨o, ho, hw⟩ := Option.bind_eq_some.mp hb
      obtain ⟨t', hw', hT, hc⟩ := wrValue_twin hR.1 hw
      refine ⟨t', ?_, hT, by rw [hc]; exact hR.2⟩
      simp only [Option.bind_eq_bind, ← hrd s t, hsrc, hv,
        hR.1.read (by rw [hR.2]; exact hj) ho, Option.some_bind]
      exact hw')
    a.dataCount 0 a b a' (by omega) ⟨ht, rfl⟩ h
  exact ⟨b', hb', hR, hc⟩

theorem scalarValues_twin {a0 b0 : List ℚ} {a b a' : FNodeOutput} {ns ns' : List FNodeData}
    {k : Nat} {index : Int} (f : ℚ → ℚ → ℚ)
    (hrd : ∀ c c', rdOutput ns k c index = rdOutput ns' k c' index)
    (ht : Twin a0 b0 a b) (h : scalarValues ns k index f a = some a') :
    ∃ b', scalarValues ns' k index f b = some b' ∧ Twin a0 b0 a' b' ∧
      a'.dataCount = a.dataCount := by
  unfold scalarValues at h ⊢
  rw [← ht.1]
  obtain ⟨b', hb', hR, hc⟩ := forLoop_rel
    (fun _ s t => Twin a0 b0 s t ∧ s.dataCount = a.dataCount) _
    (fun j c => do
      let s ← rdOutput ns' k c index
      let v ← s.data[0]?
      let o ← c.data[j]?
      wrValue c j (f o v)) a.dataCount
    (fun j s t s' hj hR hb => by
      obtain ⟨src, hsrc, hb⟩ := Option.bind_eq_some.mp hb
      obtain ⟨v, hv, hb⟩ := Option.bind_eq_some.mp hb
      obtain ⟨o, ho, hw⟩ := Option.bind_eq_some.mp hb
      obtain ⟨t', hw', hT, hc⟩ := wrValue_twin hR.1 hw
      refine ⟨t', ?_, hT, by rw [hc]; exact hR.2⟩
      simp only [Option.bind_eq_bind, ← hrd s t, hsrc, hv,
        hR.1.read (by rw [hR.2]; exact hj) ho, Option.some_bind]
      exact hw')
    a.dataCount 0 a b a' (by omega) ⟨ht, rfl⟩ h
  exact ⟨b', hb', hR, hc⟩

theorem wrList_twin {a0 b0 : List ℚ} {a b a' : FNodeOutput} (vs : List ℚ)
    (ht : Twin a0 b0 a b) (h : wrList vs a = some a') :
    ∃ b', wrList vs b = some b' ∧ Twin a0 b0 a' b' ∧ a'.dataCount = a.dataCount := by
  unfold wrList at h ⊢
  obtain ⟨b', hb', hR, hc⟩ := forLoop_rel
    (fun _ s t => Twin a0 b0 s t ∧ s.dataCount = a.dataCount) _
    (fun j c => do
      let v ← vs[j]?
      wrValue c j v) vs.length
    (fun j s t s' hj hR hb => by
      obtain ⟨v, hv, hw⟩ := Option.bind_eq_some.mp hb
      obtain ⟨t', hw', hT, hc⟩ := wrValue_twin hR.1 hw
      refine ⟨t', ?_, hT, by rw [hc]; exact hR.2⟩
      simp only [Option.bind_eq_bind, hv, Option.some_bind]
      exact hw')
    vs.length 0 a b a' (by omega) ⟨ht, rfl⟩ h
  exact ⟨b', hb', hR, hc⟩

theorem zeroFrom_getElem? (n : Nat) (o : FNodeOutput) (q : Nat) :
    (zeroFrom n o).data[q]? =
      if q < min n o.data.length then o.data[q]?
      else (List.replicate (MAX_VALUES - n) (0 : ℚ))[q - min n o.data.length]? := by
  unfold zeroFrom
  simp only
  by_cases hq : q < min n o.data.length
  · rw [if_pos hq, List.getElem?_append_left (by simp only [List.length_take]; exact hq),
      List.getElem?_take_of_lt (by omega)]
  · rw [if_neg hq, List.getElem?_append_right (by simp only [List.length_take]; omega),
      List.length_take]

theorem zeroFrom_agree {a b : FNodeOutput} (n q : Nat) (hlen : a.data.length = b.data.length)
    (h : a.data[q]? = b.data[q]? ∨ n ≤ q) :
    (zeroFrom n a).data[q]? = (zeroFrom n b).data[q]? := by
  rw [zeroFrom_getElem?, zeroFrom_getElem?, hlen]
  by_cases hq : q < min n b.data.length
  · rw [if_pos hq, if_pos hq]
    rcases h with h | h
    · exact h
    · omega
  · rw [if_neg hq, if_neg hq]

theorem zeroFrom_loose {a0 b0 : List ℚ} {a b : FNodeOutput} (n : Nat)
    (hl : Loose a0 b0 a b) : Loose a0 b0 (zeroFrom n a) (zeroFrom n b) := by
  refine ⟨by simp [zeroFrom, hl.1], fun q => ?_⟩
  rcases hl.2 q with h | h
  · exact Or.inl (zeroFrom_agree n q hl.1 (Or.inl h))
  · by_cases hq : q < min n b.data.length
    · right
      rw [zeroFrom_getElem?, zeroFrom_getElem?, hl.1, if_pos hq, if_pos hq]
      exact h
    · left
      rw [zeroFrom_getElem?, zeroFrom_getElem?, hl.1, if_neg hq, if_neg hq]

/-- The tail of two related outputs is zeroed from `n` on and `dataCount` is set to `n`. -/
theorem zeroFrom_twin {a0 b0 : List ℚ} {a b : FNodeOutput} (n : Nat)
    (hl : Loose a0 b0 a b) (hn : ∀ q : Nat, q < n → a.data[q]? = b.data[q]?) :
    Twin a0 b0 (wrCount (zeroFrom n a) n) (wrCount (zeroFrom n b) n) :=
  ⟨rfl, fun q hq => zeroFrom_agree n q hl.1 (Or.inl (hn q hq)), zeroFrom_loose n hl⟩

theorem wrList_loose {a0 b0 : List ℚ} {a b a' : FNodeOutput} (vs : List ℚ)
    (hl : Loose a0 b0 a b) (h : wrList vs a = some a') :
    ∃ b', wrList vs b = some b' ∧ Loose a0 b0 a' b' ∧ a'.dataCount = a.dataCount ∧
      b'.dataCount = b.dataCount ∧ ∀ q : Nat, q < vs.length → a'.data[q]? = b'.data[q]? := by
  unfold wrList at h ⊢
  obtain ⟨b', hb', hR, hca, hcb, hq⟩ := forLoop_rel
    (fun j s t => Loose a0 b0 s t ∧ s.dataCount = a.dataCount ∧ t.dataCount = b.dataCount ∧
      ∀ q : Nat, q < j → s.data[q]? = t.data[q]?) _
    (fun j c => do
      let v ← vs[j]?
      wrValue c j v) vs.length
    (fun j s t s' hj hR hb => by
      obtain ⟨v, hv, hw⟩ := Option.bind_eq_some.mp hb
      obtain ⟨t', hw', hL, hca, hcb, hext, _⟩ := wrValue_loose hR.1 hw
      refine ⟨t', ?_, hL, by rw [hca]; exact hR.2.1, by rw [hcb]; exact hR.2.2.1,
        hext hR.2.2.2⟩
      simp only [Option.bind_eq_bind, hv, Option.some_bind]
      exact hw')
    vs.length 0 a b a' (by omega) ⟨hl, rfl, rfl, fun q hq => by omega⟩ h
  exact ⟨b', hb', hR, hca, hcb, fun q hlt => hq q (by omega)⟩

theorem copyFirst_twin {a0 b0 : List ℚ} {a b a' : FNodeOutput} {ns ns' : List FNodeData}
    {k : Nat} {self : FNodeData} (hsr : SameReads ns ns' k self) (hl : Loose a0 b0 a b)
    (h : copyFirst ns k self a = some a') :
    ∃ b', copyFirst ns' k self b = some b' ∧ Twin a0 b0 a' b' := by
  unfold copyFirst at h ⊢
  obtain ⟨index, hidx, h⟩ := Option.bind_eq_some.mp h
  obtain ⟨src, hsrc, h⟩ := Option.bind_eq_some.mp h
  obtain ⟨hidx', hrd, _⟩ := hsr 0 index hidx
  obtain ⟨b', hb', hR, hca, hcb, hq⟩ := forLoop_rel
    (fun j s t => Loose a0 b0 s t ∧ s.dataCount = src.dataCount ∧
      t.dataCount = src.dataCount ∧ ∀ q : Nat, q < j → s.data[q]? = t.data[q]?) _
    (fun j c => do
      let s ← rdOutput ns' k c index
      let v ← s.data[j]?
      wrValue c j v) src.dataCount
    (fun j s t s' hj hR hb => by
      obtain ⟨s0, hs0, hb⟩ := Option.bind_eq_some.mp hb
      obtain ⟨v, hv, hw⟩ := Option.bind_eq_some.mp hb
      obtain ⟨t', hw', hL, hca, hcb, hext, _⟩ := wrValue_loose hR.1 hw
      refine ⟨t', ?_, hL, by rw [hca]; exact hR.2.1, by rw [hcb]; exact hR.2.2.1,
        hext hR.2.2.2⟩
      simp only [Option.bind_eq_bind, ← hrd s t, hs0, hv, Option.some_bind]
      exact hw')
    src.dataCount 0 (wrCount a src.dataCount) (wrCount b src.dataCount) a' (by omega)
    ⟨hl, rfl, rfl, fun q hq => by omega⟩ h
  refine ⟨b', ?_, by rw [hca, hcb], fun q hlt => hq q (by omega), hR⟩
  simp only [Option.bind_eq_bind, hidx', ← hrd a b, hsrc, Option.some_bind]
  exact hb'

theorem vec2Of_twin {a0 b0 : List ℚ} {a b : FNodeOutput} {v : Vector2}
    (ht : Twin a0 b0 a b) (hc : 2 ≤ a.dataCount) (h : vec2Of a = some v) :
    vec2Of b = some v := by
  unfold vec2Of at h ⊢
  rw [← ht.2.1 0 (by omega), ← ht.2.1 1 (by omega)]
  exact h

theorem vec3Of_twin {a0 b0 : List ℚ} {a b : FNodeOutput} {v : Vector3}
    (ht : Twin a0 b0 a b) (hc : 3 ≤ a.dataCount) (h : vec3Of a = some v) :
    vec3Of b = some v := by
  unfold vec3Of at h ⊢
  rw [← ht.2.1 0 (by omega), ← ht.2.1 1 (by omega), ← ht.2.1 2 (by omega)]
  exact h

theorem vec4Of_twin {a0 b0 : List ℚ} {a b : FNodeOutput} {v : Vector4}
    (ht : Twin a0 b0 a b) (hc : 4 ≤ a.dataCount) (h : vec4Of a = some v) :
    vec4Of b = some v := by
  unfold vec4Of at h ⊢
  rw [← ht.2.1 0 (by omega), ← ht.2.1 1 (by omega), ← ht.2.1 2 (by omega),
    ← ht.2.1 3 (by omega)]
  exact h

/-- Two cleared outputs are equal. -/
theorem clearOutput_twin (a0 b0 : List ℚ) (a b : FNodeOutput) :
    Twin a0 b0 (clearOutput a) (clearOutput b) :=
  twin_of_eq rfl rfl

/-- Two related outputs whose `dataCount` covers the array hold the same values. -/
theorem twin_data_eq {a0 b0 : List ℚ} {a b : FNodeOutput} (ht : Twin a0 b0 a b)
    (hc : a.data.length ≤ a.dataCount) : a.data = b.data := by
  apply List.ext_getElem?
  intro q
  by_cases hq : q < a.data.length
  · exact ht.2.1 q (by omega)
  · rw [List.getElem?_eq_none (by omega), List.getElem?_eq_none (by rw [← ht.2.2.1]; omega)]

theorem mulTransform_vec {a b s r : FNodeOutput} (h0 : a.data[0]? = b.data[0]?)
    (h1 : a.data[1]? = b.data[1]?) (h2 : a.data[2]? = b.data[2]?)
    (h : mulTransform a s = some r) : mulTransform b s = some r := by
  unfold mulTransform at h ⊢
  split at h
  · rename_i x y z rest _ _ _ _ _ _ _ _ _ _ _ _ _ hvec hmat
    rw [hvec] at h0 h1 h2
    rcases hb : b.data with _ | ⟨x', _ | ⟨y', _ | ⟨z', rest'⟩⟩⟩
    all_goals rw [hb] at h0 h1 h2
    all_goals simp at h0 h1 h2
    subst h0 h1 h2
    simp only [hmat]
    exact h
  · cases h

theorem mulStep_twin {a0 b0 : List ℚ} {a b a' : FNodeOutput} {ns ns' : List FNodeData}
    {k : Nat} {index : Int} {j : Nat}
    (hrd : ∀ c c', rdOutput ns k c index = rdOutput ns' k c' index)
    (ht : Twin a0 b0 a b) (hj : j < a.dataCount) (h : mulStep M ns k index j a = some a') :
    ∃ b', mulStep M ns' k index j b = some b' ∧ Twin a0 b0 a' b' := by
  unfold mulStep at h ⊢
  obtain ⟨s, hs, h⟩ := Option.bind_eq_some.mp h
  simp only [Option.bind_eq_bind, ← hrd a b, hs, Option.some_bind, ← ht.1]
  split at h
  · rename_i hc
    rw [if_pos hc]
    exact ⟨a', mulTransform_vec (ht.2.1 0 (by omega)) (ht.2.1 1 (by omega))
      (ht.2.1 2 (by omega)) h, twin_of_eq rfl rfl⟩
  · rename_i hc
    rw [if_neg hc]
    split at h
    · rename_i hc2
      rw [if_pos hc2]
      have hlen : a.data.length ≤ a.dataCount := by
        unfold mulTransform at h
        split at h
        · rename_i hmat
          have := congrArg List.length hmat
          simp only [List.length_drop, List.length_cons, List.length_nil] at this
          omega
        · cases h
      have e : mulTransform s b = mulTransform s a := by
        unfold mulTransform
        rw [twin_data_eq ht hlen]
      rw [e]
      exact ⟨a', h, twin_of_eq rfl rfl⟩
    · rename_i hc2
      rw [if_neg hc2]
      obtain ⟨v, hv, h⟩ := Option.bind_eq_some.mp h
      obtain ⟨o, ho, hw⟩ := Option.bind_eq_some.mp h
      obtain ⟨b', hw', hT, _⟩ := wrValue_twin ht hw
      refine ⟨b', ?_, hT⟩
      simp only [hv, ht.read hj ho, Option.some_bind]
      exact hw'

theorem mulLoop_twin {a0 b0 : List ℚ} {ns ns' : List FNodeData} {k : Nat} {index : Int}
    (hrd : ∀ c c', rdOutput ns k c index = rdOutput ns' k c' index) :
    ∀ (fuel j : Nat) (a b a' : FNodeOutput), Twin a0 b0 a b →
      mulLoop M ns k index fuel j a = some a' →
      ∃ b', mulLoop M ns' k index fuel j b = some b' ∧ Twin a0 b0 a' b' := by
  intro fuel
  induction fuel with
  | zero => intro j a b a' _ h; simp [mulLoop] at h
  | succ fuel ih =>
    intro j a b a' ht h
    unfold mulLoop at h ⊢
    rw [← ht.1]
    split at h
    · rename_i hj
      rw [if_pos hj]
      obtain ⟨c, hc, h⟩ := Option.bind_eq_some.mp h
      obtain ⟨d, hd, hT⟩ := mulStep_twin hrd ht hj hc
      obtain ⟨b', hb', hT'⟩ := ih (j + 1) c d a' hT h
      exact ⟨b', by rw [hd]; exact hb', hT'⟩
    · rename_i hj
      rw [if_neg hj]
      cases h
      exact ⟨b, rfl, ht⟩

theorem arithInput_twin {a0 b0 : List ℚ} {a b a' : FNodeOutput} {ns ns' : List FNodeData}
    {k : Nat} {type : FNodeType} {index : Int}
    (hrd : ∀ c c', rdOutput ns k c index = rdOutput ns' k c' index)
    (ht : Twin a0 b0 a b) (h : arithInput M ns k type index a = some a') :
    ∃ b', arithInput M ns' k type index b = some b' ∧ Twin a0 b0 a' b' := by
  unfold arithInput at h ⊢
  split at h
  · obtain ⟨b', hb', hT, _⟩ := zipValues_twin _ hrd ht h
    exact ⟨b', hb', hT⟩
  · obtain ⟨b', hb', hT, _⟩ := zipValues_twin _ hrd ht h
    exact ⟨b', hb', hT⟩
  · obtain ⟨s, hs, h⟩ := Option.bind_eq_some.mp h
    simp only [Option.bind_eq_bind, ← hrd a b, hs, Option.some_bind]
    split at h
    · rename_i hc
      rw [if_pos hc]
      obtain ⟨b', hb', hT, _⟩ := scalarValues_twin _ hrd ht h
      exact ⟨b', hb', hT⟩
    · rename_i hc
      rw [if_neg hc]
      exact mulLoop_twin hrd _ _ _ _ _ ht h
  · obtain ⟨s, hs, h⟩ := Option.bind_eq_some.mp h
    simp only [Option.bind_eq_bind, ← hrd a b, hs, Option.some_bind]
    split at h
    · rename_i hc
      rw [if_pos hc]
      obtain ⟨b', hb', hT, _⟩ := scalarValues_twin _ hrd ht h
      exact ⟨b', hb', hT⟩
    · rename_i hc
      rw [if_neg hc]
      obtain ⟨b', hb', hT, _⟩ := zipValues_twin _ hrd ht h
      exact ⟨b', hb', hT⟩
  · cases h
    exact ⟨b, rfl, ht⟩

theorem calcArith_twin {a0 b0 : List ℚ} {a b a' : FNodeOutput} {ns ns' : List FNodeData}
    {k : Nat} {self : FNodeData} (hsr : SameReads ns ns' k self) (hl : Loose a0 b0 a b)
    (h : calcArith M ns k self a = some a') :
    ∃ b', calcArith M ns' k self b = some b' ∧ Twin a0 b0 a' b' := by
  unfold calcArith at h ⊢
  split at h
  · rename_i hc
    rw [if_pos hc]
    obtain ⟨c, hc1, h⟩ := Option.bind_eq_some.mp h
    obtain ⟨d, hd, hT⟩ := copyFirst_twin hsr hl hc1
    obtain ⟨b', hb', hR⟩ := forLoop_rel (fun _ s t => Twin a0 b0 s t) _
      (fun q c => do
        let inputIndex ← inputIndexOf ns' self q
        arithInput M ns' k self.type inputIndex c) (1 + (self.inputsCount - 1))
      (fun j s t s' _ hR hb => by
        obtain ⟨idx, hidx, hb⟩ := Option.bind_eq_some.mp hb
        obtain ⟨hidx', hrd, _⟩ := hsr j idx hidx
        obtain ⟨t', ht', hT'⟩ := arithInput_twin hrd hR hb
        refine ⟨t', ?_, hT'⟩
        simp only [Option.bind_eq_bind, hidx', Option.some_bind]
        exact ht')
      (self.inputsCount - 1) 1 c d a' (by omega) hT h
    refine ⟨b', ?_, hR⟩
    simp only [Option.bind_eq_bind, hd, Option.some_bind]
    exact hb'
  · rename_i hc
    rw [if_neg hc]
    cases h
    exact ⟨_, rfl, clearOutput_twin a0 b0 a b⟩

theorem appendInput_twin {a0 b0 : List ℚ} {ns ns' : List FNodeData} {k : Nat}
    {self : FNodeData} (hsr : SameReads ns ns' k self) (p : Nat)
    (s t s' : FNodeOutput × Nat)
    (hR : s.2 = t.2 ∧ Loose a0 b0 s.1 t.1 ∧ ∀ q : Nat, q < s.2 → s.1.data[q]? = t.1.data[q]?)
    (h : appendInput ns k self p s = some s') :
    ∃ t', appendInput ns' k self p t = some t' ∧ s'.2 = t'.2 ∧ Loose a0 b0 s'.1 t'.1 ∧
      ∀ q : Nat, q < s'.2 → s'.1.data[q]? = t'.1.data[q]? := by
  unfold appendInput at h ⊢
  obtain ⟨idx, hidx, h⟩ := Option.bind_eq_some.mp h
  obtain ⟨src, hsrc, h⟩ := Option.bind_eq_some.mp h
  obtain ⟨hidx', hrd, _⟩ := hsr p idx hidx
  simp only [Option.bind_eq_bind, hidx', ← hrd s.1 t.1, hsrc, Option.some_bind]
  exact forLoop_rel
    (fun _ (s t : FNodeOutput × Nat) => s.2 = t.2 ∧ Loose a0 b0 s.1 t.1 ∧
      ∀ q : Nat, q < s.2 → s.1.data[q]? = t.1.data[q]?) _ _ src.dataCount
    (fun j s t s' _ hR hb => by
      obtain ⟨s0, hs0, hb⟩ := Option.bind_eq_some.mp hb
      obtain ⟨v, hv, hb⟩ := Option.bind_eq_some.mp hb
      obtain ⟨c, hw, hb⟩ := Option.bind_eq_some.mp hb
      cases hb
      obtain ⟨d, hw', hL, _, _, hext, _⟩ := wrValue_loose hR.2.1 hw
      refine ⟨(d, t.2 + 1), ?_, by simp only [hR.1], hL, hext hR.2.2⟩
      simp only [← hrd s.1 t.1, hs0, hv, ← hR.1, hw', Option.some_bind])
    src.dataCount 0 s t s' (by omega) hR h

theorem calcAppend_twin {a0 b0 : List ℚ} {a b a' : FNodeOutput} {ns ns' : List FNodeData}
    {k : Nat} {self : FNodeData} (hsr : SameReads ns ns' k self) (hl : Loose a0 b0 a b)
    (h : calcAppend ns k self a = some a') :
    ∃ b', calcAppend ns' k self b = some b' ∧ Twin a0 b0 a' b' := by
  unfold calcAppend at h ⊢
  split at h
  · rename_i hc
    rw [if_pos hc]
    obtain ⟨st, hst, h⟩ := Option.bind_eq_some.mp h
    cases h
    obtain ⟨st', hst', hR⟩ := forLoop_rel
      (fun _ (s t : FNodeOutput × Nat) => s.2 = t.2 ∧ Loose a0 b0 s.1 t.1 ∧
        ∀ q : Nat, q < s.2 → s.1.data[q]? = t.1.data[q]?) _ (appendInput ns' k self)
      self.inputsCount
      (fun j s t s' _ hR hb => appendInput_twin hsr j s t s' hR hb)
      self.inputsCount 0 (a, 0) (b, 0) st (by omega)
      ⟨rfl, hl, fun q hq => by simp only at hq; omega⟩ hst
    refine ⟨wrCount st'.1 st'.2, ?_, hR.1, hR.2.2, hR.2.1⟩
    simp only [Option.bind_eq_bind, hst', Option.some_bind]
  · rename_i hc
    rw [if_neg hc]
    cases h
    exact ⟨_, rfl, clearOutput_twin a0 b0 a b⟩

theorem calcScalarSecond_twin {a0 b0 : List ℚ} {a b a' : FNodeOutput}
    {ns ns' : List FNodeData} {k : Nat} {self : FNodeData} (f : ℚ → ℚ → ℚ)
    (hsr : SameReads ns ns' k self) (ht : Twin a0 b0 a b)
    (h : calcScalarSecond ns k f self a = some a') :
    ∃ b', calcScalarSecond ns' k f self b = some b' ∧ Twin a0 b0 a' b' := by
  unfold calcScalarSecond at h ⊢
  split at h
  · rename_i hc
    rw [if_pos hc]
    obtain ⟨idx, hidx, h⟩ := Option.bind_eq_some.mp h
    obtain ⟨e, he, h⟩ := Option.bind_eq_some.mp h
    obtain ⟨hidx', hrd, _⟩ := hsr 1 idx hidx
    simp only [Option.bind_eq_bind, hidx', ← hrd a b, he, Option.some_bind]
    split at h
    · rename_i he1
      rw [if_pos he1]
      obtain ⟨b', hb', hT, _⟩ := scalarValues_twin _ hrd ht h
      exact ⟨b', hb', hT⟩
    · rename_i he1
      rw [if_neg he1]
      cases h
      exact ⟨b, rfl, ht⟩
  · rename_i hc
    rw [if_neg hc]
    cases h
    exact ⟨_, rfl, clearOutput_twin a0 b0 a b⟩

/-- The case `FNODE_STEP` reads `data[0]` of the node itself, which the copy of the first
input has written only when that input has a value. -/
theorem calcStep_twin {a0 b0 : List ℚ} {a b a' : FNodeOutput}
    {ns ns' : List FNodeData} {k : Nat} {self : FNodeData}
    (hsr : SameReads ns ns' k self) (ht : Twin a0 b0 a b)
    (hw : self.inputsCount = 2 → 1 ≤ a'.dataCount)
    (h : calcStep ns k self a = some a') :
    ∃ b', calcStep ns' k self b = some b' ∧ Twin a0 b0 a' b' := by
  unfold calcStep at h ⊢
  split at h
  · rename_i hc
    rw [if_pos hc]
    obtain ⟨idx, hidx, h⟩ := Option.bind_eq_some.mp h
    obtain ⟨e, he, h⟩ := Option.bind_eq_some.mp h
    obtain ⟨hidx', hrd, _⟩ := hsr 1 idx hidx
    simp only [Option.bind_eq_bind, hidx', ← hrd a b, he, Option.some_bind]
    split at h
    · rename_i he1
      rw [if_pos he1]
      obtain ⟨o, ho, h⟩ := Option.bind_eq_some.mp h
      obtain ⟨v, hv, h⟩ := Option.bind_eq_some.mp h
      obtain ⟨b', hb', hT, hcount⟩ := wrValue_twin ht h
      refine ⟨b', ?_, hT⟩
      have hpos : 0 < a.dataCount := by
        have := hw hc
        omega
      simp only [ht.read hpos ho, hv, Option.some_bind]
      exact hb'
    · rename_i he1
      rw [if_neg he1]
      cases h
      exact ⟨b, rfl, ht⟩
  · rename_i hc
    rw [if_neg hc]
    cases h
    exact ⟨_, rfl, clearOutput_twin a0 b0 a b⟩

theorem calcMaxMin_twin {a0 b0 : List ℚ} {a b a' : FNodeOutput}
    {ns ns' : List FNodeData} {k : Nat} {self : FNodeData}
    (hsr : SameReads ns ns' k self) (ht : Twin a0 b0 a b)
    (h : calcMaxMin ns k self a = some a') :
    ∃ b', calcMaxMin ns' k self b = some b' ∧ Twin a0 b0 a' b' := by
  unfold calcMaxMin at h ⊢
  exact forLoop_rel (fun _ s t => Twin a0 b0 s t) _ _ (1 + (self.inputsCount - 1))
    (fun j s t s' _ hR hb => by
      obtain ⟨idx, hidx, hb⟩ := Option.bind_eq_some.mp hb
      obtain ⟨hidx', hrd, _⟩ := hsr j idx hidx
      obtain ⟨t', ht', hT', _⟩ := zipValues_twin _ hrd hR hb
      refine ⟨t', ?_, hT'⟩
      simp only [Option.bind_eq_bind, hidx', Option.some_bind]
      exact ht')
    (self.inputsCount - 1) 1 a b a' (by omega) ht h

theorem calcTernary_twin {a0 b0 : List ℚ} {a b a' : FNodeOutput}
    {ns ns' : List FNodeData} {k : Nat} {self : FNodeData} (f : ℚ → ℚ → ℚ → ℚ)
    (hsr : SameReads ns ns' k self) (ht : Twin a0 b0 a b)
    (h : calcTernary ns k f self a = some a') :
    ∃ b', calcTernary ns' k f self b = some b' ∧ Twin a0 b0 a' b' := by
  unfold calcTernary at h ⊢
  split at h
  · rename_i hc
    rw [if_pos hc]
    obtain ⟨iA, hiA, h⟩ := Option.bind_eq_some.mp h
    obtain ⟨iB, hiB, h⟩ := Option.bind_eq_some.mp h
    obtain ⟨iC, hiC, h⟩ := Option.bind_eq_some.mp h
    obtain ⟨hiA', hrdA, _⟩ := hsr 0 iA hiA
    obtain ⟨hiB', hrdB, _⟩ := hsr 1 iB hiB
    obtain ⟨hiC', hrdC, _⟩ := hsr 2 iC hiC
    simp only [Option.bind_eq_bind, hiA', hiB', hiC', Option.some_bind, ← ht.1]
    obtain ⟨b', hb', hR⟩ := forLoop_rel (fun _ s t => Twin a0 b0 s t)
      (fun j c => do
        let a ← (← rdOutput ns k c iA).data[j]?
        let b ← (← rdOutput ns k c iB).data[j]?
        let t ← (← rdOutput ns k c iC).data[j]?
        wrValue c j (f a b t))
      (fun j c => do
        let a ← (← rdOutput ns' k c iA).data[j]?
        let b ← (← rdOutput ns' k c iB).data[j]?
        let t ← (← rdOutput ns' k c iC).data[j]?
        wrValue c j (f a b t)) a.dataCount
      (fun j s t s' _ hR hb => by
        simp only [Option.bind_eq_bind, Option.bind_eq_some] at hb
        obtain ⟨sA, hsA, va, hva, sB, hsB, vb, hvb, sC, hsC, vc, hvc, hw⟩ := hb
        obtain ⟨t', ht', hT', _⟩ := wrValue_twin hR hw
        refine ⟨t', ?_, hT'⟩
        simp only [Option.bind_eq_bind, ← hrdA s t, ← hrdB s t, ← hrdC s t, hsA, hva, hsB,
          hvb, hsC, hvc, Option.some_bind]
        exact ht')
      a.dataCount 0 a b a' (by omega) ht h
    exact ⟨b', hb', hR⟩
  · rename_i hc
    rw [if_neg hc]
    cases h
    exact ⟨_, rfl, clearOutput_twin a0 b0 a b⟩

theorem calcCross_twin {a0 b0 : List ℚ} {a b a' : FNodeOutput}
    {ns ns' : List FNodeData} {k : Nat} {self : FNodeData}
    (hsr : SameReads ns ns' k self) (ht : Twin a0 b0 a b)
    (h : calcCross ns k self a = some a') :
    ∃ b', calcCross ns' k self b = some b' ∧ Twin a0 b0 a' b' := by
  unfold calcCross at h ⊢
  split at h
  · rename_i hc
    rw [if_pos hc]
    have e : zeroData b = zeroData a := by
      unfold zeroData
      rw [ht.1]
    simp only [Option.bind_eq_bind, Option.bind_eq_some] at h
    obtain ⟨iA, hiA, iB, hiB, sA, hsA, vA, hvA, sB, hsB, vB, hvB, hw⟩ := h
    obtain ⟨hiA', hrdA, _⟩ := hsr 0 iA hiA
    obtain ⟨hiB', hrdB, _⟩ := hsr 1 iB hiB
    refine ⟨a', ?_, twin_of_eq rfl rfl⟩
    simp only [Option.bind_eq_bind, hiA', hiB', e, ← hrdA (zeroData a) (zeroData a),
      ← hrdB (zeroData a) (zeroData a), hsA, hvA, hsB, hvB, Option.some_bind]
    exact hw
  · rename_i hc
    rw [if_neg hc]
    cases h
    exact ⟨_, rfl, clearOutput_twin a0 b0 a b⟩

theorem calcDesaturate_twin {a0 b0 : List ℚ} {a b a' : FNodeOutput}
    {ns ns' : List FNodeData} {k : Nat} {self : FNodeData}
    (hsr : SameReads ns ns' k self) (ht : Twin a0 b0 a b)
    (h : calcDesaturate ns k self a = some a') :
    ∃ b', calcDesaturate ns' k self b = some b' ∧ TwinEnd a0 b0 a' b' := by
  unfold calcDesaturate at h ⊢
  split at h
  · rename_i hc
    rw [if_pos hc]
    simp only [Option.bind_eq_bind, Option.bind_eq_some] at h
    obtain ⟨i0, hi0, i1, hi1, c, hloop, s0, hs0, s1, hs1, v, hv, d0, hd0, d1, hd1, d2, hd2,
      hw⟩ := h
    obtain ⟨hi0', hrd0, _⟩ := hsr 0 i0 hi0
    obtain ⟨hi1', hrd1, _⟩ := hsr 1 i1 hi1
    obtain ⟨d, hd, hL, hall⟩ := forLoop_rel
      (fun j s t => Loose a0 b0 s t ∧ ∀ q : Nat, q < j → s.data[q]? = t.data[q]?) _
      (fun j c => do
        let v ← (← rdOutput ns' k c i0).data[j]?
        wrValue c j v) MAX_VALUES
      (fun j s t s' _ hR hb => by
        simp only [Option.bind_eq_bind, Option.bind_eq_some] at hb
        obtain ⟨s0, hs0, v, hv, hw⟩ := hb
        obtain ⟨t', hw', hL, _, _, hext, _⟩ := wrValue_loose hR.1 hw
        refine ⟨t', ?_, hL, hext hR.2⟩
        simp only [Option.bind_eq_bind, ← hrd0 s t, hs0, hv, Option.some_bind]
        exact hw')
      MAX_VALUES 0 a b c (by omega) ⟨ht.2.2, fun q hq => by omega⟩ hloop
    have hL1 : Loose a0 b0 (wrCount c s0.dataCount) (wrCount d s0.dataCount) := hL
    obtain ⟨b', hb', hL', hca, hcb, _⟩ := wrList_loose _ hL1 hw
    have e0 : (wrCount d s0.dataCount).data[0]? = some d0 := by
      rw [← hd0]; exact (hall 0 (by simp [MAX_VALUES])).symm
    have e1 : (wrCount d s0.dataCount).data[1]? = some d1 := by
      rw [← hd1]; exact (hall 1 (by simp [MAX_VALUES])).symm
    have e2 : (wrCount d s0.dataCount).data[2]? = some d2 := by
      rw [← hd2]; exact (hall 2 (by simp [MAX_VALUES])).symm
    simp only [Option.bind_eq_bind] at hd
    refine ⟨b', ?_, by rw [hca, hcb]; rfl, hL'⟩
    simp only [Option.bind_eq_bind, hi0', hi1', hd, ← hrd0 c d,
      ← hrd1 (wrCount c s0.dataCount) (wrCount d s0.dataCount), hs0, hs1, hv, e0, e1, e2,
      Option.some_bind]
    exact hb'
  · rename_i hc
    rw [if_neg hc]
    cases h
    exact ⟨_, rfl, (clearOutput_twin a0 b0 a b).toEnd⟩

/-- The end of the cases that leave one value: the tail is zeroed and `dataCount = 1`. -/
theorem single_twinEnd {a0 b0 : List ℚ} {c d : FNodeOutput} (hl : Loose a0 b0 c d) :
    TwinEnd a0 b0 (wrCount (zeroFrom 1 c) 1) (wrCount (zeroFrom 1 d) 1) :=
  ⟨rfl, zeroFrom_loose 1 hl⟩

theorem calcLength_twin {a0 b0 : List ℚ} {a b a' : FNodeOutput} (M : Libm)
    (ht : Twin a0 b0 a b) (h : calcLength M a = some a') :
    ∃ b', calcLength M b = some b' ∧ TwinEnd a0 b0 a' b' := by
  unfold calcLength at h ⊢
  rw [← ht.1]
  split at h
  · rename_i hc
    simp only [Option.bind_eq_bind, Option.bind_eq_some, Option.some.injEq] at h
    obtain ⟨v, hv, c, hw, rfl⟩ := h
    obtain ⟨d, hd, hT, _⟩ := wrValue_twin ht hw
    refine ⟨_, ?_, single_twinEnd hT.loose⟩
    simp only [Option.bind_eq_bind, vec2Of_twin ht (by omega) hv, hd, Option.some_bind]
  · rename_i hc
    simp only [Option.bind_eq_bind, Option.bind_eq_some, Option.some.injEq] at h
    obtain ⟨v, hv, c, hw, rfl⟩ := h
    obtain ⟨d, hd, hT, _⟩ := wrValue_twin ht hw
    refine ⟨_, ?_, single_twinEnd hT.loose⟩
    simp only [Option.bind_eq_bind, vec3Of_twin ht (by omega) hv, hd, Option.some_bind]
  · rename_i hc
    simp only [Option.bind_eq_bind, Option.bind_eq_some, Option.some.injEq] at h
    obtain ⟨v, hv, c, hw, rfl⟩ := h
    obtain ⟨d, hd, hT, _⟩ := wrValue_twin ht hw
    refine ⟨_, ?_, single_twinEnd hT.loose⟩
    simp only [Option.bind_eq_bind, vec4Of_twin ht (by omega) hv, hd, Option.some_bind]
  · simp only [Option.bind_eq_bind, Option.some_bind, Option.some.injEq] at h
    subst h
    exact ⟨_, rfl, single_twinEnd ht.loose⟩

theorem calcDot_twin {a0 b0 : List ℚ} {a b a' : FNodeOutput}
    {ns ns' : List FNodeData} {k : Nat} {self : FNodeData}
    (hsr : SameReads ns ns' k self) (ht : Twin a0 b0 a b)
    (h : calcDot ns k self a = some a') :
    ∃ b', calcDot ns' k self b = some b' ∧ TwinEnd a0 b0 a' b' := by
  unfold calcDot at h ⊢
  split at h
  · rename_i hc
    rw [if_pos hc]
    obtain ⟨iA, hiA, h⟩ := Option.bind_eq_some.mp h
    obtain ⟨iB, hiB, h⟩ := Option.bind_eq_some.mp h
    obtain ⟨hiA', hrdA, _⟩ := hsr 0 iA hiA
    obtain ⟨hiB', hrdB, _⟩ := hsr 1 iB hiB
    simp only [Option.bind_eq_bind, hiA', hiB', Option.some_bind, ← ht.1]
    split at h
    case h_4 =>
      simp only [Option.bind_eq_bind, Option.some_bind, Option.some.injEq] at h
      subst h
      exact ⟨_, rfl, single_twinEnd ht.loose⟩
    all_goals
      simp only [Option.bind_eq_bind, Option.bind_eq_some, Option.some.injEq] at h
      obtain ⟨sA, hsA, vA, hvA, sB, hsB, vB, hvB, c, hw, rfl⟩ := h
      obtain ⟨d, hd, hT, _⟩ := wrValue_twin ht hw
      refine ⟨_, ?_, single_twinEnd hT.loose⟩
      simp only [Option.bind_eq_bind, ← hrdA a b, ← hrdB a b, hsA, hvA, hsB, hvB, hd,
        Option.some_bind]
  · rename_i hc
    rw [if_neg hc]
    cases h
    exact ⟨_, rfl, (clearOutput_twin a0 b0 a b).toEnd⟩

theorem calcDistance_twin {a0 b0 : List ℚ} {a b a' : FNodeOutput} (M : Libm)
    {ns ns' : List FNodeData} {k : Nat} {self : FNodeData}
    (hsr : SameReads ns ns' k self) (ht : Twin a0 b0 a b)
    (h : calcDistance M ns k self a = some a') :
    ∃ b', calcDistance M ns' k self b = some b' ∧ TwinEnd a0 b0 a' b' := by
  unfold calcDistance at h ⊢
  split at h
  · rename_i hc
    rw [if_pos hc]
    obtain ⟨iA, hiA, h⟩ := Option.bind_eq_some.mp h
    obtain ⟨iB, hiB, h⟩ := Option.bind_eq_some.mp h
    obtain ⟨hiA', hrdA, _⟩ := hsr 0 iA hiA
    obtain ⟨hiB', hrdB, _⟩ := hsr 1 iB hiB
    simp only [Option.bind_eq_bind, hiA', hiB', Option.some_bind, ← ht.1]
    split at h
    case h_5 =>
      simp only [Option.bind_eq_bind, Option.some_bind, Option.some.injEq] at h
      subst h
      exact ⟨_, rfl, single_twinEnd ht.loose⟩
    all_goals
      simp only [Option.bind_eq_bind, Option.bind_eq_some, Option.some.injEq] at h
      obtain ⟨sB, hsB, vB, hvB, sA, hsA, vA, hvA, c, hw, rfl⟩ := h
      obtain ⟨d, hd, hT, _⟩ := wrValue_twin ht hw
      refine ⟨_, ?_, single_twinEnd hT.loose⟩
      simp only [Option.bind_eq_bind, ← hrdA a b, ← hrdB a b, hsA, hvA, hsB, hvB, hd,
        Option.some_bind]
  · rename_i hc
    rw [if_neg hc]
    cases h
    exact ⟨_, rfl, (clearOutput_twin a0 b0 a b).toEnd⟩

theorem calcNormalize_twin {a0 b0 : List ℚ} {a b a' : FNodeOutput} (M : Libm)
    (ht : Twin a0 b0 a b) (h : calcNormalize M a = some a') :
    ∃ b', calcNormalize M b = some b' ∧ Twin a0 b0 a' b' := by
  unfold calcNormalize at h ⊢
  rw [← ht.1]
  split at h
  · obtain ⟨v, hv, h⟩ := Option.bind_eq_some.mp h
    obtain ⟨b', hb', hT, _⟩ := wrList_twin _ ht h
    refine ⟨b', ?_, hT⟩
    simp only [Option.bind_eq_bind, vec2Of_twin ht (by omega) hv, Option.some_bind]
    exact hb'
  · obtain ⟨v, hv, h⟩ := Option.bind_eq_some.mp h
    obtain ⟨b', hb', hT, _⟩ := wrList_twin _ ht h
    refine ⟨b', ?_, hT⟩
    simp only [Option.bind_eq_bind, vec3Of_twin ht (by omega) hv, Option.some_bind]
    exact hb'
  · obtain ⟨v, hv, h⟩ := Option.bind_eq_some.mp h
    obtain ⟨b', hb', hT, _⟩ := wrList_twin _ ht h
    refine ⟨b', ?_, hT⟩
    simp only [Option.bind_eq_bind, vec4Of_twin ht (by omega) hv, Option.some_bind]
    exact hb'
  · cases h
    exact ⟨b, rfl, ht⟩

theorem matrixOf_length {o : FNodeOutput} {m : Matrix} (h : matrixOf o = some m) :
    o.data.length = 16 := by
  unfold matrixOf at h
  split at h
  · rename_i heq
    rw [heq]
    rfl
  · cases h

/-- Writing the values that an output already holds leaves it as it is. -/
theorem wrList_self (o : FNodeOutput) : wrList o.data o = some o := by
  unfold wrList
  obtain ⟨r, hr, hc, hl, hin, hout⟩ := forLoop_pointwise
    (fun k c => do
      let v ← o.data[k]?
      wrValue c k v) (fun j _ => o.data.getD j 0) o.data.length
    (fun j c hj _ => by
      simp only [Option.bind_eq_bind, getElem?_eq_some_getD o.data j hj, Option.some_bind])
    o.data.length 0 o (by omega) (by omega)
  rw [hr]
  have hd : r.data = o.data := by
    apply List.ext_getElem?
    intro j
    by_cases hj : j < o.data.length
    · rw [hin j (by omega) (by omega), getElem?_eq_some_getD o.data j hj]
    · rw [hout j (by omega)]
  cases r
  cases o
  simp only at hc hd
  rw [hc, hd]

theorem matrixOf_list (x0 x1 x2 x3 x4 x5 x6 x7 x8 x9 x10 x11 x12 x13 x14 x15 : ℚ) (c : Nat) :
    matrixOf ⟨[x0, x1, x2, x3, x4, x5, x6, x7, x8, x9, x10, x11, x12, x13, x14, x15], c⟩ =
      some ⟨x0, x1, x2, x3, x4, x5, x6, x7, x8, x9, x10, x11, x12, x13, x14, x15⟩ := by
  simp only [matrixOf]

/-- The initialiser of `matrixOf` fills the fields in the order of their declaration, so
the transposed matrix holds the values in the order `m0, m1, ..., m15`. -/
theorem transpose_list (x0 x1 x2 x3 x4 x5 x6 x7 x8 x9 x10 x11 x12 x13 x14 x15 : ℚ) :
    FMatrixTranspose ⟨x0, x1, x2, x3, x4, x5, x6, x7, x8, x9, x10, x11, x12, x13, x14, x15⟩ =
      ⟨x0, x4, x8, x12, x1, x5, x9, x13, x2, x6, x10, x14, x3, x7, x11, x15⟩ := rfl

theorem wrMatrix_list (x0 x1 x2 x3 x4 x5 x6 x7 x8 x9 x10 x11 x12 x13 x14 x15 : ℚ)
    (o : FNodeOutput) :
    wrMatrix ⟨x0, x4, x8, x12, x1, x5, x9, x13, x2, x6, x10, x14, x3, x7, x11, x15⟩ o =
      wrList [x0, x1, x2, x3, x4, x5, x6, x7, x8, x9, x10, x11, x12, x13, x14, x15] o := rfl

/-- The case `FNODE_TRANSPOSE` writes back the values it has read: the matrix is
initialised in the order of the fields of `Matrix`, transposed, and written in the order
`m0, m1, ..., m15`. -/
theorem calcTranspose_same {o : FNodeOutput} (h : o.data.length = 16) :
    calcTranspose o = some o := by
  obtain ⟨data, count⟩ := o
  obtain ⟨x0, x1, x2, x3, x4, x5, x6, x7, x8, x9, x10, x11, x12, x13, x14, x15, rfl⟩ :=
    list_length_16 data h
  unfold calcTranspose
  rw [matrixOf_list]
  rw [Option.bind_eq_bind, Option.some_bind, transpose_list, wrMatrix_list]
  exact wrList_self
    ⟨[x0, x1, x2, x3, x4, x5, x6, x7, x8, x9, x10, x11, x12, x13, x14, x15], count⟩

theorem calcTranspose_twin {a0 b0 : List ℚ} {a b a' : FNodeOutput}
    (ht : Twin a0 b0 a b) (h : calcTranspose a = some a') :
    ∃ b', calcTranspose b = some b' ∧ Twin a0 b0 a' b' := by
  have hlen : a.data.length = 16 := by
    unfold calcTranspose at h
    obtain ⟨m, hm, _⟩ := Option.bind_eq_some.mp h
    exact matrixOf_length hm
  rw [calcTranspose_same hlen] at h
  cases h
  exact ⟨b, calcTranspose_same (by rw [← ht.2.2.1]; exact hlen), ht⟩

/-- The case `FNODE_MULTIPLYMATRIX` reads all sixteen values of the node itself, which the
copy of the first input has written only when that input is a matrix. -/
theorem calcMultiplyMatrix_twin {a0 b0 : List ℚ} {a b a' : FNodeOutput}
    {ns ns' : List FNodeData} {k : Nat} {self : FNodeData}
    (hsr : SameReads ns ns' k self) (ht : Twin a0 b0 a b)
    (hw : self.inputsCount = 2 → a'.dataCount = 16)
    (h : calcMultiplyMatrix ns k self a = some a') :
    ∃ b', calcMultiplyMatrix ns' k self b = some b' ∧ Twin a0 b0 a' b' := by
  unfold calcMultiplyMatrix at h ⊢
  split at h
  · rename_i hc
    rw [if_pos hc]
    simp only [Option.bind_eq_bind, Option.bind_eq_some] at h
    obtain ⟨idx, hidx, mA, hmA, s, hs, mB, hmB, hwr⟩ := h
    obtain ⟨hidx', hrd, _⟩ := hsr 1 idx hidx
    obtain ⟨b', hb', hT, hcount⟩ := wrList_twin _ ht hwr
    have hdata : a.data = b.data :=
      twin_data_eq ht (by rw [matrixOf_length hmA, ← hcount, hw hc])
    have hmB' : matrixOf b = some mA := by
      unfold matrixOf at hmA ⊢
      rw [← hdata]
      exact hmA
    refine ⟨b', ?_, hT⟩
    simp only [Option.bind_eq_bind, hidx', hmB', ← hrd a b, hs, hmB, Option.some_bind]
    exact hb'
  · rename_i hc
    rw [if_neg hc]
    cases h
    exact ⟨b, rfl, ht⟩

theorem calcBinaryVector_twin {a0 b0 : List ℚ} {a b a' : FNodeOutput}
    {ns ns' : List FNodeData} {k : Nat} {iA iB : Int}
    (f2 : Vector2 → Vector2 → Vector2) (f3 : Vector3 → Vector3 → Vector3)
    (f4 : Vector4 → Vector4 → Vector4)
    (hrdA : ∀ c c', rdOutput ns k c iA = rdOutput ns' k c' iA)
    (hrdB : ∀ c c', rdOutput ns k c iB = rdOutput ns' k c' iB)
    (ht : Twin a0 b0 a b) (h : calcBinaryVector f2 f3 f4 ns k iA iB a = some a') :
    ∃ b', calcBinaryVector f2 f3 f4 ns' k iA iB b = some b' ∧ Twin a0 b0 a' b' := by
  unfold calcBinaryVector at h ⊢
  rw [← ht.1]
  split at h
  case h_4 =>
    cases h
    exact ⟨b, rfl, ht⟩
  all_goals
    simp only [Option.bind_eq_bind, Option.bind_eq_some, Option.some.injEq] at h
    obtain ⟨sA, hsA, vA, hvA, sB, hsB, vB, hvB, c, hw, rfl⟩ := h
    obtain ⟨d, hd, hL, _, _, hq⟩ := wrList_loose _ ht.loose hw
    refine ⟨_, ?_, zeroFrom_twin _ hL hq⟩
    simp only [Option.bind_eq_bind, ← hrdA a b, ← hrdB a b, hsA, hvA, hsB, hvB, hd,
      Option.some_bind]

theorem calcProjection_twin {a0 b0 : List ℚ} {a b a' : FNodeOutput}
    {ns ns' : List FNodeData} {k : Nat} {self : FNodeData}
    (hsr : SameReads ns ns' k self) (ht : Twin a0 b0 a b)
    (h : calcProjection ns k self a = some a') :
    ∃ b', calcProjection ns' k self b = some b' ∧ Twin a0 b0 a' b' := by
  unfold calcProjection at h ⊢
  split at h
  · rename_i hc
    rw [if_pos hc]
    obtain ⟨iA, hiA, h⟩ := Option.bind_eq_some.mp h
    obtain ⟨iB, hiB, h⟩ := Option.bind_eq_some.mp h
    obtain ⟨hiA', hrdA, _⟩ := hsr 0 iA hiA
    obtain ⟨hiB', hrdB, _⟩ := hsr 1 iB hiB
    simp only [Option.bind_eq_bind, hiA', hiB', Option.some_bind]
    split at h
    · rename_i hp
      rw [if_pos hp]
      exact calcBinaryVector_twin _ _ _ hrdA hrdB ht h
    · rename_i hp
      rw [if_neg hp]
      exact calcBinaryVector_twin _ _ _ hrdA hrdB ht h
  · rename_i hc
    rw [if_neg hc]
    cases h
    exact ⟨_, rfl, clearOutput_twin a0 b0 a b⟩

theorem zeroData_twin {a0 b0 : List ℚ} {a b : FNodeOutput} (ht : Twin a0 b0 a b) :
    Twin a0 b0 (zeroData a) (zeroData b) :=
  twin_of_eq ht.1 rfl

theorem halfDirection_finish {a0 b0 : List ℚ} {a b r : FNodeOutput}
    {ns ns' : List FNodeData} {k : Nat} {iA iB : Int}
    (f2 : Vector2 → Vector2 → Vector2) (f3 : Vector3 → Vector3 → Vector3)
    (f4 : Vector4 → Vector4 → Vector4)
    (hrdA : ∀ c c', rdOutput ns k c iA = rdOutput ns' k c' iA)
    (hrdB : ∀ c c', rdOutput ns k c iB = rdOutput ns' k c' iB)
    (ht : Twin a0 b0 a b) (check : Bool)
    (h : (if check = true then calcBinaryVector f2 f3 f4 ns k iA iB a
      else some (zeroData a)) = some r) :
    ∃ b', (if check = true then calcBinaryVector f2 f3 f4 ns' k iA iB b
      else some (zeroData b)) = some b' ∧ Twin a0 b0 r b' := by
  split at h
  · rename_i hc
    rw [if_pos hc]
    exact calcBinaryVector_twin _ _ _ hrdA hrdB ht h
  · rename_i hc
    rw [if_neg hc]
    cases h
    exact ⟨_, rfl, zeroData_twin ht⟩

theorem calcHalfDirection_twin {a0 b0 : List ℚ} {a b a' : FNodeOutput} (M : Libm)
    {ns ns' : List FNodeData} {k : Nat} {self : FNodeData}
    (hsr : SameReads ns ns' k self) (ht : Twin a0 b0 a b)
    (h : calcHalfDirection M ns k self a = some a') :
    ∃ b', calcHalfDirection M ns' k self b = some b' ∧ Twin a0 b0 a' b' := by
  unfold calcHalfDirection at h ⊢
  split at h
  · rename_i hc
    rw [if_pos hc]
    obtain ⟨iA, hiA, h⟩ := Option.bind_eq_some.mp h
    obtain ⟨iB, hiB, h⟩ := Option.bind_eq_some.mp h
    obtain ⟨nodeA, hnA, h⟩ := Option.bind_eq_some.mp h
    obtain ⟨hiA', hrdA, hnodeA⟩ := hsr 0 iA hiA
    obtain ⟨hiB', hrdB, hnodeB⟩ := hsr 1 iB hiB
    simp only [Option.bind_eq_bind, hiA', hiB', ← hnodeA, ← hnodeB, hnA, Option.some_bind]
    dsimp only at h
    split at h
    · rename_i hd
      obtain ⟨check, hcheck, h⟩ := Option.bind_eq_some.mp h
      obtain ⟨b', hb', hT⟩ := halfDirection_finish _ _ _ hrdA hrdB ht check h
      refine ⟨b', ?_, hT⟩
      rw [if_pos hd]
      simp only [hcheck, Option.some_bind]
      exact hb'
    · rename_i hd
      obtain ⟨check, hcheck, h⟩ := Option.bind_eq_some.mp h
      obtain ⟨b', hb', hT⟩ := halfDirection_finish _ _ _ hrdA hrdB ht check h
      refine ⟨b', ?_, hT⟩
      rw [if_neg hd]
      cases hcheck
      exact hb'
  · rename_i hc
    rw [if_neg hc]
    cases h
    exact ⟨_, rfl, clearOutput_twin a0 b0 a b⟩

theorem twin_toEnd_ex {a0 b0 : List ℚ} {a' : FNodeOutput} {x : Option FNodeOutput}
    (h : ∃ b', x = some b' ∧ Twin a0 b0 a' b') : ∃ b', x = some b' ∧ TwinEnd a0 b0 a' b' := by
  obtain ⟨b', hb', hT⟩ := h
  exact ⟨b', hb', hT.toEnd⟩

/-- The end of the simulation: when the second run started from the result of the first
run, the two results are equal. -/
theorem twinEnd_final {a0 : List ℚ} {a' b' : FNodeOutput} (h : TwinEnd a0 a'.data a' b') :
    b' = a' := by
  obtain ⟨hc, hlen, hj⟩ := h
  have hd : b'.data = a'.data := by
    apply List.ext_getElem?
    intro j
    rcases hj j with e | ⟨_, e⟩
    · exact e.symm
    · exact e
  cases a'
  cases b'
  simp only at hc hd
  rw [hc, hd]

theorem calcOperator_twin {a0 b0 : List ℚ} {a b a' : FNodeOutput} (M : Libm)
    {ns ns' : List FNodeData} {k : Nat} {self : FNodeData}
    (hsr : SameReads ns ns' k self) (ht : Twin a0 b0 a b)
    (hstep : self.type = FNODE_STEP → self.inputsCount = 2 → 1 ≤ a'.dataCount)
    (hmat : self.type = FNODE_MULTIPLYMATRIX → self.inputsCount = 2 → a'.dataCount = 16)
    (h : calcOperator M ns k self a = some a') :
    ∃ b', calcOperator M ns' k self b = some b' ∧ TwinEnd a0 b0 a' b' := by
  unfold calcOperator at h ⊢
  split at h
  all_goals first
    | exact twin_toEnd_ex (mapValues_twin _ ht h)
    | exact twin_toEnd_ex (calcNormalize_twin M ht h)
    | exact twin_toEnd_ex (calcScalarSecond_twin _ hsr ht h)
    | exact twin_toEnd_ex (calcStep_twin hsr ht (hstep (by assumption)) h)
    | exact twin_toEnd_ex (calcMaxMin_twin hsr ht h)
    | exact twin_toEnd_ex (calcTernary_twin _ hsr ht h)
    | exact twin_toEnd_ex (calcCross_twin hsr ht h)
    | exact calcDesaturate_twin hsr ht h
    | exact calcDistance_twin M hsr ht h
    | exact calcDot_twin hsr ht h
    | exact calcLength_twin M ht h
    | exact twin_toEnd_ex (calcMultiplyMatrix_twin hsr ht (hmat (by assumption)) h)
    | exact twin_toEnd_ex (calcTranspose_twin ht h)
    | exact twin_toEnd_ex (calcProjection_twin hsr ht h)
    | exact twin_toEnd_ex (calcHalfDirection_twin M hsr ht h)
    | (cases h; exact ⟨b, rfl, ht.toEnd⟩)

/-- The recomputation of a node whose output already is the result of the recomputation
gives that result again, when the pools agree on the nodes that are read. -/
theorem calcOutput_again {M : Libm} {ns ns' : List FNodeData} {k : Nat} {self : FNodeData}
    {o1 : FNodeOutput} (hsr : SameReads ns ns' k self)
    (hlen : self.output.data.length = o1.data.length)
    (hstep : self.type = FNODE_STEP → self.inputsCount = 2 → 1 ≤ o1.dataCount)
    (hmat : self.type = FNODE_MULTIPLYMATRIX → self.inputsCount = 2 → o1.dataCount = 16)
    (h : calcOutput M ns k self = some o1) :
    calcOutput M ns' k { self with output := o1 } = some o1 := by
  have hl : Loose self.output.data o1.data self.output o1 :=
    ⟨hlen, fun j => Or.inr ⟨rfl, rfl⟩⟩
  unfold calcOutput at h ⊢
  simp only at h ⊢
  split at h
  · rename_i hc
    rw [if_pos hc]
    obtain ⟨b', hb', hT⟩ := calcArith_twin hsr hl h
    rw [twinEnd_final hT.toEnd] at hb'
    exact hb'
  · rename_i hc
    rw [if_neg hc]
    split at h
    · rename_i hc2
      rw [if_pos hc2]
      obtain ⟨b', hb', hT⟩ := calcAppend_twin hsr hl h
      rw [twinEnd_final hT.toEnd] at hb'
      exact hb'
    · rename_i hc2
      rw [if_neg hc2]
      split at h
      · rename_i hc3
        rw [if_pos hc3]
        split at h
        · rename_i hc4
          rw [if_pos hc4]
          obtain ⟨c, hc1, h⟩ := Option.bind_eq_some.mp h
          obtain ⟨d, hd, hT⟩ := copyFirst_twin hsr hl hc1
          obtain ⟨b', hb', hE⟩ := calcOperator_twin M hsr hT hstep hmat h
          rw [twinEnd_final hE] at hb'
          have hd' : copyFirst ns' k { self with output := o1 } o1 = some d := hd
          simp only [Option.bind_eq_bind, hd', Option.some_bind]
          exact hb'
        · rename_i hc4
          rw [if_neg hc4]
          cases h
          rfl
      · rename_i hc3
        cases h
        rw [if_neg hc3]

theorem rebuildInputs_again {lines : List FLineData} {n self : FNodeData} (o : FNodeOutput)
    (h : rebuildInputs lines n = some self) :
    rebuildInputs lines { self with output := o } = some { self with output := o } := by
  rw [rebuildInputs_eq] at h ⊢
  split at h
  · rename_i hc
    cases h
    simp only
    rw [if_pos hc]
  · cases h

/-- An entry of the rebuilt `inputs` is `-1` or the start of a line that ends in the node. -/
theorem rebuilt_input_cases {lines : List FLineData} {n self : FNodeData} {j : Nat} {x : Int}
    (h : rebuildInputs lines n = some self) (hx : self.inputs[j]? = some x) :
    x = -1 ∨ ∃ f ∈ inboundIds lines n.id, x = (f : Int) := by
  rw [rebuildInputs_eq] at h
  split at h
  · cases h
    have hmem := List.getElem?_mem hx
    simp only [List.mem_append, List.mem_map, List.mem_replicate] at hmem
    rcases hmem with ⟨f, hf, rfl⟩ | ⟨_, rfl⟩
    · exact Or.inr ⟨f, hf, rfl⟩
    · exact Or.inl rfl
  · cases h

theorem rebuilt_output {lines : List FLineData} {n self : FNodeData}
    (h : rebuildInputs lines n = some self) : self.output = n.output := by
  rw [rebuildInputs_eq] at h
  split at h
  · cases h; rfl
  · cases h

theorem GetNodeIndex_neg (ns : List FNodeData) : GetNodeIndex ns (-1) = -1 := by
  rcases GetNodeIndex_spec ns (-1) with h | ⟨p, m, _, _, h⟩
  · exact h
  · omega

/-- The reads of a node whose inputs are all stored before it are the same in two pools
that agree on the slots before the node and on the ids. -/
theorem sameReads_of_before {ns ns' : List FNodeData} {k : Nat} {self : FNodeData}
    (hids : ns.map (fun n => n.id) = ns'.map (fun n => n.id))
    (hpre : ∀ p : Nat, p < k → ns[p]? = ns'[p]?)
    (hin : ∀ (j : Nat) (x : Int), self.inputs[j]? = some x →
      GetNodeIndex ns x < 0 ∨ (0 ≤ GetNodeIndex ns x ∧ (GetNodeIndex ns x).toNat < k)) :
    SameReads ns ns' k self := by
  intro j idx h
  unfold inputIndexOf at h ⊢
  simp only [Option.map_eq_some'] at h
  obtain ⟨x, hx, rfl⟩ := h
  refine ⟨by rw [hx]; simp [GetNodeIndex_ids ns ns' x hids], ?_, ?_⟩
  · intro c c'
    unfold rdOutput
    rcases hin j x hx with hneg | ⟨hpos, hlt⟩
    · rw [if_pos hneg, if_pos hneg]
    · rw [if_neg (by omega), if_neg (by omega), if_neg (by omega), if_neg (by omega),
        hpre _ hlt]
  · unfold nodeAt
    rcases hin j x hx with hneg | ⟨hpos, hlt⟩
    · rw [if_pos hneg, if_pos hneg]
    · rw [if_neg (by omega), if_neg (by omega), hpre _ hlt]

/-- The slots before `k` have their final content after the first `k` iterations. -/
theorem CalculateValues_before {M : Libm} {g g1 : Graph} {k : Nat} {mid : List FNodeData}
    (h : CalculateValues M g = some g1) (hk : k ≤ g.nodes.length)
    (hmid : calcUpTo M g.lines k g.nodes = some mid) :
    ∀ p : Nat, p < k → g1.nodes[p]? = mid[p]? := by
  intro p hp
  unfold CalculateValues calcUpTo at h
  unfold calcUpTo at hmid
  cases hl : forLoop (calcAt M g.lines) 0 g.nodes.length g.nodes with
  | none => simp [hl] at h
  | some ns =>
    simp only [hl, Option.map_some', Option.some.injEq] at h
    subst h
    have hsplit : g.nodes.length = k + (g.nodes.length - k) := by omega
    rw [hsplit, forLoop_add, hmid] at hl
    simp only [Option.some_bind, Nat.zero_add] at hl
    exact calcLoop_untouched M g.lines _ k mid ns hl p (Or.inl hp)

theorem set_same {l : List FNodeData} {k : Nat} {n : FNodeData} (h : l[k]? = some n) :
    l.set k n = l := by
  apply List.ext_getElem?
  intro p
  by_cases hp : k = p
  · subst hp
    rw [h, List.getElem?_set]
    have hlt : k < l.length := by
      rcases List.getElem?_eq_some_iff.mp h with ⟨hl, _⟩; exact hl
    simp [hlt]
  · simp [List.getElem?_set, hp]

/-- Iteration `k` of a second pass, on the pool that the first pass produced, gives
that pool again, for a node whose inputs are all stored before it. -/
theorem calcAt_again {M : Libm} {g g1 : Graph} {k : Nat}
    (hsize : ∀ m ∈ g.nodes, WellSized m)
    (horder : ∀ (i : Nat) (n : FNodeData), g.nodes[i]? = some n →
      ∀ f ∈ inboundIds g.lines n.id,
        0 ≤ GetNodeIndex g.nodes f ∧ (GetNodeIndex g.nodes f).toNat < i)
    (hrun : CalculateValues M g = some g1)
    (hwidth : ∀ n ∈ g1.nodes, n.inputsCount = 2 →
      (n.type = FNODE_STEP → 1 ≤ n.output.dataCount) ∧
        (n.type = FNODE_MULTIPLYMATRIX → n.output.dataCount = 16))
    (hk : k < g.nodes.length) : calcAt M g1.lines k g1.nodes = some g1.nodes := by
  obtain ⟨hlines, hsame⟩ := CalculateValues_same hrun
  have hsize1 := CalculateValues_wellSized hrun hsize
  have hn : g.nodes[k]? = some (g.nodes[k]) := List.getElem?_eq_getElem hk
  obtain ⟨mid, n', hmid, hmidn, hc, hn'⟩ := CalculateValues_node hrun hn
  obtain ⟨self, out, hr, ho, rfl⟩ := calcNode_eq_some hc
  have hmidsame : SameStructure g.nodes mid := calcLoop_same M g.lines k 0 g.nodes mid hmid
  have hids : mid.map (fun n => n.id) = g1.nodes.map (fun n => n.id) :=
    (sameStructure_ids hmidsame).symm.trans (sameStructure_ids hsame)
  have hpre : ∀ p : Nat, p < k → mid[p]? = g1.nodes[p]? := fun p hp =>
    (CalculateValues_before hrun (by omega) hmid p hp).symm
  have hsr : SameReads mid g1.nodes k self := by
    refine sameReads_of_before hids hpre (fun j x hx => ?_)
    rcases rebuilt_input_cases hr hx with rfl | ⟨f, hf, rfl⟩
    · left
      rw [GetNodeIndex_neg]
      omega
    · right
      rw [← GetNodeIndex_ids g.nodes mid f (sameStructure_ids hmidsame)]
      exact horder k _ hn f hf
  have hmem : { self with output := out } ∈ g1.nodes := List.getElem?_mem hn'
  have hlen : self.output.data.length = out.data.length := by
    rw [rebuilt_output hr, (hsize _ (List.getElem?_mem hn)).1]
    exact (hsize1 _ hmem).1.symm
  have hout := calcOutput_again hsr hlen
    (fun ht hc2 => ((hwidth _ hmem) hc2).1 ht) (fun ht hc2 => ((hwidth _ hmem) hc2).2 ht) ho
  unfold calcAt calcNode
  rw [hlines]
  simp only [Option.bind_eq_bind, hn', Option.some_bind, rebuildInputs_again out hr, hout]
  rw [set_same hn']

/-- With a first input of width 0 the Step node compares the value that its own slot 0
holds from the pass before: on `exampleStepGraph` that value is 1 after one pass and 0
after two passes, the width staying 0. -/
theorem step_pass_alternates :
    (CalculateValues exampleLibm exampleStepGraph).map (fun g =>
        g.nodes.map (fun n => (n.id, n.output.dataCount, n.output.data[0]?))) =
      some [(0, 0, some 0), (1, 1, some (1/2)), (2, 0, some 1)] ∧
    ((CalculateValues exampleLibm exampleStepGraph).bind (CalculateValues exampleLibm)).map
        (fun g => g.nodes.map (fun n => (n.id, n.output.dataCount, n.output.data[0]?))) =
      some [(0, 0, some 0), (1, 1, some (1/2)), (2, 0, some 0)] := by
  decide!

/-- C20, amended: a second pass of `CalculateValues` returns the store that the first pass
returned, with every output width and value as the first pass left it, for every store
whose arrays have their declared sizes and in which every node is stored after all of its
inputs, provided that after the first pass every Step node with two inputs has a width of
at least 1 and every MultiplyMatrix node with two inputs has the width 16. -/
theorem C20_ordered_pass_idempotent (M : Libm) (g g1 : Graph)
    (hsize : ∀ m ∈ g.nodes, WellSized m)
    (horder : ∀ (i : Nat) (n : FNodeData), g.nodes[i]? = some n →
      ∀ f ∈ inboundIds g.lines n.id,
        0 ≤ GetNodeIndex g.nodes f ∧ (GetNodeIndex g.nodes f).toNat < i)
    (hrun : CalculateValues M g = some g1)
    (hwidth : ∀ n ∈ g1.nodes, n.inputsCount = 2 →
      (n.type = FNODE_STEP → 1 ≤ n.output.dataCount) ∧
        (n.type = FNODE_MULTIPLYMATRIX → n.output.dataCount = 16)) :
    CalculateValues M g1 = some g1 := by
  have hlen : g1.nodes.length = g.nodes.length := (CalculateValues_same hrun).2.1
  have key : ∀ k : Nat, k ≤ g1.nodes.length →
      calcUpTo M g1.lines k g1.nodes = some g1.nodes := by
    intro k
    induction k with
    | zero => intro _; rfl
    | succ k ih =>
      intro hk
      unfold calcUpTo at ih ⊢
      rw [forLoop_add _ k 1 0 g1.nodes, ih (by omega)]
      simp only [Option.some_bind, Nat.zero_add, forLoop_succ, forLoop_zero,
        calcAt_again hsize horder hrun hwidth (by omega : k < g.nodes.length)]
  unfold CalculateValues
  rw [key _ le_rfl]
  rfl

/-- C20 as stated fails: the store after the edits of `exampleChainEdits` is reached from
the fresh start by menu clicks and accepted link gestures; one pass leaves the One Minus
node 2 with the width 0, and a second pass changes it to the width 1 and the value 3. -/
theorem C20_second_pass_differs :
    (InitFNode.bind (applyEdits exampleLibm exampleChainEdits)).map outputSummary =
      some [(2, 0, some 0), (3, 0, some 0), (4, 1, some 3), (5, 1, some (-2)),
        (6, 1, some 3)] ∧
    ((InitFNode.bind (applyEdits exampleLibm exampleChainEdits)).bind
        (CalculateValues exampleLibm)).map outputSummary =
      some [(2, 0, some 0), (3, 1, some (-2)), (4, 1, some 3), (5, 1, some (-2)),
        (6, 1, some 3)] ∧
    (((InitFNode.bind (applyEdits exampleLibm exampleChainEdits)).bind
        (CalculateValues exampleLibm)).bind (CalculateValues exampleLibm)).map outputSummary =
      some [(2, 1, some 3), (3, 1, some (-2)), (4, 1, some 3), (5, 1, some (-2)),
        (6, 1, some 3)] := by
  decide!

/-- C20 at `exampleOrderedGraph`: the pass gives `exampleOrderedResult`, in which the Step
node has two inputs and the width 1, and a second pass gives `exampleOrderedResult`
again. -/
theorem C20_ordered_pass_idempotent_witness :
    CalculateValues exampleLibm exampleOrderedGraph = some exampleOrderedResult ∧
      CalculateValues exampleLibm exampleOrderedResult = some exampleOrderedResult := by
  have hrun : CalculateValues exampleLibm exampleOrderedGraph = some exampleOrderedResult := by
    decide!
  refine ⟨hrun, C20_ordered_pass_idempotent exampleLibm exampleOrderedGraph
    exampleOrderedResult ?_ ?_ hrun ?_⟩
  · intro m hm
    simp only [exampleOrderedGraph, List.mem_cons, List.mem_singleton, List.not_mem_nil,
      or_false] at hm
    rcases hm with rfl | rfl | rfl | rfl <;> exact ⟨rfl, by decide, rfl⟩
  · intro i n hn f hf
    rcases i with _ | _ | _ | _ | i
    all_goals simp [exampleOrderedGraph] at hn
    all_goals subst hn
    all_goals simp [inboundIds, exampleOrderedGraph, literalNode, literalOutput, blankNode] at hf
    all_goals (try rcases hf with rfl | rfl)
    all_goals decide
  · intro n hn
    simp only [exampleOrderedResult, List.mem_cons, List.mem_singleton, List.not_mem_nil,
      or_false] at hn
    rcases hn with rfl | rfl | rfl | rfl <;>
      exact fun _ => ⟨fun _ => by decide, fun ht => absurd ht (by decide)⟩

/-! ## A Power node with an exponent that is not a scalar -/

/-- The recomputation of a Power node with two inputs found at other slots of the pool,
the second of a width other than 1: the output is the copy of the first input, and the
slots from its width on keep their values. -/
theorem power_node_copy (M : Libm) (lines : List FLineData) (mid : List FNodeData) (i : Nat)
    (n ma mb : FNodeData) (a b : Nat) (ht : n.type = FNODE_POWER)
    (hin : inboundIds lines n.id = [a, b])
    (ha0 : 0 ≤ GetNodeIndex mid a) (hai : (GetNodeIndex mid a).toNat ≠ i)
    (hma : mid[(GetNodeIndex mid a).toNat]? = some ma)
    (hb0 : 0 ≤ GetNodeIndex mid b) (hbi : (GetNodeIndex mid b).toNat ≠ i)
    (hmb : mid[(GetNodeIndex mid b).toNat]? = some mb)
    (hw : mb.output.dataCount ≠ 1)
    (h1 : ma.output.dataCount ≤ n.output.data.length)
    (h2 : ma.output.dataCount ≤ ma.output.data.length) :
    ∃ n', calcNode M lines mid i n = some n' ∧
      n'.output.dataCount = ma.output.dataCount ∧
      (∀ j, j < ma.output.dataCount → n'.output.data[j]? = ma.output.data[j]?) ∧
      (∀ j, ma.output.dataCount ≤ j → n'.output.data[j]? = n.output.data[j]?) := by
  have hle : (inboundIds lines n.id).length ≤ MAX_INPUTS := by
    rw [hin]; simp [MAX_INPUTS]
  obtain ⟨self, hself, _, hst, _, hso, hsc, hsi⟩ := rebuildInputs_some lines n hle
  rw [hin] at hsc hsi
  have hi0 : self.inputs[0]? = some (a : Int) := by rw [hsi]; rfl
  have hi1 : self.inputs[1]? = some (b : Int) := by rw [hsi]; rfl
  obtain ⟨r, hr, hc, _, hlow, hhigh⟩ :=
    copyFirst_other mid i self a ma self.output hi0 ha0 hai hma (by rw [hso]; exact h1) h2
  have hop : FNODE_APPEND.toInt < self.type.toInt := by
    rw [hst, ht]; decide
  have hout : calcOutput M mid i self = some r := by
    rw [calcOutput_operator hop (by rw [hsc]; simp), hr]
    simp only [Option.some_bind]
    unfold calcOperator
    rw [hst, ht]
    simp only
    unfold calcScalarSecond
    rw [if_pos (by rw [hsc]; rfl)]
    unfold inputIndexOf
    simp only [hi1, Option.map_some', Option.bind_eq_bind, Option.some_bind,
      rdOutput_other r hb0 hbi hmb, if_neg hw]
  refine ⟨_, calcNode_of hself hout, hc, fun j hj => ?_, fun j hj => ?_⟩
  · show r.data[j]? = _
    rw [hlow j hj, getElem?_eq_some_getD _ _ (by omega)]
  · show r.data[j]? = _
    rw [hhigh j hj, hso]

/-- The first `k` iterations of a pass keep every node inside the bounds of its arrays. -/
theorem calcUpTo_wellSized {M : Libm} {lines : List FLineData} {k : Nat}
    {ns mid : List FNodeData} (h : calcUpTo M lines k ns = some mid)
    (hpool : ∀ m ∈ ns, WellSized m) : ∀ m ∈ mid, WellSized m :=
  forLoop_invariant (calcAt M lines) (fun s => ∀ m ∈ s, WellSized m)
    (fun _ _ _ hs hb => calcAt_wellSized hb hs) _ _ _ _ hpool h

/-- The node that `seenBy` gives for an id is the one the iteration finds in its pool. -/
theorem seenBy_mid {M : Libm} {g g' : Graph} {i : Nat} {n : FNodeData} {mid : List FNodeData}
    {f : Nat} {m : FNodeData} (hrun : CalculateValues M g = some g')
    (hn : g.nodes[i]? = some n) (hmid : calcUpTo M g.lines i g.nodes = some mid)
    (hf : f ≠ n.id) (hm : seenBy g g' i f = some m) :
    0 ≤ GetNodeIndex mid f ∧ (GetNodeIndex mid f).toNat ≠ i ∧
      mid[(GetNodeIndex mid f).toNat]? = some m := by
  have hlt : i < g.nodes.length := by
    rcases List.getElem?_eq_some_iff.mp hn with ⟨hl, _⟩; exact hl
  have hsame : SameStructure g.nodes mid := calcLoop_same M g.lines i 0 g.nodes mid hmid
  have hidx : GetNodeIndex mid f = GetNodeIndex g.nodes f :=
    (GetNodeIndex_ids g.nodes mid f (sameStructure_ids hsame)).symm
  rw [hidx]
  unfold seenBy at hm
  simp only at hm
  split at hm
  · cases hm
  · rename_i h0
    have hne : (GetNodeIndex g.nodes f).toNat ≠ i := by
      intro hi
      rcases GetNodeIndex_spec g.nodes (f : Int) with h1 | ⟨p, m1, h1, h2, h3⟩
      · omega
      · rw [h1] at hi
        simp only [Int.toNat_ofNat] at hi
        rw [hi, hn] at h2
        cases h2
        exact hf (by exact_mod_cast h3.symm)
    refine ⟨by omega, hne, ?_⟩
    split at hm
    · rename_i hp
      rw [← CalculateValues_before hrun (by omega) hmid _ hp]
      exact hm
    · rename_i hp
      unfold calcUpTo at hmid
      rw [calcLoop_untouched M g.lines i 0 g.nodes mid hmid _ (Or.inr (by omega))]
      exact hm

/-- C21, as amended: a pass of `CalculateValues` leaves a Power node with two inputs whose
second input has a width other than 1 with the copy of its first input: the width of the
first input and, below that width, its values; the slots from that width on keep the
values they had before the pass.  The two inputs are taken as the iteration for the node
finds them (`seenBy`).  With arrays of the declared sizes the recomputation of the node
itself succeeds. -/
theorem C21_power_exponent_width (M : Libm) (g g' : Graph) (i : Nat) (n ma mb : FNodeData)
    (a b : Nat) (hsize : ∀ m ∈ g.nodes, WellSized m) (hrun : CalculateValues M g = some g')
    (hn : g.nodes[i]? = some n) (ht : n.type = FNODE_POWER)
    (hin : inboundIds g.lines n.id = [a, b]) (ha : a ≠ n.id) (hb : b ≠ n.id)
    (hma : seenBy g g' i a = some ma) (hmb : seenBy g g' i b = some mb)
    (hw : mb.output.dataCount ≠ 1) :
    ∃ mid n', calcUpTo M g.lines i g.nodes = some mid ∧
      calcNode M g.lines mid i n = some n' ∧ g'.nodes[i]? = some n' ∧
      n'.output.dataCount = ma.output.dataCount ∧
      (∀ j, j < ma.output.dataCount → n'.output.data[j]? = ma.output.data[j]?) ∧
      (∀ j, ma.output.dataCount ≤ j → n'.output.data[j]? = n.output.data[j]?) := by
  obtain ⟨mid, n1, hmid, _, hc, hg'⟩ := CalculateValues_node hrun hn
  have hsz := calcUpTo_wellSized hmid hsize
  obtain ⟨ha0, hai, hma'⟩ := seenBy_mid hrun hn hmid ha hma
  obtain ⟨hb0, hbi, hmb'⟩ := seenBy_mid hrun hn hmid hb hmb
  have hwa := hsz ma (List.getElem?_mem hma')
  have hwn := hsize n (List.getElem?_mem hn)
  obtain ⟨n', hn', h1, h2, h3⟩ := power_node_copy M g.lines mid i n ma mb a b ht hin
    ha0 hai hma' hb0 hbi hmb' hw (by rw [hwn.1]; exact hwa.2.1) (by rw [hwa.1]; exact hwa.2.1)
  rw [hc] at hn'
  cases hn'
  exact ⟨mid, n1, hmid, hc, hg', h1, h2, h3⟩

/-- C21 as stated fails: after the edits of `examplePowerEdits` the Power node 5 holds 9,
the square of its base 3; after the edits of `exampleWidenEdits`, which give its exponent
the width 2, the passes leave it with the base 3, not with the value 9 it had. -/
theorem C21_power_takes_base :
    (InitFNode.bind (applyEdits squareLibm examplePowerEdits)).map outputSummary =
      some [(2, 1, some 3), (3, 1, some 2), (4, 1, some 2), (5, 1, some 9)] ∧
    (InitFNode.bind (applyEdits squareLibm (examplePowerEdits ++ exampleWidenEdits))).map
        outputSummary =
      some [(2, 1, some 3), (3, 1, some 2), (4, 2, some 2), (5, 1, some 3),
        (6, 1, some 1)] := by
  decide!

/-- C21 at `examplePowerGraph`: the pass leaves the Power node 2, whose exponent is a
Vector2, with the width 1 and the value 3 of its base. -/
theorem C21_power_exponent_width_witness :
    ∃ g' n', CalculateValues exampleLibm examplePowerGraph = some g' ∧
      g'.nodes[2]? = some n' ∧ n'.output.dataCount = 1 ∧ n'.output.data[0]? = some 3 := by
  cases hg : CalculateValues exampleLibm examplePowerGraph with
  | none => exact absurd hg (by decide!)
  | some g' =>
    obtain ⟨_, n', _, _, hn', hc, hlow, _⟩ :=
      C21_power_exponent_width exampleLibm examplePowerGraph g' 2 _
        (literalNode 0 FNODE_VALUE [3]) (literalNode 1 FNODE_VECTOR2 [2, 2]) 0 1
        (by
          intro m hm
          simp only [examplePowerGraph, List.mem_cons, List.mem_singleton, List.not_mem_nil,
            or_false] at hm
          rcases hm with rfl | rfl | rfl <;> exact ⟨rfl, by decide, rfl⟩)
        hg rfl rfl rfl (by decide) (by decide)
        (by
          have e : (CalculateValues exampleLibm examplePowerGraph).bind
              (fun g' => seenBy examplePowerGraph g' 2 0) =
              some (literalNode 0 FNODE_VALUE [3]) := by decide!
          rw [hg] at e
          exact e)
        (by
          have e : (CalculateValues exampleLibm examplePowerGraph).bind
              (fun g' => seenBy examplePowerGraph g' 2 1) =
              some (literalNode 1 FNODE_VECTOR2 [2, 2]) := by decide!
          rw [hg] at e
          exact e)
        (by decide)
    exact ⟨g', n', rfl, hn', hc, hlow 0 (by decide)⟩

/-! ## The lookup of an id that no node has -/

/-- The lookup of an id that no node of the pool has gives `-1`. -/
theorem GetNodeIndex_missing (ns : List FNodeData) (id : Int)
    (h : ∀ n ∈ ns, (n.id : Int) ≠ id) : GetNodeIndex ns id = -1 := by
  rcases GetNodeIndex_spec ns id with h1 | ⟨p, m, _, hm, hid⟩
  · exact h1
  · exact absurd hid (h m (List.getElem?_mem hm))

/-- C22 fails on the code: in `exampleDanglingGraph` the line into the Add node starts at
the id 7, which no node has.  `GetNodeIndex` returns `-1` for it; the pass stores 7 as the
first input of the node and passes the index `-1` on to the copy of the first input, which
reads `nodes[-1]`, outside the pool. -/
theorem C22_missing_source_index :
    GetNodeIndex exampleDanglingGraph.nodes 7 = -1 ∧
    (rebuildInputs exampleDanglingGraph.lines (blankNode 0 FNODE_ADD MAX_INPUTS)).map
        (fun self => (self.inputs, inputIndexOf exampleDanglingGraph.nodes self 0,
          copyFirst exampleDanglingGraph.nodes 0 self self.output)) =
      some ([7, -1, -1, -1], some (-1), none) ∧
    CalculateValues exampleLibm exampleDanglingGraph = none := by
  decide!

/-! ## One declaration for each node of a stage -/

/-- C23, evaluated: with the One Minus node 3 an input of two nodes, the body of the
fragment shader declares `node_03` twice: `FSearch` reads the file, which the buffered
text has not reached.  With the same nodes at the vertex sink, `FSearch` opens the
fragment shader that `CompileShader` has removed: the run faults when `fgets` faults on
the null stream, and otherwise the body of the vertex shader has the two declarations
too, whatever the buffers.  With streams that are not buffered, the search for
`float node_10` stops at the declaration of `node_100`, and `node_10` is not declared. -/
theorem C23_fan_out_declared_twice :
    (compileAfter exampleCLib exampleFanEdits).map (fun f => f.fragment) =
      some (some (fragmentTop ++ "const float node_02 = 2.000;\n" ++ fMain ++
        "    float node_03 = (1 - node_02);\n" ++
        "    float node_03 = (1 - node_02);\n" ++
        "    float node_04 = abs(node_03);\n" ++
        "    float node_05 = node_03 + node_04;\n" ++
        "\n    finalColor = vec4(node_05, node_05, node_05, 1.0);\n\x7d")) ∧
    compileAfter exampleCLib exampleFanBothEdits = none ∧
    (compileAfter { lenientCLib with bufferSize := 1 } exampleFanBothEdits).map
        (fun f => f.vertex) =
      some (some (vertexTop ++
        "    float node_03 = (1 - node_02);\n" ++
        "    float node_03 = (1 - node_02);\n" ++
        "    float node_04 = abs(node_03);\n" ++
        "    float node_05 = node_03 + node_04;\n" ++
        "\n    gl_Position = vec4(node_05, node_05, node_05, 1.0);\n\x7d")) ∧
    (CompileShader unbufferedCLib exampleWideIdGraph).map (fun f => f.fragment) =
      some (some (fragmentTop ++ "const float node_02 = 2.000;\n" ++ fMain ++
        "    float node_100 = abs(node_02);\n" ++
        "    float node_03 = node_100 + node_10;\n" ++
        "\n    finalColor = vec4(node_03, node_03, node_03, 1.0);\n\x7d")) := by
  refine ⟨?_, ?_, ?_, ?_⟩ <;> decide!


/-! ## The order of the statements -/

/-- C24, evaluated: the Add node 3 is an input of the Append node 4 and of a kind that
`CompileNode` compiles before the node itself, but it has no input of its own, so its
call writes nothing: the body of the fragment shader declares `node_04` from `node_03`
and has no declaration of `node_03`, with buffered streams and without. -/
theorem C24_input_never_declared :
    (InitFNode.bind (applyEdits exampleLibm exampleOrphanEdits)).map wiringSummary =
      some ([(0, FNODE_VERTEX, [2]), (1, FNODE_FRAGMENT, [4]), (2, FNODE_VALUE, []),
             (3, FNODE_ADD, []), (4, FNODE_APPEND, [3, 2])],
            [(3, 4), (2, 4), (4, 1), (2, 0)]) ∧
    isCompiled FNODE_ADD = true ∧
    (compileAfter exampleCLib exampleOrphanEdits).map (fun f => f.fragment) =
      some (some (fragmentTop ++ "const float node_02 = 2.000;\n" ++ fMain ++
        "    float node_04 = node_03;\n" ++
        "\n    finalColor = vec4(node_04, node_04, node_04, 1.0);\n\x7d")) ∧
    (compileAfter unbufferedCLib exampleOrphanEdits).map (fun f => f.fragment) =
      (compileAfter exampleCLib exampleOrphanEdits).map (fun f => f.fragment) := by
  refine ⟨?_, ?_, ?_, ?_⟩ <;> decide!

/-! ## The final assignment of a stage -/

/-- C25, evaluated: with the Matrix node 2 (width 16) at both sinks, the vertex shader
ends with the assignment `gl_Position = node_02;`, and the fragment shader ends after the
opening brace of `main`: the `switch` of the fragment stage has no case 16. -/
theorem C25_matrix_at_fragment_sink :
    (InitFNode.bind (applyEdits exampleLibm exampleMatrixSinkEdits)).map outputSummary =
      some [(2, 16, some 1)] ∧
    (compileAfter exampleCLib exampleMatrixSinkEdits).map (fun f => (f.vertex, f.fragment)) =
      some (some (vertexTop ++ "\n    gl_Position = node_02;\n\x7d"),
            some (fragmentTop ++ fMain)) ∧
    vertexAssignment 16 2 = "\n    gl_Position = node_02;\n\x7d" ∧
    fragmentAssignment 16 2 = "" := by
  refine ⟨?_, ?_, ?_, ?_⟩ <;> decide!

/-! ## The keyword of a declaration -/

/-- C26, evaluated: the Normalize node 3 has width 3 and is at both sinks.  In the
fragment shader its statement is the declaration `vec3 node_03 = normalize(node_02);`.
In the vertex stage the run faults in `FSearch` when `fgets` faults on the null stream;
otherwise the statement written is `normalize(node_02);` without a keyword and a name,
since for width 3 the vertex stage has a keyword for the node "Vertex Position" only.
In the fragment stage the statement of the One Minus node 4, of width 0, is
`(1 - node_03);`. -/
theorem C26_statement_without_keyword :
    (InitFNode.bind (applyEdits exampleLibm exampleNormalEdits)).map outputSummary =
      some [(2, 3, some 0), (3, 3, some 0)] ∧
    compileAfter exampleCLib exampleNormalEdits = none ∧
    (compileAfter lenientCLib exampleNormalEdits).map (fun f => (f.vertex, f.fragment)) =
      some (some (vertexTop ++
              "    vec4 node_02 = vec4(vertexPosition, 1.0);\n" ++
              "normalize(node_02);\n" ++
              "\n    gl_Position = vec4(node_03.xyz, 1.0);\n\x7d"),
            some (fragmentTop ++ fMain ++
              "    vec3 node_02 = fragPosition;\n" ++
              "    vec3 node_03 = normalize(node_02);\n" ++
              "\n    finalColor = vec4(node_03.xyz, 1.0);\n\x7d")) ∧
    (InitFNode.bind (applyEdits exampleLibm exampleBareEdits)).map outputSummary =
      some [(2, 1, some 2), (3, 0, some 0), (4, 0, some 0)] ∧
    (compileAfter exampleCLib exampleBareEdits).map (fun f => f.fragment) =
      some (some (fragmentTop ++ "const float node_02 = 2.000;\n" ++ fMain ++
        "(1 - node_03);\n")) := by
  refine ⟨?_, ?_, ?_, ?_, ?_⟩ <;> decide!

/-! ## The constants of a stage -/

/-- C27, evaluated: with Value(2) (id 2) at both sinks, the fragment shader declares
`const float node_02 = 2.000;` and the vertex shader, which assigns `gl_Position` from
`node_02`, has no declaration at all: the vertex stage writes no constants.  For a node
"Pi" the format of the fragment stage has the conversion for the id and no argument for
it, so the run faults. -/
theorem C27_vertex_stage_constants :
    (compileAfter exampleCLib exampleValueSinkEdits).map (fun f => (f.vertex, f.fragment)) =
      some (some (vertexTop ++
              "\n    gl_Position = vec4(node_02, node_02, node_02, 1.0);\n\x7d"),
            some (fragmentTop ++ "const float node_02 = 2.000;\n" ++ fMain ++
              "\n    finalColor = vec4(node_02, node_02, node_02, 1.0);\n\x7d")) ∧
    occurrences "const" vertexTop = 0 ∧
    constantText exampleCLib (literalNode 2 FNODE_PI [exampleLibm.pi]) = none ∧
    compileAfter exampleCLib examplePiSinkEdits = none := by
  refine ⟨?_, ?_, ?_, ?_⟩ <;> decide!

/-! ## A sink without a line -/

/-- C28, evaluated: with nothing at the fragment sink, its `inputs[0]` is `-1`,
`GetNodeIndex(-1)` is `-1` and `CompileNode` is called with `nodes[-1]`: the vertex stage
completes and the fragment stage faults, so `CompileShader` does not complete. -/
theorem C28_unconnected_sink :
    (InitFNode.bind (applyEdits exampleLibm exampleOpenSinkEdits)).map (fun g =>
        ((g.nodes[1]?).map (fun s => (s.type, s.inputs)), GetNodeIndex g.nodes (-1),
          nodeAt g.nodes (GetNodeIndex g.nodes (-1)))) =
      some (some (FNODE_FRAGMENT, [-1, -1, -1, -1]), -1, none) ∧
    ((InitFNode.bind (applyEdits exampleLibm exampleOpenSinkEdits)).bind (fun g =>
        (dataLines g).bind (fun data =>
          compileVertex exampleCLib g.nodes
            { data := some data, vertex := none, fragment := none }))).map
        (fun f => f.vertex) =
      some (some (vertexTop ++
        "\n    gl_Position = vec4(node_02, node_02, node_02, 1.0);\n\x7d")) ∧
    compileAfter exampleCLib exampleOpenSinkEdits = none ∧
    compileAfter lenientCLib exampleOpenSinkEdits = none := by
  refine ⟨?_, ?_, ?_, ?_⟩ <;> decide!

/-! ## The stored graph -/

/-- C29, evaluated: the file of a store with the ids 0 .. 5 loads as the same store.
After the deletion of node 2 the ids are 0, 1, 3, 4 and 5; the file holds no ids, the
loaded nodes get the ids 0 .. 4, and the lines, stored with the old ids, now join other
nodes: the fragment sink, fed by the One Minus node before, is fed by Value(7), the
One Minus node has no input, and Value(7) has the former input of the One Minus node. -/
theorem C29_reload_renumbers :
    (reloadAfter exampleCLib exampleStoredEdits).isSome = true ∧
    reloadAfter exampleCLib exampleStoredEdits =
      InitFNode.bind (applyEdits exampleLibm exampleStoredEdits) ∧
    (InitFNode.bind (applyEdits exampleLibm exampleGapEdits)).map wiringSummary =
      some ([(0, FNODE_VERTEX, [3]), (1, FNODE_FRAGMENT, [4]), (3, FNODE_VALUE, []),
             (4, FNODE_ONEMINUS, [3]), (5, FNODE_VALUE, [])],
            [(3, 4), (4, 1), (3, 0)]) ∧
    (reloadAfter exampleCLib exampleGapEdits).map wiringSummary =
      some ([(0, FNODE_VERTEX, [3]), (1, FNODE_FRAGMENT, [4]), (2, FNODE_VALUE, []),
             (3, FNODE_ONEMINUS, []), (4, FNODE_VALUE, [3])],
            [(3, 4), (4, 1), (3, 0)]) ∧
    (reloadAfter exampleCLib exampleGapEdits).map outputSummary =
      some [(2, 1, some 2), (3, 0, some 0), (4, 1, some 7)] := by
  refine ⟨?_, ?_, ?_, ?_, ?_⟩ <;> decide!

/-- C30, evaluated: the store has six nodes and seven lines; the file has six lines
`?from?to`, and none for the line from node 2 to the vertex sink, which is stored at
`lines[6]`: the search for a line with a given id looks at `lines[k]` for
`k < nodesCount` only. -/
theorem C30_edge_records_dropped :
    (InitFNode.bind (applyEdits exampleLibm exampleDenseEdits)).map (fun g =>
        (g.nodes.length, g.lines.map (fun l => (l.id, l.from_, l.to_)))) =
      some (6, [(0, 2, 4), (1, 3, 4), (2, 2, 5), (3, 3, 5), (4, 4, 5), (5, 5, 1),
                (6, 2, 0)]) ∧
    (compileAfter exampleCLib exampleDenseEdits).bind edgeRecords =
      some [(2, 4), (3, 4), (2, 5), (3, 5), (4, 5), (5, 1)] ∧
    (reloadAfter exampleCLib exampleDenseEdits).map wiringSummary =
      some ([(0, FNODE_VERTEX, []), (1, FNODE_FRAGMENT, [5]), (2, FNODE_VALUE, []),
             (3, FNODE_VALUE, []), (4, FNODE_ADD, [2, 3]), (5, FNODE_ADD, [2, 3, 4])],
            [(2, 4), (3, 4), (2, 5), (3, 5), (4, 5), (5, 1)]) := by
  refine ⟨?_, ?_, ?_⟩ <;> decide!

/-! ## The cross product and the matrix functions -/

/-- C33: `FCrossProduct` is the standard cross product.  Its three components are those
of the standard formula; it is orthogonal to both arguments for `FVector3Dot`, and
`FCrossProduct b a` is its componentwise negation; its dot product with any vector `v`
is the determinant of the rows `a`, `b`, `v`, which no other vector has for every `v`;
its square is `|a|²|b|² - (a·b)²`; and the products of the unit vectors are the unit
vectors in the right-handed order, that of `(1, 2, 3)` and `(4, 5, 6)` is
`(-3, 6, -3)`. -/
theorem C33_cross_product_algebra (a b : Vector3) :
    (FVector3Dot a (FCrossProduct a b) = 0 ∧ FVector3Dot b (FCrossProduct a b) = 0 ∧
      (FCrossProduct b a).x = -(FCrossProduct a b).x ∧
      (FCrossProduct b a).y = -(FCrossProduct a b).y ∧
      (FCrossProduct b a).z = -(FCrossProduct a b).z) ∧
    ((FCrossProduct a b).x = a.y*b.z - a.z*b.y ∧
      (FCrossProduct a b).y = a.z*b.x - a.x*b.z ∧
      (FCrossProduct a b).z = a.x*b.y - a.y*b.x) ∧
    (∀ v : Vector3, FVector3Dot (FCrossProduct a b) v =
      a.x*(b.y*v.z - b.z*v.y) - a.y*(b.x*v.z - b.z*v.x) + a.z*(b.x*v.y - b.y*v.x)) ∧
    (∀ c : Vector3, (∀ v : Vector3, FVector3Dot c v =
        a.x*(b.y*v.z - b.z*v.y) - a.y*(b.x*v.z - b.z*v.x) + a.z*(b.x*v.y - b.y*v.x)) →
      c = FCrossProduct a b) ∧
    FVector3Dot (FCrossProduct a b) (FCrossProduct a b) =
      FVector3Dot a a * FVector3Dot b b - FVector3Dot a b * FVector3Dot a b ∧
    (FCrossProduct ⟨1, 0, 0⟩ ⟨0, 1, 0⟩ = ⟨0, 0, 1⟩ ∧
      FCrossProduct ⟨0, 1, 0⟩ ⟨0, 0, 1⟩ = ⟨1, 0, 0⟩ ∧
      FCrossProduct ⟨0, 0, 1⟩ ⟨1, 0, 0⟩ = ⟨0, 1, 0⟩ ∧
      FCrossProduct ⟨1, 2, 3⟩ ⟨4, 5, 6⟩ = ⟨-3, 6, -3⟩) := by
  refine ⟨?_, ⟨rfl, rfl, rfl⟩, ?_, ?_, ?_, ?_⟩
  · refine ⟨?_, ?_, ?_, ?_, ?_⟩ <;> simp only [FVector3Dot, FCrossProduct] <;> ring
  · intro v
    simp only [FVector3Dot, FCrossProduct]
    ring
  · intro c hc
    have hx := hc ⟨1, 0, 0⟩
    have hy := hc ⟨0, 1, 0⟩
    have hz := hc ⟨0, 0, 1⟩
    simp only [FVector3Dot] at hx hy hz
    cases c with
    | mk cx cy cz =>
      simp only [FCrossProduct, Vector3.mk.injEq]
      simp only at hx hy hz
      refine ⟨?_, ?_, ?_⟩
      · linarith
      · linarith
      · linarith
  · simp only [FVector3Dot, FCrossProduct]
    ring
  · refine ⟨?_, ?_, ?_, ?_⟩ <;> decide!

/-- Two matrices with the same sixteen fields are equal. -/
theorem Matrix.eq_of_fields {a b : Matrix} (h0 : a.m0 = b.m0) (h1 : a.m1 = b.m1)
    (h2 : a.m2 = b.m2) (h3 : a.m3 = b.m3) (h4 : a.m4 = b.m4) (h5 : a.m5 = b.m5)
    (h6 : a.m6 = b.m6) (h7 : a.m7 = b.m7) (h8 : a.m8 = b.m8) (h9 : a.m9 = b.m9)
    (h10 : a.m10 = b.m10) (h11 : a.m11 = b.m11) (h12 : a.m12 = b.m12) (h13 : a.m13 = b.m13)
    (h14 : a.m14 = b.m14) (h15 : a.m15 = b.m15) : a = b := by
  cases a; cases b; cases h0; cases h1; cases h2; cases h3; cases h4; cases h5; cases h6
  cases h7; cases h8; cases h9; cases h10; cases h11; cases h12; cases h13; cases h14
  cases h15; rfl

/-- C34: `FMatrixMultiply`, `FMatrixTranspose` and `FMatrixIdentity` are the product, the
transpose and the unit of 4x4 matrices.  The transpose of a product is the product of
the transposes in the other order and `FMatrixIdentity` is neutral on both sides; the
entry of `FMatrixMultiply A B` in row `r` and column `c` is the sum of the products of
the entries of row `r` of `A` with those of column `c` of `B`, the entry of the transpose
is the entry with row and column exchanged, and the entries of `FMatrixIdentity` are 1
on the diagonal and 0 elsewhere; applying `FMatrixMultiply A B` to a vector with
`FMultiplyMatrixVector` is applying `B` and then `A`; and the product of the two
matrices `exampleMatrixA` and `exampleMatrixB`, which do not commute, has the entries
computed by hand. -/
theorem C34_matrix_algebra (A B : Matrix) :
    (FMatrixTranspose (FMatrixMultiply A B) =
        FMatrixMultiply (FMatrixTranspose B) (FMatrixTranspose A) ∧
      FMatrixMultiply FMatrixIdentity A = A ∧ FMatrixMultiply A FMatrixIdentity = A) ∧
    (∀ r c : Fin 4, matrixEntry (FMatrixMultiply A B) r c =
      matrixEntry A r 0 * matrixEntry B 0 c + matrixEntry A r 1 * matrixEntry B 1 c +
        matrixEntry A r 2 * matrixEntry B 2 c + matrixEntry A r 3 * matrixEntry B 3 c) ∧
    (∀ r c : Fin 4, matrixEntry (FMatrixTranspose A) r c = matrixEntry A c r) ∧
    (∀ r c : Fin 4, matrixEntry FMatrixIdentity r c = if r = c then 1 else 0) ∧
    (∀ v : Vector4, FMultiplyMatrixVector v (FMatrixMultiply A B) =
      FMultiplyMatrixVector (FMultiplyMatrixVector v B) A) ∧
    FMatrixMultiply exampleMatrixA exampleMatrixB =
      ⟨7, 2, 0, 0,
       3, 1, 0, 0,
       0, 0, 37, 5,
       0, 0, 7, 1⟩ ∧
    FMatrixMultiply exampleMatrixB exampleMatrixA =
      ⟨1, 2, 0, 0,
       3, 7, 0, 0,
       0, 0, 2, 10,
       0, 0, 7, 36⟩ := by
  refine ⟨?_, ?_, ?_, ?_, ?_, ?_, ?_⟩
  · refine ⟨?_, ?_, ?_⟩ <;> apply Matrix.eq_of_fields <;>
      simp only [FMatrixTranspose, FMatrixMultiply, FMatrixIdentity] <;> ring
  · intro r c
    fin_cases r <;> fin_cases c <;> simp only [matrixEntry, FMatrixMultiply] <;> ring
  · intro r c
    fin_cases r <;> fin_cases c <;> rfl
  · intro r c
    fin_cases r <;> fin_cases c <;> rfl
  · intro v
    simp only [FMultiplyMatrixVector, FMatrixMultiply, Vector4.mk.injEq]
    refine ⟨?_, ?_, ?_, ?_⟩ <;> ring
  · decide!
  · decide!

/-! ## Multiply and Divide by a scalar -/

theorem scalarValues_other {ns : List FNodeData} {i : Nat} {index : Int} {m : FNodeData}
    (f : ℚ → ℚ → ℚ) (cur : FNodeOutput) (h0 : 0 ≤ index) (hne : index.toNat ≠ i)
    (hm : ns[index.toNat]? = some m) (h1 : cur.dataCount ≤ cur.data.length)
    (h2 : 0 < m.output.data.length) :
    ∃ r, scalarValues ns i index f cur = some r ∧ r.dataCount = cur.dataCount ∧
      r.data.length = cur.data.length ∧
      (∀ j, j < cur.dataCount →
        r.data[j]? = some (f (cur.data.getD j 0) (m.output.data.getD 0 0))) ∧
      (∀ j, cur.dataCount ≤ j → r.data[j]? = cur.data[j]?) := by
  unfold scalarValues
  obtain ⟨r, hr, hc, hl, hin, hout⟩ := forLoop_pointwise
    (fun j c => do
      let s ← rdOutput ns i c index
      let v ← s.data[0]?
      let o ← c.data[j]?
      wrValue c j (f o v))
    (fun _ o => f o (m.output.data.getD 0 0)) cur.dataCount
    (fun j c hj hjc => by
      simp only [rdOutput_other c h0 hne hm, bind, Option.bind,
        getElem?_eq_some_getD m.output.data 0 h2, getElem?_eq_some_getD c.data j hjc])
    cur.dataCount 0 cur (by omega) (by omega)
  exact ⟨r, hr, hc, hl, fun j hj => hin j (by omega) (by omega),
    fun j hj => hout j (Or.inr (by omega))⟩

/-- The recomputation of a Multiply or Divide node with two literal inputs, the second of
width 1. -/
theorem scalar_node (M : Libm) (lines : List FLineData) (ns mid : List FNodeData) (i : Nat)
    (n a b : FNodeData) (fa fb : Nat) (op : ℚ → ℚ → ℚ)
    (hsame : SameStructure ns mid) (hmid : mid[i]? = some n)
    (hty : (n.type = FNODE_MULTIPLY ∧ op = M.mul) ∨
      (n.type = FNODE_DIVIDE ∧ op = M.div))
    (hin : inboundIds lines n.id = [fa, fb])
    (ha : inputNode ns fa = some a) (hal : isLiteral a.type = true) (has : WellSized a)
    (hb : inputNode ns fb = some b) (hbl : isLiteral b.type = true) (hbs : WellSized b)
    (hbw : b.output.dataCount = 1) (hsize : WellSized n) :
    ∃ n', calcNode M lines mid i n = some n' ∧ n'.output.dataCount = a.output.dataCount ∧
      ∀ j, j < a.output.dataCount →
        n'.output.data[j]? = some (op (a.output.data.getD j 0) (b.output.data.getD 0 0)) := by
  have harith : FNODE_VECTOR4.toInt < n.type.toInt ∧ n.type.toInt < FNODE_APPEND.toInt := by
    rcases hty with ⟨h, _⟩ | ⟨h, _⟩ <;> rw [h] <;> decide
  have hnlit : isLiteral n.type = false := by
    rcases hty with ⟨h, _⟩ | ⟨h, _⟩ <;> rw [h] <;> decide
  obtain ⟨a', ha0, hane, ha', haout, _⟩ := literal_input_transfer hsame hmid hnlit ha hal
  obtain ⟨b', hb0, hbne, hb', hbout, _⟩ := literal_input_transfer hsame hmid hnlit hb hbl
  obtain ⟨self, hself, _, hst, _, hso, hsc, hsi⟩ :=
    rebuildInputs_some lines n (by rw [hin]; simp [MAX_INPUTS])
  rw [hin] at hsc hsi
  have hi0 : self.inputs[0]? = some (fa : Int) := by rw [hsi]; rfl
  have hi1 : self.inputs[1]? = some (fb : Int) := by rw [hsi]; rfl
  obtain ⟨r0, hr0, hc0, hlen0, hin0, _⟩ := copyFirst_other mid i self (fa : Int) a'
    n.output hi0 ha0 hane ha' (by rw [haout, hsize.1]; exact has.2.1)
    (by rw [haout, has.1]; exact has.2.1)
  rw [haout] at hc0 hin0
  obtain ⟨r, hr, hrc, _, hrv, _⟩ := scalarValues_other op r0 hb0 hbne hb'
    (by rw [hc0, hlen0, hsize.1]; exact has.2.1)
    (by rw [hbout, hbs.1]; decide)
  rw [hbout] at hrv
  have hstep : arithInput M mid i self.type (GetNodeIndex mid (fb : Int)) r0 = some r := by
    unfold arithInput
    rcases hty with ⟨h, hop⟩ | ⟨h, hop⟩
    · rw [hst, h]
      simp only [bind, Option.bind, rdOutput_other r0 hb0 hbne hb', hbout, hbw, if_true]
      rw [← hop]; exact hr
    · rw [hst, h]
      simp only [bind, Option.bind, rdOutput_other r0 hb0 hbne hb', hbout, hbw, if_true]
      rw [← hop]; exact hr
  have hout : calcOutput M mid i self = some r := by
    rw [calcOutput_arith (by rw [hst]; exact harith), hso,
      calcArith_pos (k := 1) (by rw [hsc]; rfl) hr0, forLoop_succ]
    unfold inputIndexOf
    simp only [hi1, Option.map_some', bind, Option.bind, hstep]
    rfl
  refine ⟨{ self with output := r }, calcNode_of hself hout, by show r.dataCount = _; rw [hrc, hc0],
    fun j hj => ?_⟩
  show r.data[j]? = _
  rw [hrv j (by rw [hc0]; exact hj)]
  have e : r0.data.getD j 0 = a.output.data.getD j 0 := by
    have := hin0 j hj
    rw [List.getD_eq_getElem?_getD, this]
    rfl
  rw [e]

/-- C39: for a Multiply (Divide) node whose two inbound lines start at literal nodes, the
second of width 1, the recomputation of the node succeeds whenever the pass reaches it,
and after a pass of `CalculateValues` the node has the width of its first input and
every component below that width is the component of the first input multiplied
(divided) by the single value of the second input, by the operation `*=` (`/=`) of the
type `float`, whatever that operation gives, also for the divisor zero. -/
theorem C39_scalar_broadcast (M : Libm) (g : Graph) (i : Nat) (n a b : FNodeData)
    (fa fb : Nat) (hn : g.nodes[i]? = some n)
    (hty : n.type = FNODE_MULTIPLY ∨ n.type = FNODE_DIVIDE)
    (hin : inboundIds g.lines n.id = [fa, fb])
    (ha : inputNode g.nodes fa = some a) (hal : isLiteral a.type = true) (has : WellSized a)
    (hb : inputNode g.nodes fb = some b) (hbl : isLiteral b.type = true) (hbs : WellSized b)
    (hbw : b.output.dataCount = 1)
    (hsize : WellSized n) :
    (∀ mid, calcUpTo M g.lines i g.nodes = some mid →
      ∃ n', calcNode M g.lines mid i n = some n') ∧
    ∀ g', CalculateValues M g = some g' →
      ∃ n', g'.nodes[i]? = some n' ∧ n'.output.dataCount = a.output.dataCount ∧
        ∀ j, j < a.output.dataCount → n'.output.data[j]? = some
          ((if n.type = FNODE_MULTIPLY then M.mul else M.div)
            (a.output.data.getD j 0) (b.output.data.getD 0 0)) := by
  have hop : (n.type = FNODE_MULTIPLY ∧
        (if n.type = FNODE_MULTIPLY then M.mul else M.div) = M.mul) ∨
      (n.type = FNODE_DIVIDE ∧
        (if n.type = FNODE_MULTIPLY then M.mul else M.div) = M.div) := by
    rcases hty with h | h
    · left; exact ⟨h, by rw [if_pos h]⟩
    · right; exact ⟨h, by rw [if_neg (by rw [h]; decide)]⟩
  have key : ∀ mid, calcUpTo M g.lines i g.nodes = some mid →
      ∃ n', calcNode M g.lines mid i n = some n' ∧
        n'.output.dataCount = a.output.dataCount ∧
        ∀ j, j < a.output.dataCount → n'.output.data[j]? = some
          ((if n.type = FNODE_MULTIPLY then M.mul else M.div)
            (a.output.data.getD j 0) (b.output.data.getD 0 0)) := by
    intro mid hmid
    have hsame : SameStructure g.nodes mid := calcLoop_same M g.lines i 0 g.nodes mid hmid
    have hmidn : mid[i]? = some n := by
      rw [calcLoop_untouched M g.lines i 0 g.nodes mid hmid i (by omega)]; exact hn
    exact scalar_node M g.lines g.nodes mid i n a b fa fb _ hsame hmidn hop hin ha hal has
      hb hbl hbs hbw hsize
  refine ⟨fun mid hmid => ?_, fun g' hrun => ?_⟩
  · obtain ⟨n', h, _⟩ := key mid hmid
    exact ⟨n', h⟩
  · obtain ⟨mid, n1, hmid, _, hc, hg'⟩ := CalculateValues_node hrun hn
    obtain ⟨n', h, hw, hv⟩ := key mid hmid
    rw [hc] at h
    cases h
    exact ⟨n1, hg', hw, hv⟩

/-- C39 with the operations of `float`: Vector2(4097, 3) times Value(4097) is
`(16785408, 12291)`, the first product rounded to 24 binary digits; Vector2(1, 6)
divided by Value(3) is `(11184811/33554432, 2)`, the first quotient rounded; and
Vector2(1, 0) divided by Value(0) is infinity and not-a-number. -/
theorem C39_scalar_broadcast_witness :
    (∃ n', (CalculateValues floatLibm exampleRoundedMultiplyGraph).bind
        (fun g => g.nodes[2]?) = some n' ∧
      n'.output.dataCount = 2 ∧ n'.output.data[0]? = some 16785408 ∧
      n'.output.data[1]? = some 12291) ∧
    (∃ n', (CalculateValues floatLibm exampleThirdGraph).bind (fun g => g.nodes[2]?) =
        some n' ∧
      n'.output.dataCount = 2 ∧ n'.output.data[0]? = some (11184811 / 33554432) ∧
      n'.output.data[1]? = some 2) ∧
    ∃ n', (CalculateValues floatLibm exampleZeroDivisorGraph).bind (fun g => g.nodes[2]?) =
        some n' ∧
      n'.output.dataCount = 2 ∧ n'.output.data[0]? = some floatInf ∧
      n'.output.data[1]? = some floatNaN := by
  refine ⟨?_, ?_, ?_⟩
  · obtain ⟨n', h1, h2, h3⟩ :=
      (C39_scalar_broadcast floatLibm exampleRoundedMultiplyGraph 2
        (blankNode 2 FNODE_MULTIPLY MAX_INPUTS) (literalNode 0 FNODE_VECTOR2 [4097, 3])
        (literalNode 1 FNODE_VALUE [4097]) 0 1 rfl (Or.inl rfl) rfl rfl rfl
        ⟨rfl, by decide, rfl⟩ rfl rfl ⟨rfl, by decide, rfl⟩ rfl ⟨rfl, by decide, rfl⟩).2 _ rfl
    refine ⟨n', h1, h2, ?_, ?_⟩
    · rw [h3 0 (by decide)]; decide!
    · rw [h3 1 (by decide)]; decide!
  · obtain ⟨n', h1, h2, h3⟩ :=
      (C39_scalar_broadcast floatLibm exampleThirdGraph 2
        (blankNode 2 FNODE_DIVIDE MAX_INPUTS) (literalNode 0 FNODE_VECTOR2 [1, 6])
        (literalNode 1 FNODE_VALUE [3]) 0 1 rfl (Or.inr rfl) rfl rfl rfl
        ⟨rfl, by decide, rfl⟩ rfl rfl ⟨rfl, by decide, rfl⟩ rfl ⟨rfl, by decide, rfl⟩).2 _ rfl
    refine ⟨n', h1, h2, ?_, ?_⟩
    · rw [h3 0 (by decide)]; decide!
    · rw [h3 1 (by decide)]; decide!
  · obtain ⟨n', h1, h2, h3⟩ :=
      (C39_scalar_broadcast floatLibm exampleZeroDivisorGraph 2
        (blankNode 2 FNODE_DIVIDE MAX_INPUTS) (literalNode 0 FNODE_VECTOR2 [1, 0])
        (literalNode 1 FNODE_VALUE [0]) 0 1 rfl (Or.inr rfl) rfl rfl rfl
        ⟨rfl, by decide, rfl⟩ rfl rfl ⟨rfl, by decide, rfl⟩ rfl ⟨rfl, by decide, rfl⟩).2 _ rfl
    refine ⟨n', h1, h2, ?_, ?_⟩
    · rw [h3 0 (by decide)]; decide!
    · rw [h3 1 (by decide)]; decide!

/-! ## The smoothstep function -/

/-- C31, evaluated: `FSmoothStep` clamps `value/(max - min) - min` and applies no
polynomial.  For `min = 0`, `max = 1` and `value = 1/4` it gives `1/4`, the formula of
the specification `5/32`; for `min = 1`, `max = 3` and `value = 2` it gives `0`, the
formula `1/2`, which is also what the Smooth Step node 3 of `exampleSmoothGraph` holds
after a pass. -/
theorem C31_smoothstep_is_a_clamp :
    FSmoothStep 0 1 (1/4) = 1/4 ∧ specSmoothStep 0 1 (1/4) = 5/32 ∧
    FSmoothStep 1 3 2 = 0 ∧ specSmoothStep 1 3 2 = 1/2 ∧
    (CalculateValues exampleLibm exampleSmoothGraph).map (fun g =>
        g.nodes.map (fun n => (n.id, n.output.dataCount, n.output.data[0]?))) =
      some [(0, 1, some 1), (1, 1, some 3), (2, 1, some 2), (3, 1, some 0)] := by
  refine ⟨?_, ?_, ?_, ?_, ?_⟩ <;> decide!

/-! ## The Distance node -/

/-- C32, evaluated: for two inputs of width 1 the Distance node holds the second input
minus the first.  With Value(3) and Value(1) node 4 holds `-2` and node 5, which has the
same inputs in the other order, holds `2`. -/
theorem C32_distance_of_scalars_signed :
    (InitFNode.bind (applyEdits exampleLibm exampleDistanceEdits)).map
        (fun g => (wiringSummary g).1) =
      some [(0, FNODE_VERTEX, []), (1, FNODE_FRAGMENT, []), (2, FNODE_VALUE, []),
            (3, FNODE_VALUE, []), (4, FNODE_DISTANCE, [2, 3]), (5, FNODE_DISTANCE, [3, 2])] ∧
    (InitFNode.bind (applyEdits exampleLibm exampleDistanceEdits)).map outputSummary =
      some [(2, 1, some 3), (3, 1, some 1), (4, 1, some (-2)), (5, 1, some 2)] := by
  refine ⟨?_, ?_⟩ <;> decide!

/-! ## A second pass over a store in dependency order -/

/-- C36, evaluated: in the store after `exampleStaleEdits` every line starts at a node
stored before the node it ends in.  The Add node 3 has no input and the width 0, so the
Step node 5 has the width 0 and compares the value that its slot 0 holds from the pass
before; the Min node 7, of width 1, reads that slot.  Its value is 1 in the store, 0
after one more pass and 1 after two more passes. -/
theorem C36_stale_value_read :
    (InitFNode.bind (applyEdits exampleLibm exampleStaleEdits)).map wiringSummary =
      some ([(0, FNODE_VERTEX, []), (1, FNODE_FRAGMENT, []), (2, FNODE_VALUE, []),
             (3, FNODE_ADD, []), (4, FNODE_VALUE, []), (5, FNODE_STEP, [3, 4]),
             (6, FNODE_VALUE, []), (7, FNODE_MIN, [6, 5])],
            [(3, 5), (4, 5), (6, 7), (5, 7)]) ∧
    (InitFNode.bind (applyEdits exampleLibm exampleStaleEdits)).map outputSummary =
      some [(2, 1, some 1), (3, 0, some 0), (4, 1, some (1/2)), (5, 0, some 1),
            (6, 1, some 3), (7, 1, some 1)] ∧
    ((InitFNode.bind (applyEdits exampleLibm exampleStaleEdits)).bind
        (CalculateValues exampleLibm)).map outputSummary =
      some [(2, 1, some 1), (3, 0, some 0), (4, 1, some (1/2)), (5, 0, some 0),
            (6, 1, some 3), (7, 1, some 0)] ∧
    (((InitFNode.bind (applyEdits exampleLibm exampleStaleEdits)).bind
        (CalculateValues exampleLibm)).bind (CalculateValues exampleLibm)).map outputSummary =
      some [(2, 1, some 1), (3, 0, some 0), (4, 1, some (1/2)), (5, 0, some 1),
            (6, 1, some 3), (7, 1, some 1)] := by
  refine ⟨?_, ?_, ?_, ?_⟩ <;> decide!

/-! ## The slots of the two sinks -/

theorem sameStructure_slots {a b : List FNodeData} (h : SameStructure a b)
    (hs : SinkSlots a) : SinkSlots b := by
  obtain ⟨⟨v, hv, hvt, hvi⟩, f, hf, hft, hfi⟩ := hs
  obtain ⟨v', hv', hfv⟩ := h.2 0 v hv
  obtain ⟨f', hf', hff⟩ := h.2 1 f hf
  exact ⟨⟨v', hv', by rw [hfv.2.1, hvt], by rw [hfv.1, hvi]⟩,
    f', hf', by rw [hff.2.1, hft], by rw [hff.1, hfi]⟩

theorem append_slots {ns : List FNodeData} (n : FNodeData) (hs : SinkSlots ns) :
    SinkSlots (ns ++ [n]) := by
  obtain ⟨⟨v, hv, hvt, hvi⟩, f, hf, hft, hfi⟩ := hs
  have h0 : 0 < ns.length := (List.getElem?_eq_some_iff.mp hv).1
  have h1 : 1 < ns.length := (List.getElem?_eq_some_iff.mp hf).1
  exact ⟨⟨v, by rw [List.getElem?_append_left h0]; exact hv, hvt, hvi⟩,
    f, by rw [List.getElem?_append_left h1]; exact hf, hft, hfi⟩

theorem eraseIdx_slots {ns : List FNodeData} {p : Nat} (hp : 2 ≤ p) (hs : SinkSlots ns) :
    SinkSlots (ns.eraseIdx p) := by
  obtain ⟨⟨v, hv, hvt, hvi⟩, f, hf, hft, hfi⟩ := hs
  exact ⟨⟨v, by rw [List.getElem?_eraseIdx_of_lt _ _ _ (by omega)]; exact hv, hvt, hvi⟩,
    f, by rw [List.getElem?_eraseIdx_of_lt _ _ _ (by omega)]; exact hf, hft, hfi⟩

theorem createNode_slots {g g' : Graph} {type : FNodeType} {f : FNodeData → FNodeData}
    (h : createNode g type f = some g') (hs : SinkSlots g.nodes) : SinkSlots g'.nodes := by
  unfold createNode at h
  cases hi : InitializeNode g.nodes type with
  | none => rw [hi] at h; cases h
  | some n =>
    rw [hi] at h
    simp only [Option.map_some', Option.some.injEq] at h
    subst h
    exact append_slots (f n) hs

theorem clickMenu_slots {M : Libm} {g g' : Graph} {b : MenuButton}
    (h : clickMenu M g b = some g') (hs : SinkSlots g.nodes) : SinkSlots g'.nodes := by
  cases b <;> exact createNode_slots h hs

/-- The destruction of a node that is not a sink leaves the two sinks in their slots. -/
theorem DestroyNode_slots {M : Libm} {g g' : Graph} {node : FNodeData}
    (h : DestroyNode M g node = some g') (hmem : node ∈ g.nodes)
    (hty : node.type.toInt < FNODE_VERTEX.toInt) (hinv : SinkInvariant g)
    (hs : SinkSlots g.nodes) : SinkSlots g'.nodes := by
  obtain ⟨index, ns, hidx, hs1, hs2, _, _⟩ := DestroyNode_eq_some h
  rcases GetNodeIndex_spec g.nodes (node.id : Int) with hneg | ⟨p, mp, hp, hget, hpid⟩
  · rw [hneg] at hidx; omega
  · have hpi : p = index := by rw [hp] at hidx; exact_mod_cast hidx
    subst hpi
    have hpid' : mp.id = node.id := by exact_mod_cast hpid
    obtain ⟨q, hq⟩ := List.getElem?_of_mem hmem
    have hqp : p = q := nodup_ids_index hinv.1 hget hq hpid'
    subst hqp
    rw [hget] at hq
    cases hq
    have hp2 : 2 ≤ p := by
      obtain ⟨⟨v, hv, hvt, _⟩, f, hf, hft, _⟩ := hs
      by_contra hlt
      have hcase : p = 0 ∨ p = 1 := by omega
      rcases hcase with rfl | rfl
      · rw [hv] at hget; cases hget; rw [hvt] at hty; revert hty; decide
      · rw [hf] at hget; cases hget; rw [hft] at hty; revert hty; decide
    exact sameStructure_slots hs2 (eraseIdx_slots hp2 (sameStructure_slots hs1 hs))

theorem deleteClick_slots {M : Libm} {g g' : Graph} {i : Nat}
    (h : deleteClick M g i = some g') (hinv : SinkInvariant g) (hs : SinkSlots g.nodes) :
    SinkSlots g'.nodes := by
  unfold deleteClick at h
  cases hn : g.nodes[i]? with
  | none => rw [hn] at h; cases h
  | some node =>
    rw [hn] at h
    simp only [bind, Option.bind] at h
    split at h
    · rename_i hty
      cases hd : DestroyNode M g node with
      | none => rw [hd] at h; cases h
      | some g1 =>
        rw [hd] at h
        exact sameStructure_slots (CalculateValues_same h).2
          (DestroyNode_slots hd (List.getElem?_mem hn) hty hinv hs)
    · cases h

theorem clearGraphLoop_slots (M : Libm) :
    ∀ (k : Nat) (g g' : Graph), clearGraphLoop M k g = some g' → SinkInvariant g →
      SinkSlots g.nodes → SinkSlots g'.nodes := by
  intro k
  induction k with
  | zero =>
    intro g g' h _ hs
    simp only [clearGraphLoop, Option.some.injEq] at h; rw [← h]; exact hs
  | succ k ih =>
    intro g g' h hinv hs
    unfold clearGraphLoop at h
    cases hn : g.nodes[k]? with
    | none => rw [hn] at h; cases h
    | some node =>
      rw [hn] at h
      simp only [bind, Option.bind] at h
      by_cases hty : node.type.toInt < FNODE_VERTEX.toInt
      · rw [if_pos hty] at h
        cases hd : DestroyNode M g node with
        | none => rw [hd] at h; cases h
        | some g1 =>
          rw [hd] at h
          exact ih g1 g' h (DestroyNode_invariant hd (List.getElem?_mem hn) hty hinv)
            (DestroyNode_slots hd (List.getElem?_mem hn) hty hinv hs)
      · rw [if_neg hty] at h
        exact ih g g' h hinv hs

theorem clearUnusedLoop_slots (M : Libm) :
    ∀ (k : Nat) (g g' : Graph), clearUnusedLoop M k g = some g' → SinkInvariant g →
      SinkSlots g.nodes → SinkSlots g'.nodes := by
  intro k
  induction k with
  | zero =>
    intro g g' h _ hs
    simp only [clearUnusedLoop, Option.some.injEq] at h; rw [← h]; exact hs
  | succ k ih =>
    intro g g' h hinv hs
    unfold clearUnusedLoop at h
    cases hn : g.nodes[k]? with
    | none => rw [hn] at h; cases h
    | some node =>
      rw [hn] at h
      simp only [bind, Option.bind] at h
      by_cases hu : nodeUsed g node = true
      · rw [if_pos hu] at h
        exact ih g g' h hinv hs
      · rw [if_neg hu] at h
        have hty : node.type.toInt < FNODE_VERTEX.toInt := by
          unfold nodeUsed at hu
          simp only [Bool.or_eq_true, decide_eq_true_eq, not_or] at hu
          omega
        cases hd : DestroyNode M g node with
        | none => rw [hd] at h; cases h
        | some g1 =>
          rw [hd] at h
          exact ih g1 g' h (DestroyNode_invariant hd (List.getElem?_mem hn) hty hinv)
            (DestroyNode_slots hd (List.getElem?_mem hn) hty hinv hs)

/-- C38: in every store reached from the fresh start of `InitFNode` by clicks on the node
menu, deleting right clicks, `ClearGraph` and `ClearUnusedNodes`, `nodes[0]` is the
vertex sink, with id 0, and `nodes[1]` is the fragment sink, with id 1. -/
theorem C38_sinks_in_first_slots (M : Libm) (g : Graph) (h : FreshReachable M g) :
    (∃ v, g.nodes[0]? = some v ∧ v.type = FNODE_VERTEX ∧ v.id = 0) ∧
      ∃ f, g.nodes[1]? = some f ∧ f.type = FNODE_FRAGMENT ∧ f.id = 1 := by
  have key : SinkSlots g.nodes := by
    induction h with
    | init g h =>
      rw [InitFNode_eq] at h
      cases h
      exact ⟨⟨_, rfl, rfl, rfl⟩, _, rfl, rfl, rfl⟩
    | menu g g' b _ _ h ih => exact clickMenu_slots h ih
    | delete g g' i hr h ih =>
      exact deleteClick_slots h (freshReachable_invariant M g hr) ih
    | clearGraph g g' hr h ih =>
      exact clearGraphLoop_slots M _ g g' h (freshReachable_invariant M g hr) ih
    | clearUnused g g' hr h ih =>
      exact clearUnusedLoop_slots M _ g g' h (freshReachable_invariant M g hr) ih
  exact key

/-- C38 at the store reached by a click on "Add": the sinks are in the slots 0 and 1. -/
theorem C38_sinks_in_first_slots_witness :
    FreshReachable exampleLibm exampleMenuGraph ∧
    (∃ v, exampleMenuGraph.nodes[0]? = some v ∧ v.type = FNODE_VERTEX ∧ v.id = 0) ∧
      ∃ f, exampleMenuGraph.nodes[1]? = some f ∧ f.type = FNODE_FRAGMENT ∧ f.id = 1 := by
  have hr : FreshReachable exampleLibm exampleMenuGraph :=
    FreshReachable.menu exampleFreshGraph exampleMenuGraph (.operator FNODE_ADD 4)
      (FreshReachable.init _ InitFNode_eq) (by decide) (by decide!)
  exact ⟨hr, C38_sinks_in_first_slots exampleLibm exampleMenuGraph hr⟩

/-! ## The frame of `DestroyNode` -/

theorem sameStructure_frames {ns ns' : List FNodeData} (h : SameStructure ns ns') :
    ns'.map (fun n => (n.id, n.type, n.inputsLimit)) =
      ns.map (fun n => (n.id, n.type, n.inputsLimit)) := by
  apply List.ext_getElem?
  intro p
  simp only [List.getElem?_map]
  cases hm : ns[p]? with
  | none =>
    have : ns'[p]? = none := by
      rw [List.getElem?_eq_none_iff] at hm ⊢
      rw [h.1]; exact hm
    simp [this]
  | some m =>
    obtain ⟨m', hm', f⟩ := h.2 p m hm
    simp [hm', f.1, f.2.1, f.2.2.1]

theorem eraseIdx_frames {a b : List FNodeData} (p : Nat)
    (h : b.map (fun n => (n.id, n.type, n.inputsLimit)) =
      a.map (fun n => (n.id, n.type, n.inputsLimit))) :
    (b.eraseIdx p).map (fun n => (n.id, n.type, n.inputsLimit)) =
      (a.eraseIdx p).map (fun n => (n.id, n.type, n.inputsLimit)) := by
  induction a generalizing b p with
  | nil =>
    cases b with
    | nil => rfl
    | cons y ys => simp at h
  | cons x xs ih =>
    cases b with
    | nil => simp at h
    | cons y ys =>
      simp only [List.map_cons, List.cons.injEq] at h
      cases p with
      | zero => simpa using h.2
      | succ p =>
        simp only [List.eraseIdx_cons_succ, List.map_cons, List.cons.injEq]
        exact ⟨h.1, ih p h.2⟩

/-- A line that the filter drops can be erased before filtering. -/
theorem filter_eraseIdx_of_not (q : FLineData → Bool) :
    ∀ (l : List FLineData) (k : Nat) (a : FLineData), l[k]? = some a → q a = false →
      (l.eraseIdx k).filter q = l.filter q := by
  intro l
  induction l with
  | nil => intro k a h; simp at h
  | cons x xs ih =>
    intro k a h hq
    cases k with
    | zero =>
      simp only [List.getElem?_cons_zero, Option.some.injEq] at h
      subst h
      simp [List.filter_cons, hq]
    | succ k =>
      simp only [List.getElem?_cons_succ] at h
      simp only [List.eraseIdx_cons_succ, List.filter_cons]
      rw [ih k a h hq]

theorem nodup_line_index {ls : List FLineData} (h : (ls.map (fun l => l.id)).Nodup)
    {p q : Nat} {a b : FLineData} (hp : ls[p]? = some a) (hq : ls[q]? = some b)
    (hid : a.id = b.id) : p = q := by
  have hpl : p < ls.length := (List.getElem?_eq_some_iff.mp hp).1
  have hql : q < ls.length := (List.getElem?_eq_some_iff.mp hq).1
  have e1 : (ls.map (fun l => l.id))[p]? = some a.id := by simp [hp]
  have e2 : (ls.map (fun l => l.id))[q]? = some a.id := by simp [hq, hid]
  have hp' : p < (ls.map (fun l => l.id)).length := by simpa using hpl
  have hq' : q < (ls.map (fun l => l.id)).length := by simpa using hql
  rw [List.getElem?_eq_getElem hp'] at e1
  rw [List.getElem?_eq_getElem hq'] at e2
  exact (List.Nodup.getElem_inj_iff h).mp (by
    rw [Option.some.injEq] at e1 e2; rw [e1, e2])

/-- With distinct line ids the loop of `DestroyNode` over the lines leaves exactly the
lines that do not touch the node, in their order. -/
theorem destroyLinesOf_filter (M : Libm) (id : Nat) :
    ∀ (k : Nat) (g g' : Graph), k ≤ g.lines.length →
      (g.lines.map (fun l => l.id)).Nodup →
      (∀ p l, k ≤ p → g.lines[p]? = some l → l.from_ ≠ id ∧ l.to_ ≠ id) →
      destroyLinesOf M id k g = some g' →
      g'.lines = g.lines.filter (fun l => l.from_ != id && l.to_ != id) := by
  intro k
  induction k with
  | zero =>
    intro g g' _ _ hclean h
    simp only [destroyLinesOf, Option.some.injEq] at h
    subst h
    symm
    rw [List.filter_eq_self]
    intro l hl
    obtain ⟨p, hp⟩ := List.getElem?_of_mem hl
    obtain ⟨h1, h2⟩ := hclean p l (Nat.zero_le p) hp
    simp [h1, h2]
  | succ k ih =>
    intro g g' hk hnd hclean h
    unfold destroyLinesOf at h
    have hlt : k < g.lines.length := by omega
    rw [List.getElem?_eq_getElem hlt] at h
    simp only [bind, Option.bind] at h
    by_cases ht : g.lines[k].from_ = id ∨ g.lines[k].to_ = id
    · rw [if_pos ht] at h
      cases hd : DestroyNodeLine M g g.lines[k] with
      | none => rw [hd] at h; cases h
      | some g1 =>
        rw [hd] at h
        obtain ⟨index, hidx, hlines, _⟩ := DestroyNodeLine_eq_some hd
        obtain ⟨hil, hfound, _⟩ := List.findIdx?_eq_some_iff_getElem.mp hidx
        have hik : index = k :=
          nodup_line_index hnd (List.getElem?_eq_getElem hil)
            (List.getElem?_eq_getElem hlt) (by simpa using hfound)
        subst hik
        have hnd1 : (g1.lines.map (fun l => l.id)).Nodup := by
          rw [hlines]
          exact hnd.sublist ((List.eraseIdx_sublist _ _).map _)
        rw [ih g1 g' (by rw [hlines, List.length_eraseIdx_of_lt hil]; omega) hnd1
          (fun p l hp hpl => by
            rw [hlines, List.getElem?_eraseIdx_of_ge _ _ _ (by omega)] at hpl
            exact hclean (p + 1) l (by omega) hpl) h, hlines]
        exact filter_eraseIdx_of_not _ g.lines index g.lines[index]
          (List.getElem?_eq_getElem hil) (by
            rcases ht with h1 | h2
            · simp [h1]
            · simp [h2])
    · rw [if_neg ht] at h
      refine ih g g' (by omega) hnd (fun p l hp hpl => ?_) h
      by_cases hpk : p = k
      · subst hpk
        rw [List.getElem?_eq_getElem hlt] at hpl
        cases hpl
        exact ⟨fun h1 => ht (Or.inl h1), fun h2 => ht (Or.inr h2)⟩
      · exact hclean p l (by omega) hpl

/-- C37: in a store with distinct node ids and distinct line ids, `DestroyNode` removes
the slot of the node from the pool and nothing else: the ids, kinds and input limits of
the nodes left are those of the pool without that slot, in the same order, the number
of nodes drops by one, and the lines left are exactly the lines that do not touch the
node, unchanged and in the same order. -/
theorem C37_destroy_node_frame (M : Libm) (g g' : Graph) (node : FNodeData)
    (hmem : node ∈ g.nodes) (hids : (g.nodes.map (fun n => n.id)).Nodup)
    (hlids : (g.lines.map (fun l => l.id)).Nodup)
    (hrun : DestroyNode M g node = some g') :
    (∃ p, g.nodes[p]? = some node ∧
      g'.nodes.map (fun n => (n.id, n.type, n.inputsLimit)) =
        (g.nodes.eraseIdx p).map (fun n => (n.id, n.type, n.inputsLimit))) ∧
    g'.nodes.length + 1 = g.nodes.length ∧
    g'.lines = g.lines.filter (fun l => l.from_ != node.id && l.to_ != node.id) := by
  have hrun' := hrun
  unfold DestroyNode at hrun'
  simp only [bind, Option.bind] at hrun'
  cases hd : destroyLinesOf M node.id g.lines.length g with
  | none => rw [hd] at hrun'; cases hrun'
  | some g1 =>
    rw [hd] at hrun'
    simp only at hrun'
    split at hrun'
    · cases hrun'
    · rename_i hneg
      obtain ⟨_, hs1, _⟩ := destroyLinesOf_spec M node.id g.lines.length g g1 le_rfl
        (fun p l hp hpl => by
          have := (List.getElem?_eq_some_iff.mp hpl).1
          omega) hd
      have hl1 := destroyLinesOf_filter M node.id g.lines.length g g1 le_rfl hlids
        (fun p l hp hpl => by
          have := (List.getElem?_eq_some_iff.mp hpl).1
          omega) hd
      obtain ⟨hl2, hs2⟩ := CalculateValues_same hrun'
      rcases GetNodeIndex_spec g.nodes (node.id : Int) with hm1 | ⟨p, mp, hp, hget, hpid⟩
      · rw [hm1] at hneg; exact absurd (by decide) hneg
      · have hpid' : mp.id = node.id := by exact_mod_cast hpid
        obtain ⟨q, hq⟩ := List.getElem?_of_mem hmem
        have hqp : p = q := nodup_ids_index hids hget hq hpid'
        subst hqp
        rw [hget] at hq
        cases hq
        rw [hp] at hs2
        simp only [Int.toNat_ofNat] at hs2
        have hplt : p < g.nodes.length := (List.getElem?_eq_some_iff.mp hget).1
        refine ⟨⟨p, hget, ?_⟩, ?_, ?_⟩
        · rw [sameStructure_frames hs2]
          exact eraseIdx_frames p (sameStructure_frames hs1)
        · rw [hs2.1, List.length_eraseIdx_of_lt (by rw [hs1.1]; exact hplt), hs1.1]
          omega
        · rw [hl2]
          exact hl1

/-- C37 at `exampleDestroyGraph` and its Add node 1: the nodes 0, 2 and 3 are left with
their kinds and input limits, and of the three lines the one from node 0 to node 2. -/
theorem C37_destroy_node_frame_witness :
    ∃ g', DestroyNode exampleLibm exampleDestroyGraph (blankNode 1 FNODE_ADD MAX_INPUTS) =
        some g' ∧
      g'.nodes.map (fun n => (n.id, n.type, n.inputsLimit)) =
        [(0, FNODE_VECTOR3, 0), (2, FNODE_MULTIPLY, 4), (3, FNODE_NEGATE, 1)] ∧
      (∃ p, exampleDestroyGraph.nodes[p]? = some (blankNode 1 FNODE_ADD MAX_INPUTS) ∧
        g'.nodes.map (fun n => (n.id, n.type, n.inputsLimit)) =
          (exampleDestroyGraph.nodes.eraseIdx p).map
            (fun n => (n.id, n.type, n.inputsLimit))) ∧
      g'.nodes.length + 1 = 4 ∧ g'.lines = [{ id := 2, from_ := 0, to_ := 2 }] := by
  have hv : (DestroyNode exampleLibm exampleDestroyGraph
      (blankNode 1 FNODE_ADD MAX_INPUTS)).map
        (fun g => g.nodes.map (fun n => (n.id, n.type, n.inputsLimit))) =
      some [(0, FNODE_VECTOR3, 0), (2, FNODE_MULTIPLY, 4), (3, FNODE_NEGATE, 1)] := by
    decide!
  cases hg : DestroyNode exampleLibm exampleDestroyGraph
      (blankNode 1 FNODE_ADD MAX_INPUTS) with
  | none => rw [hg] at hv; cases hv
  | some g' =>
    rw [hg] at hv
    simp only [Option.map_some', Option.some.injEq] at hv
    obtain ⟨h1, h2, h3⟩ := C37_destroy_node_frame exampleLibm exampleDestroyGraph g'
      (blankNode 1 FNODE_ADD MAX_INPUTS) (by decide!) (by decide) (by decide) hg
    exact ⟨g', rfl, hv, h1, h2, by rw [h3]; decide⟩

/-! ## The bound on the inputs of a node -/

theorem inbound_length_sublist {l1 l2 : List FLineData} (h : l1.Sublist l2) (id : Nat) :
    (inboundIds l1 id).length ≤ (inboundIds l2 id).length :=
  (inboundIds_sublist h id).length_le

/-- The bounds pass to a store with the same node structure and some of the lines. -/
theorem linkBounded_shrink {g g' : Graph} (hb : LinkBounded g)
    (hs : SameStructure g.nodes g'.nodes) (hl : g'.lines.Sublist g.lines) :
    LinkBounded g' := by
  obtain ⟨hnd, hn, hlive⟩ := hb
  refine ⟨by rw [← sameStructure_ids hs]; exact hnd, fun n' hn' => ?_, fun l hl' => ?_⟩
  · obtain ⟨m, hm, hf⟩ := sameStructure_mem hs hn'
    obtain ⟨h1, h2, h3⟩ := hn m hm
    rw [hf.1, hf.2.2.1]
    exact ⟨h1, h2, (inbound_length_sublist hl m.id).trans h3⟩
  · rcases hlive l (hl.subset hl') with h | ⟨n, hn1, hn2⟩
    · exact Or.inl h
    · obtain ⟨p, hp⟩ := List.getElem?_of_mem hn1
      obtain ⟨m', hm', hf⟩ := hs.2 p n hp
      exact Or.inr ⟨m', List.getElem?_mem hm', by rw [hf.1]; exact hn2⟩

/-- After a pass every `inputsCount` is the number of lines that end in the node. -/
theorem CalculateValues_fresh {M : Libm} {g g' : Graph}
    (h : CalculateValues M g = some g') : CountsFresh g' := by
  intro n' hn'
  obtain ⟨hl, hs⟩ := CalculateValues_same h
  obtain ⟨p, hp⟩ := List.getElem?_of_mem hn'
  have hplt : p < g.nodes.length := by
    rw [← hs.1]; exact (List.getElem?_eq_some_iff.mp hp).1
  obtain ⟨_, n1, _, _, hc, hg1⟩ := CalculateValues_node h (List.getElem?_eq_getElem hplt)
  rw [hp] at hg1
  cases hg1
  obtain ⟨self, out, hr, _, rfl⟩ := calcNode_eq_some hc
  rw [rebuildInputs_eq] at hr
  split at hr
  · cases hr
    rw [hl]
  · cases hr

theorem CalculateValues_bounded {M : Libm} {g g' : Graph}
    (h : CalculateValues M g = some g') (hb : LinkBounded g) : LinkBounded g' := by
  obtain ⟨hl, hs⟩ := CalculateValues_same h
  exact linkBounded_shrink hb hs (by rw [hl])

theorem DestroyNodeLine_bounded {M : Libm} {g g' : Graph} {line : FLineData}
    (h : DestroyNodeLine M g line = some g') (hb : LinkBounded g) :
    LinkBounded g' ∧ CountsFresh g' := by
  obtain ⟨_, _, _, hs⟩ := DestroyNodeLine_eq_some h
  refine ⟨linkBounded_shrink hb hs (DestroyNodeLine_sublist h), ?_⟩
  unfold DestroyNodeLine at h
  split at h
  · cases h
  · exact CalculateValues_fresh h

theorem destroyLinesFrom_bounded (M : Libm) (i : Nat) :
    ∀ (k : Nat) (g g' : Graph), destroyLinesFrom M i k g = some g' →
      LinkBounded g → LinkBounded g' := by
  intro k
  induction k with
  | zero =>
    intro g g' h hp; simp only [destroyLinesFrom, Option.some.injEq] at h; subst h; exact hp
  | succ k ih =>
    intro g g' h hp
    unfold destroyLinesFrom at h
    obtain ⟨node, _, h⟩ := Option.bind_eq_some.mp h
    obtain ⟨line, _, h⟩ := Option.bind_eq_some.mp h
    dsimp only at h
    split at h
    · obtain ⟨g1, hg1, h⟩ := Option.bind_eq_some.mp h
      exact ih g1 g' h (DestroyNodeLine_bounded hg1 hp).1
    · obtain ⟨g1, hg1, h⟩ := Option.bind_eq_some.mp h
      cases hg1
      exact ih g g' h hp

theorem destroyLinesTo_bounded (M : Libm) (i : Nat) :
    ∀ (k : Nat) (g g' : Graph), destroyLinesTo M i k g = some g' →
      LinkBounded g → LinkBounded g' := by
  intro k
  induction k with
  | zero =>
    intro g g' h hp; simp only [destroyLinesTo, Option.some.injEq] at h; subst h; exact hp
  | succ k ih =>
    intro g g' h hp
    unfold destroyLinesTo at h
    obtain ⟨node, _, h⟩ := Option.bind_eq_some.mp h
    obtain ⟨line, _, h⟩ := Option.bind_eq_some.mp h
    dsimp only at h
    split at h
    · obtain ⟨g1, hg1, h⟩ := Option.bind_eq_some.mp h
      exact ih g1 g' h (DestroyNodeLine_bounded hg1 hp).1
    · obtain ⟨g1, hg1, h⟩ := Option.bind_eq_some.mp h
      cases hg1
      exact ih g g' h hp

theorem unlinkOutput_bounded {M : Libm} {g g' : Graph} {i : Nat}
    (h : unlinkOutput M g i = some g') (hb : LinkBounded g) :
    LinkBounded g' ∧ CountsFresh g' := by
  simp only [unlinkOutput] at h
  obtain ⟨g1, hg1, h⟩ := Option.bind_eq_some.mp h
  obtain ⟨g2, hg2, h⟩ := Option.bind_eq_some.mp h
  exact ⟨CalculateValues_bounded h (CalculateValues_bounded hg2
    (destroyLinesFrom_bounded M i _ g g1 hg1 hb)), CalculateValues_fresh h⟩

theorem unlinkInput_bounded {M : Libm} {g g' : Graph} {i : Nat}
    (h : unlinkInput M g i = some g') (hb : LinkBounded g) :
    LinkBounded g' ∧ CountsFresh g' := by
  simp only [unlinkInput] at h
  obtain ⟨g1, hg1, h⟩ := Option.bind_eq_some.mp h
  obtain ⟨g2, hg2, h⟩ := Option.bind_eq_some.mp h
  exact ⟨CalculateValues_bounded h (CalculateValues_bounded hg2
    (destroyLinesTo_bounded M i _ g g1 hg1 hb)), CalculateValues_fresh h⟩

theorem DestroyNode_bounded {M : Libm} {g g' : Graph} {node : FNodeData}
    (h : DestroyNode M g node = some g') (hb : LinkBounded g) : LinkBounded g' := by
  obtain ⟨hnd, hn, hlive⟩ := hb
  obtain ⟨index, ns, _, hs1, hs2, hsub, hclean⟩ := DestroyNode_eq_some h
  refine ⟨?_, fun n' hn' => ?_, fun l hl' => ?_⟩
  · rw [← sameStructure_ids hs2]
    have hsub' : ((ns.eraseIdx index).map (fun n => n.id)).Sublist (ns.map (fun n => n.id)) :=
      (List.eraseIdx_sublist ns index).map _
    rw [← sameStructure_ids hs1] at hsub'
    exact hnd.sublist hsub'
  · obtain ⟨m1, hm1, hf1⟩ := sameStructure_mem hs2 hn'
    obtain ⟨m, hm, hf⟩ := sameStructure_mem hs1 ((List.eraseIdx_sublist ns index).subset hm1)
    obtain ⟨h1, h2, h3⟩ := hn m hm
    rw [hf1.1, hf1.2.2.1, hf.1, hf.2.2.1]
    exact ⟨h1, h2, (inbound_length_sublist hsub m.id).trans h3⟩
  · rcases hlive l (hsub.subset hl') with h1 | ⟨n, hn1, hn2⟩
    · exact Or.inl h1
    · obtain ⟨m, hm, hf⟩ := DestroyNode_keeps h hn1 (by
        rw [hn2]; exact (hclean l hl').2)
      exact Or.inr ⟨m, hm, by rw [hf.1]; exact hn2⟩

theorem deleteClick_bounded {M : Libm} {g g' : Graph} {i : Nat}
    (h : deleteClick M g i = some g') (hb : LinkBounded g) :
    LinkBounded g' ∧ CountsFresh g' := by
  simp only [deleteClick] at h
  obtain ⟨node, _, h⟩ := Option.bind_eq_some.mp h
  split at h
  · obtain ⟨g1, hg1, h⟩ := Option.bind_eq_some.mp h
    exact ⟨CalculateValues_bounded h (DestroyNode_bounded hg1 hb), CalculateValues_fresh h⟩
  · cases h

theorem InitializeNode_fields {nodes : List FNodeData} {type : FNodeType} {n : FNodeData}
    (h : InitializeNode nodes type = some n) :
    n.id < MAX_NODES ∧ n.inputsCount = 0 ∧ n.inputsLimit = MAX_INPUTS := by
  unfold InitializeNode at h
  cases hf : freeNodeId nodes with
  | none => rw [hf] at h; cases h
  | some id =>
    rw [hf] at h
    simp only at h
    split at h
    · cases h
      unfold freeNodeId at hf
      obtain ⟨_, hlt, _, _⟩ := firstFreeId_some MAX_NODES 0 id hf
      exact ⟨by simpa using hlt, rfl, rfl⟩
    · cases h

/-- No line ends in an id below `MAX_NODES` that no node has. -/
theorem inbound_fresh_id {g : Graph} (hb : LinkBounded g) {id : Nat} (hid : id < MAX_NODES)
    (hfresh : ∀ m ∈ g.nodes, m.id ≠ id) : inboundIds g.lines id = [] := by
  unfold inboundIds
  rw [List.map_eq_nil_iff, List.filter_eq_nil_iff]
  intro l hl
  simp only [beq_iff_eq]
  intro hto
  rcases hb.2.2 l hl with h | ⟨n, hn, hn2⟩
  · rw [hto] at h
    rw [h] at hid
    revert hid
    decide
  · exact hfresh n hn (hn2.trans hto)

theorem createNode_bounded {g g' : Graph} {type : FNodeType} {f : FNodeData → FNodeData}
    (h : createNode g type f = some g')
    (hf : ∀ n : FNodeData, n.inputsLimit = MAX_INPUTS →
      (f n).id = n.id ∧ (f n).inputsCount = n.inputsCount ∧ (f n).inputsLimit ≤ MAX_INPUTS)
    (hb : LinkBounded g) (hc : CountsFresh g) : LinkBounded g' ∧ CountsFresh g' := by
  unfold createNode at h
  cases hi : InitializeNode g.nodes type with
  | none => rw [hi] at h; cases h
  | some n =>
    rw [hi] at h
    simp only [Option.map_some', Option.some.injEq] at h
    subst h
    obtain ⟨_, hfresh⟩ := InitializeNode_eq_some hi
    obtain ⟨hid, hcount, hlimit⟩ := InitializeNode_fields hi
    obtain ⟨hfid, hfc, hfl⟩ := hf n hlimit
    have hnone : inboundIds g.lines (f n).id = [] := by
      rw [hfid]; exact inbound_fresh_id hb hid hfresh
    refine ⟨⟨?_, fun m hm => ?_, fun l hl => ?_⟩, fun m hm => ?_⟩
    · simp only [List.map_append, List.map_cons, List.map_nil]
      rw [List.nodup_append]
      refine ⟨hb.1, by simp, ?_⟩
      intro a ha hb'
      simp only [List.mem_singleton] at hb'
      obtain ⟨m, hm, hid'⟩ := List.mem_map.mp ha
      rw [hb', hfid] at hid'
      exact hfresh m hm hid'
    · simp only [List.mem_append, List.mem_singleton] at hm
      rcases hm with hm | rfl
      · exact hb.2.1 m hm
      · refine ⟨by rw [hfid]; exact hid, hfl, ?_⟩
        show (inboundIds g.lines (f n).id).length ≤ _
        rw [hnone]; exact Nat.zero_le _
    · rcases hb.2.2 l hl with h1 | ⟨m, hm, hm2⟩
      · exact Or.inl h1
      · exact Or.inr ⟨m, List.mem_append_left _ hm, hm2⟩
    · simp only [List.mem_append, List.mem_singleton] at hm
      rcases hm with hm | rfl
      · exact hc m hm
      · show (f n).inputsCount = (inboundIds g.lines (f n).id).length
        rw [hnone, hfc, hcount]; rfl

theorem operatorButtons_limit : ∀ x ∈ operatorButtons, x.2 ≤ MAX_INPUTS := by decide

theorem clickMenu_bounded {M : Libm} {g g' : Graph} {b : MenuButton}
    (hv : b.valid = true) (h : clickMenu M g b = some g') (hb : LinkBounded g)
    (hc : CountsFresh g) : LinkBounded g' ∧ CountsFresh g' := by
  cases b with
  | value v => exact createNode_bounded h (fun n _ => ⟨rfl, rfl, Nat.zero_le _⟩) hb hc
  | vector2 v => exact createNode_bounded h (fun n _ => ⟨rfl, rfl, Nat.zero_le _⟩) hb hc
  | vector3 v => exact createNode_bounded h (fun n _ => ⟨rfl, rfl, Nat.zero_le _⟩) hb hc
  | vector4 v => exact createNode_bounded h (fun n _ => ⟨rfl, rfl, Nat.zero_le _⟩) hb hc
  | matrix => exact createNode_bounded h (fun n _ => ⟨rfl, rfl, Nat.zero_le _⟩) hb hc
  | operator type inputs =>
    have hmem : (type, inputs) ∈ operatorButtons := by
      simpa [MenuButton.valid] using hv
    exact createNode_bounded h (fun n _ => ⟨rfl, rfl, operatorButtons_limit _ hmem⟩) hb hc
  | uniform type dataCount =>
    exact createNode_bounded h (fun n hn => ⟨rfl, rfl, by
      show n.inputsLimit ≤ MAX_INPUTS
      rw [hn]⟩) hb hc
  | pi => exact createNode_bounded h (fun n _ => ⟨rfl, rfl, Nat.zero_le _⟩) hb hc
  | e => exact createNode_bounded h (fun n _ => ⟨rfl, rfl, Nat.zero_le _⟩) hb hc

/-- A pending line changes no count of inbound lines of a node. -/
theorem inbound_pending {g : Graph} (hb : LinkBounded g) {t : FLineData}
    (ht : t.to_ = UNATTACHED) {n : FNodeData} (hn : n ∈ g.nodes) :
    inboundIds (g.lines ++ [t]) n.id = inboundIds g.lines n.id := by
  rw [inboundIds_append]
  have : inboundIds [t] n.id = [] := by
    unfold inboundIds
    rw [List.map_eq_nil_iff, List.filter_eq_nil_iff]
    intro l hl
    simp only [List.mem_singleton] at hl
    subst hl
    simp only [beq_iff_eq]
    intro hto
    have := (hb.2.1 n hn).1
    rw [← hto, ht] at this
    revert this
    decide
  rw [this, List.append_nil]

theorem beginLink_bounded {g g' : Graph} {i : Nat} {t : FLineData}
    (h : beginLink g i = some (g', t)) (hb : LinkBounded g) (hc : CountsFresh g) :
    LinkBounded g' ∧ CountsFresh g' := by
  unfold beginLink at h
  obtain ⟨node, _, h⟩ := Option.bind_eq_some.mp h
  obtain ⟨hn, hl, _, ht⟩ := CreateNodeLine_eq_some h
  refine ⟨⟨by rw [hn]; exact hb.1, fun n hn' => ?_, fun l hl' => ?_⟩, fun n hn' => ?_⟩
  · rw [hn] at hn'
    rw [hl, inbound_pending hb ht hn']
    exact hb.2.1 n hn'
  · rw [hl] at hl'
    rw [hn]
    simp only [List.mem_append, List.mem_singleton] at hl'
    rcases hl' with hl' | rfl
    · exact hb.2.2 l hl'
    · exact Or.inl ht
  · rw [hn] at hn'
    rw [hl, inbound_pending hb ht hn']
    exact hc n hn'

/-- An accepted link ends in a node that may take one more input. -/
theorem linkAccepted_capacity {nodes : List FNodeData} {i : Nat} {from_ : Nat}
    (h : linkAccepted nodes i from_ = some true) :
    ∃ dst, nodes[i]? = some dst ∧ dst.inputsCount < dst.inputsLimit := by
  unfold linkAccepted at h
  obtain ⟨dst, hdst, h⟩ := Option.bind_eq_some.mp h
  split at h
  · rename_i hc
    exact ⟨dst, hdst, hc.2⟩
  · cases h

/-- The click that completes a link gesture keeps the bounds: an accepted line ends in a
node whose count of inbound lines was below its limit. -/
theorem completeLink_bounded {M : Libm} {g g' : Graph} {t : FLineData} {i : Nat}
    (h : completeLink M g t i = some g') (hb : LinkBounded g) (hc : CountsFresh g) :
    LinkBounded g' ∧ CountsFresh g' := by
  unfold completeLink at h
  obtain ⟨accepted, hacc, h⟩ := Option.bind_eq_some.mp h
  split at h
  · rename_i ha
    rw [ha] at hacc
    obtain ⟨dst0, hdst0, hcap⟩ := linkAccepted_capacity hacc
    obtain ⟨dst, hdst, h⟩ := Option.bind_eq_some.mp h
    rw [hdst0] at hdst
    cases hdst
    obtain ⟨g2, hg2, h⟩ := Option.bind_eq_some.mp h
    obtain ⟨dst2, hdst2, h⟩ := Option.bind_eq_some.mp h
    obtain ⟨g3, hg3, h⟩ := Option.bind_eq_some.mp h
    obtain ⟨⟨g3', t'⟩, hc3, h⟩ := Option.bind_eq_some.mp h
    dsimp only at h
    obtain ⟨g4, hg4, h⟩ := Option.bind_eq_some.mp h
    obtain ⟨hsub2, hs2, _⟩ := destroyDuplicate_eq_some hg2
    obtain ⟨_, _, _, hs3⟩ := DestroyNodeLine_eq_some hg3
    have hsub3 := DestroyNodeLine_sublist hg3
    obtain ⟨hn3, hl3, _, _⟩ := CreateNodeLine_eq_some hc3
    have hid : dst2.id = dst0.id := by
      obtain ⟨m', hm', hf⟩ := hs2.2 i dst0 hdst0
      rw [hdst2] at hm'
      cases hm'
      exact hf.1
    have h13 : SameStructure g.nodes g3.nodes := sameStructure_trans hs2 hs3
    have hsub : g3.lines.Sublist g.lines := hsub3.trans hsub2
    have hb3 : LinkBounded g3 := linkBounded_shrink hb h13 hsub
    -- the store on which the two passes run
    have hb4 : LinkBounded
        { g3' with lines := g3'.lines.dropLast ++ [{ t' with to_ := dst2.id }] } := by
      refine ⟨by show (g3'.nodes.map _).Nodup; rw [hn3]; exact hb3.1, fun n hn => ?_,
        fun l hl => ?_⟩
      · have hn' : n ∈ g3.nodes := by rw [← hn3]; exact hn
        obtain ⟨h1, h2, h3⟩ := hb3.2.1 n hn'
        refine ⟨h1, h2, ?_⟩
        show (inboundIds (g3'.lines.dropLast ++ [{ t' with to_ := dst2.id }]) n.id).length ≤ _
        rw [hl3, List.dropLast_concat, inboundIds_append, List.length_append]
        by_cases hto : n.id = dst0.id
        · -- the node is the destination: its count was below the limit
          obtain ⟨m, hm, hf⟩ := sameStructure_mem h13 hn'
          obtain ⟨q, hq⟩ := List.getElem?_of_mem hm
          have hqi : q = i := nodup_ids_index hb.1 hq hdst0 (by rw [← hf.1, hto])
          subst hqi
          rw [hdst0] at hq
          cases hq
          have hfresh := hc dst0 (List.getElem?_mem hdst0)
          have hle := inbound_length_sublist hsub dst0.id
          have hone : (inboundIds [{ t' with to_ := dst2.id }] n.id).length ≤ 1 := by
            unfold inboundIds
            simp only [List.length_map]
            exact (List.length_filter_le _ _).trans (by simp)
          rw [hf.2.2.1, hto]
          rw [hto] at hone
          omega
        · have hzero : inboundIds [{ t' with to_ := dst2.id }] n.id = [] := by
            unfold inboundIds
            rw [List.map_eq_nil_iff, List.filter_eq_nil_iff]
            intro l hl
            simp only [List.mem_singleton] at hl
            subst hl
            simp only [beq_iff_eq]
            intro h'
            exact hto (by rw [← hid]; exact h'.symm)
          rw [hzero]
          simpa using h3
      · have hl' : l ∈ g3.lines ∨ l = { t' with to_ := dst2.id } := by
          have : l ∈ g3'.lines.dropLast ++ [{ t' with to_ := dst2.id }] := hl
          rw [hl3, List.dropLast_concat] at this
          simpa using this
        rcases hl' with hl' | rfl
        · rcases hb3.2.2 l hl' with h1 | ⟨n, hn, hn2⟩
          · exact Or.inl h1
          · exact Or.inr ⟨n, by show n ∈ g3'.nodes; rw [hn3]; exact hn, hn2⟩
        · obtain ⟨m', hm', hf⟩ := h13.2 i dst0 hdst0
          exact Or.inr ⟨m', by show m' ∈ g3'.nodes; rw [hn3]; exact List.getElem?_mem hm',
            by show m'.id = dst2.id; rw [hf.1, hid]⟩
    exact ⟨CalculateValues_bounded h (CalculateValues_bounded hg4 hb4),
      CalculateValues_fresh h⟩
  · cases h
    exact ⟨hb, hc⟩

/-- Every store reached by the link operations keeps the bounds, with fresh counts. -/
theorem linkReachable_bounded (M : Libm) (g : Graph) (h : LinkReachable M g) :
    LinkBounded g ∧ CountsFresh g := by
  induction h with
  | init g h =>
    rw [InitFNode_eq] at h
    cases h
    refine ⟨⟨by decide, ?_, ?_⟩, ?_⟩
    · intro n hn
      simp only [exampleFreshGraph, List.mem_cons, List.mem_singleton, List.not_mem_nil,
        or_false] at hn
      rcases hn with rfl | rfl <;> exact ⟨by decide, by decide, by decide⟩
    · intro l hl
      simp [exampleFreshGraph] at hl
    · intro n hn
      simp only [exampleFreshGraph, List.mem_cons, List.mem_singleton, List.not_mem_nil,
        or_false] at hn
      rcases hn with rfl | rfl <;> rfl
  | menu g g' b _ hv h ih => exact clickMenu_bounded hv h ih.1 ih.2
  | begin g g' i t _ h ih => exact beginLink_bounded h ih.1 ih.2
  | complete g g' t i _ h ih => exact completeLink_bounded h ih.1 ih.2
  | cancel g g' t _ h ih => exact DestroyNodeLine_bounded h ih.1
  | unlinkOutput g g' i _ h ih => exact unlinkOutput_bounded h ih.1
  | unlinkInput g g' i _ h ih => exact unlinkInput_bounded h ih.1
  | delete g g' i _ h ih => exact deleteClick_bounded h ih.1
  | evaluate g g' _ h ih => exact ⟨CalculateValues_bounded h ih.1, CalculateValues_fresh h⟩

/-- The stores reached by edits are reached by the link operations: a link gesture is
the click that creates the pending line followed by the click that completes it. -/
theorem applyEdits_linkReachable (M : Libm) :
    ∀ (edits : List Edit) (g g' : Graph), LinkReachable M g →
      applyEdits M edits g = some g' → LinkReachable M g' := by
  intro edits
  induction edits with
  | nil => intro g g' hr h; simp only [applyEdits, Option.some.injEq] at h; subst h; exact hr
  | cons e es ih =>
    intro g g' hr h
    unfold applyEdits at h
    obtain ⟨g1, hg1, h⟩ := Option.bind_eq_some.mp h
    refine ih g1 g' ?_ h
    cases e with
    | menu b =>
      simp only [applyEdit] at hg1
      split at hg1
      · exact LinkReachable.menu g g1 b hr (by assumption) hg1
      · cases hg1
    | link i j =>
      simp only [applyEdit] at hg1
      obtain ⟨src, _, hg1⟩ := Option.bind_eq_some.mp hg1
      obtain ⟨accepted, _, hg1⟩ := Option.bind_eq_some.mp hg1
      split at hg1
      · unfold linkClick at hg1
        obtain ⟨⟨g0, t⟩, hb, hg1⟩ := Option.bind_eq_some.mp hg1
        exact LinkReachable.complete g0 g1 t j (LinkReachable.begin g g0 i t hr hb) hg1
      · cases hg1
    | unlinkOutput i => exact LinkReachable.unlinkOutput g g1 i hr hg1
    | unlinkInput i => exact LinkReachable.unlinkInput g g1 i hr hg1
    | delete i => exact LinkReachable.delete g g1 i hr hg1
    | evaluate => exact LinkReachable.evaluate g g1 hr hg1

/-- C35: in every store reached from the fresh start of `InitFNode` by clicks on the node
menu, link gestures (accepted, refused or dropped), right clicks that remove the lines
of an output or of an input, deleting right clicks and recomputations of the values, no
more lines end in a node than its `inputsLimit`, which is at most `MAX_INPUTS`, so the
search for the inputs of the node, which writes `inputs[inputsCount]` for every such
line, stays inside the array: `rebuildInputs` returns and counts these lines. -/
theorem C35_inputs_within_limit (M : Libm) (g : Graph) (h : LinkReachable M g) :
    ∀ n ∈ g.nodes, (inboundIds g.lines n.id).length ≤ n.inputsLimit ∧
      n.inputsLimit ≤ MAX_INPUTS ∧
      ∃ self, rebuildInputs g.lines n = some self ∧
        self.inputsCount = (inboundIds g.lines n.id).length := by
  intro n hn
  obtain ⟨_, h2, h3⟩ := (linkReachable_bounded M g h).1.2.1 n hn
  obtain ⟨self, hs, _, _, _, _, hsc, _⟩ := rebuildInputs_some g.lines n (h3.trans h2)
  exact ⟨h3, h2, self, hs, hsc⟩

/-- C35 at the store after the edits of `exampleDistanceEdits`, in which both Distance
nodes hold as many lines as their limit of two allows. -/
theorem C35_inputs_within_limit_witness :
    ∃ g, InitFNode.bind (applyEdits exampleLibm exampleDistanceEdits) = some g ∧
      LinkReachable exampleLibm g ∧
      ∀ n ∈ g.nodes, (inboundIds g.lines n.id).length ≤ n.inputsLimit ∧
        n.inputsLimit ≤ MAX_INPUTS ∧
        ∃ self, rebuildInputs g.lines n = some self ∧
          self.inputsCount = (inboundIds g.lines n.id).length := by
  cases hg : InitFNode.bind (applyEdits exampleLibm exampleDistanceEdits) with
  | none => exact absurd hg (by decide!)
  | some g =>
    obtain ⟨g0, h0, h1⟩ := Option.bind_eq_some.mp hg
    have hr : LinkReachable exampleLibm g :=
      applyEdits_linkReachable exampleLibm _ g0 g (LinkReachable.init g0 h0) h1
    exact ⟨g, rfl, hr, C35_inputs_within_limit exampleLibm g hr⟩

/-! ## Termination of `CompileNode` -/

theorem orFault_toOption {α : Type} (o : Option α) : (orFault o).toOption = o := by
  cases o <;> rfl

theorem orFault_ne_endless {α : Type} (o : Option α) : orFault o ≠ .error .endless := by
  cases o <;> simp [orFault]

theorem forLoopRun_toOption {σ : Type} (body : Nat → σ → Option σ)
    (run : Nat → σ → Except Stop σ) (h : ∀ j s, body j s = (run j s).toOption) :
    ∀ (k j : Nat) (s : σ), forLoop body j k s = (forLoopRun run j k s).toOption := by
  intro k
  induction k with
  | zero => intro j s; rfl
  | succ k ih =>
    intro j s
    simp only [forLoop, forLoopRun]
    rw [h j s]
    cases hr : run j s with
    | error e => rfl
    | ok s' => exact ih (j + 1) s'

/-- The definition `CompileNode` is `CompileNodeRun` without the reason of a stop. -/
theorem CompileNode_eq_run (L : CLib) (nodes : List FNodeData) :
    ∀ (fuel : Nat) (node : FNodeData) (file : FileStream) (fragment : Bool) (files : Files),
      CompileNode L nodes fuel node file fragment files =
        (CompileNodeRun L nodes fuel node file fragment files).toOption := by
  intro fuel
  induction fuel with
  | zero => intro node file fragment files; rfl
  | succ fuel ih =>
    intro node file fragment files
    unfold CompileNode CompileNodeRun
    split
    · rw [forLoopRun_toOption _ (fun i files =>
        (orFault (node.inputs[i]?)).bind (fun input =>
          (orFault (nodeAt nodes (GetNodeIndex nodes input))).bind (fun src =>
            if isCompiled src.type then CompileNodeRun L nodes fuel src file fragment files
            else .ok files)))]
      · cases forLoopRun (fun i files =>
          (orFault (node.inputs[i]?)).bind (fun input =>
            (orFault (nodeAt nodes (GetNodeIndex nodes input))).bind (fun src =>
              if isCompiled src.type then CompileNodeRun L nodes fuel src file fragment files
              else .ok files))) 0 node.inputsCount files with
        | error e => rfl
        | ok files' =>
          show _ = (orFault _).toOption
          rw [orFault_toOption]
          rfl
      · intro j s
        cases node.inputs[j]? with
        | none => rfl
        | some input =>
          show (nodeAt nodes (GetNodeIndex nodes input)).bind _ =
            ((orFault (nodeAt nodes (GetNodeIndex nodes input))).bind _).toOption
          cases nodeAt nodes (GetNodeIndex nodes input) with
          | none => rfl
          | some src =>
            show (if isCompiled src.type then _ else _) =
              (if isCompiled src.type then _ else _ : Except Stop Files).toOption
            split
            · exact ih src file fragment s
            · rfl
    · rfl

theorem forLoopRun_ne_endless {σ : Type} (body : Nat → σ → Except Stop σ) :
    ∀ (k j : Nat) (s : σ), (∀ i s', j ≤ i → i < j + k → body i s' ≠ .error .endless) →
      forLoopRun body j k s ≠ .error .endless := by
  intro k
  induction k with
  | zero => intro j s _; simp [forLoopRun]
  | succ k ih =>
    intro j s h
    simp only [forLoopRun]
    cases hr : body j s with
    | error e =>
      intro he
      simp only [Except.bind] at he
      exact h j s (le_refl j) (by omega) (hr.trans he)
    | ok s' =>
      exact ih (j + 1) s' (fun i s'' h1 h2 => h i s'' (by omega) (by omega))

theorem forLoopRun_more {σ : Type} (b1 b2 : Nat → σ → Except Stop σ)
    (h : ∀ i s, b1 i s ≠ .error .endless → b2 i s = b1 i s) :
    ∀ (k j : Nat) (s : σ), forLoopRun b1 j k s ≠ .error .endless →
      forLoopRun b2 j k s = forLoopRun b1 j k s := by
  intro k
  induction k with
  | zero => intro j s _; rfl
  | succ k ih =>
    intro j s hne
    simp only [forLoopRun] at hne ⊢
    cases hr : b1 j s with
    | error e =>
      rw [hr] at hne
      have he : b1 j s ≠ .error .endless := by rw [hr]; exact hne
      rw [h j s he, hr]
      rfl
    | ok s' =>
      rw [hr] at hne
      have he : b1 j s ≠ .error .endless := by rw [hr]; simp
      rw [h j s he, hr]
      exact ih (j + 1) s' hne

/-- A run that does not stop for want of nested calls gives the same result with one
more nested call allowed. -/
theorem CompileNodeRun_succ (L : CLib) (nodes : List FNodeData) :
    ∀ (fuel : Nat) (node : FNodeData) (file : FileStream) (fragment : Bool) (files : Files),
      CompileNodeRun L nodes fuel node file fragment files ≠ .error .endless →
      CompileNodeRun L nodes (fuel + 1) node file fragment files =
        CompileNodeRun L nodes fuel node file fragment files := by
  intro fuel
  induction fuel with
  | zero => intro node file fragment files h; exact absurd rfl h
  | succ fuel ih =>
    intro node file fragment files h
    rw [CompileNodeRun] at h
    rw [CompileNodeRun, CompileNodeRun.eq_def L nodes (fuel + 1)]
    dsimp only
    split
    · rename_i hc
      rw [if_pos hc] at h
      have hloop : forLoopRun (fun i files =>
          (orFault (node.inputs[i]?)).bind (fun input =>
            (orFault (nodeAt nodes (GetNodeIndex nodes input))).bind (fun src =>
              if isCompiled src.type then CompileNodeRun L nodes fuel src file fragment files
              else .ok files))) 0 node.inputsCount files ≠ .error .endless := by
        intro he
        rw [he] at h
        exact h rfl
      rw [forLoopRun_more _ _ _ _ _ _ hloop]
      intro i s hb
      cases hi : node.inputs[i]? with
      | none => rfl
      | some input =>
        rw [hi] at hb
        have hb2 : ((orFault (nodeAt nodes (GetNodeIndex nodes input))).bind (fun src =>
            if isCompiled src.type then CompileNodeRun L nodes fuel src file fragment s
            else .ok s)) ≠ .error .endless := hb
        show (orFault (nodeAt nodes (GetNodeIndex nodes input))).bind _ =
          (orFault (nodeAt nodes (GetNodeIndex nodes input))).bind _
        cases hs : nodeAt nodes (GetNodeIndex nodes input) with
        | none => rfl
        | some src =>
          rw [hs] at hb2
          replace hb := hb2
          show (if isCompiled src.type then _ else _) =
            (if isCompiled src.type then _ else _ : Except Stop Files)
          have hb' : (if isCompiled src.type then
              CompileNodeRun L nodes fuel src file fragment s else .ok s) ≠
              .error .endless := hb
          split
          · rename_i hk
            rw [if_pos hk] at hb'
            exact ih src file fragment s hb'
          · rfl
    · rfl

theorem CompileNodeRun_add (L : CLib) (nodes : List FNodeData) (fuel : Nat) (node : FNodeData)
    (file : FileStream) (fragment : Bool) (files : Files)
    (h : CompileNodeRun L nodes fuel node file fragment files ≠ .error .endless) :
    ∀ more, CompileNodeRun L nodes (fuel + more) node file fragment files =
      CompileNodeRun L nodes fuel node file fragment files := by
  intro more
  induction more with
  | zero => rfl
  | succ more ih =>
    rw [← Nat.add_assoc, CompileNodeRun_succ L nodes (fuel + more) node file fragment files
      (by rw [ih]; exact h), ih]

theorem compileCall_lt_length {nodes : List FNodeData} {i j : Nat}
    (h : CompileCall nodes i j) : j < nodes.length := by
  obtain ⟨_, _, _, src, _, _, _, _, hs, _⟩ := h
  exact (List.getElem?_eq_some_iff.mp hs).1

theorem transGen_compileCall_lt_length {nodes : List FNodeData} {i j : Nat}
    (h : Relation.TransGen (CompileCall nodes) i j) : j < nodes.length := by
  cases h with
  | single h => exact compileCall_lt_length h
  | tail _ h => exact compileCall_lt_length h

/-- The nested calls of a run are as many as the nodes that the calls can reach, when no
call leads back to its node. -/
theorem CompileNodeRun_returns (L : CLib) (nodes : List FNodeData) :
    ∀ (fuel : Nat) (S : Finset Nat) (i : Nat) (node : FNodeData),
      nodes[i]? = some node →
      (∀ j, Relation.TransGen (CompileCall nodes) i j → j ∈ S) →
      (∀ j, Relation.ReflTransGen (CompileCall nodes) i j →
        ¬ Relation.TransGen (CompileCall nodes) j j) →
      S.card < fuel →
      ∀ (file : FileStream) (fragment : Bool) (files : Files),
        CompileNodeRun L nodes fuel node file fragment files ≠ .error .endless := by
  intro fuel
  induction fuel with
  | zero => intro S i node _ _ _ hc; omega
  | succ fuel ih =>
    intro S i node hnode hS hacyclic hcard file fragment files
    rw [CompileNodeRun]
    split
    · have hloop : forLoopRun (fun i files =>
          (orFault (node.inputs[i]?)).bind (fun input =>
            (orFault (nodeAt nodes (GetNodeIndex nodes input))).bind (fun src =>
              if isCompiled src.type then CompileNodeRun L nodes fuel src file fragment files
              else .ok files))) 0 node.inputsCount files ≠ .error .endless := by
        apply forLoopRun_ne_endless
        intro k s _ hk
        cases hi : node.inputs[k]? with
        | none => simp [orFault, Except.bind]
        | some input =>
          show (orFault (nodeAt nodes (GetNodeIndex nodes input))).bind _ ≠ _
          cases hs : nodeAt nodes (GetNodeIndex nodes input) with
          | none => simp [orFault, Except.bind]
          | some src =>
            show (if isCompiled src.type then
              CompileNodeRun L nodes fuel src file fragment s else .ok s) ≠ .error .endless
            split
            · rename_i hk'
              -- the nested call is at `nodes[j]`
              unfold nodeAt at hs
              split at hs
              · cases hs
              · rename_i hpos
                have hj : GetNodeIndex nodes input =
                    (((GetNodeIndex nodes input).toNat : Nat) : Int) := by omega
                have hcall : CompileCall nodes i (GetNodeIndex nodes input).toNat :=
                  ⟨node, k, input, src, hnode, by omega, hi, hj, hs, hk'⟩
                have hmem := hS _ (Relation.TransGen.single hcall)
                refine ih (S.erase (GetNodeIndex nodes input).toNat) _ src hs ?_ ?_ ?_
                  file fragment s
                · intro m hm
                  refine Finset.mem_erase.mpr ⟨?_, hS m (Relation.TransGen.head hcall hm)⟩
                  rintro rfl
                  exact hacyclic _ (Relation.ReflTransGen.single hcall) hm
                · intro m hm
                  exact hacyclic m (Relation.ReflTransGen.head hcall hm)
                · rw [Finset.card_erase_of_mem hmem]
                  have := Finset.card_pos.mpr ⟨_, hmem⟩
                  omega
            · simp
      cases hr : forLoopRun (fun i files =>
          (orFault (node.inputs[i]?)).bind (fun input =>
            (orFault (nodeAt nodes (GetNodeIndex nodes input))).bind (fun src =>
              if isCompiled src.type then CompileNodeRun L nodes fuel src file fragment files
              else .ok files))) 0 node.inputsCount files with
      | error e =>
        intro he
        simp only [Except.bind] at he
        exact hloop (hr.trans he)
      | ok files' => exact orFault_ne_endless _
    · simp

/-- C40: let no chain of nested calls of `CompileNode` that starts at `nodes[i]` lead from
a node back to the same node (a nested call is made for the inputs `inputs[k]`,
`k < inputsCount`, whose kind is an operator, a sink or one of the kinds
`FNODE_VERTEXPOSITION .. FNODE_MVP`; the other inputs end the recursion).  Then the call
at `nodes[i]` ends: with more nested calls allowed than there are nodes, the run never
stops for want of nested calls, and its result, files or a fault, is the same for
every such number.  An input id that denotes no live node is a fault, which ends the
run as well, so live ids are not needed for this. -/
theorem C40_compile_node_terminates (L : CLib) (nodes : List FNodeData) (i : Nat)
    (node : FNodeData) (hnode : nodes[i]? = some node)
    (hacyclic : ∀ j, Relation.ReflTransGen (CompileCall nodes) i j →
      ¬ Relation.TransGen (CompileCall nodes) j j)
    (file : FileStream) (fragment : Bool) (files : Files) :
    ∃ result : Except Stop Files, result ≠ .error .endless ∧
      ∀ fuel, nodes.length < fuel →
        CompileNodeRun L nodes fuel node file fragment files = result ∧
        CompileNode L nodes fuel node file fragment files = result.toOption := by
  have hbase : CompileNodeRun L nodes (nodes.length + 1) node file fragment files ≠
      .error .endless :=
    CompileNodeRun_returns L nodes (nodes.length + 1) (Finset.range nodes.length) i node hnode
      (fun j hj => Finset.mem_range.mpr (transGen_compileCall_lt_length hj)) hacyclic
      (by rw [Finset.card_range]; omega) file fragment files
  refine ⟨_, hbase, fun fuel hfuel => ?_⟩
  have hrun : CompileNodeRun L nodes fuel node file fragment files =
      CompileNodeRun L nodes (nodes.length + 1) node file fragment files := by
    have := CompileNodeRun_add L nodes (nodes.length + 1) node file fragment files hbase
      (fuel - (nodes.length + 1))
    rwa [Nat.add_sub_cancel' (by omega)] at this
  exact ⟨hrun, by rw [CompileNode_eq_run, hrun]⟩

theorem inputsStoredBefore_call {nodes : List FNodeData} {first i j : Nat}
    (h : inputsStoredBefore nodes first = true) (hi : first ≤ i)
    (hc : CompileCall nodes i j) : first ≤ j ∧ j < i := by
  obtain ⟨node, k, input, src, hnode, hk, hin, hj, _, _⟩ := hc
  unfold inputsStoredBefore at h
  rw [List.all_eq_true] at h
  have h1 := h i (List.mem_range.mpr (List.getElem?_eq_some_iff.mp hnode).1)
  rw [Bool.or_eq_true, decide_eq_true_eq, hnode] at h1
  rcases h1 with h1 | h1
  · omega
  · dsimp only at h1
    rw [List.all_eq_true] at h1
    have h2 := h1 k (List.mem_range.mpr hk)
    rw [hin] at h2
    dsimp only at h2
    rw [decide_eq_true_eq, hj] at h2
    omega

/-- Nodes stored after their inputs: no chain of nested calls leads back to its node. -/
theorem inputsStoredBefore_acyclic {nodes : List FNodeData} {first i : Nat}
    (h : inputsStoredBefore nodes first = true) (hi : first ≤ i) :
    ∀ j, Relation.ReflTransGen (CompileCall nodes) i j →
      ¬ Relation.TransGen (CompileCall nodes) j j := by
  have hdown : ∀ a b, first ≤ a → Relation.TransGen (CompileCall nodes) a b →
      first ≤ b ∧ b < a := by
    intro a b ha hab
    induction hab with
    | single hc => exact inputsStoredBefore_call h ha hc
    | tail _ hc ih =>
      have := inputsStoredBefore_call h ih.1 hc
      omega
  intro j hj hcycle
  have hfj : first ≤ j := by
    rcases Relation.reflTransGen_iff_eq_or_transGen.mp hj with rfl | hj
    · exact hi
    · exact (hdown i j hi hj).1
  have := hdown j j hfj hcycle
  omega

/-- C40 at the Negate node of the store after the edits of `exampleNegateEdits`, called
as the fragment stage calls it: the run of `CompileNode` declares the One Minus node and
then the Negate node, with every number of nested calls above the number of nodes. -/
theorem C40_compile_node_terminates_witness :
    ∃ g node, InitFNode.bind (applyEdits exampleLibm exampleNegateEdits) = some g ∧
      g.nodes[4]? = some node ∧
      (∀ j, Relation.ReflTransGen (CompileCall g.nodes) 4 j →
        ¬ Relation.TransGen (CompileCall g.nodes) j j) ∧
      ∃ result : Except Stop Files, result ≠ .error .endless ∧
        (∀ fuel, g.nodes.length < fuel →
          CompileNodeRun exampleCLib g.nodes fuel node .fragmentFile true
              { data := none, vertex := none, fragment := some "" } = result ∧
            CompileNode exampleCLib g.nodes fuel node .fragmentFile true
              { data := none, vertex := none, fragment := some "" } = result.toOption) ∧
        result.toOption = some
          { data := none, vertex := none
            fragment := some "    float node_03 = (1 - node_02);\n    float node_04 = node_03*-1;\n" } := by
  cases hg : InitFNode.bind (applyEdits exampleLibm exampleNegateEdits) with
  | none => exact absurd hg (by decide!)
  | some g =>
    have hstored : (InitFNode.bind (applyEdits exampleLibm exampleNegateEdits)).map
        (fun g => (inputsStoredBefore g.nodes 2, g.nodes.length)) = some (true, 5) := by
      decide!
    rw [hg] at hstored
    simp only [Option.map_some', Option.some.injEq, Prod.mk.injEq] at hstored
    have hlen : 4 < g.nodes.length := by omega
    have hacyclic := inputsStoredBefore_acyclic (i := 4) hstored.1 (by omega)
    have hnode : g.nodes[4]? = some (g.nodes.get ⟨4, hlen⟩) := List.getElem?_eq_getElem hlen
    have hrun : (InitFNode.bind (applyEdits exampleLibm exampleNegateEdits)).bind (fun g =>
        (g.nodes[4]?).bind (fun node => CompileNode exampleCLib g.nodes 6 node .fragmentFile
          true { data := none, vertex := none, fragment := some "" })) =
        some
          { data := none, vertex := none
            fragment := some "    float node_03 = (1 - node_02);\n    float node_04 = node_03*-1;\n" } := by
      decide!
    rw [hg, Option.some_bind, hnode, Option.some_bind] at hrun
    obtain ⟨result, hne, hall⟩ := C40_compile_node_terminates exampleCLib g.nodes 4
      (g.nodes.get ⟨4, hlen⟩) hnode hacyclic .fragmentFile true
      { data := none, vertex := none, fragment := some "" }
    refine ⟨g, _, rfl, hnode, hacyclic, result, hne, hall, ?_⟩
    rw [← (hall 6 (by omega)).2]
    exact hrun

end FNode
